import Mathlib

/-!
# GKE operator: reconciler, validator, request builder and upstream projector

A shallow embedding of the Go sources

* `controller/gke-cluster-config-handler.go` (the phase machine),
* `internal/gke/create.go` (validator and create-request builder),
* `internal/utils/gke.go` (status constants, resource names, the deletion
  helper, the cidr-block comparison and the second projector),

followed by theorems about them.

Conventions of the embedding.

* A Go pointer `*T` is an `Option T`; `nil` is `none`.  Dereferencing `nil`
  is a Go run-time panic, modelled by `Except.error Panic.nilDereference`.
* A Go `error` is represented by its message (`GoError := String`); a `nil`
  error is `none`.
* `int64` and `uint64` values are `Int` and `Nat`; where the source performs
  arithmetic on them the wrap-around is explicit (`% 2 ^ 64`).
* Calls that leave the process (secret cache, provider API, status writes,
  work-queue, update probes) are answered by a `World`; every such call is
  appended, together with its answer, to the trace of the state.
-/

set_option linter.dupNamespace false

namespace GkeOperator

/-! ## Go run-time -/

/-- Go run-time panics raised by the embedded code. -/
inductive Panic where
  | nilDereference
deriving DecidableEq, Repr

/-- A Go `error` value, represented by the string its `Error()` method returns. -/
abbrev GoError := String

/-- Dereference of a Go pointer: `*p`, or selecting a field through `p`. -/
def deref {α : Type} (p : Option α) : Except Panic α :=
  match p with
  | some v => .ok v
  | none => .error .nilDereference

/-! ## Custom resource types (`pkg/apis/gke.cattle.io/v1`) -/

namespace gkev1

structure CidrBlock where
  CidrBlock : String := ""
  DisplayName : String := ""
deriving DecidableEq, Repr

structure ClusterAddons where
  HTTPLoadBalancing : Bool := false
  HorizontalPodAutoscaling : Bool := false
  NetworkPolicyConfig : Bool := false
deriving DecidableEq, Repr

structure NetworkConfig where
  Network : Option String := none
  Subnetwork : Option String := none
deriving DecidableEq, Repr

structure PrivateClusterConfig where
  EnablePrivateEndpoint : Option Bool := none
  EnablePrivateNodes : Option Bool := none
  MasterIpv4CidrBlock : String := ""
  PrivateEndpoint : String := ""
  PublicEndpoint : String := ""
deriving DecidableEq, Repr

structure IPAllocationPolicy where
  ClusterIpv4CidrBlock : String := ""
  ClusterSecondaryRangeName : String := ""
  CreateSubnetwork : Bool := false
  NodeIpv4CidrBlock : String := ""
  ServicesIpv4CidrBlock : String := ""
  ServicesSecondaryRangeName : String := ""
  SubnetworkName : String := ""
  UseIPAliases : Bool := false
deriving DecidableEq, Repr

structure MasterAuthorizedNetworksConfig where
  Enabled : Bool := false
  CidrBlocks : List (Option CidrBlock) := []
deriving DecidableEq, Repr

structure NodeTaintConfig where
  Effect : String := ""
  Key : String := ""
  Value : String := ""
deriving DecidableEq, Repr

structure NodeConfig where
  DiskSizeGb : Int := 0
  DiskType : String := ""
  ImageType : String := ""
  Labels : List (String × String) := []
  LocalSsdCount : Int := 0
  MachineType : String := ""
  OauthScopes : List String := []
  Preemptible : Bool := false
  Taints : List NodeTaintConfig := []
deriving DecidableEq, Repr

structure NodePoolAutoscaling where
  Enabled : Bool := false
  MaxNodeCount : Int := 0
  MinNodeCount : Int := 0
deriving DecidableEq, Repr

structure NodePoolConfig where
  Autoscaling : Option NodePoolAutoscaling := none
  Config : Option NodeConfig := none
  InitialNodeCount : Option Int := none
  MaxPodsConstraint : Option Int := none
  Name : Option String := none
  Version : Option String := none
deriving DecidableEq, Repr

structure GKEClusterConfigSpec where
  Region : String := ""
  Zone : String := ""
  Imported : Bool := false
  Description : String := ""
  EnableAlphaFeature : Option Bool := none
  ClusterAddons : Option ClusterAddons := none
  ClusterIpv4CidrBlock : String := ""
  ProjectID : String := ""
  CredentialContent : String := ""
  ClusterName : String := ""
  KubernetesVersion : Option String := none
  LoggingService : Option String := none
  MonitoringService : Option String := none
  NodePools : List NodePoolConfig := []
  NetworkConfig : Option NetworkConfig := none
  NetworkPolicy : Option Bool := none
  PrivateClusterConfig : Option PrivateClusterConfig := none
  IPAllocationPolicy : Option IPAllocationPolicy := none
  MasterAuthorizedNetworksConfig : Option MasterAuthorizedNetworksConfig := none
deriving DecidableEq, Repr

structure GKEClusterConfigStatus where
  Phase : String := ""
  FailureMessage : String := ""
deriving DecidableEq, Repr

/-- The custom resource.  `Name`, `Namespace` and `DeletionTimestamp` are the
fields of the embedded object metadata that the sources read. -/
structure GKEClusterConfig where
  Name : String := ""
  Namespace : String := ""
  DeletionTimestamp : Option Nat := none
  Spec : GKEClusterConfigSpec := {}
  Status : GKEClusterConfigStatus := {}
deriving DecidableEq, Repr

end gkev1

/-! ## Provider types (`google.golang.org/api/container/v1`)

Only the fields read or written by the sources.  Slices of node pools,
taints and clusters hold non-nil elements (the sources build and read them
that way); slices of cidr blocks keep their pointer elements because the
create builder produces `nil` entries. -/

namespace gkeapi

structure CidrBlock where
  CidrBlock : String := ""
  DisplayName : String := ""
deriving DecidableEq, Repr

structure HttpLoadBalancing where
  Disabled : Bool := false
deriving DecidableEq, Repr

structure HorizontalPodAutoscaling where
  Disabled : Bool := false
deriving DecidableEq, Repr

structure NetworkPolicyConfig where
  Disabled : Bool := false
deriving DecidableEq, Repr

structure AddonsConfig where
  HttpLoadBalancing : Option HttpLoadBalancing := none
  HorizontalPodAutoscaling : Option HorizontalPodAutoscaling := none
  NetworkPolicyConfig : Option NetworkPolicyConfig := none
deriving DecidableEq, Repr

structure IPAllocationPolicy where
  ClusterIpv4CidrBlock : String := ""
  ClusterSecondaryRangeName : String := ""
  CreateSubnetwork : Bool := false
  NodeIpv4CidrBlock : String := ""
  ServicesIpv4CidrBlock : String := ""
  ServicesSecondaryRangeName : String := ""
  SubnetworkName : String := ""
  UseIpAliases : Bool := false
deriving DecidableEq, Repr

structure MasterAuthorizedNetworksConfig where
  Enabled : Bool := false
  CidrBlocks : List (Option CidrBlock) := []
deriving DecidableEq, Repr

structure NetworkConfig where
  Network : String := ""
  Subnetwork : String := ""
deriving DecidableEq, Repr

structure NetworkPolicy where
  Enabled : Bool := false
deriving DecidableEq, Repr

structure PrivateClusterConfig where
  EnablePrivateEndpoint : Bool := false
  EnablePrivateNodes : Bool := false
  MasterIpv4CidrBlock : String := ""
  PrivateEndpoint : String := ""
  PublicEndpoint : String := ""
deriving DecidableEq, Repr

structure NodeTaint where
  Effect : String := ""
  Key : String := ""
  Value : String := ""
deriving DecidableEq, Repr

structure NodeConfig where
  DiskSizeGb : Int := 0
  DiskType : String := ""
  ImageType : String := ""
  Labels : List (String × String) := []
  LocalSsdCount : Int := 0
  MachineType : String := ""
  OauthScopes : List String := []
  Preemptible : Bool := false
  Taints : List NodeTaint := []
deriving DecidableEq, Repr

structure NodePoolAutoscaling where
  Enabled : Bool := false
  MaxNodeCount : Int := 0
  MinNodeCount : Int := 0
deriving DecidableEq, Repr

structure MaxPodsConstraint where
  MaxPodsPerNode : Int := 0
deriving DecidableEq, Repr

structure NodePool where
  Name : String := ""
  Version : String := ""
  InitialNodeCount : Int := 0
  MaxPodsConstraint : Option MaxPodsConstraint := none
  Config : Option NodeConfig := none
  Autoscaling : Option NodePoolAutoscaling := none
  Status : String := ""
deriving DecidableEq, Repr

structure Cluster where
  Name : String := ""
  Description : String := ""
  InitialClusterVersion : String := ""
  CurrentMasterVersion : String := ""
  EnableKubernetesAlpha : Bool := false
  ClusterIpv4Cidr : String := ""
  LoggingService : String := ""
  MonitoringService : String := ""
  IpAllocationPolicy : Option IPAllocationPolicy := none
  AddonsConfig : Option AddonsConfig := none
  NodePools : List NodePool := []
  MasterAuthorizedNetworksConfig : Option MasterAuthorizedNetworksConfig := none
  NetworkConfig : Option NetworkConfig := none
  NetworkPolicy : Option NetworkPolicy := none
  PrivateClusterConfig : Option PrivateClusterConfig := none
  Status : String := ""
deriving DecidableEq, Repr

structure CreateClusterRequest where
  Cluster : Option Cluster := none
deriving DecidableEq, Repr

structure ListClustersResponse where
  Clusters : List Cluster := []
deriving DecidableEq, Repr

structure Operation where
  HTTPStatusCode : Int := 0
deriving DecidableEq, Repr

end gkeapi

/-! ## Go standard library: `strings`, `strconv`, `fmt`

Strings are handled as lists of characters.  The sources only split and
search on ASCII characters, so on valid UTF-8 this agrees with Go's
byte-wise functions. -/

namespace strings

/-- Splits at the first occurrence of `sep`: the part before and the part after. -/
def cut (sep : Char) : List Char → Option (List Char × List Char)
  | [] => none
  | c :: cs =>
    if c = sep then some ([], cs)
    else match cut sep cs with
      | some (a, b) => some (c :: a, b)
      | none => none

/-- Go `strings.SplitN(s, sep, n)` for a one-character separator and `n ≥ 0`. -/
def SplitN (s : List Char) (sep : Char) : Nat → List (List Char)
  | 0 => []
  | 1 => [s]
  | n + 2 =>
    match cut sep s with
    | none => [s]
    | some (a, b) => a :: SplitN b sep (n + 1)

/-- Go `strings.Split(s, sep)` for a one-character separator. -/
def Split (s : List Char) (sep : Char) : List (List Char) :=
  SplitN s sep (s.length + 1)

/-- Go `strings.Join`. -/
def Join (elems : List String) (sep : String) : String :=
  sep.intercalate elems

end strings

namespace strconv

/-- Value of a string of decimal digits; `none` when a character is not a digit. -/
def digitsValue : List Char → Nat → Option Nat
  | [], acc => some acc
  | c :: cs, acc =>
    if '0' ≤ c ∧ c ≤ '9' then digitsValue cs (acc * 10 + (c.toNat - '0'.toNat))
    else none

/-- Go `strconv.ParseUint(s, 10, 64)`: a syntax error on the empty string or a
non-digit, a range error from `2 ^ 64` on. -/
def ParseUint (s : List Char) : Option Nat :=
  if s = [] then none
  else match digitsValue s 0 with
    | some v => if v < 2 ^ 64 then some v else none
    | none => none

end strconv

/-! ## `github.com/blang/semver`

The version parser and comparison used by `validateUpdate`. -/

namespace semver

structure PRVersion where
  VersionStr : String := ""
  VersionNum : Nat := 0
  IsNum : Bool := false
deriving DecidableEq, Repr

/-- A parsed version; `Major`, `Minor`, `Patch` and `VersionNum` are `uint64`. -/
structure Version where
  Major : Nat := 0
  Minor : Nat := 0
  Patch : Nat := 0
  Pre : List PRVersion := []
  Build : List String := []
deriving DecidableEq, Repr

def numbers : List Char := "0123456789".toList

def alphas : List Char := "abcdefghijklmnopqrstuvwxyzABCDEFGHIJKLMNOPQRSTUVWXYZ-".toList

def alphanum : List Char := alphas ++ numbers

def containsOnly (s : List Char) (set : List Char) : Bool :=
  s.all (fun c => set.contains c)

def hasLeadingZeroes (s : List Char) : Bool :=
  decide (s.length > 1) && s.head? == some '0'

/-- Parses one numeric component: digits only, no leading zero, fits `uint64`. -/
def parseNumber (s : List Char) : Option Nat :=
  if !containsOnly s numbers then none
  else if hasLeadingZeroes s then none
  else strconv.ParseUint s

def NewPRVersion (s : List Char) : Option PRVersion :=
  if s.length = 0 then none
  else if containsOnly s numbers then
    if hasLeadingZeroes s then none
    else match strconv.ParseUint s with
      | none => none
      | some num => some { VersionNum := num, IsNum := true }
  else if containsOnly s alphanum then
    some { VersionStr := String.mk s, IsNum := false }
  else none

/-- The loop over the prerelease identifiers of `Parse`. -/
def parsePre : List (List Char) → Option (List PRVersion)
  | [] => some []
  | prstr :: rest =>
    match NewPRVersion prstr with
    | none => none
    | some parsedPR =>
      match parsePre rest with
      | none => none
      | some l => some (parsedPR :: l)

/-- The loop over the build identifiers of `Parse`. -/
def parseBuild : List (List Char) → Option (List String)
  | [] => some []
  | str :: rest =>
    if str.length = 0 then none
    else if !containsOnly str alphanum then none
    else match parseBuild rest with
      | none => none
      | some l => some (String.mk str :: l)

/-- `semver.Parse`; `none` stands for a non-nil error. -/
def Parse (s : List Char) : Option Version :=
  if s.length = 0 then none
  else match strings.SplitN s '.' 3 with
    | [p0, p1, p2] =>
      match parseNumber p0 with
      | none => none
      | some major =>
      match parseNumber p1 with
      | none => none
      | some minor =>
        let (patchStr, build) :=
          match strings.cut '+' p2 with
          | some (a, b) => (a, strings.Split b '.')
          | none => (p2, [])
        let (patchStr, prerelease) :=
          match strings.cut '-' patchStr with
          | some (a, b) => (a, strings.Split b '.')
          | none => (patchStr, [])
        match parseNumber patchStr with
        | none => none
        | some patch =>
        match parsePre prerelease with
        | none => none
        | some pre =>
        match parseBuild build with
        | none => none
        | some bld =>
          some { Major := major, Minor := minor, Patch := patch, Pre := pre, Build := bld }
    | _ => none

/-- `semver.New`: `Parse` returning a pointer. -/
def New (s : String) : Option Version := Parse s.toList

/-- `PRVersion.Compare`: `-1`, `0` or `1`. -/
def PRVersion.Compare (v o : PRVersion) : Int :=
  if v.IsNum && !o.IsNum then -1
  else if !v.IsNum && o.IsNum then 1
  else if v.IsNum && o.IsNum then
    if v.VersionNum = o.VersionNum then 0
    else if v.VersionNum > o.VersionNum then 1
    else -1
  else
    if v.VersionStr = o.VersionStr then 0
    else if v.VersionStr > o.VersionStr then 1
    else -1

/-- The loop of `Version.Compare` over the common prerelease identifiers, with
the comparison of the lengths that follows it. -/
def comparePre : List PRVersion → List PRVersion → Int
  | [], [] => 0
  | [], _ :: _ => -1
  | _ :: _, [] => 1
  | a :: as, b :: bs =>
    let comp := a.Compare b
    if comp = 0 then comparePre as bs
    else if comp = 1 then 1
    else -1

/-- `Version.Compare`: `-1`, `0` or `1`; build metadata is ignored. -/
def Version.Compare (v o : Version) : Int :=
  if v.Major ≠ o.Major then (if v.Major > o.Major then 1 else -1)
  else if v.Minor ≠ o.Minor then (if v.Minor > o.Minor then 1 else -1)
  else if v.Patch ≠ o.Patch then (if v.Patch > o.Patch then 1 else -1)
  else if v.Pre.length = 0 ∧ o.Pre.length = 0 then 0
  else if v.Pre.length = 0 ∧ o.Pre.length > 0 then 1
  else if v.Pre.length > 0 ∧ o.Pre.length = 0 then -1
  else comparePre v.Pre o.Pre

def Version.EQ (v o : Version) : Bool := decide (v.Compare o = 0)

end semver

namespace fmt

/-! `fmt.Sprintf` and `fmt.Errorf` called with a format and **no operands**
(`doPrintf` with an empty argument slice): every verb but `%%` is reported
as missing. -/

/-- Go `parsenum` on the segment `s`: the number, whether digits were read, and
what is left of the segment (nothing after an overflow). -/
def parsenumAux : List Char → Nat → Bool → Nat × Bool × List Char
  | [], num, isnum => (num, isnum, [])
  | c :: cs, num, isnum =>
    if '0' ≤ c ∧ c ≤ '9' then
      if num > 1000000 then (0, false, [])
      else parsenumAux cs (num * 10 + (c.toNat - '0'.toNat)) true
    else (num, isnum, c :: cs)

def parsenum (s : List Char) : Nat × Bool × List Char := parsenumAux s 0 false

/-- Go `pp.argNumber` with no operands, on the rest of the format: what is left
after an argument index `[n]`, whether an index was found, and whether the
argument number is still good. -/
def argNumber (rest : List Char) : List Char × Bool × Bool :=
  match rest with
  | '[' :: after =>
    if rest.length < 3 then (after, false, false)
    else match strings.cut ']' after with
      | none => (after, false, false)
      | some (inside, after') =>
        match parsenum inside with
        | (_, ok, []) => (after', ok, false)
        | _ => (after', false, false)
  | _ => (rest, false, true)

def skipFlags : List Char → List Char
  | c :: cs =>
    if c = '#' ∨ c = '0' ∨ c = '+' ∨ c = '-' ∨ c = ' ' then skipFlags cs else c :: cs
  | [] => []

/-- One verb of `doPrintf` with no operands; `rest` follows the `%`.  Returns
the text written and the rest of the format (`none`: the format ended). -/
def verb (rest : List Char) : List Char × Option (List Char) :=
  let rest := skipFlags rest
  let (rest, afterIndex, good) := argNumber rest
  -- width
  let (out1, rest, afterIndex, good) :=
    match rest with
    | '*' :: r => ("%!(BADWIDTH)".toList, r, false, good)
    | _ =>
      match parsenum rest with
      | (_, widPresent, r) => ([], r, afterIndex, good && !(afterIndex && widPresent))
  -- precision
  let (out2, rest, afterIndex, good) :=
    match rest with
    | '.' :: r =>
      let good := good && !afterIndex
      let (r, afterIndex, good') := argNumber r
      let good := good && good'
      match r with
      | '*' :: r' => ("%!(BADPREC)".toList, r', false, good)
      | _ =>
        match parsenum r with
        | (_, _, r') => ([], r', afterIndex, good)
    | _ => ([], rest, afterIndex, good)
  let (rest, good) :=
    if !afterIndex then
      match argNumber rest with
      | (r, _, good') => (r, good && good')
    else (rest, good)
  match rest with
  | [] => (out1 ++ out2 ++ "%!(NOVERB)".toList, none)
  | v :: r =>
    if v = '%' then (out1 ++ out2 ++ ['%'], some r)
    else if !good then (out1 ++ out2 ++ "%!".toList ++ [v] ++ "(BADINDEX)".toList, some r)
    else (out1 ++ out2 ++ "%!".toList ++ [v] ++ "(MISSING)".toList, some r)

/-- The format loop of `doPrintf` with no operands; the fuel bounds the number
of characters still to be read. -/
def doPrintf : Nat → List Char → List Char
  | 0, _ => []
  | _ + 1, [] => []
  | fuel + 1, c :: cs =>
    if c ≠ '%' then c :: doPrintf fuel cs
    else match verb cs with
      | (out, some rest) => out ++ doPrintf fuel rest
      | (out, none) => out

/-- `fmt.Errorf(format)` with no operands: the message of the error made. -/
def Errorf (format : String) : GoError :=
  String.mk (doPrintf format.length format.toList)

/-! `fmt.Sprintf` called with operands that are all strings. -/

/-- What `doPrintf` writes after the format for operands that no verb used:
`%!(EXTRA string=a, string=b)`. -/
def extraOperands : List String → List Char
  | [] => []
  | a :: rest =>
    "%!(EXTRA string=".toList ++ a.toList ++
      (rest.map (fun b => ", string=".toList ++ b.toList)).flatten ++ [')']

/-- The format loop of `doPrintf` when every operand is a string, for formats
whose verbs are `%s`, `%v` and `%%`, written without flags, width, precision
or argument index.  Text is copied; `%%` writes a percent sign; `%s` and `%v`
write the next operand as it is, and `%!s(MISSING)` when none is left; a
format that ends in `%` writes `%!(NOVERB)`; operands left over are listed at
the end.  Any other character after `%` is outside this fragment: it is
reported as Go reports a verb that does not apply to a string. -/
def doPrintfStrings : List Char → List String → List Char
  | [], a => extraOperands a
  | [c], a =>
    if c = '%' then "%!(NOVERB)".toList ++ extraOperands a else c :: extraOperands a
  | c :: v :: rest, a =>
    if c ≠ '%' then c :: doPrintfStrings (v :: rest) a
    else if v = '%' then '%' :: doPrintfStrings rest a
    else
      match a with
      | [] => "%!".toList ++ [v] ++ "(MISSING)".toList ++ doPrintfStrings rest []
      | x :: others =>
        if v = 's' ∨ v = 'v' then x.toList ++ doPrintfStrings rest others
        else
          "%!".toList ++ [v] ++ "(string=".toList ++ x.toList ++ [')'] ++
            doPrintfStrings rest others

/-- `fmt.Sprintf(format, a...)` with string operands. -/
def Sprintf (format : String) (a : List String) : String :=
  String.mk (doPrintfStrings format.toList a)

end fmt

/-! ## `internal/utils`: constants and pure helpers -/

namespace utils

def NodePoolStatusUnspecified : String := "STATUS_UNSPECIFIED"
def NodePoolStatusProvisioning : String := "PROVISIONING"
def NodePoolStatusRunning : String := "RUNNING"
def NodePoolStatusRunningWithError : String := "RUNNING_WITH_ERROR"
def NodePoolStatusReconciling : String := "RECONCILING"
def NodePoolStatusStopping : String := "STOPPING"
def NodePoolStatusError : String := "ERROR"

def ClusterStatusProvisioning : String := "PROVISIONING"
def ClusterStatusRunning : String := "RUNNING"
def ClusterStatusStopping : String := "STOPPING"
def ClusterStatusError : String := "ERROR"
def ClusterStatusReconciling : String := "RECONCILING"
def ClusterStatusUnspecified : String := "STATUS_UNSPECIFIED"
def ClusterStatusDegraded : String := "DEGRADED"

/-- Modelled from the spec: `utils.StringValue` is not among the sources; "string
pointers compare by dereferenced value", a nil pointer reading as the empty
string. -/
def StringValue (p : Option String) : String :=
  match p with
  | some v => v
  | none => ""

/-- Modelled from the spec: `utils.ParseCredential` is not among the sources;
`credentialContent` has the form `namespace:id` and "the parser splits on the
first `:`".  Without a `:` the whole string is taken as the id. -/
def ParseCredential (ref : String) : String × String :=
  match strings.cut ':' ref.toList with
  | some (ns, id) => (String.mk ns, String.mk id)
  | none => ("", ref)

def LocationRRN (projectID location : String) : String :=
  fmt.Sprintf "projects/%s/locations/%s" [projectID, location]

def ClusterRRN (projectID location clusterName : String) : String :=
  fmt.Sprintf "%s/clusters/%s" [LocationRRN projectID location, clusterName]

def NodePoolRRN (projectID location clusterName nodePool : String) : String :=
  fmt.Sprintf "%s/nodePools/%s" [ClusterRRN projectID location clusterName, nodePool]

end utils

/-! ## The outside world

Everything the operator calls across a process boundary.  An answer may
depend on the whole history of calls (the trace), so a `World` covers
stateful collaborators. -/

/-- Modelled from the spec: the result type of the update probes of
`internal/gke` (not among the sources): "each step returns
`NoChange`, `Changed` or `Retry`". -/
inductive Status where
  | NotChanged
  | Changed
  | Retry
deriving DecidableEq, Repr

/-- A `corev1.Secret`: the `Data` map, with byte strings read as strings. -/
structure Secret where
  Data : List (String × String) := []
deriving DecidableEq, Repr

/-- A call of one of the update probes of `internal/gke`, with its operands
(`cred`, the node pool for the node-pool probes, the config, the projected
upstream spec or the matching upstream node pool). -/
inductive ProbeCall where
  | UpdateMasterKubernetesVersion (cred : String) (config : gkev1.GKEClusterConfig)
      (upstreamSpec : gkev1.GKEClusterConfigSpec)
  | UpdateClusterAddons (cred : String) (config : gkev1.GKEClusterConfig)
      (upstreamSpec : gkev1.GKEClusterConfigSpec)
  | UpdateMasterAuthorizedNetworks (cred : String) (config : gkev1.GKEClusterConfig)
      (upstreamSpec : gkev1.GKEClusterConfigSpec)
  | UpdateLoggingMonitoringService (cred : String) (config : gkev1.GKEClusterConfig)
      (upstreamSpec : gkev1.GKEClusterConfigSpec)
  | UpdateNetworkPolicy (cred : String) (config : gkev1.GKEClusterConfig)
      (upstreamSpec : gkev1.GKEClusterConfigSpec)
  | UpdateNodePoolKubernetesVersionOrImageType (cred : String) (np : gkev1.NodePoolConfig)
      (config : gkev1.GKEClusterConfig) (upstreamNodePool : Option gkev1.NodePoolConfig)
  | UpdateNodePoolSize (cred : String) (np : gkev1.NodePoolConfig)
      (config : gkev1.GKEClusterConfig) (upstreamNodePool : Option gkev1.NodePoolConfig)
  | UpdateNodePoolAutoscaling (cred : String) (np : gkev1.NodePoolConfig)
      (config : gkev1.GKEClusterConfig) (upstreamNodePool : Option gkev1.NodePoolConfig)
deriving DecidableEq, Repr

/-- One interaction with the outside world: the call and the answer it got.
Durations are in nanoseconds, as `time.Duration`. -/
inductive Event where
  | secretsCacheGet (ns id : String) (res : Except GoError Secret)
  | GetGKEClient (credential : String) (res : Option GoError)
  | ClustersGet (name : String) (res : Except GoError gkeapi.Cluster)
  | ClustersList (parent : String) (res : Option gkeapi.ListClustersResponse × Option GoError)
  | ClustersCreate (parent : String) (req : gkeapi.CreateClusterRequest)
      (res : Option gkeapi.Operation × Option GoError)
  | ClustersDelete (name : String) (res : Option gkeapi.Operation × Option GoError)
  | Sleep (duration : Int)
  | UpdateStatus (obj : gkev1.GKEClusterConfig)
      (res : Option gkev1.GKEClusterConfig × Option GoError)
  | gkeEnqueue (ns name : String)
  | gkeEnqueueAfter (ns name : String) (duration : Int)
  | probe (call : ProbeCall) (res : Status × Option GoError)

/-- The collaborators: each answers a call given the trace so far.

* `secretsCacheGet`, `ClustersGet`: a value or an error.
* `GetGKEClient`: builds the provider client from the credential; only its
  error matters, the client is the `Clusters*` fields below.
* `ClustersList`, `ClustersCreate`, `ClustersDelete`, `UpdateStatus`: the Go
  pair (pointer, error) as returned, because the sources use the pointer
  without consulting the error.
* `probe`: the update probes of `internal/gke`, which are not among the
  sources; they return a `Status` and an error. -/
structure World where
  secretsCacheGet : List Event → String → String → Except GoError Secret
  GetGKEClient : List Event → String → Option GoError
  ClustersGet : List Event → String → Except GoError gkeapi.Cluster
  ClustersList : List Event → String → Option gkeapi.ListClustersResponse × Option GoError
  ClustersCreate : List Event → String → gkeapi.CreateClusterRequest →
    Option gkeapi.Operation × Option GoError
  ClustersDelete : List Event → String → Option gkeapi.Operation × Option GoError
  UpdateStatus : List Event → gkev1.GKEClusterConfig →
    Option gkev1.GKEClusterConfig × Option GoError
  probe : List Event → ProbeCall → Status × Option GoError

/-- The state threaded through the operator: `cache` is the content of the
object the runtime handed to the handler (which it shares with its cache),
`trace` the interactions so far, oldest first. -/
structure St where
  cache : gkev1.GKEClusterConfig := {}
  trace : List Event := []

/-- Computations of the operator: they read and write the state and either
return a value or panic. -/
def M (α : Type) : Type := St → Except Panic α × St

def M.pure {α : Type} (a : α) : M α := fun s => (.ok a, s)

def M.bind {α β : Type} (x : M α) (f : α → M β) : M β := fun s =>
  match x s with
  | (.ok a, s') => f a s'
  | (.error p, s') => (.error p, s')

instance : Monad M where
  pure := M.pure
  bind := M.bind

/-- Runs a computation from a state: the value returned (or the panic) and the
final state. -/
def M.run {α : Type} (m : M α) (s : St) : Except Panic α × St := m s

/-- A pure computation that may panic, run inside `M`. -/
def M.ofExcept {α : Type} (e : Except Panic α) : M α := fun s => (e, s)

/-- Records an interaction. -/
def emit (e : Event) : M Unit := fun s => (.ok (), { s with trace := s.trace ++ [e] })

namespace World

def callSecretsCacheGet (w : World) (ns id : String) : M (Except GoError Secret) := fun s =>
  let r := w.secretsCacheGet s.trace ns id
  (.ok r, { s with trace := s.trace ++ [.secretsCacheGet ns id r] })

def callGetGKEClient (w : World) (credential : String) : M (Option GoError) := fun s =>
  let r := w.GetGKEClient s.trace credential
  (.ok r, { s with trace := s.trace ++ [.GetGKEClient credential r] })

def callClustersGet (w : World) (name : String) : M (Except GoError gkeapi.Cluster) := fun s =>
  let r := w.ClustersGet s.trace name
  (.ok r, { s with trace := s.trace ++ [.ClustersGet name r] })

def callClustersList (w : World) (parent : String) :
    M (Option gkeapi.ListClustersResponse × Option GoError) := fun s =>
  let r := w.ClustersList s.trace parent
  (.ok r, { s with trace := s.trace ++ [.ClustersList parent r] })

def callClustersCreate (w : World) (parent : String) (req : gkeapi.CreateClusterRequest) :
    M (Option gkeapi.Operation × Option GoError) := fun s =>
  let r := w.ClustersCreate s.trace parent req
  (.ok r, { s with trace := s.trace ++ [.ClustersCreate parent req r] })

def callClustersDelete (w : World) (name : String) :
    M (Option gkeapi.Operation × Option GoError) := fun s =>
  let r := w.ClustersDelete s.trace name
  (.ok r, { s with trace := s.trace ++ [.ClustersDelete name r] })

def callProbe (w : World) (call : ProbeCall) : M (Status × Option GoError) := fun s =>
  let r := w.probe s.trace call
  (.ok r, { s with trace := s.trace ++ [.probe call r] })

end World

/-! ## `internal/gke/create.go` -/

namespace gke

def cannotBeNilError (field cluster : String) : GoError :=
  "field [" ++ field ++ "] cannot be nil for non-import cluster [" ++ cluster ++ "]"

def cannotBeNilForNodePoolError (field nodepool cluster : String) : GoError :=
  "field [" ++ field ++ "] cannot be nil for nodepool [" ++ nodepool ++
    "] in non-nil cluster [" ++ cluster ++ "]"

/-- The taints loop of `newClusterCreateRequest`. -/
def buildTaints (taints : List gkev1.NodeTaintConfig) : List gkeapi.NodeTaint :=
  taints.map (fun t => { Effect := t.Effect, Key := t.Key, Value := t.Value })

/-- One iteration of the node-pool loop of `newClusterCreateRequest`. -/
def buildNodePool (np : gkev1.NodePoolConfig) : Except Panic gkeapi.NodePool := do
  let npConfig ← deref np.Config
  let taints := buildTaints npConfig.Taints
  let name ← deref np.Name
  let autoscaling ← deref np.Autoscaling
  let initialNodeCount ← deref np.InitialNodeCount
  let nodePool : gkeapi.NodePool :=
    { Name := name
      Autoscaling := some
        { Enabled := autoscaling.Enabled
          MaxNodeCount := autoscaling.MaxNodeCount
          MinNodeCount := autoscaling.MinNodeCount }
      InitialNodeCount := initialNodeCount
      Config := some
        { DiskSizeGb := npConfig.DiskSizeGb
          DiskType := npConfig.DiskType
          ImageType := npConfig.ImageType
          Labels := npConfig.Labels
          MachineType := npConfig.MachineType
          OauthScopes := npConfig.OauthScopes
          Taints := taints
          Preemptible := npConfig.Preemptible } }
  match np.MaxPodsConstraint with
  | some m =>
    let maxPodsConstraint : gkeapi.MaxPodsConstraint := { MaxPodsPerNode := m }
    pure { nodePool with MaxPodsConstraint := some maxPodsConstraint }
  | none => pure nodePool

/-- The node-pool loop of `newClusterCreateRequest`. -/
def buildNodePools : List gkev1.NodePoolConfig → Except Panic (List gkeapi.NodePool)
  | [] => pure []
  | np :: rest => do
    let nodePool ← buildNodePool np
    let others ← buildNodePools rest
    pure (nodePool :: others)

/-- The cidr-block loop of `newClusterCreateRequest`: the appended blocks. -/
def buildCidrBlocks : List (Option gkev1.CidrBlock) → Except Panic (List (Option gkeapi.CidrBlock))
  | [] => pure []
  | b :: rest => do
    let b ← deref b
    let others ← buildCidrBlocks rest
    pure (some { CidrBlock := b.CidrBlock, DisplayName := b.DisplayName } :: others)

/-- `newClusterCreateRequest`: the returned error is always nil, so only the
request is returned. -/
def newClusterCreateRequest (config : gkev1.GKEClusterConfig) :
    Except Panic gkeapi.CreateClusterRequest := do
  let enableAlphaFeatures :=
    match config.Spec.EnableAlphaFeature with
    | some b => b
    | none => false
  let kubernetesVersion ← deref config.Spec.KubernetesVersion
  let loggingService ← deref config.Spec.LoggingService
  let monitoringService ← deref config.Spec.MonitoringService
  let ipAllocationPolicy ← deref config.Spec.IPAllocationPolicy
  let cluster : gkeapi.Cluster :=
    { Name := config.Spec.ClusterName
      Description := config.Spec.Description
      InitialClusterVersion := kubernetesVersion
      EnableKubernetesAlpha := enableAlphaFeatures
      LoggingService := loggingService
      MonitoringService := monitoringService
      IpAllocationPolicy := some
        { ClusterIpv4CidrBlock := ipAllocationPolicy.ClusterIpv4CidrBlock
          ClusterSecondaryRangeName := ipAllocationPolicy.ClusterSecondaryRangeName
          CreateSubnetwork := ipAllocationPolicy.CreateSubnetwork
          NodeIpv4CidrBlock := ipAllocationPolicy.NodeIpv4CidrBlock
          ServicesIpv4CidrBlock := ipAllocationPolicy.ServicesIpv4CidrBlock
          ServicesSecondaryRangeName := ipAllocationPolicy.ServicesSecondaryRangeName
          SubnetworkName := ipAllocationPolicy.SubnetworkName
          UseIpAliases := ipAllocationPolicy.UseIPAliases }
      AddonsConfig := some {}
      NodePools := [] }
  let cluster : gkeapi.Cluster :=
    match config.Spec.ClusterAddons with
    | some addons =>
      let addonsConfig : gkeapi.AddonsConfig :=
        { HttpLoadBalancing := some { Disabled := !addons.HTTPLoadBalancing }
          HorizontalPodAutoscaling := some { Disabled := !addons.HorizontalPodAutoscaling }
          NetworkPolicyConfig := some { Disabled := !addons.NetworkPolicyConfig } }
      { cluster with AddonsConfig := some addonsConfig }
    | none => cluster
  let nodePools ← buildNodePools config.Spec.NodePools
  let cluster := { cluster with NodePools := nodePools }
  let cluster ←
    match config.Spec.MasterAuthorizedNetworksConfig with
    | some man => do
      -- `make([]*gkeapi.CidrBlock, len(...))` has that many nil entries already
      let blocks := List.replicate man.CidrBlocks.length (none : Option gkeapi.CidrBlock)
      let appended ← buildCidrBlocks man.CidrBlocks
      let manc : gkeapi.MasterAuthorizedNetworksConfig :=
        { Enabled := man.Enabled, CidrBlocks := blocks ++ appended }
      pure { cluster with MasterAuthorizedNetworksConfig := some manc }
    | none => pure cluster
  let cluster ←
    match config.Spec.NetworkConfig with
    | some nc => do
      let subnetwork ← deref nc.Subnetwork
      let network ← deref nc.Network
      let networkConfig : gkeapi.NetworkConfig := { Subnetwork := subnetwork, Network := network }
      pure { cluster with NetworkConfig := some networkConfig }
    | none => pure cluster
  let cluster :=
    match config.Spec.NetworkPolicy with
    | some np =>
      let networkPolicy : gkeapi.NetworkPolicy := { Enabled := np }
      { cluster with NetworkPolicy := some networkPolicy }
    | none => cluster
  let cluster ←
    match config.Spec.PrivateClusterConfig with
    | some pcc => do
      let enablePrivateEndpoint ← deref pcc.EnablePrivateEndpoint
      let enablePrivateNodes ← deref pcc.EnablePrivateNodes
      let privateClusterConfig : gkeapi.PrivateClusterConfig :=
        { EnablePrivateEndpoint := enablePrivateEndpoint
          EnablePrivateNodes := enablePrivateNodes
          MasterIpv4CidrBlock := pcc.MasterIpv4CidrBlock
          PrivateEndpoint := pcc.PrivateEndpoint
          PublicEndpoint := pcc.PublicEndpoint }
      pure { cluster with PrivateClusterConfig := some privateClusterConfig }
    | none => pure cluster
  pure { Cluster := some cluster }

/-- The autoscaling loop of `validateCreateRequest`: the error of the first
node pool with autoscaling enabled and bad bounds. -/
def validateAutoscaling : List gkev1.NodePoolConfig → Option GoError
  | [] => none
  | np :: rest =>
    match np.Autoscaling with
    | some a =>
      if a.Enabled ∧ (a.MinNodeCount < 1 ∨ a.MaxNodeCount < a.MinNodeCount) then
        some "minNodeCount in the NodePool must be >= 1 and <= maxNodeCount"
      else validateAutoscaling rest
    | none => validateAutoscaling rest

/-- The loop of `validateCreateRequest` over the clusters listed upstream. -/
def validateNameUnused (clusterName : String) : List gkeapi.Cluster → Option GoError
  | [] => none
  | cluster :: rest =>
    if cluster.Name = clusterName then
      some ("cannot create cluster [" ++ clusterName ++
        "] because a cluster in GKE exists with the same name")
    else validateNameUnused clusterName rest

/-- The last loop of `validateCreateRequest`: required node-pool fields. -/
def validateNodePoolFields (configName : String) : List gkev1.NodePoolConfig → Option GoError
  | [] => none
  | np :: rest =>
    match np.Name with
    | none => some (cannotBeNilError "nodePool.name" configName)
    | some name =>
      if np.Version = none then
        some (cannotBeNilForNodePoolError "version" name configName)
      else if np.Autoscaling = none then
        some (cannotBeNilForNodePoolError "autoscaling" name configName)
      else if np.InitialNodeCount = none then
        some (cannotBeNilForNodePoolError "initialNodeCount" name configName)
      else if np.MaxPodsConstraint = none then
        some (cannotBeNilForNodePoolError "maxPodsConstraint" name configName)
      else if np.Config = none then
        some (cannotBeNilForNodePoolError "config" name configName)
      else validateNodePoolFields configName rest

/-- The part of `validateCreateRequest` after the `imported` gate: required
cluster fields, then required node-pool fields. -/
def validateRequiredFields (config : gkev1.GKEClusterConfig) : Option GoError :=
  if config.Spec.EnableAlphaFeature = none then
    some (cannotBeNilError "enableAlphaFeature" config.Name)
  else if config.Spec.KubernetesVersion = none then
    some (cannotBeNilError "kubernetesVersion" config.Name)
  else if config.Spec.ClusterAddons = none then
    some (cannotBeNilError "clusterAddons" config.Name)
  else if config.Spec.IPAllocationPolicy = none then
    some (cannotBeNilError "ipAllocationPolicy" config.Name)
  else if config.Spec.LoggingService = none then
    some (cannotBeNilError "loggingService" config.Name)
  else if config.Spec.NetworkConfig = none then
    some (cannotBeNilError "networkConfig" config.Name)
  else if config.Spec.NetworkPolicy = none then
    some (cannotBeNilError "networkPolicy" config.Name)
  else if config.Spec.PrivateClusterConfig = none then
    some (cannotBeNilError "privateClusterConfig" config.Name)
  else if config.Spec.MasterAuthorizedNetworksConfig = none then
    some (cannotBeNilError "masterAuthorizedNetworksConfig" config.Name)
  else if config.Spec.MonitoringService = none then
    some (cannotBeNilError "monitoringService" config.Name)
  else validateNodePoolFields config.Name config.Spec.NodePools

/-- `validateCreateRequest`.  The error of `Clusters.List` is dropped by the
source and the response is read through the returned pointer. -/
def validateCreateRequest (w : World) (cred : String) (config : gkev1.GKEClusterConfig) :
    M (Option GoError) :=
  if config.Spec.ProjectID = "" then
    pure (some "project ID is required")
  else if config.Spec.Zone = "" ∧ config.Spec.Region = "" then
    pure (some "zone or region is required")
  else if config.Spec.Zone ≠ "" ∧ config.Spec.Region ≠ "" then
    pure (some "only one of zone or region must be specified")
  else if config.Spec.ClusterName = "" then
    pure (some "cluster name is required")
  else
    match validateAutoscaling config.Spec.NodePools with
    | some err => pure (some err)
    | none => do
      let err ← w.callGetGKEClient cred
      match err with
      | some err => pure (some err)
      | none => do
        let (operation, _) ←
          w.callClustersList (utils.LocationRRN config.Spec.ProjectID config.Spec.Region)
        let operation ← M.ofExcept (deref operation)
        match validateNameUnused config.Spec.ClusterName operation.Clusters with
        | some err => pure (some err)
        | none =>
          if config.Spec.Imported then pure none
          else pure (validateRequiredFields config)

/-- `Create`.  The error of `Clusters.Create` is dropped by the source and the
status code is read through the returned pointer for the debug log. -/
def Create (w : World) (credential : String) (config : gkev1.GKEClusterConfig) :
    M (Option GoError) := do
  let err ← validateCreateRequest w credential config
  match err with
  | some err => pure (some err)
  | none => do
    let err ← w.callGetGKEClient credential
    match err with
    | some err => pure (some err)
    | none => do
      let createClusterRequest ← M.ofExcept (newClusterCreateRequest config)
      let (operation, _) ←
        w.callClustersCreate (utils.LocationRRN config.Spec.ProjectID config.Spec.Region)
          createClusterRequest
      let _ ← M.ofExcept (deref operation)
      pure none

end gke

/-! ## `controller/gke-cluster-config-handler.go` -/

namespace controller

def controllerName : String := "gke-controller"
def controllerRemoveName : String := "gke-controller-remove"
def gkeConfigCreatingPhase : String := "creating"
def gkeConfigNotCreatedPhase : String := ""
def gkeConfigActivePhase : String := "active"
def gkeConfigUpdatingPhase : String := "updating"
def gkeConfigImportingPhase : String := "importing"
def wait : Int := 30

/-- Go `time.Second`, in nanoseconds. -/
def Second : Int := 1000000000

/-- A non-nil `*gkev1.GKEClusterConfig`: either the object shared with the
runtime (whose content is `St.cache`) or an object the handler owns (a deep
copy, or the result of a status write), given by its content. -/
inductive Ref where
  | cache
  | own (v : gkev1.GKEClusterConfig)

/-- The content of the object a pointer refers to. -/
def Ref.get (r : Ref) (s : St) : gkev1.GKEClusterConfig :=
  match r with
  | .cache => s.cache
  | .own v => v

/-- What the handler functions return: `(*GKEClusterConfig, error)`. -/
abbrev Result := Option Ref × Option GoError

/-- Reads the object behind a pointer. -/
def load (config : Ref) : M gkev1.GKEClusterConfig := fun s => (.ok (config.get s), s)

/-- `config.DeepCopy()`: a fresh object with the same content. -/
def DeepCopy (config : Ref) : M Ref := fun s => (.ok (.own (config.get s)), s)

/-- `config.Status.Phase = phase`: written through the pointer, so into the
shared object when the pointer is the shared one. -/
def setPhase (config : Ref) (phase : String) : M Ref := fun s =>
  match config with
  | .cache =>
    (.ok .cache, { s with cache := { s.cache with Status := { s.cache.Status with Phase := phase } } })
  | .own v => (.ok (.own { v with Status := { v.Status with Phase := phase } }), s)

/-- `config.Status.FailureMessage = message`, written through the pointer. -/
def setFailureMessage (config : Ref) (message : String) : M Ref := fun s =>
  match config with
  | .cache =>
    (.ok .cache,
      { s with cache := { s.cache with Status := { s.cache.Status with FailureMessage := message } } })
  | .own v => (.ok (.own { v with Status := { v.Status with FailureMessage := message } }), s)

/-- `h.gkeCC.UpdateStatus(config)`: the write is answered by the world; the
object it returns is a new one. -/
def UpdateStatus (w : World) (config : Ref) : M Result := fun s =>
  let obj := config.get s
  let r := w.UpdateStatus s.trace obj
  (.ok (r.1.map Ref.own, r.2), { s with trace := s.trace ++ [.UpdateStatus obj r] })

def getSecret (w : World) (config : Ref) : M (String × Option GoError) := do
  let c ← load config
  let (ns, id) := utils.ParseCredential c.Spec.CredentialContent
  let r ← w.callSecretsCacheGet ns id
  match r with
  | .error err => pure ("", some err)
  | .ok secret =>
    match secret.Data.lookup "googlecredentialConfig-authEncodedJson" with
    | none =>
      pure ("", some ("could not read malformed cloud credential secret " ++ id ++
        " from namespace " ++ ns))
    | some dataBytes => pure (dataBytes, none)

/-- The loop of `buildNodePoolMap`: later entries replace earlier ones of the
same name, which a lookup from the front of the list reproduces. -/
def buildNodePoolMap (nodePools : List gkev1.NodePoolConfig) :
    List (String × gkev1.NodePoolConfig) :=
  nodePools.foldl
    (fun ret np =>
      match np.Name with
      | some name => (name, np) :: ret
      | none => ret)
    []

/-- The node-pool loop of `buildUpstreamClusterState`, one iteration. -/
def projectNodePool (np : gkeapi.NodePool) : Except Panic gkev1.NodePoolConfig := do
  let maxPodsConstraint ← deref np.MaxPodsConstraint
  let newNP : gkev1.NodePoolConfig :=
    { Name := some np.Name
      Version := some np.Version
      InitialNodeCount := some np.InitialNodeCount
      MaxPodsConstraint := some maxPodsConstraint.MaxPodsPerNode }
  let newNP : gkev1.NodePoolConfig :=
    match np.Config with
    | some c =>
      let nodeConfig : gkev1.NodeConfig :=
        { DiskSizeGb := c.DiskSizeGb
          DiskType := c.DiskType
          ImageType := c.ImageType
          Labels := c.Labels
          LocalSsdCount := c.LocalSsdCount
          MachineType := c.MachineType
          Preemptible := c.Preemptible
          Taints := c.Taints.map
            (fun t => { Effect := t.Effect, Key := t.Key, Value := t.Value }) }
      { newNP with Config := some nodeConfig }
    | none => newNP
  let newNP : gkev1.NodePoolConfig :=
    match np.Autoscaling with
    | some a =>
      let autoscaling : gkev1.NodePoolAutoscaling :=
        { Enabled := a.Enabled, MaxNodeCount := a.MaxNodeCount, MinNodeCount := a.MinNodeCount }
      { newNP with Autoscaling := some autoscaling }
    | none => newNP
  pure newNP

/-- The node-pool loop of `buildUpstreamClusterState`. -/
def projectNodePools : List gkeapi.NodePool → Except Panic (List gkev1.NodePoolConfig)
  | [] => pure []
  | np :: rest =>
    if np.Status = utils.NodePoolStatusStopping then projectNodePools rest
    else do
      let newNP ← projectNodePool np
      let others ← projectNodePools rest
      pure (newNP :: others)

/-- The cidr-block loop of `buildUpstreamClusterState`. -/
def projectCidrBlocks : List (Option gkeapi.CidrBlock) → Except Panic (List (Option gkev1.CidrBlock))
  | [] => pure []
  | b :: rest => do
    let b ← deref b
    let others ← projectCidrBlocks rest
    pure (some { CidrBlock := b.CidrBlock, DisplayName := b.DisplayName } :: others)

/-- `buildUpstreamClusterState` of the controller package. -/
def buildUpstreamClusterState (upstreamSpec : gkeapi.Cluster) :
    Except Panic (gkev1.GKEClusterConfigSpec × Option GoError) := do
  let networkPolicyEnabled :=
    match upstreamSpec.NetworkPolicy with
    | some np => np.Enabled == true
    | none => false
  let networkConfig : gkev1.NetworkConfig :=
    match upstreamSpec.NetworkConfig with
    | some nc => { Network := some nc.Network, Subnetwork := some nc.Subnetwork }
    | none => { Network := some "default", Subnetwork := some "default" }
  let privateClusterConfig : gkev1.PrivateClusterConfig :=
    match upstreamSpec.PrivateClusterConfig with
    | some pcc =>
      { EnablePrivateEndpoint := some pcc.EnablePrivateNodes
        EnablePrivateNodes := some pcc.EnablePrivateNodes
        MasterIpv4CidrBlock := pcc.MasterIpv4CidrBlock
        PrivateEndpoint := pcc.PrivateEndpoint
        PublicEndpoint := pcc.PublicEndpoint }
    | none => { EnablePrivateEndpoint := some false, EnablePrivateNodes := some false }
  let clusterAddons : gkev1.ClusterAddons :=
    match upstreamSpec.AddonsConfig with
    | some ac =>
      { HTTPLoadBalancing :=
          match ac.HttpLoadBalancing with
          | some x => !x.Disabled
          | none => true
        HorizontalPodAutoscaling :=
          match ac.HorizontalPodAutoscaling with
          | some x => !x.Disabled
          | none => true
        NetworkPolicyConfig :=
          match ac.NetworkPolicyConfig with
          | some x => !x.Disabled
          | none => true }
    | none => {}
  let ipAllocationPolicy : gkev1.IPAllocationPolicy :=
    match upstreamSpec.IpAllocationPolicy with
    | some p =>
      { ClusterIpv4CidrBlock := p.ClusterIpv4CidrBlock
        ClusterSecondaryRangeName := p.ClusterSecondaryRangeName
        CreateSubnetwork := p.CreateSubnetwork
        NodeIpv4CidrBlock := p.NodeIpv4CidrBlock
        ServicesIpv4CidrBlock := p.ServicesIpv4CidrBlock
        ServicesSecondaryRangeName := p.ServicesSecondaryRangeName
        SubnetworkName := p.SubnetworkName
        UseIPAliases := p.UseIpAliases }
    | none => {}
  let masterAuthorizedNetworksConfig : gkev1.MasterAuthorizedNetworksConfig ←
    match upstreamSpec.MasterAuthorizedNetworksConfig with
    | some man =>
      if man.Enabled then do
        let blocks ← projectCidrBlocks man.CidrBlocks
        pure { Enabled := man.Enabled, CidrBlocks := blocks }
      else pure { Enabled := false }
    | none => pure { Enabled := false }
  let nodePools ← projectNodePools upstreamSpec.NodePools
  let newSpec : gkev1.GKEClusterConfigSpec :=
    { KubernetesVersion := some upstreamSpec.CurrentMasterVersion
      EnableAlphaFeature := some upstreamSpec.EnableKubernetesAlpha
      ClusterAddons := some clusterAddons
      ClusterIpv4CidrBlock := upstreamSpec.ClusterIpv4Cidr
      LoggingService := some upstreamSpec.LoggingService
      MonitoringService := some upstreamSpec.MonitoringService
      NetworkConfig := some networkConfig
      NetworkPolicy := some networkPolicyEnabled
      PrivateClusterConfig := some privateClusterConfig
      IPAllocationPolicy := some ipAllocationPolicy
      MasterAuthorizedNetworksConfig := some masterAuthorizedNetworksConfig
      NodePools := nodePools }
  pure (newSpec, none)

/-- One iteration of the loop of `validateUpdate`: the error string appended
for this node pool, if any.  The minor numbers are `uint64`, so their
difference wraps. -/
def validateNodePoolVersion (clusterVersion : Option semver.Version)
    (kubernetesVersion : Option String) (np : gkev1.NodePoolConfig) : Option String :=
  match np.Version with
  | none => none
  | some _ =>
    match semver.New (utils.StringValue np.Version ++ ".0") with
    | none =>
      some ("improper version format for nodegroup [" ++ utils.StringValue np.Name ++ "]: " ++
        utils.StringValue np.Version)
    | some version =>
      match clusterVersion with
      | none => none
      | some clusterVersion =>
        if clusterVersion.EQ version then none
        else if (clusterVersion.Minor + 2 ^ 64 - version.Minor) % 2 ^ 64 = 1 then none
        else
          some ("versions for cluster [" ++ utils.StringValue kubernetesVersion ++
            "] and nodegroup [" ++ utils.StringValue np.Version ++
            "] not compatible: all nodegroup kubernetes versions" ++
            "must be equal to or one minor version lower than the cluster kubernetes version")

/-- The loop of `validateUpdate` and what follows it. -/
def validateNodePoolVersions (clusterVersion : Option semver.Version)
    (config : gkev1.GKEClusterConfig) : Option GoError :=
  let errors :=
    config.Spec.NodePools.filterMap
      (validateNodePoolVersion clusterVersion config.Spec.KubernetesVersion)
  if errors.length ≠ 0 then some (fmt.Errorf (strings.Join errors ";"))
  else none

def validateUpdate (config : gkev1.GKEClusterConfig) : Option GoError :=
  match config.Spec.KubernetesVersion with
  | some _ =>
    match semver.New (utils.StringValue config.Spec.KubernetesVersion ++ ".0") with
    | none =>
      some ("improper version format for cluster [" ++ config.Name ++ "]: " ++
        utils.StringValue config.Spec.KubernetesVersion)
    | some clusterVersion => validateNodePoolVersions (some clusterVersion) config
  | none => validateNodePoolVersions none config

def importCluster (w : World) (config : Ref) : M Result := do
  let config ← setPhase config gkeConfigActivePhase
  UpdateStatus w config

def create (w : World) (config : Ref) : M Result := do
  let c ← load config
  if c.Spec.Imported then do
    let config ← DeepCopy config
    let config ← setPhase config gkeConfigImportingPhase
    UpdateStatus w config
  else do
    let (cred, err) ← getSecret w config
    match err with
    | some err => pure (some config, some err)
    | none => do
      let err ← gke.Create w cred c
      match err with
      | some err => pure (some config, some err)
      | none => do
        let config ← DeepCopy config
        let config ← setPhase config gkeConfigCreatingPhase
        UpdateStatus w config

/-- The helper `enqueueUpdate`. -/
def enqueueUpdate (w : World) (config : Ref) : M Result := do
  let c ← load config
  if c.Status.Phase = gkeConfigUpdatingPhase then do
    emit (.gkeEnqueue c.Namespace c.Name)
    pure (some config, none)
  else do
    let config ← DeepCopy config
    let config ← setPhase config gkeConfigUpdatingPhase
    UpdateStatus w config

/-- The idiom repeated for every probe in `updateUpstreamClusterState`:
`changed, err = probe(...)`, return the error if there is one, return
`h.enqueueUpdate(config)` if `changed == gke.Changed`, else go on with `next`. -/
def probeThen (w : World) (config : Ref) (call : ProbeCall) (next : M Result) : M Result := do
  let (changed, err) ← w.callProbe call
  match err with
  | some err => pure (some config, some err)
  | none =>
    if changed = Status.Changed then enqueueUpdate w config
    else next

/-- The node-pool loop of `updateUpstreamClusterState`; `next` is the code
after the loop. -/
def updateNodePools (w : World) (cred : String) (config : Ref) (c : gkev1.GKEClusterConfig)
    (upstreamNodePools : List (String × gkev1.NodePoolConfig)) :
    List gkev1.NodePoolConfig → M Result → M Result
  | [], next => next
  | np :: rest, next => do
    let name ← M.ofExcept (deref np.Name)
    let upstreamNodePool := upstreamNodePools.lookup name
    probeThen w config (.UpdateNodePoolKubernetesVersionOrImageType cred np c upstreamNodePool)
      (probeThen w config (.UpdateNodePoolSize cred np c upstreamNodePool)
        (probeThen w config (.UpdateNodePoolAutoscaling cred np c upstreamNodePool)
          (updateNodePools w cred config c upstreamNodePools rest next)))

/-- The end of `updateUpstreamClusterState`: "no new updates, set to active". -/
def setActive (w : World) (config : Ref) : M Result := do
  let c ← load config
  if c.Status.Phase ≠ gkeConfigActivePhase then do
    let config ← DeepCopy config
    let config ← setPhase config gkeConfigActivePhase
    UpdateStatus w config
  else pure (some config, none)

/-- The cluster-addons step of `updateUpstreamClusterState`: as `probeThen`,
with the extra case `changed == gke.Retry`, which enqueues the object after
`wait` seconds and returns. -/
def addonsProbeThen (w : World) (config : Ref) (c : gkev1.GKEClusterConfig) (call : ProbeCall)
    (next : M Result) : M Result := do
  let (changed, err) ← w.callProbe call
  match err with
  | some err => pure (some config, some err)
  | none =>
    if changed = Status.Retry then do
      emit (.gkeEnqueueAfter c.Namespace c.Name (wait * Second))
      pure (some config, none)
    else if changed = Status.Changed then enqueueUpdate w config
    else next

/-- The body of `updateUpstreamClusterState` after the credential lookup: the
cascade of probes, ending with "no new updates, set to active". -/
def runProbes (w : World) (cred : String) (config : Ref) (c : gkev1.GKEClusterConfig)
    (upstreamSpec : gkev1.GKEClusterConfigSpec) : M Result :=
  probeThen w config (.UpdateMasterKubernetesVersion cred c upstreamSpec)
    (addonsProbeThen w config c (.UpdateClusterAddons cred c upstreamSpec)
      (probeThen w config (.UpdateMasterAuthorizedNetworks cred c upstreamSpec)
        (probeThen w config (.UpdateLoggingMonitoringService cred c upstreamSpec)
          (probeThen w config (.UpdateNetworkPolicy cred c upstreamSpec)
            (updateNodePools w cred config c (buildNodePoolMap upstreamSpec.NodePools)
              c.Spec.NodePools (setActive w config))))))

def updateUpstreamClusterState (w : World) (config : Ref)
    (upstreamSpec : gkev1.GKEClusterConfigSpec) : M Result := do
  let (cred, err) ← getSecret w config
  match err with
  | some err => pure (some config, some err)
  | none => do
    let c ← load config
    runProbes w cred config c upstreamSpec

/-- The test of the node-pool loop of `checkAndUpdate`. -/
def nodePoolBusy (np : gkeapi.NodePool) : Bool :=
  np.Status == utils.NodePoolStatusReconciling || np.Status == utils.NodePoolStatusStopping ||
    np.Status == utils.NodePoolStatusProvisioning

def checkAndUpdate (w : World) (config : Ref) : M Result := do
  let c ← load config
  match validateUpdate c with
  | some err => do
    let config ← DeepCopy config
    let config ← setPhase config gkeConfigUpdatingPhase
    let (config, updateErr) ← UpdateStatus w config
    match updateErr with
    | some updateErr => pure (config, some updateErr)
    | none => pure (config, some err)
  | none => do
    let (cred, err) ← getSecret w config
    match err with
    | some err => pure (some config, some err)
    | none => do
      let err ← w.callGetGKEClient cred
      match err with
      | some err => pure (some config, some err)
      | none => do
        let r ← w.callClustersGet
          (utils.ClusterRRN c.Spec.ProjectID c.Spec.Region c.Spec.ClusterName)
        match r with
        | .error err => pure (some config, some err)
        | .ok cluster =>
          if cluster.Status = utils.ClusterStatusReconciling then
            if c.Status.Phase ≠ gkeConfigUpdatingPhase then do
              let config ← DeepCopy config
              let config ← setPhase config gkeConfigUpdatingPhase
              UpdateStatus w config
            else do
              emit (.gkeEnqueueAfter c.Namespace c.Name (30 * Second))
              pure (some config, none)
          else
            match cluster.NodePools.find? nodePoolBusy with
            | some _ =>
              if c.Status.Phase ≠ gkeConfigUpdatingPhase then do
                let config ← DeepCopy config
                let config ← setPhase config gkeConfigUpdatingPhase
                let (config, err) ← UpdateStatus w config
                match err with
                | some err => pure (config, some err)
                | none => do
                  -- `config.Name`, `config.Namespace` of the object returned by the write
                  let config ← M.ofExcept (deref config)
                  let c ← load config
                  emit (.gkeEnqueueAfter c.Namespace c.Name (30 * Second))
                  pure (some config, none)
              else do
                emit (.gkeEnqueueAfter c.Namespace c.Name (30 * Second))
                pure (some config, none)
            | none => do
              let (upstreamSpec, err) ← M.ofExcept (buildUpstreamClusterState cluster)
              match err with
              | some err => pure (some config, some err)
              | none => updateUpstreamClusterState w config upstreamSpec

def waitForCreationComplete (w : World) (config : Ref) : M Result := do
  let c ← load config
  let (cred, err) ← getSecret w config
  match err with
  | some err => pure (some config, some err)
  | none => do
    let err ← w.callGetGKEClient cred
    match err with
    | some err => pure (some config, some err)
    | none => do
      let r ← w.callClustersGet
        (utils.ClusterRRN c.Spec.ProjectID c.Spec.Region c.Spec.ClusterName)
      match r with
      | .error err => pure (some config, some err)
      | .ok cluster =>
        if cluster.Status = utils.ClusterStatusError then
          pure (some config, some ("creation failed for cluster " ++ c.Spec.ClusterName))
        else if cluster.Status = utils.ClusterStatusRunning then do
          let config ← DeepCopy config
          let config ← setPhase config gkeConfigActivePhase
          UpdateStatus w config
        else do
          emit (.gkeEnqueueAfter c.Namespace c.Name (wait * Second))
          pure (some config, none)

def OnGkeConfigChanged (w : World) (_key : String) (config : Option Ref) : M Result :=
  match config with
  | none => pure (none, none)
  | some config => do
    let c ← load config
    if c.DeletionTimestamp ≠ none then pure (none, none)
    else if c.Status.Phase = gkeConfigImportingPhase then importCluster w config
    else if c.Status.Phase = gkeConfigNotCreatedPhase then create w config
    else if c.Status.Phase = gkeConfigCreatingPhase then waitForCreationComplete w config
    else if c.Status.Phase = gkeConfigActivePhase then checkAndUpdate w config
    else if c.Status.Phase = gkeConfigUpdatingPhase then checkAndUpdate w config
    else pure (some config, none)

/-- `recordError`: the handler wrapped around `onChange`.  The local `message`
is declared and never assigned. -/
def recordError (w : World) (onChange : String → Option Ref → M Result)
    (key : String) (config : Option Ref) : M Result := do
  let message : String := ""
  let (config, err) ← onChange key config
  match config with
  | none => pure (none, err)
  | some config => do
    let c ← load config
    if c.Status.FailureMessage = message then pure (some config, err)
    else do
      let config ← DeepCopy config
      let config ←
        if message ≠ "" then do
          let c ← load config
          if c.Status.Phase = gkeConfigActivePhase then setPhase config gkeConfigUpdatingPhase
          else pure config
        else pure config
      let config ← setFailureMessage config message
      let (config, recordErr) ← UpdateStatus w config
      match recordErr with
      | some _ => do
        -- `config.Name` in the log call
        let _ ← M.ofExcept (deref config)
        pure (config, err)
      | none => pure (config, err)

end controller

/-! ## Observations on runs

Definitions used to state the theorems: what a run added to the trace, and
the probe calls, status writes and enqueues among those events. -/

/-- The events a run added: the trace of the final state `s'` without the
trace of the initial state `s`. -/
def newEvents (s s' : St) : List Event := s'.trace.drop s.trace.length

def Event.asProbe : Event → Option (ProbeCall × (Status × Option GoError))
  | .probe call res => some (call, res)
  | _ => none

/-- The probe calls among the events, each with its answer, in order. -/
def probeEvents (l : List Event) : List (ProbeCall × (Status × Option GoError)) :=
  l.filterMap Event.asProbe

def Event.asStatusWrite : Event → Option gkev1.GKEClusterConfig
  | .UpdateStatus obj _ => some obj
  | _ => none

/-- The objects handed to `UpdateStatus`, in order. -/
def statusWrites (l : List Event) : List gkev1.GKEClusterConfig :=
  l.filterMap Event.asStatusWrite

def Event.asEnqueue : Event → Option (String × String × Option Int)
  | .gkeEnqueue ns name => some (ns, name, none)
  | .gkeEnqueueAfter ns name duration => some (ns, name, some duration)
  | _ => none

/-- The enqueues among the events: namespace, name, and the delay in
nanoseconds (`none` for an immediate `gkeEnqueue`). -/
def enqueues (l : List Event) : List (String × String × Option Int) :=
  l.filterMap Event.asEnqueue

/-- Reads of the credential secret and calls of the provider (client
construction, `Clusters.*`, update probes). -/
def Event.isOutsideCall : Event → Bool
  | .secretsCacheGet _ _ _ => true
  | .GetGKEClient _ _ => true
  | .ClustersGet _ _ => true
  | .ClustersList _ _ => true
  | .ClustersCreate _ _ _ => true
  | .ClustersDelete _ _ => true
  | .probe _ _ => true
  | _ => false

/-- The secret reads and provider calls among the events. -/
def outsideCalls (l : List Event) : List Event := l.filter Event.isOutsideCall

namespace controller

/-- The three node-pool probes of one desired node pool, in the order of the
loop body; `upstreamNodePools` is the map built by `buildNodePoolMap`. -/
def nodePoolProbes (cred : String) (c : gkev1.GKEClusterConfig)
    (upstreamNodePools : List (String × gkev1.NodePoolConfig)) (np : gkev1.NodePoolConfig) :
    List ProbeCall :=
  let upstreamNodePool := np.Name.bind (fun name => upstreamNodePools.lookup name)
  [ .UpdateNodePoolKubernetesVersionOrImageType cred np c upstreamNodePool,
    .UpdateNodePoolSize cred np c upstreamNodePool,
    .UpdateNodePoolAutoscaling cred np c upstreamNodePool ]

/-- The fixed order of the update probes, as the specification lists it:
master version, cluster addons, master authorized networks,
logging/monitoring service, network policy, then for each desired node pool
in order version-or-imageType, size, autoscaling. -/
def probePlan (cred : String) (c : gkev1.GKEClusterConfig)
    (upstreamSpec : gkev1.GKEClusterConfigSpec) : List ProbeCall :=
  [ .UpdateMasterKubernetesVersion cred c upstreamSpec,
    .UpdateClusterAddons cred c upstreamSpec,
    .UpdateMasterAuthorizedNetworks cred c upstreamSpec,
    .UpdateLoggingMonitoringService cred c upstreamSpec,
    .UpdateNetworkPolicy cred c upstreamSpec ] ++
  c.Spec.NodePools.flatMap (nodePoolProbes cred c (buildNodePoolMap upstreamSpec.NodePools))

/-- A probe answer that is `Changed` or carries an error. -/
def stops (e : ProbeCall × (Status × Option GoError)) : Prop :=
  e.2.1 = Status.Changed ∨ e.2.2 ≠ none

/-- A log of probe calls that follows `plan` from its start and ends at the
first answer that stops. -/
def GoodLog : List ProbeCall → List (ProbeCall × (Status × Option GoError)) → Prop
  | _, [] => True
  | [], _ :: _ => False
  | c :: plan, e :: log => e.1 = c ∧ (stops e → log = []) ∧ GoodLog plan log

/-- The answer `NotChanged` without an error. -/
def quietAnswer : Status × Option GoError := (Status.NotChanged, none)

/-- The quiet log of a plan: every probe answered `NotChanged` without error. -/
def quietLog (plan : List ProbeCall) : List (ProbeCall × (Status × Option GoError)) :=
  plan.map (fun call => (call, quietAnswer))

/-- A computation whose new events hold a good probe log for `plan`. -/
def Logs {α : Type} (m : M α) (plan : List ProbeCall) : Prop :=
  ∀ s, ∃ d, (m s).2.trace = s.trace ++ d ∧ GoodLog plan (probeEvents d)

/-- A computation that extends the trace without consulting a probe. -/
def Quiet {α : Type} (m : M α) : Prop :=
  ∀ s, ∃ d, (m s).2.trace = s.trace ++ d ∧ probeEvents d = []

/-- The object with its `status.phase` replaced. -/
def withPhase (c : gkev1.GKEClusterConfig) (phase : String) : gkev1.GKEClusterConfig :=
  { c with Status := { c.Status with Phase := phase } }

/-- A computation that, when it returns an object without error, returns it in
the phase of `config`, in `updating` or in `active`. -/
def Steps (config : Ref) (m : M Result) : Prop :=
  ∀ s ref s', m s = (.ok (some ref, none), s') →
    (ref.get s').Status.Phase = (config.get s).Status.Phase ∨
      (ref.get s').Status.Phase = gkeConfigUpdatingPhase ∨
      (ref.get s').Status.Phase = gkeConfigActivePhase

/-- A computation that leaves the shared object alone and reads no cluster
from the provider. -/
def Tame {α : Type} (m : M α) : Prop :=
  ∀ s, (m s).2.cache = s.cache ∧
    ∃ d, (m s).2.trace = s.trace ++ d ∧ ∀ name res, Event.ClustersGet name res ∉ d

/-- The phase edges of one reconcile (spec § 4.7 and § 8). -/
def phaseEdge (p q : String) : Prop :=
  q = p ∨ (p = "" ∧ q = "creating") ∨ (p = "" ∧ q = "importing") ∨
    (p = "importing" ∧ q = "active") ∨ (p = "creating" ∧ q = "active") ∨
    (p = "active" ∧ q = "updating") ∨ (p = "updating" ∧ q = "active")

/-- A successful `UpdateStatus` returns an object in the phase it was given. -/
def EchoesPhase (w : World) : Prop :=
  ∀ tr obj obj', w.UpdateStatus tr obj = (some obj', none) →
    obj'.Status.Phase = obj.Status.Phase

end controller

/-! ## Sample inputs

Concrete worlds and objects at which the theorems are instantiated. -/

namespace Sample

def secret : Secret :=
  { Data := [("googlecredentialConfig-authEncodedJson", "credential")] }

def quietProbe : ProbeCall → Status × Option GoError :=
  fun _ => (Status.NotChanged, none)

/-- Answers `Retry` to the cluster-addons probe and `NotChanged` to the others. -/
def retryProbe : ProbeCall → Status × Option GoError
  | .UpdateClusterAddons _ _ _ => (Status.Retry, none)
  | _ => (Status.NotChanged, none)

/-- A world in which every call succeeds: the secret holds the credential, the
cluster read upstream is `cluster`, a status write returns the object written,
and the probes answer as `probe` says. -/
def world (cluster : gkeapi.Cluster) (probe : ProbeCall → Status × Option GoError) : World :=
  { secretsCacheGet := fun _ _ _ => .ok secret
    GetGKEClient := fun _ _ => none
    ClustersGet := fun _ _ => .ok cluster
    ClustersList := fun _ _ => (some {}, none)
    ClustersCreate := fun _ _ _ => (some {}, none)
    ClustersDelete := fun _ _ => (some {}, none)
    UpdateStatus := fun _ obj => (some obj, none)
    probe := fun _ call => probe call }

def nodePool : gkev1.NodePoolConfig :=
  { Name := some "pool-a", Version := some "1.24" }

/-- A cluster config in the given phase, with cluster version 1.25 and one node
pool of version 1.24. -/
def config (phase : String) : gkev1.GKEClusterConfig :=
  { Name := "cluster-1"
    Namespace := "fleet"
    Spec :=
      { ProjectID := "project-1"
        Region := "us-east1"
        ClusterName := "c1"
        CredentialContent := "cattle-global-data:cc-1"
        KubernetesVersion := some "1.25"
        NodePools := [nodePool] }
    Status := { Phase := phase } }

/-- An imported cluster config that has not been reconciled yet. -/
def importedConfig : gkev1.GKEClusterConfig :=
  { Name := "cluster-2"
    Namespace := "fleet"
    Spec := { ProjectID := "project-1", Region := "us-east1", ClusterName := "c2", Imported := true } }

/-- The projection of an upstream cluster that holds the node pool `pool-a`. -/
def upstreamSpec : gkev1.GKEClusterConfigSpec :=
  { KubernetesVersion := some "1.25.3-gke.100", NodePools := [nodePool] }

def runningCluster : gkeapi.Cluster := { Name := "c1", Status := "RUNNING" }

def reconcilingCluster : gkeapi.Cluster := { Name := "c1", Status := "RECONCILING" }

def failedCluster : gkeapi.Cluster := { Name := "c1", Status := "ERROR" }

/-- A state whose shared object is `c` and whose trace is empty. -/
def start (c : gkev1.GKEClusterConfig) : St := { cache := c, trace := [] }

/-- Cluster version 1.0 with a node pool whose minor version is `2 ^ 64 - 1`. -/
def wrappedConfig : gkev1.GKEClusterConfig :=
  { Name := "cluster-3"
    Spec :=
      { KubernetesVersion := some "1.0"
        NodePools := [{ Name := some "pool-a", Version := some "1.18446744073709551615" }] } }

end Sample

end GkeOperator

namespace GkeOperator

/-! ## Observations on error messages and on the validator

Definitions used to state the theorems about `validateCreateRequest`,
`validateUpdate` and the create builder. -/

/-- The message `msg` mentions `part`: the characters of `part` occur in `msg`
one after the other, without a gap. -/
def Mentions (msg part : String) : Prop := part.toList <:+: msg.toList

instance (msg part : String) : Decidable (Mentions msg part) :=
  inferInstanceAs (Decidable (part.toList <:+: msg.toList))

namespace gke

/-- The cluster-level fields that a config which is not imported must set, in
the order in which the validator is said to look at them. -/
inductive ClusterField where
  | enableAlphaFeature
  | kubernetesVersion
  | clusterAddons
  | ipAllocationPolicy
  | loggingService
  | networkConfig
  | networkPolicy
  | privateClusterConfig
  | masterAuthorizedNetworksConfig
  | monitoringService
deriving DecidableEq, Repr

/-- The node-pool fields that a config which is not imported must set, in the
order in which the validator is said to look at them. -/
inductive PoolField where
  | name
  | version
  | autoscaling
  | initialNodeCount
  | maxPodsConstraint
  | config
deriving DecidableEq, Repr

/-- A required field of a config: a cluster-level field, or a field of the
node pool at position `i`. -/
inductive RequiredField where
  | cluster (f : ClusterField)
  | pool (i : Nat) (f : PoolField)
deriving DecidableEq, Repr

def ClusterField.all : List ClusterField :=
  [.enableAlphaFeature, .kubernetesVersion, .clusterAddons, .ipAllocationPolicy,
    .loggingService, .networkConfig, .networkPolicy, .privateClusterConfig,
    .masterAuthorizedNetworksConfig, .monitoringService]

def PoolField.all : List PoolField :=
  [.name, .version, .autoscaling, .initialNodeCount, .maxPodsConstraint, .config]

/-- The name under which an error message reports the field. -/
def ClusterField.label : ClusterField → String
  | .enableAlphaFeature => "enableAlphaFeature"
  | .kubernetesVersion => "kubernetesVersion"
  | .clusterAddons => "clusterAddons"
  | .ipAllocationPolicy => "ipAllocationPolicy"
  | .loggingService => "loggingService"
  | .networkConfig => "networkConfig"
  | .networkPolicy => "networkPolicy"
  | .privateClusterConfig => "privateClusterConfig"
  | .masterAuthorizedNetworksConfig => "masterAuthorizedNetworksConfig"
  | .monitoringService => "monitoringService"

/-- The name under which an error message reports the field. -/
def PoolField.label : PoolField → String
  | .name => "nodePool.name"
  | .version => "version"
  | .autoscaling => "autoscaling"
  | .initialNodeCount => "initialNodeCount"
  | .maxPodsConstraint => "maxPodsConstraint"
  | .config => "config"

/-- Whether the field is nil in the spec. -/
def ClusterField.isNil (spec : gkev1.GKEClusterConfigSpec) : ClusterField → Bool
  | .enableAlphaFeature => spec.EnableAlphaFeature.isNone
  | .kubernetesVersion => spec.KubernetesVersion.isNone
  | .clusterAddons => spec.ClusterAddons.isNone
  | .ipAllocationPolicy => spec.IPAllocationPolicy.isNone
  | .loggingService => spec.LoggingService.isNone
  | .networkConfig => spec.NetworkConfig.isNone
  | .networkPolicy => spec.NetworkPolicy.isNone
  | .privateClusterConfig => spec.PrivateClusterConfig.isNone
  | .masterAuthorizedNetworksConfig => spec.MasterAuthorizedNetworksConfig.isNone
  | .monitoringService => spec.MonitoringService.isNone

/-- Whether the field is nil in the node pool. -/
def PoolField.isNil (np : gkev1.NodePoolConfig) : PoolField → Bool
  | .name => np.Name.isNone
  | .version => np.Version.isNone
  | .autoscaling => np.Autoscaling.isNone
  | .initialNodeCount => np.InitialNodeCount.isNone
  | .maxPodsConstraint => np.MaxPodsConstraint.isNone
  | .config => np.Config.isNone

/-- Whether the required field is nil in the config; a field of a node pool
that the config does not have is not. -/
def RequiredField.isNil (config : gkev1.GKEClusterConfig) : RequiredField → Bool
  | .cluster f => f.isNil config.Spec
  | .pool i f =>
    match config.Spec.NodePools.get? i with
    | some np => f.isNil np
    | none => false

def RequiredField.label : RequiredField → String
  | .cluster f => f.label
  | .pool _ f => f.label

/-- Whether the node pool has autoscaling enabled with bounds that break
`1 ≤ minNodeCount ≤ maxNodeCount`. -/
def badAutoscaling (np : gkev1.NodePoolConfig) : Bool :=
  match np.Autoscaling with
  | some a => a.Enabled && !(decide (1 ≤ a.MinNodeCount) && decide (a.MinNodeCount ≤ a.MaxNodeCount))
  | none => false

/-- The error reported for a nil field of a node pool. -/
def poolFieldError (configName : String) (np : gkev1.NodePoolConfig) : PoolField → GoError
  | .name => cannotBeNilError PoolField.name.label configName
  | f => cannotBeNilForNodePoolError f.label (np.Name.getD "") configName

/-- A check of the validator as the spec lists it: whether it fails, and the
error it then reports. -/
abbrev Check := Bool × GoError

/-- The checks of the validator in the order of the spec, given the clusters
that exist upstream: project, zone and region, cluster name, autoscaling
bounds, name already in use; then, for a config that is not imported, the
cluster-level required fields, and node pool by node pool the required
node-pool fields. -/
def createChecks (config : gkev1.GKEClusterConfig) (clusters : List gkeapi.Cluster) :
    List Check :=
  [ (decide (config.Spec.ProjectID = ""), "project ID is required"),
    (decide (config.Spec.Zone = "" ∧ config.Spec.Region = ""), "zone or region is required"),
    (decide (config.Spec.Zone ≠ "" ∧ config.Spec.Region ≠ ""),
      "only one of zone or region must be specified"),
    (decide (config.Spec.ClusterName = ""), "cluster name is required"),
    (config.Spec.NodePools.any badAutoscaling,
      "minNodeCount in the NodePool must be >= 1 and <= maxNodeCount"),
    (clusters.any (fun cluster => decide (cluster.Name = config.Spec.ClusterName)),
      "cannot create cluster [" ++ config.Spec.ClusterName ++
        "] because a cluster in GKE exists with the same name") ] ++
  ClusterField.all.map
    (fun f => (!config.Spec.Imported && f.isNil config.Spec,
      cannotBeNilError f.label config.Name)) ++
  config.Spec.NodePools.flatMap
    (fun np => PoolField.all.map
      (fun f => (!config.Spec.Imported && f.isNil np, poolFieldError config.Name np f)))

/-- The error of the first check that fails, if one does. -/
def firstFailing (checks : List Check) : Option GoError :=
  (checks.find? (fun check => check.1)).map (fun check => check.2)

end gke

namespace Sample

/-- A node pool with every required field set. -/
def fullNodePool : gkev1.NodePoolConfig :=
  { Name := some "pool-a"
    Version := some "1.25"
    InitialNodeCount := some 3
    MaxPodsConstraint := some 110
    Autoscaling := some { Enabled := true, MinNodeCount := 1, MaxNodeCount := 5 }
    Config := some
      { DiskSizeGb := 100
        DiskType := "pd-standard"
        ImageType := "COS"
        MachineType := "n1-standard-2"
        Labels := [("team", "a")]
        OauthScopes := ["https://www.googleapis.com/auth/cloud-platform"]
        Taints := [{ Effect := "NO_SCHEDULE", Key := "dedicated", Value := "gpu" }] } }

/-- The spec of a cluster that is to be created, with every required field set
and the given node pools. -/
def fullSpec (pools : List gkev1.NodePoolConfig) : gkev1.GKEClusterConfigSpec :=
  { ProjectID := "project-1"
    Region := "us-east1"
    ClusterName := "c1"
    CredentialContent := "cattle-global-data:cc-1"
    EnableAlphaFeature := some false
    KubernetesVersion := some "1.25"
    ClusterAddons := some { HTTPLoadBalancing := true, HorizontalPodAutoscaling := true }
    IPAllocationPolicy := some { UseIPAliases := true }
    LoggingService := some "logging.googleapis.com/kubernetes"
    MonitoringService := some "monitoring.googleapis.com/kubernetes"
    NetworkConfig := some { Network := some "default", Subnetwork := some "default" }
    NetworkPolicy := some false
    PrivateClusterConfig := some
      { EnablePrivateEndpoint := some false, EnablePrivateNodes := some false }
    MasterAuthorizedNetworksConfig := some { Enabled := false }
    NodePools := pools }

/-- A config that is not imported, not reconciled yet, with every required
field set. -/
def fullConfig : gkev1.GKEClusterConfig :=
  { Name := "cluster-1", Namespace := "fleet", Spec := fullSpec [fullNodePool] }

/-- As `fullConfig`, without a logging service. -/
def noLoggingConfig : gkev1.GKEClusterConfig :=
  { fullConfig with Spec := { fullSpec [fullNodePool] with LoggingService := none } }

/-- As `fullConfig`, the node pool having no initial node count. -/
def noCountConfig : gkev1.GKEClusterConfig :=
  { fullConfig with
    Spec := fullSpec [{ fullNodePool with InitialNodeCount := none }] }

/-- As `fullConfig`, without a project. -/
def noProjectConfig : gkev1.GKEClusterConfig :=
  { fullConfig with Spec := { fullSpec [fullNodePool] with ProjectID := "" } }

/-- As `fullConfig`, with both a zone and a region. -/
def zoneAndRegionConfig : gkev1.GKEClusterConfig :=
  { fullConfig with Spec := { fullSpec [fullNodePool] with Zone := "us-east1-b" } }

/-- As `fullConfig`, with neither a zone nor a region. -/
def noLocationConfig : gkev1.GKEClusterConfig :=
  { fullConfig with Spec := { fullSpec [fullNodePool] with Region := "" } }

/-- As `fullConfig`, with a network config whose network and subnetwork are
not set. -/
def bareNetworkConfig : gkev1.GKEClusterConfig :=
  { fullConfig with Spec := { fullSpec [fullNodePool] with NetworkConfig := some {} } }

/-- As `fullConfig`, with one master authorized network. -/
def oneCidrBlockConfig : gkev1.GKEClusterConfig :=
  { fullConfig with
    Spec :=
      { fullSpec [fullNodePool] with
        MasterAuthorizedNetworksConfig := some
          { Enabled := true
            CidrBlocks := [some { CidrBlock := "10.0.0.0/8", DisplayName := "office" }] } } }

/-- A node pool that asks for two local SSDs. -/
def ssdNodePool : gkev1.NodePoolConfig :=
  { Name := some "pool-ssd"
    Version := some "1.25"
    InitialNodeCount := some 1
    MaxPodsConstraint := some 110
    Autoscaling := some {}
    Config := some { MachineType := "n1-standard-2", LocalSsdCount := 2 } }

/-- A cluster config in the given phase, with cluster version 1.25 and one node
pool of version 1.23. -/
def driftConfig (phase : String) : gkev1.GKEClusterConfig :=
  { Name := "cluster-1"
    Namespace := "fleet"
    Spec :=
      { ProjectID := "project-1"
        Region := "us-east1"
        ClusterName := "c1"
        CredentialContent := "cattle-global-data:cc-1"
        KubernetesVersion := some "1.25"
        NodePools := [{ Name := some "pool-a", Version := some "1.23" }] }
    Status := { Phase := phase } }

/-- A world as `world`, except that every status write fails. -/
def conflictWorld : World :=
  { world runningCluster quietProbe with
    UpdateStatus := fun _ _ => (none, some "the object has been modified") }

/-- Cluster version 1.25 with a node pool whose version is `100%`. -/
def percentConfig : gkev1.GKEClusterConfig :=
  { Name := "cluster-4"
    Spec :=
      { KubernetesVersion := some "1.25"
        NodePools := [{ Name := some "pool-a", Version := some "100%" }] } }

end Sample

end GkeOperator

namespace GkeOperator

/-! ## Deletion: `strings.Contains`, the retry helper and the remove handler -/

namespace strings

/-- Go `strings.Contains(s, substr)`: whether `substr` occurs in `s`. -/
def Contains (s substr : String) : Bool := decide (substr.toList <:+: s.toList)

end strings

namespace utils

/-- The loop of `WaitClusterRemoveExp`, `for i := 1; i < 12; i++`, as a
recursion over the values of `i` still to come; `last` holds `operation` and
`err` as they stand when the loop is entered.  `time.Sleep` is recorded in the
trace. -/
def waitClusterRemoveLoop (w : World) (name : String) :
    List Int → Option gkeapi.Operation × Option GoError →
      M (Option gkeapi.Operation × Option GoError)
  | [], last => pure last
  | i :: rest, _ => do
    emit (.Sleep (i * i * controller.Second))
    let (operation, err) ← w.callClustersDelete name
    match err with
    | none => pure (operation, none)
    | some e =>
      if !strings.Contains e "Please wait and try again once it is done" then
        pure (operation, some e)
      else waitClusterRemoveLoop w name rest (operation, some e)

/-- `WaitClusterRemoveExp`: `i` runs from 1 to 11. -/
def WaitClusterRemoveExp (w : World) (config : gkev1.GKEClusterConfig) :
    M (Option gkeapi.Operation × Option GoError) :=
  waitClusterRemoveLoop w
    (ClusterRRN config.Spec.ProjectID config.Spec.Region config.Spec.ClusterName)
    [1, 2, 3, 4, 5, 6, 7, 8, 9, 10, 11] (none, none)

end utils

namespace controller

/-- `OnGkeConfigRemoved`.  The status code of the operation is read for the
debug log when the deletion returned no error. -/
def OnGkeConfigRemoved (w : World) (_key : String) (config : Option Ref) : M Result := do
  let config ← M.ofExcept (deref config)
  let c ← load config
  if c.Spec.Imported then pure (some config, none)
  else if c.Status.Phase = gkeConfigNotCreatedPhase then pure (some config, none)
  else do
    let (cred, err) ← getSecret w config
    match err with
    | some err => pure (some config, some err)
    | none => do
      let err ← w.callGetGKEClient cred
      match err with
      | some err => pure (some config, some err)
      | none => do
        let (operation, err) ← utils.WaitClusterRemoveExp w c
        match err with
        | some err =>
          if !strings.Contains err "notFound" then pure (some config, some err)
          else pure (some config, none)
        | none => do
          let _ ← M.ofExcept (deref operation)
          pure (some config, none)

end controller

/-! ## Observations on deletions and on the projector -/

def Event.asSleep : Event → Option Int
  | .Sleep duration => some duration
  | _ => none

/-- The sleeps among the events, in nanoseconds, in order. -/
def sleeps (l : List Event) : List Int := l.filterMap Event.asSleep

def Event.asDelete : Event → Option (String × (Option gkeapi.Operation × Option GoError))
  | .ClustersDelete name res => some (name, res)
  | _ => none

/-- The `Clusters.Delete` attempts among the events, each with its answer, in
order. -/
def deletes (l : List Event) : List (String × (Option gkeapi.Operation × Option GoError)) :=
  l.filterMap Event.asDelete

def Event.asResourceName : Event → Option String
  | .ClustersGet name _ => some name
  | .ClustersList parent _ => some parent
  | .ClustersCreate parent _ _ => some parent
  | .ClustersDelete name _ => some name
  | _ => none

/-- The relative resource names handed to `Clusters.Get`, `Clusters.List`,
`Clusters.Create` and `Clusters.Delete`, in order. -/
def resourceNames (l : List Event) : List String := l.filterMap Event.asResourceName

/-- Whether the answer of a `Clusters.Delete` attempt is an error whose
message contains `Please wait and try again once it is done`. -/
def transient (res : Option gkeapi.Operation × Option GoError) : Bool :=
  match res.2 with
  | some e => strings.Contains e "Please wait and try again once it is done"
  | none => false

/-- The events of the attempts of the deletion helper for the values `is` of
`i` and the answers `results`: before each attempt a sleep of `i * i`
seconds. -/
def attemptEvents (name : String) :
    List Int → List (Option gkeapi.Operation × Option GoError) → List Event
  | i :: is, r :: results =>
    .Sleep (i * i * controller.Second) :: .ClustersDelete name r :: attemptEvents name is results
  | _, _ => []

/-- Whether a node pool read upstream is not being deleted. -/
def notStopping (np : gkeapi.NodePool) : Bool := decide (np.Status ≠ "STOPPING")

namespace Sample

/-- As `fullConfig`, in a zone and in no region. -/
def zoneConfig : gkev1.GKEClusterConfig :=
  { fullConfig with
    Spec := { fullSpec [fullNodePool] with Region := "", Zone := "us-east1-b" }
    Status := { Phase := "active" } }

/-- The number of `Clusters.Delete` attempts in a trace. -/
def deleteCount (trace : List Event) : Nat := (deletes trace).length

def busy : Option gkeapi.Operation × Option GoError :=
  (none, some ("googleapi: Error 400: Operation operation-1 is currently upgrading cluster c1. " ++
    "Please wait and try again once it is done., failedPrecondition"))

def deleted : Option gkeapi.Operation × Option GoError := (some { HTTPStatusCode := 200 }, none)

def gone : Option gkeapi.Operation × Option GoError :=
  (none, some "googleapi: Error 404: Not found: projects/project-1/locations/us-east1/clusters/c1., notFound")

def denied : Option gkeapi.Operation × Option GoError :=
  (none, some "googleapi: Error 403: Required container.clusters.delete permission., forbidden")

/-- A world as `world`, in which the attempts to delete are answered by
`script` in turn, and by `busy` once the script is used up. -/
def scriptedWorld (script : List (Option gkeapi.Operation × Option GoError)) : World :=
  { world runningCluster quietProbe with
    ClustersDelete := fun trace _ => (script.get? (deleteCount trace)).getD busy }

/-- A node pool read upstream, with every sub-object set. -/
def upstreamPool (name status : String) : gkeapi.NodePool :=
  { Name := name
    Version := "1.25.3-gke.100"
    InitialNodeCount := 3
    Status := status
    MaxPodsConstraint := some { MaxPodsPerNode := 110 }
    Config := some { MachineType := "n1-standard-2" }
    Autoscaling := some { Enabled := true, MinNodeCount := 1, MaxNodeCount := 5 } }

/-- A cluster read upstream with three node pools, the second being deleted,
and no addons config. -/
def upstreamCluster : gkeapi.Cluster :=
  { Name := "c1"
    Status := "RUNNING"
    CurrentMasterVersion := "1.25.3-gke.100"
    NodePools :=
      [upstreamPool "pool-a" "RUNNING", upstreamPool "pool-b" "STOPPING",
        upstreamPool "pool-c" "RUNNING"] }

/-- A cluster read upstream whose addons config has load balancing disabled,
pod autoscaling enabled and no network policy entry. -/
def addonsCluster : gkeapi.Cluster :=
  { Name := "c1"
    Status := "RUNNING"
    AddonsConfig := some
      { HttpLoadBalancing := some { Disabled := true }
        HorizontalPodAutoscaling := some { Disabled := false } } }

/-- A cluster read upstream with one running node pool that has no max-pods
constraint. -/
def noMaxPodsCluster : gkeapi.Cluster :=
  { Name := "c1"
    Status := "RUNNING"
    CurrentMasterVersion := "1.25.3-gke.100"
    NodePools :=
      [ { Name := "pool-a"
          Version := "1.25.3-gke.100"
          InitialNodeCount := 3
          Status := "RUNNING"
          Config := some { MachineType := "n1-standard-2" }
          Autoscaling := some {} } ] }

end Sample

end GkeOperator

namespace GkeOperator

/-! ## `internal/utils`: the cidr-block comparison and the second projector -/

namespace utils

/-- The first loop of `CompareCidrBlockPointerSlices`: the keys put in the map
`lhElements`, one for every block of `lh` that is not nil. Only membership in
the map is ever asked. -/
def lhElements : List (Option gkev1.CidrBlock) → List gkev1.CidrBlock
  | [] => []
  | none :: rest => lhElements rest
  | some v :: rest => v :: lhElements rest

/-- The second loop of `CompareCidrBlockPointerSlices`: a nil block is skipped,
a block that is not a key of the map ends the loop with `false`. -/
def rhLoop (elements : List gkev1.CidrBlock) : List (Option gkev1.CidrBlock) → Bool
  | [] => true
  | none :: rest => rhLoop elements rest
  | some v :: rest => if v ∈ elements then rhLoop elements rest else false

def CompareCidrBlockPointerSlices (lh rh : List (Option gkev1.CidrBlock)) : Bool :=
  if lh.length ≠ rh.length then false
  else rhLoop (lhElements lh) rh

/-- The body of the node-pool loop of `utils.BuildUpstreamClusterState`, for a
node pool that is not skipped. -/
def buildNodePoolConfig (np : gkeapi.NodePool) : Except Panic gkev1.NodePoolConfig := do
  let constraint ← deref np.MaxPodsConstraint
  let newNP : gkev1.NodePoolConfig :=
    { Name := some np.Name
      Version := some np.Version
      InitialNodeCount := some np.InitialNodeCount
      MaxPodsConstraint := some constraint.MaxPodsPerNode }
  let newNP : gkev1.NodePoolConfig :=
    match np.Config with
    | none => newNP
    | some config =>
      { newNP with
        Config := some
          { DiskSizeGb := config.DiskSizeGb
            DiskType := config.DiskType
            ImageType := config.ImageType
            Labels := config.Labels
            LocalSsdCount := config.LocalSsdCount
            MachineType := config.MachineType
            Preemptible := config.Preemptible
            Taints := config.Taints.map
              (fun t => { Effect := t.Effect, Key := t.Key, Value := t.Value }) } }
  match np.Autoscaling with
  | none => pure newNP
  | some autoscaling =>
    pure
      { newNP with
        Autoscaling := some
          { Enabled := autoscaling.Enabled
            MaxNodeCount := autoscaling.MaxNodeCount
            MinNodeCount := autoscaling.MinNodeCount } }

/-- The node-pool loop of `utils.BuildUpstreamClusterState`. -/
def buildNodePoolConfigs : List gkeapi.NodePool → Except Panic (List gkev1.NodePoolConfig)
  | [] => pure []
  | np :: rest =>
    if np.Status = NodePoolStatusStopping then buildNodePoolConfigs rest
    else do
      let newNP ← buildNodePoolConfig np
      let others ← buildNodePoolConfigs rest
      pure (newNP :: others)

/-- The cidr-block loop of `utils.BuildUpstreamClusterState`. -/
def buildCidrBlockConfigs :
    List (Option gkeapi.CidrBlock) → Except Panic (List (Option gkev1.CidrBlock))
  | [] => pure []
  | b :: rest => do
    let b ← deref b
    let others ← buildCidrBlockConfigs rest
    pure (some { CidrBlock := b.CidrBlock, DisplayName := b.DisplayName } :: others)

/-- `BuildUpstreamClusterState` of the utils package (utils/gke.go lines
505-640), written out from its own text. -/
def BuildUpstreamClusterState (upstreamSpec : gkeapi.Cluster) :
    Except Panic (gkev1.GKEClusterConfigSpec × Option GoError) := do
  let newSpec : gkev1.GKEClusterConfigSpec :=
    { KubernetesVersion := some upstreamSpec.CurrentMasterVersion
      EnableAlphaFeature := some upstreamSpec.EnableKubernetesAlpha
      ClusterAddons := some {}
      ClusterIpv4CidrBlock := upstreamSpec.ClusterIpv4Cidr
      LoggingService := some upstreamSpec.LoggingService
      MonitoringService := some upstreamSpec.MonitoringService
      NetworkConfig := some {}
      PrivateClusterConfig := some {}
      IPAllocationPolicy := some {}
      MasterAuthorizedNetworksConfig := some { Enabled := false } }
  let networkPolicyEnabled : Bool :=
    match upstreamSpec.NetworkPolicy with
    | none => false
    | some networkPolicy => if networkPolicy.Enabled == true then true else false
  let newSpec := { newSpec with NetworkPolicy := some networkPolicyEnabled }
  let newSpec :=
    match upstreamSpec.NetworkConfig with
    | some networkConfig =>
      { newSpec with
        NetworkConfig := some
          { Network := some networkConfig.Network, Subnetwork := some networkConfig.Subnetwork } }
    | none =>
      let network := "default"
      { newSpec with NetworkConfig := some { Network := some network, Subnetwork := some network } }
  let newSpec :=
    match upstreamSpec.PrivateClusterConfig with
    | some privateClusterConfig =>
      { newSpec with
        PrivateClusterConfig := some
          { EnablePrivateEndpoint := some privateClusterConfig.EnablePrivateNodes
            EnablePrivateNodes := some privateClusterConfig.EnablePrivateNodes
            MasterIpv4CidrBlock := privateClusterConfig.MasterIpv4CidrBlock
            PrivateEndpoint := privateClusterConfig.PrivateEndpoint
            PublicEndpoint := privateClusterConfig.PublicEndpoint } }
    | none =>
      let enabled := false
      { newSpec with
        PrivateClusterConfig := some
          { EnablePrivateEndpoint := some enabled, EnablePrivateNodes := some enabled } }
  let newSpec :=
    match upstreamSpec.AddonsConfig with
    | some addonsConfig =>
      let lb :=
        match addonsConfig.HttpLoadBalancing with
        | some x => !x.Disabled
        | none => true
      let hpa :=
        match addonsConfig.HorizontalPodAutoscaling with
        | some x => !x.Disabled
        | none => true
      let npc :=
        match addonsConfig.NetworkPolicyConfig with
        | some x => !x.Disabled
        | none => true
      { newSpec with
        ClusterAddons := some
          { HTTPLoadBalancing := lb, HorizontalPodAutoscaling := hpa, NetworkPolicyConfig := npc } }
    | none => newSpec
  let newSpec :=
    match upstreamSpec.IpAllocationPolicy with
    | some policy =>
      { newSpec with
        IPAllocationPolicy := some
          { ClusterIpv4CidrBlock := policy.ClusterIpv4CidrBlock
            ClusterSecondaryRangeName := policy.ClusterSecondaryRangeName
            CreateSubnetwork := policy.CreateSubnetwork
            NodeIpv4CidrBlock := policy.NodeIpv4CidrBlock
            ServicesIpv4CidrBlock := policy.ServicesIpv4CidrBlock
            ServicesSecondaryRangeName := policy.ServicesSecondaryRangeName
            SubnetworkName := policy.SubnetworkName
            UseIPAliases := policy.UseIpAliases } }
    | none => newSpec
  let newSpec ←
    match upstreamSpec.MasterAuthorizedNetworksConfig with
    | some networks =>
      if networks.Enabled then do
        let blocks ← buildCidrBlockConfigs networks.CidrBlocks
        pure
          { newSpec with
            MasterAuthorizedNetworksConfig := some
              { Enabled := networks.Enabled, CidrBlocks := blocks } }
      else pure newSpec
    | none => pure newSpec
  let nodePools ← buildNodePoolConfigs upstreamSpec.NodePools
  pure ({ newSpec with NodePools := nodePools }, none)

end utils

namespace Sample

def office : gkev1.CidrBlock := { CidrBlock := "10.0.0.0/8", DisplayName := "office" }

def lab : gkev1.CidrBlock := { CidrBlock := "192.168.0.0/16", DisplayName := "lab" }

/-- A cluster read upstream that is private with a public endpoint: private
nodes, and the private endpoint not enabled. -/
def privateNodesCluster : gkeapi.Cluster :=
  { Name := "c1"
    Status := "RUNNING"
    PrivateClusterConfig := some
      { EnablePrivateEndpoint := false
        EnablePrivateNodes := true
        MasterIpv4CidrBlock := "172.16.0.0/28" } }

/-- Master authorized networks as read upstream: enabled, with two cidr
blocks. -/
def authorizedNetworks : gkeapi.MasterAuthorizedNetworksConfig :=
  { Enabled := true
    CidrBlocks :=
      [ some { CidrBlock := "10.0.0.0/8", DisplayName := "office" },
        some { CidrBlock := "192.168.0.0/16", DisplayName := "lab" } ] }

/-- A cluster read upstream with master authorized networks enabled and two
cidr blocks, in a network of its own. -/
def authorizedCluster : gkeapi.Cluster :=
  { Name := "c1"
    Status := "RUNNING"
    NetworkConfig := some { Network := "net-1", Subnetwork := "subnet-1" }
    MasterAuthorizedNetworksConfig := some authorizedNetworks }

/-- A cluster read upstream that lists a cidr block with master authorized
networks not enabled. -/
def notAuthorizedCluster : gkeapi.Cluster :=
  { Name := "c1"
    Status := "RUNNING"
    MasterAuthorizedNetworksConfig := some
      { Enabled := false
        CidrBlocks := [some { CidrBlock := "10.0.0.0/8", DisplayName := "office" }] } }

/-- A cluster read upstream whose addons config holds none of the three
entries. -/
def emptyAddonsCluster : gkeapi.Cluster :=
  { Name := "c1", Status := "RUNNING", AddonsConfig := some {} }

/-- A complete config with a node pool that leaves the max-pods constraint to
the provider. -/
def defaultMaxPodsConfig : gkev1.GKEClusterConfig :=
  { fullConfig with
    Spec := fullSpec [{ fullNodePool with MaxPodsConstraint := none }] }

/-- A config in phase `active` that carries the failure message of an earlier
reconcile. -/
def failedConfig : gkev1.GKEClusterConfig :=
  { config "active" with
    Status := { Phase := "active", FailureMessage := "googleapi: Error 403: forbidden" } }

/-- An `onChange` that gives back the object it was given, with the error
`boom`. -/
def failingOnChange (_key : String) (obj : Option controller.Ref) : M controller.Result :=
  pure (obj, some "boom")

end Sample

end GkeOperator

namespace GkeOperator

/-! ## Observations on the probe cascade -/

namespace controller

def isAddonsProbe : ProbeCall → Bool
  | .UpdateClusterAddons _ _ _ => true
  | _ => false

/-- An answer after which `updateUpstreamClusterState` consults no other
probe: an error, `Changed`, or `Retry` from the cluster-addons probe. -/
def halts (e : ProbeCall × (Status × Option GoError)) : Bool :=
  e.2.2.isSome || decide (e.2.1 = Status.Changed) ||
    (decide (e.2.1 = Status.Retry) && isAddonsProbe e.1)

/-- A log of probe calls that is `plan` up to its first answer that halts:
it follows the plan from its start, it goes on with the next probe of the plan
after an answer that does not halt, and it ends with the first answer that
halts or with the plan. -/
def RunLog : List ProbeCall → List (ProbeCall × (Status × Option GoError)) → Prop
  | [], log => log = []
  | _ :: _, [] => False
  | c :: plan, e :: log => e.1 = c ∧ if halts e = true then log = [] else RunLog plan log

/-- The desired node pools that the loop of `updateUpstreamClusterState`
reaches whatever the probes answer: those before the first one without a
name. -/
def namedPools (nodePools : List gkev1.NodePoolConfig) : List gkev1.NodePoolConfig :=
  nodePools.takeWhile (fun np => np.Name.isSome)

/-- A computation whose new events hold the run log of `plan`, with the
answers that the world gave. -/
def Runs (w : World) (m : M Result) (plan : List ProbeCall) : Prop :=
  ∀ s, ∃ d, (m s).2.trace = s.trace ++ d ∧ RunLog plan (probeEvents d) ∧
    ∀ e ∈ probeEvents d, ∃ trace, e.2 = w.probe trace e.1

end controller

namespace Sample

/-- Answers `Changed` to the node-pool size probe and `NotChanged` to the
others. -/
def resizeProbe : ProbeCall → Status × Option GoError
  | .UpdateNodePoolSize _ _ _ _ => (Status.Changed, none)
  | _ => (Status.NotChanged, none)

/-- A node pool of version 1.24 that has no name. -/
def namelessNodePool : gkev1.NodePoolConfig := { Version := some "1.24" }

/-- A cluster config in phase `updating` whose only node pool has no name. -/
def namelessConfig : gkev1.GKEClusterConfig :=
  { Name := "cluster-1"
    Namespace := "fleet"
    Spec :=
      { ProjectID := "project-1"
        Region := "us-east1"
        ClusterName := "c1"
        CredentialContent := "cattle-global-data:cc-1"
        KubernetesVersion := some "1.25"
        NodePools := [namelessNodePool] }
    Status := { Phase := "updating" } }

end Sample

end GkeOperator

/-! # Theorems -/

set_option linter.unusedVariables false

namespace GkeOperator
open controller gke

/-! ## Running computations -/

@[simp] theorem M_pure_apply {α : Type} (a : α) (s : St) : (pure a : M α) s = (.ok a, s) := rfl

@[simp] theorem M_bind_apply {α β : Type} (x : M α) (f : α → M β) (s : St) :
    (x >>= f) s = match x s with
      | (.ok a, s') => f a s'
      | (.error p, s') => (.error p, s') := rfl

@[simp] theorem M_ofExcept_apply {α : Type} (e : Except Panic α) (s : St) :
    M.ofExcept e s = (e, s) := rfl

@[simp] theorem emit_apply (e : Event) (s : St) :
    emit e s = (.ok (), { s with trace := s.trace ++ [e] }) := rfl

@[simp] theorem callProbe_apply (w : World) (call : ProbeCall) (s : St) :
    w.callProbe call s =
      (.ok (w.probe s.trace call),
        { s with trace := s.trace ++ [.probe call (w.probe s.trace call)] }) := rfl

@[simp] theorem callSecretsCacheGet_apply (w : World) (ns id : String) (s : St) :
    w.callSecretsCacheGet ns id s =
      (.ok (w.secretsCacheGet s.trace ns id),
        { s with trace := s.trace ++ [.secretsCacheGet ns id (w.secretsCacheGet s.trace ns id)] }) :=
  rfl

@[simp] theorem callGetGKEClient_apply (w : World) (cred : String) (s : St) :
    w.callGetGKEClient cred s =
      (.ok (w.GetGKEClient s.trace cred),
        { s with trace := s.trace ++ [.GetGKEClient cred (w.GetGKEClient s.trace cred)] }) := rfl

@[simp] theorem callClustersGet_apply (w : World) (name : String) (s : St) :
    w.callClustersGet name s =
      (.ok (w.ClustersGet s.trace name),
        { s with trace := s.trace ++ [.ClustersGet name (w.ClustersGet s.trace name)] }) := rfl

@[simp] theorem callClustersList_apply (w : World) (parent : String) (s : St) :
    w.callClustersList parent s =
      (.ok (w.ClustersList s.trace parent),
        { s with trace := s.trace ++ [.ClustersList parent (w.ClustersList s.trace parent)] }) := rfl

@[simp] theorem callClustersCreate_apply (w : World) (parent : String)
    (req : gkeapi.CreateClusterRequest) (s : St) :
    w.callClustersCreate parent req s =
      (.ok (w.ClustersCreate s.trace parent req),
        { s with trace :=
            s.trace ++ [.ClustersCreate parent req (w.ClustersCreate s.trace parent req)] }) := rfl

@[simp] theorem load_apply (r : Ref) (s : St) : load r s = (.ok (r.get s), s) := rfl

@[simp] theorem DeepCopy_apply (r : Ref) (s : St) :
    DeepCopy r s = (.ok (.own (r.get s)), s) := rfl

@[simp] theorem setPhase_own (v : gkev1.GKEClusterConfig) (p : String) (s : St) :
    setPhase (.own v) p s =
      (.ok (.own { v with Status := { v.Status with Phase := p } }), s) := rfl

@[simp] theorem setFailureMessage_own (v : gkev1.GKEClusterConfig) (m : String) (s : St) :
    setFailureMessage (.own v) m s =
      (.ok (.own { v with Status := { v.Status with FailureMessage := m } }), s) := rfl

@[simp] theorem UpdateStatus_apply (w : World) (r : Ref) (s : St) :
    UpdateStatus w r s =
      (.ok ((w.UpdateStatus s.trace (r.get s)).1.map Ref.own, (w.UpdateStatus s.trace (r.get s)).2),
       { s with trace :=
           s.trace ++ [.UpdateStatus (r.get s) (w.UpdateStatus s.trace (r.get s))] }) := rfl

@[simp] theorem Ref.get_own (v : gkev1.GKEClusterConfig) (s : St) : (Ref.own v).get s = v := rfl

@[simp] theorem Ref.get_cache (s : St) : Ref.cache.get s = s.cache := rfl

@[simp] theorem Ref.get_trace (r : Ref) (s : St) (t : List Event) :
    r.get { s with trace := t } = r.get s := by cases r <;> rfl

/-! The same, for `M.run`. -/

@[simp] theorem run_pure {α : Type} (a : α) (s : St) : (pure a : M α).run s = (.ok a, s) := rfl

@[simp] theorem run_bind {α β : Type} (x : M α) (f : α → M β) (s : St) :
    (x >>= f).run s = match x.run s with
      | (.ok a, s') => (f a).run s'
      | (.error p, s') => (.error p, s') := rfl

@[simp] theorem run_ofExcept {α : Type} (e : Except Panic α) (s : St) :
    (M.ofExcept e).run s = (e, s) := rfl

@[simp] theorem run_emit (e : Event) (s : St) :
    (emit e).run s = (.ok (), { s with trace := s.trace ++ [e] }) := rfl

@[simp] theorem run_load (r : Ref) (s : St) : (load r).run s = (.ok (r.get s), s) := rfl

@[simp] theorem run_DeepCopy (r : Ref) (s : St) :
    (DeepCopy r).run s = (.ok (.own (r.get s)), s) := rfl

@[simp] theorem run_setPhase_own (v : gkev1.GKEClusterConfig) (p : String) (s : St) :
    (setPhase (.own v) p).run s =
      (.ok (.own { v with Status := { v.Status with Phase := p } }), s) := rfl

@[simp] theorem run_setPhase_cache (p : String) (s : St) :
    (setPhase .cache p).run s =
      (.ok .cache,
        { s with cache := { s.cache with Status := { s.cache.Status with Phase := p } } }) := rfl

@[simp] theorem run_setFailureMessage_own (v : gkev1.GKEClusterConfig) (m : String) (s : St) :
    (setFailureMessage (.own v) m).run s =
      (.ok (.own { v with Status := { v.Status with FailureMessage := m } }), s) := rfl

@[simp] theorem run_callSecretsCacheGet (w : World) (ns id : String) (s : St) :
    (w.callSecretsCacheGet ns id).run s =
      (.ok (w.secretsCacheGet s.trace ns id),
        { s with trace := s.trace ++ [.secretsCacheGet ns id (w.secretsCacheGet s.trace ns id)] }) :=
  rfl

@[simp] theorem run_callGetGKEClient (w : World) (cred : String) (s : St) :
    (w.callGetGKEClient cred).run s =
      (.ok (w.GetGKEClient s.trace cred),
        { s with trace := s.trace ++ [.GetGKEClient cred (w.GetGKEClient s.trace cred)] }) := rfl

@[simp] theorem run_callClustersGet (w : World) (name : String) (s : St) :
    (w.callClustersGet name).run s =
      (.ok (w.ClustersGet s.trace name),
        { s with trace := s.trace ++ [.ClustersGet name (w.ClustersGet s.trace name)] }) := rfl

@[simp] theorem run_callClustersList (w : World) (parent : String) (s : St) :
    (w.callClustersList parent).run s =
      (.ok (w.ClustersList s.trace parent),
        { s with trace := s.trace ++ [.ClustersList parent (w.ClustersList s.trace parent)] }) := rfl

@[simp] theorem run_callClustersCreate (w : World) (parent : String)
    (req : gkeapi.CreateClusterRequest) (s : St) :
    (w.callClustersCreate parent req).run s =
      (.ok (w.ClustersCreate s.trace parent req),
        { s with trace :=
            s.trace ++ [.ClustersCreate parent req (w.ClustersCreate s.trace parent req)] }) := rfl

@[simp] theorem run_callProbe (w : World) (call : ProbeCall) (s : St) :
    (w.callProbe call).run s =
      (.ok (w.probe s.trace call),
        { s with trace := s.trace ++ [.probe call (w.probe s.trace call)] }) := rfl

@[simp] theorem run_UpdateStatus (w : World) (r : Ref) (s : St) :
    (UpdateStatus w r).run s =
      (.ok ((w.UpdateStatus s.trace (r.get s)).1.map Ref.own, (w.UpdateStatus s.trace (r.get s)).2),
       { s with trace :=
           s.trace ++ [.UpdateStatus (r.get s) (w.UpdateStatus s.trace (r.get s))] }) := rfl

/-! ## New events -/

theorem newEvents_append (s s' : St) (d : List Event) (h : s'.trace = s.trace ++ d) :
    newEvents s s' = d := by
  simp [newEvents, h]

@[simp] theorem newEvents_self (s : St) : newEvents s s = [] := by
  simp [newEvents]

@[simp] theorem newEvents_mk (s : St) (c : gkev1.GKEClusterConfig) (d : List Event) :
    newEvents s { cache := c, trace := s.trace ++ d } = d := by
  simp [newEvents]

@[simp] theorem newEvents_mk_mk (c c' : gkev1.GKEClusterConfig) (t d : List Event) :
    newEvents { cache := c, trace := t } { cache := c', trace := t ++ d } = d := by
  simp [newEvents]

@[simp] theorem probeEvents_nil : probeEvents [] = [] := rfl

@[simp] theorem probeEvents_append (a b : List Event) :
    probeEvents (a ++ b) = probeEvents a ++ probeEvents b := by
  simp [probeEvents]

@[simp] theorem probeEvents_probe (call : ProbeCall) (res : Status × Option GoError)
    (l : List Event) : probeEvents (.probe call res :: l) = (call, res) :: probeEvents l := rfl

@[simp] theorem probeEvents_secretsCacheGet (ns id : String) (res : Except GoError Secret)
    (l : List Event) : probeEvents (.secretsCacheGet ns id res :: l) = probeEvents l := rfl

@[simp] theorem probeEvents_GetGKEClient (cred : String) (res : Option GoError)
    (l : List Event) : probeEvents (.GetGKEClient cred res :: l) = probeEvents l := rfl

@[simp] theorem probeEvents_ClustersGet (name : String) (res : Except GoError gkeapi.Cluster)
    (l : List Event) : probeEvents (.ClustersGet name res :: l) = probeEvents l := rfl

@[simp] theorem probeEvents_UpdateStatus (obj : gkev1.GKEClusterConfig)
    (res : Option gkev1.GKEClusterConfig × Option GoError) (l : List Event) :
    probeEvents (.UpdateStatus obj res :: l) = probeEvents l := rfl

@[simp] theorem probeEvents_gkeEnqueue (ns name : String) (l : List Event) :
    probeEvents (.gkeEnqueue ns name :: l) = probeEvents l := rfl

@[simp] theorem probeEvents_gkeEnqueueAfter (ns name : String) (d : Int) (l : List Event) :
    probeEvents (.gkeEnqueueAfter ns name d :: l) = probeEvents l := rfl

@[simp] theorem statusWrites_nil : statusWrites [] = [] := rfl

@[simp] theorem statusWrites_append (a b : List Event) :
    statusWrites (a ++ b) = statusWrites a ++ statusWrites b := by
  simp [statusWrites]

@[simp] theorem statusWrites_UpdateStatus (obj : gkev1.GKEClusterConfig)
    (res : Option gkev1.GKEClusterConfig × Option GoError) (l : List Event) :
    statusWrites (.UpdateStatus obj res :: l) = obj :: statusWrites l := rfl

@[simp] theorem statusWrites_probe (call : ProbeCall) (res : Status × Option GoError)
    (l : List Event) : statusWrites (.probe call res :: l) = statusWrites l := rfl

@[simp] theorem statusWrites_secretsCacheGet (ns id : String) (res : Except GoError Secret)
    (l : List Event) : statusWrites (.secretsCacheGet ns id res :: l) = statusWrites l := rfl

@[simp] theorem statusWrites_GetGKEClient (cred : String) (res : Option GoError)
    (l : List Event) : statusWrites (.GetGKEClient cred res :: l) = statusWrites l := rfl

@[simp] theorem statusWrites_ClustersGet (name : String) (res : Except GoError gkeapi.Cluster)
    (l : List Event) : statusWrites (.ClustersGet name res :: l) = statusWrites l := rfl

@[simp] theorem statusWrites_gkeEnqueue (ns name : String) (l : List Event) :
    statusWrites (.gkeEnqueue ns name :: l) = statusWrites l := rfl

@[simp] theorem statusWrites_gkeEnqueueAfter (ns name : String) (d : Int) (l : List Event) :
    statusWrites (.gkeEnqueueAfter ns name d :: l) = statusWrites l := rfl

@[simp] theorem enqueues_nil : enqueues [] = [] := rfl

@[simp] theorem enqueues_append (a b : List Event) :
    enqueues (a ++ b) = enqueues a ++ enqueues b := by
  simp [enqueues]

@[simp] theorem enqueues_gkeEnqueue (ns name : String) (l : List Event) :
    enqueues (.gkeEnqueue ns name :: l) = (ns, name, none) :: enqueues l := rfl

@[simp] theorem enqueues_gkeEnqueueAfter (ns name : String) (d : Int) (l : List Event) :
    enqueues (.gkeEnqueueAfter ns name d :: l) = (ns, name, some d) :: enqueues l := rfl

@[simp] theorem enqueues_UpdateStatus (obj : gkev1.GKEClusterConfig)
    (res : Option gkev1.GKEClusterConfig × Option GoError) (l : List Event) :
    enqueues (.UpdateStatus obj res :: l) = enqueues l := rfl

@[simp] theorem enqueues_probe (call : ProbeCall) (res : Status × Option GoError)
    (l : List Event) : enqueues (.probe call res :: l) = enqueues l := rfl

@[simp] theorem enqueues_secretsCacheGet (ns id : String) (res : Except GoError Secret)
    (l : List Event) : enqueues (.secretsCacheGet ns id res :: l) = enqueues l := rfl

@[simp] theorem enqueues_GetGKEClient (cred : String) (res : Option GoError)
    (l : List Event) : enqueues (.GetGKEClient cred res :: l) = enqueues l := rfl

@[simp] theorem enqueues_ClustersGet (name : String) (res : Except GoError gkeapi.Cluster)
    (l : List Event) : enqueues (.ClustersGet name res :: l) = enqueues l := rfl

@[simp] theorem probeEvents_ClustersList (parent : String)
    (res : Option gkeapi.ListClustersResponse × Option GoError)
    (l : List Event) : probeEvents (.ClustersList parent res :: l) = probeEvents l := rfl

@[simp] theorem probeEvents_ClustersCreate (parent : String) (req : gkeapi.CreateClusterRequest)
    (res : Option gkeapi.Operation × Option GoError)
    (l : List Event) : probeEvents (.ClustersCreate parent req res :: l) = probeEvents l := rfl

@[simp] theorem statusWrites_ClustersList (parent : String)
    (res : Option gkeapi.ListClustersResponse × Option GoError)
    (l : List Event) : statusWrites (.ClustersList parent res :: l) = statusWrites l := rfl

@[simp] theorem statusWrites_ClustersCreate (parent : String) (req : gkeapi.CreateClusterRequest)
    (res : Option gkeapi.Operation × Option GoError)
    (l : List Event) : statusWrites (.ClustersCreate parent req res :: l) = statusWrites l := rfl

@[simp] theorem enqueues_ClustersList (parent : String)
    (res : Option gkeapi.ListClustersResponse × Option GoError)
    (l : List Event) : enqueues (.ClustersList parent res :: l) = enqueues l := rfl

@[simp] theorem enqueues_ClustersCreate (parent : String) (req : gkeapi.CreateClusterRequest)
    (res : Option gkeapi.Operation × Option GoError)
    (l : List Event) : enqueues (.ClustersCreate parent req res :: l) = enqueues l := rfl

theorem GoodLog_cons (c : ProbeCall) (plan : List ProbeCall)
    (e : ProbeCall × (Status × Option GoError))
    (log : List (ProbeCall × (Status × Option GoError))) :
    GoodLog (c :: plan) (e :: log) ↔ e.1 = c ∧ (stops e → log = []) ∧ GoodLog plan log :=
  Iff.rfl

theorem GoodLog_nil (plan : List ProbeCall) : GoodLog plan [] := by
  cases plan <;> simp [GoodLog]

/-! ## Probe logs -/

theorem GoodLog_map_fst (plan : List ProbeCall) (log : List (ProbeCall × (Status × Option GoError)))
    (h : GoodLog plan log) : log.map Prod.fst <+: plan := by
  induction log generalizing plan with
  | nil => simp
  | cons e log ih =>
    cases plan with
    | nil => simp [GoodLog] at h
    | cons c plan =>
      simp only [GoodLog] at h
      obtain ⟨h1, _, h3⟩ := h
      simp only [List.map_cons, h1]
      exact (List.prefix_cons_inj c).2 (ih plan h3)

theorem GoodLog_stops (plan : List ProbeCall) (log : List (ProbeCall × (Status × Option GoError)))
    (h : GoodLog plan log) (pre post : List (ProbeCall × (Status × Option GoError)))
    (e : ProbeCall × (Status × Option GoError)) (hl : log = pre ++ e :: post) (he : stops e) :
    post = [] := by
  induction pre generalizing plan log with
  | nil =>
    subst hl
    cases plan with
    | nil => simp [GoodLog] at h
    | cons c plan =>
      simp only [List.nil_append, GoodLog] at h
      exact h.2.1 he
  | cons x pre ih =>
    subst hl
    cases plan with
    | nil => simp [GoodLog] at h
    | cons c plan =>
      simp only [List.cons_append, GoodLog] at h
      exact ih plan _ h.2.2 rfl

theorem GoodLog_changed_le_one (plan : List ProbeCall)
    (log : List (ProbeCall × (Status × Option GoError))) (h : GoodLog plan log) :
    (log.filter (fun e => decide (e.2.1 = Status.Changed))).length ≤ 1 := by
  induction log generalizing plan with
  | nil => simp
  | cons e log ih =>
    cases plan with
    | nil => simp [GoodLog] at h
    | cons c plan =>
      simp only [GoodLog] at h
      obtain ⟨_, h2, h3⟩ := h
      by_cases hc : e.2.1 = Status.Changed
      · have : log = [] := h2 (Or.inl hc)
        subst this
        simp [hc]
      · simp only [List.filter_cons, hc, decide_False, Bool.false_eq_true, ↓reduceIte]
        exact ih plan h3

theorem logs_of_quiet {α : Type} {m : M α} (h : Quiet m) (plan : List ProbeCall) : Logs m plan := by
  intro s
  obtain ⟨d, h1, h2⟩ := h s
  exact ⟨d, h1, by rw [h2]; exact GoodLog_nil plan⟩

theorem quiet_pure {α : Type} (a : α) : Quiet (pure a : M α) := by
  intro s; exact ⟨[], by simp, rfl⟩

theorem enqueueUpdate_apply (w : World) (config : Ref) (s : St) :
    enqueueUpdate w config s =
      if (config.get s).Status.Phase = gkeConfigUpdatingPhase then
        (.ok (some config, none),
          { s with trace := s.trace ++ [.gkeEnqueue (config.get s).Namespace (config.get s).Name] })
      else
        UpdateStatus w (.own { config.get s with
          Status := { (config.get s).Status with Phase := gkeConfigUpdatingPhase } }) s := by
  unfold enqueueUpdate
  by_cases h : (config.get s).Status.Phase = gkeConfigUpdatingPhase <;> simp [h]

theorem setActive_apply (w : World) (config : Ref) (s : St) :
    setActive w config s =
      if (config.get s).Status.Phase = gkeConfigActivePhase then (.ok (some config, none), s)
      else
        UpdateStatus w (.own { config.get s with
          Status := { (config.get s).Status with Phase := gkeConfigActivePhase } }) s := by
  unfold setActive
  by_cases h : (config.get s).Status.Phase = gkeConfigActivePhase <;> simp [h]

theorem quiet_enqueueUpdate (w : World) (config : Ref) : Quiet (enqueueUpdate w config) := by
  intro s
  rw [enqueueUpdate_apply]
  by_cases h : (config.get s).Status.Phase = gkeConfigUpdatingPhase
  · simp only [if_pos h]
    exact ⟨_, rfl, by simp⟩
  · simp only [if_neg h, UpdateStatus_apply]
    exact ⟨_, rfl, by simp⟩

theorem quiet_setActive (w : World) (config : Ref) : Quiet (setActive w config) := by
  intro s
  rw [setActive_apply]
  by_cases h : (config.get s).Status.Phase = gkeConfigActivePhase
  · simp only [if_pos h]
    exact ⟨[], by simp, rfl⟩
  · simp only [if_neg h, UpdateStatus_apply]
    exact ⟨_, rfl, by simp⟩

theorem logs_probeThen (w : World) (config : Ref) (call : ProbeCall) (next : M Result)
    (plan : List ProbeCall) (hn : Logs next plan) :
    Logs (probeThen w config call next) (call :: plan) := by
  intro s
  unfold probeThen
  rcases hr : w.probe s.trace call with ⟨changed, _ | err⟩
  · by_cases hc : changed = Status.Changed
    · obtain ⟨d, h1, h2⟩ := quiet_enqueueUpdate w config
        { s with trace := s.trace ++ [.probe call (w.probe s.trace call)] }
      refine ⟨.probe call (w.probe s.trace call) :: d, ?_, ?_⟩
      · simp [hr, hc] at h1 ⊢
        exact h1
      · rw [probeEvents_probe, h2, GoodLog_cons]
        exact ⟨rfl, fun _ => rfl, GoodLog_nil plan⟩
    · obtain ⟨d, h1, h2⟩ := hn { s with trace := s.trace ++ [.probe call (w.probe s.trace call)] }
      refine ⟨.probe call (w.probe s.trace call) :: d, ?_, ?_⟩
      · simp [hr, hc] at h1 ⊢
        exact h1
      · rw [probeEvents_probe, GoodLog_cons]
        refine ⟨rfl, ?_, h2⟩
        intro hs
        simp [stops, hr, hc] at hs
  · refine ⟨[.probe call (w.probe s.trace call)], ?_, ?_⟩
    · simp [hr]
    · rw [probeEvents_probe, probeEvents_nil, GoodLog_cons]
      exact ⟨rfl, fun _ => rfl, GoodLog_nil plan⟩

theorem getSecret_apply (w : World) (config : Ref) (s : St) :
    ∃ cred err ns id,
      getSecret w config s =
        (.ok (cred, err),
          { s with trace := s.trace ++ [.secretsCacheGet ns id (w.secretsCacheGet s.trace ns id)] }) ∧
      (err = none → ∃ secret, w.secretsCacheGet s.trace ns id = .ok secret) := by
  unfold getSecret
  simp only [M_bind_apply, load_apply, callSecretsCacheGet_apply]
  rcases hp : utils.ParseCredential (config.get s).Spec.CredentialContent with ⟨ns, id⟩
  simp only []
  rcases hr : w.secretsCacheGet s.trace ns id with err | secret
  · exact ⟨"", some err, ns, id, by simp [hr], by simp⟩
  · simp only []
    cases hl : List.lookup "googlecredentialConfig-authEncodedJson" secret.Data with
    | none =>
      exact ⟨"", some ("could not read malformed cloud credential secret " ++ id ++
        " from namespace " ++ ns), ns, id, by simp [hr], by simp⟩
    | some v => exact ⟨v, none, ns, id, by simp [hr], fun _ => ⟨secret, hr⟩⟩

theorem logs_updateNodePools (w : World) (cred : String) (config : Ref)
    (c : gkev1.GKEClusterConfig) (m : List (String × gkev1.NodePoolConfig))
    (next : M Result) (hn : Quiet next) (nps : List gkev1.NodePoolConfig) :
    Logs (updateNodePools w cred config c m nps next) (nps.flatMap (nodePoolProbes cred c m)) := by
  induction nps with
  | nil => simpa [updateNodePools] using logs_of_quiet hn []
  | cons np rest ih =>
    intro s
    unfold updateNodePools
    cases hname : np.Name with
    | none => exact ⟨[], by simp [deref], GoodLog_nil _⟩
    | some name =>
      have := logs_probeThen w config
        (.UpdateNodePoolKubernetesVersionOrImageType cred np c (m.lookup name)) _ _
        (logs_probeThen w config (.UpdateNodePoolSize cred np c (m.lookup name)) _ _
          (logs_probeThen w config (.UpdateNodePoolAutoscaling cred np c (m.lookup name)) _ _ ih)) s
      simpa [deref, nodePoolProbes, hname] using this

theorem logs_addonsProbeThen (w : World) (config : Ref) (c : gkev1.GKEClusterConfig)
    (call : ProbeCall) (next : M Result) (plan : List ProbeCall) (hn : Logs next plan) :
    Logs (addonsProbeThen w config c call next) (call :: plan) := by
  intro s
  unfold addonsProbeThen
  rcases hr : w.probe s.trace call with ⟨changed, _ | err⟩
  · by_cases hc : changed = Status.Changed
    · obtain ⟨d, h1, h2⟩ := quiet_enqueueUpdate w config
        { s with trace := s.trace ++ [.probe call (w.probe s.trace call)] }
      refine ⟨.probe call (w.probe s.trace call) :: d, ?_, ?_⟩
      · simp [hr, hc] at h1 ⊢
        exact h1
      · rw [probeEvents_probe, h2, GoodLog_cons]
        exact ⟨rfl, fun _ => rfl, GoodLog_nil plan⟩
    · by_cases hrt : changed = Status.Retry
      · refine ⟨[.probe call (w.probe s.trace call),
          .gkeEnqueueAfter c.Namespace c.Name (wait * Second)], ?_, ?_⟩
        · simp [hr, hrt]
        · rw [probeEvents_probe, probeEvents_gkeEnqueueAfter, probeEvents_nil, GoodLog_cons]
          exact ⟨rfl, fun _ => rfl, GoodLog_nil plan⟩
      · obtain ⟨d, h1, h2⟩ := hn { s with trace := s.trace ++ [.probe call (w.probe s.trace call)] }
        refine ⟨.probe call (w.probe s.trace call) :: d, ?_, ?_⟩
        · simp [hr, hc, hrt] at h1 ⊢
          exact h1
        · rw [probeEvents_probe, GoodLog_cons]
          refine ⟨rfl, ?_, h2⟩
          intro hs
          simp [stops, hr, hc] at hs
  · refine ⟨[.probe call (w.probe s.trace call)], ?_, ?_⟩
    · simp [hr]
    · rw [probeEvents_probe, probeEvents_nil, GoodLog_cons]
      exact ⟨rfl, fun _ => rfl, GoodLog_nil plan⟩

theorem logs_tailProbes (w : World) (cred : String) (config : Ref) (c : gkev1.GKEClusterConfig)
    (upstreamSpec : gkev1.GKEClusterConfigSpec) :
    Logs
      (probeThen w config (.UpdateMasterAuthorizedNetworks cred c upstreamSpec)
        (probeThen w config (.UpdateLoggingMonitoringService cred c upstreamSpec)
          (probeThen w config (.UpdateNetworkPolicy cred c upstreamSpec)
            (updateNodePools w cred config c (buildNodePoolMap upstreamSpec.NodePools)
              c.Spec.NodePools (setActive w config)))))
      ((probePlan cred c upstreamSpec).drop 2) :=
  logs_probeThen w config _ _ _
    (logs_probeThen w config _ _ _
      (logs_probeThen w config _ _ _
        (logs_updateNodePools w cred config c _ _ (quiet_setActive w config) _)))

theorem logs_runProbes (w : World) (cred : String) (config : Ref) (c : gkev1.GKEClusterConfig)
    (upstreamSpec : gkev1.GKEClusterConfigSpec) :
    Logs (runProbes w cred config c upstreamSpec) (probePlan cred c upstreamSpec) :=
  logs_probeThen w config _ _ _
    (logs_addonsProbeThen w config c _ _ _ (logs_tailProbes w cred config c upstreamSpec))

/-- The two ways `updateUpstreamClusterState` goes on after the credential
lookup: it returns the lookup's error, or runs the probes. -/
theorem updateUpstreamClusterState_apply (w : World) (config : Ref)
    (upstreamSpec : gkev1.GKEClusterConfigSpec) (s : St) :
    ∃ ns id,
      (∃ err, updateUpstreamClusterState w config upstreamSpec s =
        (.ok (some config, some err),
          { s with trace :=
              s.trace ++ [.secretsCacheGet ns id (w.secretsCacheGet s.trace ns id)] })) ∨
      (∃ cred, updateUpstreamClusterState w config upstreamSpec s =
        runProbes w cred config (config.get s) upstreamSpec
          { s with trace :=
              s.trace ++ [.secretsCacheGet ns id (w.secretsCacheGet s.trace ns id)] }) := by
  obtain ⟨cred, err, ns, id, hg, _⟩ := getSecret_apply w config s
  refine ⟨ns, id, ?_⟩
  unfold updateUpstreamClusterState
  simp only [M_bind_apply, hg]
  cases err with
  | some err => exact Or.inl ⟨err, rfl⟩
  | none => exact Or.inr ⟨cred, by simp⟩

theorem logs_updateUpstreamClusterState (w : World) (config : Ref)
    (upstreamSpec : gkev1.GKEClusterConfigSpec) (s : St) :
    ∃ cred d, (updateUpstreamClusterState w config upstreamSpec s).2.trace = s.trace ++ d ∧
      GoodLog (probePlan cred (config.get s) upstreamSpec) (probeEvents d) := by
  obtain ⟨ns, id, ⟨err, h⟩ | ⟨cred, h⟩⟩ := updateUpstreamClusterState_apply w config upstreamSpec s
  · exact ⟨"", [.secretsCacheGet ns id (w.secretsCacheGet s.trace ns id)], by simp [h],
      by simp [GoodLog_nil]⟩
  · obtain ⟨d, h1, h2⟩ := logs_runProbes w cred config (config.get s) upstreamSpec
      { s with trace := s.trace ++ [.secretsCacheGet ns id (w.secretsCacheGet s.trace ns id)] }
    refine ⟨cred, .secretsCacheGet ns id (w.secretsCacheGet s.trace ns id) :: d, ?_, ?_⟩
    · simpa [h] using h1
    · simpa using h2

theorem probeThen_apply (w : World) (config : Ref) (call : ProbeCall) (next : M Result) (s : St) :
    probeThen w config call next s =
      match w.probe s.trace call with
      | (_, some err) =>
        (.ok (some config, some err),
          { s with trace := s.trace ++ [.probe call (w.probe s.trace call)] })
      | (changed, none) =>
        if changed = Status.Changed then
          enqueueUpdate w config
            { s with trace := s.trace ++ [.probe call (w.probe s.trace call)] }
        else next { s with trace := s.trace ++ [.probe call (w.probe s.trace call)] } := by
  unfold probeThen
  rcases hr : w.probe s.trace call with ⟨changed, _ | err⟩
  · by_cases hc : changed = Status.Changed <;> simp [hr, hc]
  · simp [hr]

theorem addonsProbeThen_apply (w : World) (config : Ref) (c : gkev1.GKEClusterConfig)
    (call : ProbeCall) (next : M Result) (s : St) :
    addonsProbeThen w config c call next s =
      match w.probe s.trace call with
      | (_, some err) =>
        (.ok (some config, some err),
          { s with trace := s.trace ++ [.probe call (w.probe s.trace call)] })
      | (changed, none) =>
        if changed = Status.Retry then
          (.ok (some config, none),
            { s with trace := s.trace ++ [.probe call (w.probe s.trace call),
                .gkeEnqueueAfter c.Namespace c.Name (wait * Second)] })
        else if changed = Status.Changed then
          enqueueUpdate w config
            { s with trace := s.trace ++ [.probe call (w.probe s.trace call)] }
        else next { s with trace := s.trace ++ [.probe call (w.probe s.trace call)] } := by
  unfold addonsProbeThen
  rcases hr : w.probe s.trace call with ⟨changed, _ | err⟩
  · by_cases hc : changed = Status.Changed <;> by_cases hrt : changed = Status.Retry <;>
      simp [hr, hc, hrt]
  · simp [hr]

theorem extends_of_logs {α : Type} {m : M α} {plan : List ProbeCall} (h : Logs m plan) (s : St) :
    ∃ d, (m s).2.trace = s.trace ++ d := by
  obtain ⟨d, h1, _⟩ := h s
  exact ⟨d, h1⟩

theorem GoodLog_mem (plan : List ProbeCall) (log : List (ProbeCall × (Status × Option GoError)))
    (h : GoodLog plan log) (e : ProbeCall × (Status × Option GoError)) (he : e ∈ log) :
    e.1 ∈ plan := by
  have hp := GoodLog_map_fst plan log h
  exact hp.subset (List.mem_map_of_mem Prod.fst he)

theorem inv_probeThen (w : World) (config : Ref) (call : ProbeCall) (next : M Result)
    (hn : ∀ s, ∃ d, (next s).2.trace = s.trace ++ d) (s : St) (c0 : ProbeCall)
    (rest : List (ProbeCall × (Status × Option GoError)))
    (h : probeEvents (newEvents s (probeThen w config call next s).2) =
      (c0, quietAnswer) :: rest) :
    probeThen w config call next s =
        next { s with trace := s.trace ++ [.probe call quietAnswer] } ∧
      probeEvents (newEvents { s with trace := s.trace ++ [.probe call quietAnswer] }
        (next { s with trace := s.trace ++ [.probe call quietAnswer] }).2) = rest := by
  unfold probeThen at h ⊢
  rcases hr : w.probe s.trace call with ⟨changed, _ | err⟩
  · by_cases hc : changed = Status.Changed
    · obtain ⟨d, h1, h2⟩ := quiet_enqueueUpdate w config
        { s with trace := s.trace ++ [.probe call (w.probe s.trace call)] }
      simp [hr, hc] at h h1
      rw [newEvents_append _ _ (.probe call (Status.Changed, none) :: d) (by simp [h1])] at h
      simp [quietAnswer] at h
    · obtain ⟨d, h1⟩ := hn { s with trace := s.trace ++ [.probe call (w.probe s.trace call)] }
      simp [hr, hc] at h h1 ⊢
      rw [newEvents_append _ _ (.probe call (changed, none) :: d) (by simp [h1])] at h
      simp [quietAnswer] at h
      obtain ⟨⟨_, h3⟩, h4⟩ := h
      subst h3
      refine ⟨rfl, ?_⟩
      rw [newEvents_append _ _ d (by simp [quietAnswer, h1])]
      exact h4
  · simp [hr, quietAnswer] at h



theorem inv_addonsProbeThen (w : World) (config : Ref) (c : gkev1.GKEClusterConfig)
    (call : ProbeCall) (next : M Result)
    (hn : ∀ s, ∃ d, (next s).2.trace = s.trace ++ d) (s : St) (c0 : ProbeCall)
    (rest : List (ProbeCall × (Status × Option GoError)))
    (h : probeEvents (newEvents s (addonsProbeThen w config c call next s).2) =
      (c0, quietAnswer) :: rest) :
    addonsProbeThen w config c call next s =
        next { s with trace := s.trace ++ [.probe call quietAnswer] } ∧
      probeEvents (newEvents { s with trace := s.trace ++ [.probe call quietAnswer] }
        (next { s with trace := s.trace ++ [.probe call quietAnswer] }).2) = rest := by
  unfold addonsProbeThen at h ⊢
  rcases hr : w.probe s.trace call with ⟨changed, _ | err⟩
  · by_cases hc : changed = Status.Changed
    · obtain ⟨d, h1, h2⟩ := quiet_enqueueUpdate w config
        { s with trace := s.trace ++ [.probe call (w.probe s.trace call)] }
      simp [hr, hc] at h h1
      rw [newEvents_append _ _ (.probe call (Status.Changed, none) :: d) (by simp [h1])] at h
      simp [quietAnswer] at h
    · by_cases hrt : changed = Status.Retry
      · simp [hr, hrt, quietAnswer] at h
      · obtain ⟨d, h1⟩ := hn { s with trace := s.trace ++ [.probe call (w.probe s.trace call)] }
        simp [hr, hc, hrt] at h h1 ⊢
        rw [newEvents_append _ _ (.probe call (changed, none) :: d) (by simp [h1])] at h
        simp [quietAnswer] at h
        obtain ⟨⟨_, h3⟩, h4⟩ := h
        subst h3
        refine ⟨rfl, ?_⟩
        rw [newEvents_append _ _ d (by simp [quietAnswer, h1])]
        exact h4
  · simp [hr, quietAnswer] at h

theorem inv_updateNodePools (w : World) (cred : String) (config : Ref)
    (c : gkev1.GKEClusterConfig) (m : List (String × gkev1.NodePoolConfig))
    (next : M Result) (hn : Quiet next) (plan : gkev1.NodePoolConfig → List ProbeCall)
    (hplan : ∀ np, (plan np).length = 3)
    (nps : List gkev1.NodePoolConfig) (s : St)
    (h : probeEvents (newEvents s (updateNodePools w cred config c m nps next s).2) =
      quietLog (nps.flatMap plan)) :
    ∃ d, probeEvents d = quietLog (nps.flatMap (nodePoolProbes cred c m)) ∧
      statusWrites d = [] ∧ enqueues d = [] ∧
      updateNodePools w cred config c m nps next s = next { s with trace := s.trace ++ d } := by
  induction nps generalizing s with
  | nil => exact ⟨[], by simp [quietLog], rfl, rfl, by simp [updateNodePools]⟩
  | cons np rest ih =>
    have hq := logs_updateNodePools w cred config c m next hn rest
    unfold updateNodePools at h ⊢
    obtain ⟨p1, p2, p3, hp⟩ : ∃ p1 p2 p3, plan np = [p1, p2, p3] :=
      List.length_eq_three.1 (hplan np)
    cases hname : np.Name with
    | none =>
      simp only [hname, deref, M_bind_apply, M_ofExcept_apply, newEvents_self, probeEvents_nil,
        List.flatMap_cons, hp, quietLog, List.cons_append, List.map_cons] at h
      exact absurd h (by simp)
    | some name =>
      simp only [hname, deref, M_bind_apply, M_ofExcept_apply] at h ⊢
      simp only [List.flatMap_cons, hp, quietLog, List.cons_append, List.nil_append,
        List.map_cons] at h
      obtain ⟨e1, h1⟩ := inv_probeThen w config _ _
        (fun s => extends_of_logs (logs_probeThen w config _ _ _
          (logs_probeThen w config _ _ _ hq)) s) s _ _ h
      obtain ⟨e2, h2⟩ := inv_probeThen w config _ _
        (fun s => extends_of_logs (logs_probeThen w config _ _ _ hq) s) _ _ _ h1
      obtain ⟨e3, h3⟩ := inv_probeThen w config _ _ (fun s => extends_of_logs hq s) _ _ _ h2
      obtain ⟨d, hd1, hd2, hd3, hd4⟩ := ih _ h3
      refine ⟨.probe (.UpdateNodePoolKubernetesVersionOrImageType cred np c (m.lookup name))
          quietAnswer ::
        .probe (.UpdateNodePoolSize cred np c (m.lookup name)) quietAnswer ::
        .probe (.UpdateNodePoolAutoscaling cred np c (m.lookup name)) quietAnswer :: d,
        ?_, ?_, ?_, ?_⟩
      · simp [hd1, quietLog, nodePoolProbes, hname]
      · simp [hd2]
      · simp [hd3]
      · rw [e1, e2, e3, hd4]
        simp

theorem updateUpstreamClusterState_quiet_run (w : World) (config : Ref)
    (upstreamSpec : gkev1.GKEClusterConfigSpec) (s : St) (cred : String)
    (hquiet : probeEvents (newEvents s (updateUpstreamClusterState w config upstreamSpec s).2) =
      quietLog (probePlan cred (config.get s) upstreamSpec)) :
    ∃ d, statusWrites d = [] ∧ enqueues d = [] ∧
      updateUpstreamClusterState w config upstreamSpec s =
        setActive w config { s with trace := s.trace ++ d } := by
  obtain ⟨ns, id, ⟨err, h⟩ | ⟨cred', h⟩⟩ := updateUpstreamClusterState_apply w config upstreamSpec s
  · simp [h, quietLog, probePlan] at hquiet
  · rw [h] at hquiet ⊢
    have hc := logs_runProbes w cred' config (config.get s) upstreamSpec
    have ht := logs_tailProbes w cred' config (config.get s) upstreamSpec
    obtain ⟨d0, hd0⟩ := extends_of_logs hc
      { s with trace := s.trace ++ [.secretsCacheGet ns id (w.secretsCacheGet s.trace ns id)] }
    rw [newEvents_append _ _ (.secretsCacheGet ns id (w.secretsCacheGet s.trace ns id) :: d0)
      (by simp [hd0])] at hquiet
    rw [probeEvents_secretsCacheGet, ← newEvents_append _ _ d0 hd0] at hquiet
    simp only [quietLog, probePlan, List.cons_append, List.nil_append, List.map_cons] at hquiet
    unfold runProbes at hquiet ⊢
    obtain ⟨e1, h1⟩ := inv_probeThen w config _ _
      (fun s => extends_of_logs (logs_addonsProbeThen w config _ _ _ _ ht) s) _ _ _ hquiet
    obtain ⟨e2, h2⟩ := inv_addonsProbeThen w config _ _ _ (fun s => extends_of_logs ht s) _ _ _ h1
    have hl := logs_updateNodePools w cred' config (config.get s)
      (buildNodePoolMap upstreamSpec.NodePools) _ (quiet_setActive w config)
      (config.get s).Spec.NodePools
    obtain ⟨e3, h3⟩ := inv_probeThen w config _ _
      (fun s => extends_of_logs (logs_probeThen w config _ _ _ (logs_probeThen w config _ _ _ hl)) s)
      _ _ _ h2
    obtain ⟨e4, h4⟩ := inv_probeThen w config _ _
      (fun s => extends_of_logs (logs_probeThen w config _ _ _ hl) s) _ _ _ h3
    obtain ⟨e5, h5⟩ := inv_probeThen w config _ _ (fun s => extends_of_logs hl s) _ _ _ h4
    obtain ⟨d, hd1, hd2, hd3, hd4⟩ := inv_updateNodePools w cred' config (config.get s) _ _
      (quiet_setActive w config)
      (nodePoolProbes cred (config.get s) (buildNodePoolMap upstreamSpec.NodePools))
      (fun np => rfl) _ _ h5
    refine ⟨.secretsCacheGet ns id (w.secretsCacheGet s.trace ns id) ::
      .probe (.UpdateMasterKubernetesVersion cred' (config.get s) upstreamSpec) quietAnswer ::
      .probe (.UpdateClusterAddons cred' (config.get s) upstreamSpec) quietAnswer ::
      .probe (.UpdateMasterAuthorizedNetworks cred' (config.get s) upstreamSpec) quietAnswer ::
      .probe (.UpdateLoggingMonitoringService cred' (config.get s) upstreamSpec) quietAnswer ::
      .probe (.UpdateNetworkPolicy cred' (config.get s) upstreamSpec) quietAnswer :: d,
      by simp [hd2], by simp [hd3], ?_⟩
    exact e1.trans (e2.trans (e3.trans (e4.trans (e5.trans (hd4.trans (by simp))))))

/-- What a call does when its probe log is the quiet log of the whole plan:
the shared object is left alone, nothing is enqueued, in phase `active` the
config is returned without a status write, and in any other phase the one
status write carries phase `active` and its answer is returned. -/
theorem updateUpstreamClusterState_quiet_outcome (w : World) (config : Ref)
    (upstreamSpec : gkev1.GKEClusterConfigSpec) (s : St) (cred : String)
    (hquiet : probeEvents (newEvents s (updateUpstreamClusterState w config upstreamSpec s).2) =
      quietLog (probePlan cred (config.get s) upstreamSpec)) :
    let out := updateUpstreamClusterState w config upstreamSpec s
    let new := newEvents s out.2
    out.2.cache = s.cache ∧ enqueues new = [] ∧
    ((config.get s).Status.Phase = gkeConfigActivePhase →
      out.1 = .ok (some config, none) ∧ statusWrites new = []) ∧
    ((config.get s).Status.Phase ≠ gkeConfigActivePhase →
      ∃ pre res, new = pre ++ [.UpdateStatus (withPhase (config.get s) gkeConfigActivePhase) res] ∧
        statusWrites pre = [] ∧ out.1 = .ok (res.1.map Ref.own, res.2)) ∧
    (EchoesPhase w → ∀ ref, out.1 = .ok (some ref, none) →
      (ref.get out.2).Status.Phase = gkeConfigActivePhase) := by
  intro out new
  obtain ⟨d, hd1, hd2, hrun⟩ :=
    updateUpstreamClusterState_quiet_run w config upstreamSpec s cred hquiet
  have hout : out = setActive w config { s with trace := s.trace ++ d } := hrun
  rw [setActive_apply] at hout
  by_cases hp : (config.get s).Status.Phase = gkeConfigActivePhase
  · simp only [Ref.get_trace, hp, if_true] at hout
    have hnew : new = d := by simp [new, hout]
    refine ⟨by simp [hout], by simp [hnew, hd2], fun _ => ⟨by simp [hout], by simp [hnew, hd1]⟩,
      fun h => absurd hp h, ?_⟩
    intro _ ref href
    simp [hout] at href
    subst href
    simpa [hout] using hp
  · simp only [Ref.get_trace, hp, if_false, UpdateStatus_apply, Ref.get_own] at hout
    have hnew : new = d ++ [.UpdateStatus (withPhase (config.get s) gkeConfigActivePhase)
        (w.UpdateStatus (s.trace ++ d) (withPhase (config.get s) gkeConfigActivePhase))] := by
      simp [new, hout, withPhase]
    refine ⟨by simp [hout], by simp [hnew, hd2], fun h => absurd h hp, fun _ =>
      ⟨d, _, hnew, hd1, by simp [hout, withPhase]⟩, ?_⟩
    intro hw ref href
    simp only [hout] at href
    rcases hr : w.UpdateStatus (s.trace ++ d)
      { config.get s with Status := { (config.get s).Status with Phase := gkeConfigActivePhase } }
      with ⟨o, e⟩
    rw [hr] at href
    cases o with
    | none => simp at href
    | some o =>
      simp at href
      obtain ⟨h1, h2⟩ := href
      subst h1 h2
      simpa using hw _ _ _ hr

theorem tail_plan_no_addons (cred : String) (c : gkev1.GKEClusterConfig)
    (upstreamSpec : gkev1.GKEClusterConfigSpec) (call : ProbeCall)
    (h : call ∈ (probePlan cred c upstreamSpec).drop 2) (cred0 : String)
    (c0 : gkev1.GKEClusterConfig) (up0 : gkev1.GKEClusterConfigSpec) :
    call ≠ .UpdateClusterAddons cred0 c0 up0 := by
  simp only [probePlan, List.cons_append, List.nil_append, List.drop_succ_cons, List.drop_zero,
    List.mem_cons, List.mem_flatMap, nodePoolProbes, List.mem_singleton, List.not_mem_nil,
    or_false] at h
  rcases h with h | h | h | ⟨np, _, h | h | h⟩ <;> simp [h]

/-- C4, retry. When the cluster-addons probe answers `Retry`,
`updateUpstreamClusterState` returns the config it was given with no error
(so with its phase unchanged), writes no status, enqueues the object once,
after 30 seconds, and the probes it consulted are exactly the master-version
probe and the addons probe: none of the later ones. -/
theorem updateUpstreamClusterState_retry (w : World) (config : Ref)
    (upstreamSpec : gkev1.GKEClusterConfigSpec) (s : St) (cred0 : String)
    (c0 : gkev1.GKEClusterConfig) (up0 : gkev1.GKEClusterConfigSpec)
    (hretry : (ProbeCall.UpdateClusterAddons cred0 c0 up0, (Status.Retry, none)) ∈
      probeEvents (newEvents s (updateUpstreamClusterState w config upstreamSpec s).2)) :
    let out := updateUpstreamClusterState w config upstreamSpec s
    let new := newEvents s out.2
    out.1 = .ok (some config, none) ∧ out.2.cache = s.cache ∧
    statusWrites new = [] ∧
    enqueues new = [((config.get s).Namespace, (config.get s).Name, some (30 * Second))] ∧
    ∃ cred r1, probeEvents new =
      [ (.UpdateMasterKubernetesVersion cred (config.get s) upstreamSpec, r1),
        (.UpdateClusterAddons cred (config.get s) upstreamSpec, (Status.Retry, none)) ] := by
  intro out new
  have hout : out = updateUpstreamClusterState w config upstreamSpec s := rfl
  have hnew : new = newEvents s out.2 := rfl
  rw [← hout, ← hnew] at hretry
  clear_value out new
  obtain ⟨ns, id, ⟨err, h⟩ | ⟨cred, h⟩⟩ := updateUpstreamClusterState_apply w config upstreamSpec s
  · rw [h] at hout
    subst hout
    simp [hnew] at hretry
  · rw [h] at hout
    unfold runProbes at hout
    rw [probeThen_apply] at hout
    dsimp only at hout
    split at hout
    · rename_i heq
      simp only [heq] at hout
      subst hout
      simp [hnew] at hretry
    · rename_i heq
      simp only [heq] at hout
      split at hout
      · obtain ⟨d, h1, h2⟩ := quiet_enqueueUpdate w config _
        rw [← hout] at h1
        rw [hnew, newEvents_append _ _ _ (by simpa using h1)] at hretry
        simp [h2] at hretry
      · rw [addonsProbeThen_apply] at hout
        dsimp only at hout
        split at hout
        · rename_i heq2
          simp only [heq2] at hout
          subst hout
          simp [hnew] at hretry
        · rename_i heq2
          simp only [heq2] at hout
          split at hout
          · subst hout
            rename_i hrt
            simp only [hrt] at hnew ⊢
            simp only [List.append_assoc, List.singleton_append, List.cons_append,
              List.nil_append, newEvents_mk] at hnew
            subst hnew
            rename_i _ ch1 _ _ _
            exact ⟨by simp, by simp, by simp, by simp [wait, Second], cred, (ch1, none), by simp⟩
          · split at hout
            · obtain ⟨d, h1, h2⟩ := quiet_enqueueUpdate w config _
              rw [← hout] at h1
              rw [hnew, newEvents_append _ _ _ (by simpa using h1)] at hretry
              simp [h2] at hretry
              simp_all
            · obtain ⟨d, h1, h2⟩ := logs_tailProbes w cred config (config.get s) upstreamSpec _
              rw [← hout] at h1
              rw [hnew, newEvents_append _ _ _ (by simpa using h1)] at hretry
              simp at hretry
              rcases hretry with hretry | hretry
              · simp_all
              · exact absurd rfl
                  (tail_plan_no_addons cred (config.get s) upstreamSpec _
                    (GoodLog_mem _ _ h2 _ hretry) cred0 c0 up0)

/-- The probe log of one call, whatever the world answers: it is an initial
segment of the plan for some credential, an answer `Changed` or an error is
its last entry, and at most one answer is `Changed`. -/
theorem updateUpstreamClusterState_probe_log (w : World) (config : Ref)
    (upstreamSpec : gkev1.GKEClusterConfigSpec) (s : St) :
    let log := probeEvents (newEvents s (updateUpstreamClusterState w config upstreamSpec s).2)
    (∃ cred rest, log.map Prod.fst ++ rest = probePlan cred (config.get s) upstreamSpec) ∧
    (∀ pre e post, log = pre ++ e :: post → (e.2.1 = Status.Changed ∨ e.2.2 ≠ none) →
      post = []) ∧
    (log.filter (fun e => decide (e.2.1 = Status.Changed))).length ≤ 1 := by
  intro log
  obtain ⟨cred, d, h1, h2⟩ := logs_updateUpstreamClusterState w config upstreamSpec s
  have hlog : log = probeEvents d := by
    simp only [log]
    rw [newEvents_append _ _ d h1]
  rw [hlog]
  refine ⟨⟨cred, ?_⟩, ?_, GoodLog_changed_le_one _ _ h2⟩
  · obtain ⟨rest, hrest⟩ := GoodLog_map_fst _ _ h2
    exact ⟨rest, hrest⟩
  · intro pre e post hl he
    exact GoodLog_stops _ _ h2 pre post e hl he

/-! ## Phase steps -/

theorem phase_write (w : World) (hw : EchoesPhase w) (v : gkev1.GKEClusterConfig) (s : St)
    (ref : Ref) (s' : St) (h : UpdateStatus w (.own v) s = (.ok (some ref, none), s')) :
    (ref.get s').Status.Phase = v.Status.Phase := by
  simp only [UpdateStatus_apply, Ref.get_own, Prod.mk.injEq, Except.ok.injEq] at h
  obtain ⟨⟨h1, h2⟩, h3⟩ := h
  rcases hr : w.UpdateStatus s.trace v with ⟨o, e⟩
  rw [hr] at h1 h2
  cases o with
  | none => simp at h1
  | some o =>
    simp only [Option.map_some', Option.some.injEq] at h1
    subst h1
    simp only at h2
    subst h2
    simpa using hw _ _ _ hr

theorem phase_enqueueUpdate (w : World) (hw : EchoesPhase w) (config : Ref) (s : St)
    (ref : Ref) (s' : St) (h : enqueueUpdate w config s = (.ok (some ref, none), s')) :
    (ref.get s').Status.Phase = (config.get s).Status.Phase ∨
      (ref.get s').Status.Phase = gkeConfigUpdatingPhase := by
  rw [enqueueUpdate_apply] at h
  split at h
  · simp only [Prod.mk.injEq, Except.ok.injEq, Option.some.injEq, and_true] at h
    obtain ⟨h1, h2⟩ := h
    subst h1 h2
    left; simp
  · right
    simpa using phase_write w hw _ _ _ _ h

theorem phase_setActive (w : World) (hw : EchoesPhase w) (config : Ref) (s : St)
    (ref : Ref) (s' : St) (h : setActive w config s = (.ok (some ref, none), s')) :
    (ref.get s').Status.Phase = (config.get s).Status.Phase ∨
      (ref.get s').Status.Phase = gkeConfigActivePhase := by
  rw [setActive_apply] at h
  split at h
  · simp only [Prod.mk.injEq, Except.ok.injEq, Option.some.injEq, and_true] at h
    obtain ⟨h1, h2⟩ := h
    subst h1 h2
    left; rfl
  · right
    simpa using phase_write w hw _ _ _ _ h

theorem steps_enqueueUpdate (w : World) (hw : EchoesPhase w) (config : Ref) :
    Steps config (enqueueUpdate w config) := by
  intro s ref s' h
  rcases phase_enqueueUpdate w hw config s ref s' h with h | h
  · exact Or.inl h
  · exact Or.inr (Or.inl h)

theorem steps_setActive (w : World) (hw : EchoesPhase w) (config : Ref) :
    Steps config (setActive w config) := by
  intro s ref s' h
  rcases phase_setActive w hw config s ref s' h with h | h
  · exact Or.inl h
  · exact Or.inr (Or.inr h)

theorem steps_probeThen (w : World) (hw : EchoesPhase w) (config : Ref) (call : ProbeCall)
    (next : M Result) (hn : Steps config next) : Steps config (probeThen w config call next) := by
  intro s ref s' h
  rw [probeThen_apply] at h
  split at h
  · simp at h
  · split at h
    · simpa using steps_enqueueUpdate w hw config _ _ _ h
    · simpa using hn _ _ _ h

theorem steps_addonsProbeThen (w : World) (hw : EchoesPhase w) (config : Ref)
    (c : gkev1.GKEClusterConfig) (call : ProbeCall)
    (next : M Result) (hn : Steps config next) :
    Steps config (addonsProbeThen w config c call next) := by
  intro s ref s' h
  rw [addonsProbeThen_apply] at h
  split at h
  · simp at h
  · split at h
    · simp only [Prod.mk.injEq, Except.ok.injEq, Option.some.injEq, and_true] at h
      obtain ⟨h1, h2⟩ := h
      subst h1 h2
      left; simp
    · split at h
      · simpa using steps_enqueueUpdate w hw config _ _ _ h
      · simpa using hn _ _ _ h

theorem steps_updateNodePools (w : World) (hw : EchoesPhase w) (cred : String) (config : Ref)
    (c : gkev1.GKEClusterConfig) (m : List (String × gkev1.NodePoolConfig))
    (next : M Result) (hn : Steps config next) (nps : List gkev1.NodePoolConfig) :
    Steps config (updateNodePools w cred config c m nps next) := by
  induction nps with
  | nil => simpa [updateNodePools] using hn
  | cons np rest ih =>
    intro s ref s' h
    unfold updateNodePools at h
    cases hname : np.Name with
    | none => simp [hname, deref] at h
    | some name =>
      simp only [hname, deref, M_bind_apply, M_ofExcept_apply] at h
      exact steps_probeThen w hw config _ _
        (steps_probeThen w hw config _ _ (steps_probeThen w hw config _ _ ih)) _ _ _ h

theorem steps_updateUpstreamClusterState (w : World) (hw : EchoesPhase w) (config : Ref)
    (upstreamSpec : gkev1.GKEClusterConfigSpec) :
    Steps config (updateUpstreamClusterState w config upstreamSpec) := by
  intro s ref s' h
  obtain ⟨ns, id, ⟨err, h'⟩ | ⟨cred, h'⟩⟩ := updateUpstreamClusterState_apply w config upstreamSpec s
  · rw [h'] at h
    simp at h
  · rw [h'] at h
    unfold runProbes at h
    simpa using steps_probeThen w hw config _ _
      (steps_addonsProbeThen w hw config _ _ _
        (steps_probeThen w hw config _ _
          (steps_probeThen w hw config _ _
            (steps_probeThen w hw config _ _
              (steps_updateNodePools w hw cred config _ _ _ (steps_setActive w hw config) _)))))
      _ _ _ h

theorem run_getSecret (w : World) (config : Ref) (s : St) :
    ∃ cred err ns id,
      (getSecret w config).run s =
        (.ok (cred, err),
          { s with trace := s.trace ++ [.secretsCacheGet ns id (w.secretsCacheGet s.trace ns id)] }) ∧
      (err = none → ∃ secret, w.secretsCacheGet s.trace ns id = .ok secret) :=
  getSecret_apply w config s

theorem phase_waitForCreationComplete (w : World) (hw : EchoesPhase w) (config : Ref) (s : St)
    (ref : Ref) (s' : St)
    (h : waitForCreationComplete w config s = (.ok (some ref, none), s')) :
    (ref.get s').Status.Phase = (config.get s).Status.Phase ∨
      (ref.get s').Status.Phase = gkeConfigActivePhase := by
  obtain ⟨cred, err, ns, id, hg, _⟩ := run_getSecret w config s
  change (waitForCreationComplete w config).run s = _ at h
  unfold waitForCreationComplete at h
  simp only [run_bind, run_load, hg] at h
  split at h
  · simp at h
  · simp only [run_bind, run_callGetGKEClient] at h
    split at h
    · simp at h
    · simp only [run_bind, run_callClustersGet] at h
      split at h
      · simp at h
      · split at h
        · simp at h
        · split at h
          · simp only [run_bind, run_DeepCopy, run_setPhase_own] at h
            right
            simpa using phase_write w hw _ _ _ _ h
          · simp only [run_bind, run_emit, run_pure, Prod.mk.injEq, Except.ok.injEq,
              Option.some.injEq, and_true] at h
            obtain ⟨h1, h2⟩ := h
            subst h1 h2
            left; simp

theorem phase_create (w : World) (hw : EchoesPhase w) (config : Ref) (s : St)
    (ref : Ref) (s' : St) (h : create w config s = (.ok (some ref, none), s')) :
    (ref.get s').Status.Phase = gkeConfigImportingPhase ∨
      (ref.get s').Status.Phase = gkeConfigCreatingPhase := by
  obtain ⟨cred, err, ns, id, hg, _⟩ := run_getSecret w config s
  change (create w config).run s = _ at h
  unfold create at h
  simp only [run_bind, run_load] at h
  split at h
  · simp only [run_bind, run_DeepCopy, run_setPhase_own] at h
    left
    simpa using phase_write w hw _ _ _ _ h
  · simp only [run_bind, hg] at h
    split at h
    · simp at h
    · simp only [run_bind] at h
      split at h
      · split at h
        · simp at h
        · simp only [run_bind, run_DeepCopy, run_setPhase_own] at h
          right
          simpa using phase_write w hw _ _ _ _ h
      · simp at h

theorem phase_importCluster (w : World) (hw : EchoesPhase w) (config : Ref) (s : St)
    (ref : Ref) (s' : St) (h : importCluster w config s = (.ok (some ref, none), s')) :
    (ref.get s').Status.Phase = gkeConfigActivePhase := by
  change (importCluster w config).run s = _ at h
  unfold importCluster at h
  cases config with
  | cache =>
    simp only [run_bind, run_setPhase_cache, run_UpdateStatus, Ref.get_cache, Prod.mk.injEq,
      Except.ok.injEq] at h
    obtain ⟨⟨h1, h2⟩, h3⟩ := h
    rcases hr : w.UpdateStatus s.trace
      { s.cache with Status := { s.cache.Status with Phase := gkeConfigActivePhase } } with ⟨o, e⟩
    rw [hr] at h1 h2
    cases o with
    | none => simp at h1
    | some o =>
      simp only [Option.map_some', Option.some.injEq] at h1
      subst h1
      simp only at h2
      subst h2
      simpa using hw _ _ _ hr
  | own v =>
    simp only [run_bind, run_setPhase_own] at h
    simpa using phase_write w hw _ _ _ _ h

theorem steps_checkAndUpdate (w : World) (hw : EchoesPhase w) (config : Ref) :
    Steps config (checkAndUpdate w config) := by
  intro s ref s' h
  obtain ⟨cred, err, ns, id, hg, _⟩ := run_getSecret w config s
  change (checkAndUpdate w config).run s = _ at h
  unfold checkAndUpdate at h
  simp only [run_bind, run_load] at h
  split at h
  · simp only [run_bind, run_DeepCopy, run_setPhase_own, run_UpdateStatus] at h
    split at h <;> simp at h
  · simp only [run_bind, hg] at h
    split at h
    · simp at h
    · simp only [run_bind, run_callGetGKEClient] at h
      split at h
      · simp at h
      · simp only [run_bind, run_callClustersGet] at h
        split at h
        · simp at h
        · split at h
          · split at h
            · simp only [run_bind, run_DeepCopy, run_setPhase_own] at h
              right; left
              simpa using phase_write w hw _ _ _ _ h
            · simp only [run_bind, run_emit, run_pure, Prod.mk.injEq, Except.ok.injEq,
                Option.some.injEq, and_true] at h
              obtain ⟨h1, h2⟩ := h
              subst h1 h2
              left; simp
          · split at h
            · split at h
              · simp only [run_bind, run_DeepCopy, run_setPhase_own] at h
                split at h
                · rename_i a s4 heq
                  rcases a with ⟨o, e⟩
                  cases e with
                  | some e => simp at h
                  | none =>
                    cases o with
                    | none => simp [deref] at h
                    | some o =>
                      simp only [run_bind, run_ofExcept, deref, run_load, run_emit, run_pure,
                        Prod.mk.injEq, Except.ok.injEq, Option.some.injEq, and_true] at h
                      obtain ⟨h1, h2⟩ := h
                      subst h1 h2
                      right; left
                      simpa using phase_write w hw _ _ _ _ heq
                · simp at h
              · simp only [run_bind, run_emit, run_pure, Prod.mk.injEq, Except.ok.injEq,
                  Option.some.injEq, and_true] at h
                obtain ⟨h1, h2⟩ := h
                subst h1 h2
                left; simp
            · simp only [run_bind, run_ofExcept] at h
              split at h
              · rename_i heq
                simp only [Prod.mk.injEq] at heq
                obtain ⟨_, h4⟩ := heq
                subst h4
                split at h
                · simp at h
                · simpa using steps_updateUpstreamClusterState w hw config _ _ _ _ h
              · simp at h

/-- C1, phase monotonicity. Whatever the secret lookup, the provider and the
update probes answer, and provided a successful status write gives back an
object in the phase it was given, a reconcile by `OnGkeConfigChanged` that
returns an object and no error returns it either in the phase the input had
or along one of the edges `"" → creating`, `"" → importing`,
`importing → active`, `creating → active`, `active → updating`,
`updating → active`. -/
theorem OnGkeConfigChanged_phase_edge (w : World) (hw : EchoesPhase w) (key : String)
    (config : Ref) (s : St) (ref : Ref) (s' : St)
    (h : OnGkeConfigChanged w key (some config) s = (.ok (some ref, none), s')) :
    phaseEdge (config.get s).Status.Phase (ref.get s').Status.Phase := by
  change (OnGkeConfigChanged w key (some config)).run s = _ at h
  unfold OnGkeConfigChanged at h
  simp only [run_bind, run_load] at h
  split at h
  · simp at h
  · split at h
    · rename_i hp
      have := phase_importCluster w hw config s ref s' h
      simp only [phaseEdge, hp, this]
      simp [gkeConfigImportingPhase, gkeConfigActivePhase]
    · rename_i hp1
      split at h
      · rename_i hp
        have := phase_create w hw config s ref s' h
        simp only [gkeConfigNotCreatedPhase] at hp
        simp only [phaseEdge, hp]
        rcases this with h1 | h1 <;> simp [h1, gkeConfigImportingPhase, gkeConfigCreatingPhase]
      · split at h
        · rename_i hp
          have := phase_waitForCreationComplete w hw config s ref s' h
          simp only [phaseEdge, hp]
          rcases this with h1 | h1 <;>
            simp [h1, hp, gkeConfigCreatingPhase, gkeConfigActivePhase]
        · split at h
          · rename_i hp
            have := steps_checkAndUpdate w hw config s ref s' h
            simp only [phaseEdge, hp]
            rcases this with h1 | h1 | h1 <;>
              simp [h1, hp, gkeConfigUpdatingPhase, gkeConfigActivePhase]
          · split at h
            · rename_i hp
              have := steps_checkAndUpdate w hw config s ref s' h
              simp only [phaseEdge, hp]
              rcases this with h1 | h1 | h1 <;>
                simp [h1, hp, gkeConfigUpdatingPhase, gkeConfigActivePhase]
            · simp only [run_pure, Prod.mk.injEq, Except.ok.injEq, Option.some.injEq,
                and_true] at h
              obtain ⟨h1, h2⟩ := h
              subst h1 h2
              left; rfl

/-- C6, outcomes of `waitForCreationComplete` after `Clusters.Get` answered a
cluster. Status `ERROR`: the config is returned as it was (phase included)
with the error `creation failed for cluster <clusterName>`, and nothing is
written or enqueued. Status `RUNNING`: the one status write is the config with
phase `active`, its answer is returned, nothing is enqueued. Any other status:
the config is returned as it was with no error, nothing is written, and the
object is enqueued once, after 30 seconds. -/
theorem waitForCreationComplete_outcomes (w : World) (config : Ref) (s : St) (name : String)
    (cluster : gkeapi.Cluster)
    (hget : Event.ClustersGet name (.ok cluster) ∈
      newEvents s (waitForCreationComplete w config s).2) :
    let out := waitForCreationComplete w config s
    let new := newEvents s out.2
    out.2.cache = s.cache ∧
    (cluster.Status = "ERROR" →
      out.1 = .ok (some config,
        some ("creation failed for cluster " ++ (config.get s).Spec.ClusterName)) ∧
      statusWrites new = [] ∧ enqueues new = []) ∧
    (cluster.Status = "RUNNING" →
      (∃ pre res, new = pre ++ [.UpdateStatus (withPhase (config.get s) "active") res] ∧
        statusWrites pre = [] ∧ out.1 = .ok (res.1.map Ref.own, res.2)) ∧
      enqueues new = []) ∧
    (cluster.Status ≠ "ERROR" → cluster.Status ≠ "RUNNING" →
      out.1 = .ok (some config, none) ∧ statusWrites new = [] ∧
      enqueues new = [((config.get s).Namespace, (config.get s).Name, some (30 * Second))]) := by
  intro out new
  have hout : out = waitForCreationComplete w config s := rfl
  have hnew : new = newEvents s out.2 := rfl
  rw [← hout, ← hnew] at hget
  clear_value out new
  change out = (waitForCreationComplete w config).run s at hout
  obtain ⟨cred, err, ns, id, hg, _⟩ := run_getSecret w config s
  unfold waitForCreationComplete at hout
  simp only [run_bind, run_load, hg] at hout
  split at hout
  · subst hout
    simp [hnew] at hget
  · simp only [run_bind, run_callGetGKEClient] at hout
    split at hout
    · subst hout
      simp [hnew] at hget
    · simp only [run_bind, run_callClustersGet] at hout
      split at hout
      · rename_i heq
        simp only [heq] at hout
        subst hout
        simp [hnew] at hget
      · rename_i cluster' heq
        simp only [heq] at hout
        split at hout
        · rename_i hst
          subst hout
          simp only [run_pure, List.append_assoc, List.singleton_append, newEvents_mk] at hnew
          subst hnew
          simp at hget
          obtain ⟨_, hc⟩ := hget
          subst hc
          simp only [utils.ClusterStatusError] at hst
          simp [hst]
        · split at hout
          · rename_i hst1 hst
            simp only [run_bind, run_DeepCopy, run_setPhase_own, run_UpdateStatus,
              Ref.get_own, Ref.get_trace, List.append_assoc, List.singleton_append,
              List.cons_append, List.nil_append] at hout
            subst hout
            simp only [newEvents_mk] at hnew
            subst hnew
            simp at hget
            obtain ⟨_, hc⟩ := hget
            subst hc
            simp only [utils.ClusterStatusError, utils.ClusterStatusRunning] at hst1 hst
            refine ⟨rfl, fun h => absurd h hst1, fun _ => ⟨⟨[_, _, _], _, rfl, by simp, rfl⟩, by simp⟩,
              fun _ h => absurd hst h⟩
          · rename_i hst1 hst
            simp only [run_bind, run_emit, run_pure] at hout
            subst hout
            simp only [List.append_assoc, List.singleton_append, List.cons_append,
              List.nil_append, newEvents_mk] at hnew
            subst hnew
            simp at hget
            obtain ⟨_, hc⟩ := hget
            subst hc
            simp only [utils.ClusterStatusError, utils.ClusterStatusRunning] at hst1 hst
            simp [hst, hst1, wait, Second]

/-! ## Tame computations -/

theorem tame_enqueueUpdate (w : World) (config : Ref) : Tame (enqueueUpdate w config) := by
  intro s
  rw [enqueueUpdate_apply]
  split
  · exact ⟨rfl, _, rfl, by simp⟩
  · rw [UpdateStatus_apply]
    exact ⟨rfl, _, rfl, by simp⟩

theorem tame_setActive (w : World) (config : Ref) : Tame (setActive w config) := by
  intro s
  rw [setActive_apply]
  split
  · exact ⟨rfl, [], by simp, by simp⟩
  · rw [UpdateStatus_apply]
    exact ⟨rfl, _, rfl, by simp⟩

theorem tame_after (e : Event) (he : ∀ name res, e ≠ Event.ClustersGet name res)
    (m : M Result) (hm : Tame m) (s : St) :
    (m { s with trace := s.trace ++ [e] }).2.cache = s.cache ∧
      ∃ d, (m { s with trace := s.trace ++ [e] }).2.trace = s.trace ++ d ∧
        ∀ name res, Event.ClustersGet name res ∉ d := by
  obtain ⟨h1, d, h2, h3⟩ := hm { s with trace := s.trace ++ [e] }
  refine ⟨h1, e :: d, by simpa using h2, ?_⟩
  intro name res hmem
  rcases List.mem_cons.1 hmem with h | h
  · exact he name res h.symm
  · exact h3 name res h

theorem tame_probeThen (w : World) (config : Ref) (call : ProbeCall) (next : M Result)
    (hn : Tame next) : Tame (probeThen w config call next) := by
  intro s
  rw [probeThen_apply]
  split
  · exact ⟨rfl, _, rfl, by simp⟩
  · split
    · exact tame_after _ (by simp) _ (tame_enqueueUpdate w config) s
    · exact tame_after _ (by simp) _ hn s

theorem tame_addonsProbeThen (w : World) (config : Ref) (c : gkev1.GKEClusterConfig)
    (call : ProbeCall) (next : M Result) (hn : Tame next) :
    Tame (addonsProbeThen w config c call next) := by
  intro s
  rw [addonsProbeThen_apply]
  split
  · exact ⟨rfl, _, rfl, by simp⟩
  · split
    · exact ⟨rfl, _, rfl, by simp⟩
    · split
      · exact tame_after _ (by simp) _ (tame_enqueueUpdate w config) s
      · exact tame_after _ (by simp) _ hn s

theorem tame_updateNodePools (w : World) (cred : String) (config : Ref)
    (c : gkev1.GKEClusterConfig) (m : List (String × gkev1.NodePoolConfig))
    (next : M Result) (hn : Tame next) (nps : List gkev1.NodePoolConfig) :
    Tame (updateNodePools w cred config c m nps next) := by
  induction nps with
  | nil => simpa [updateNodePools] using hn
  | cons np rest ih =>
    intro s
    unfold updateNodePools
    cases hname : np.Name with
    | none => exact ⟨by simp [deref], [], by simp [deref], by simp⟩
    | some name =>
      simpa [deref] using tame_probeThen w config _ _
        (tame_probeThen w config _ _ (tame_probeThen w config _ _ ih)) s

theorem tame_updateUpstreamClusterState (w : World) (config : Ref)
    (upstreamSpec : gkev1.GKEClusterConfigSpec) :
    Tame (updateUpstreamClusterState w config upstreamSpec) := by
  intro s
  obtain ⟨ns, id, ⟨err, h⟩ | ⟨cred, h⟩⟩ := updateUpstreamClusterState_apply w config upstreamSpec s
  · rw [h]
    exact ⟨rfl, _, rfl, by simp⟩
  · rw [h]
    unfold runProbes
    exact tame_after _ (by simp) _
      (tame_probeThen w config _ _
        (tame_addonsProbeThen w config _ _ _
          (tame_probeThen w config _ _
            (tame_probeThen w config _ _
              (tame_probeThen w config _ _
                (tame_updateNodePools w cred config _ _ _ (tame_setActive w config) _)))))) s

theorem run_write_ok (w : World)
    (hwrite : ∀ tr obj, ∃ obj', w.UpdateStatus tr obj = (some obj', none) ∧
      obj'.Status.Phase = obj.Status.Phase)
    (v : gkev1.GKEClusterConfig) (s : St) :
    ∃ o, (UpdateStatus w (.own v)).run s =
        (.ok (some (.own o), none),
          { s with trace := s.trace ++ [.UpdateStatus v (some o, none)] }) ∧
      o.Status.Phase = v.Status.Phase := by
  obtain ⟨o, ho, hp⟩ := hwrite s.trace v
  exact ⟨o, by simp [ho], hp⟩

theorem write_facts (w : World)
    (hwrite : ∀ tr obj, ∃ obj', w.UpdateStatus tr obj = (some obj', none) ∧
      obj'.Status.Phase = obj.Status.Phase)
    (out : Except Panic Result × St) (T : List Event) (v cache : gkev1.GKEClusterConfig)
    (hout : out = (.ok ((w.UpdateStatus T v).1.map Ref.own, (w.UpdateStatus T v).2),
      { cache := cache, trace := T ++ [.UpdateStatus v (w.UpdateStatus T v)] })) :
    ∃ o, o.Status.Phase = v.Status.Phase ∧
      out = (.ok (some (.own o), none),
        { cache := cache, trace := T ++ [.UpdateStatus v (some o, none)] }) := by
  obtain ⟨o, ho, hp⟩ := hwrite T v
  exact ⟨o, hp, by simp [hout, ho]⟩

theorem write_run_facts (w : World)
    (hwrite : ∀ tr obj, ∃ obj', w.UpdateStatus tr obj = (some obj', none) ∧
      obj'.Status.Phase = obj.Status.Phase)
    (v : gkev1.GKEClusterConfig) (s3 : St) (a : Result) (s4 : St)
    (h : (UpdateStatus w (.own v)).run s3 = (.ok a, s4)) :
    ∃ o, o.Status.Phase = v.Status.Phase ∧ a = (some (.own o), none) ∧
      s4 = { s3 with trace := s3.trace ++ [.UpdateStatus v (some o, none)] } := by
  obtain ⟨o, ho, hp⟩ := hwrite s3.trace v
  simp only [run_UpdateStatus, Ref.get_own, ho, Option.map_some', Prod.mk.injEq,
    Except.ok.injEq] at h
  exact ⟨o, hp, h.1.symm, h.2.symm⟩

theorem find_busy_of_exists (nps : List gkeapi.NodePool)
    (h : ∃ np ∈ nps, np.Status = "RECONCILING" ∨ np.Status = "STOPPING" ∨
      np.Status = "PROVISIONING") :
    ∃ np, nps.find? nodePoolBusy = some np := by
  obtain ⟨np, hmem, hb⟩ := h
  cases hf : nps.find? nodePoolBusy with
  | some x => exact ⟨x, rfl⟩
  | none =>
    rw [List.find?_eq_none] at hf
    have := hf np hmem
    simp [nodePoolBusy, utils.NodePoolStatusReconciling, utils.NodePoolStatusStopping,
      utils.NodePoolStatusProvisioning] at this
    rcases hb with hb | hb | hb <;> simp [hb] at this

/-- C5, as amended. In `checkAndUpdate`, once the version validation passes and
`Clusters.Get` answers a cluster whose status is `RECONCILING` or one of whose
node pools is `RECONCILING`, `STOPPING` or `PROVISIONING`, and status writes
succeed keeping the phase: no update probe is run; the status is written (with
phase `updating`) exactly when the starting phase is not `updating`; the
returned object is in phase `updating`; and the object is enqueued after 30
seconds, except when the cluster itself is `RECONCILING` and the starting
phase is not `updating`, where the status write is all that is done. -/
theorem checkAndUpdate_busy_upstream (w : World) (config : Ref) (s : St) (name : String)
    (cluster : gkeapi.Cluster)
    (hvalid : validateUpdate (config.get s) = none)
    (hget : Event.ClustersGet name (.ok cluster) ∈ newEvents s (checkAndUpdate w config s).2)
    (hbusy : cluster.Status = "RECONCILING" ∨
      ∃ np ∈ cluster.NodePools, np.Status = "RECONCILING" ∨ np.Status = "STOPPING" ∨
        np.Status = "PROVISIONING")
    (hwrite : ∀ tr obj, ∃ obj', w.UpdateStatus tr obj = (some obj', none) ∧
      obj'.Status.Phase = obj.Status.Phase) :
    let out := checkAndUpdate w config s
    let new := newEvents s out.2
    probeEvents new = [] ∧
    statusWrites new =
      (if (config.get s).Status.Phase = "updating" then []
       else [withPhase (config.get s) "updating"]) ∧
    ∃ ref, out.1 = .ok (some ref, none) ∧ (ref.get out.2).Status.Phase = "updating" ∧
      enqueues new =
        (if cluster.Status = "RECONCILING" ∧ (config.get s).Status.Phase ≠ "updating" then []
         else [((ref.get out.2).Namespace, (ref.get out.2).Name, some (30 * Second))]) := by
  intro out new
  have hout : out = checkAndUpdate w config s := rfl
  have hnew : new = newEvents s out.2 := rfl
  rw [← hout, ← hnew] at hget
  clear_value out new
  change out = (checkAndUpdate w config).run s at hout
  obtain ⟨cred, err, ns, id, hg, _⟩ := run_getSecret w config s
  unfold checkAndUpdate at hout
  simp only [run_bind, run_load, hvalid, hg] at hout
  split at hout
  · subst hout
    simp [hnew] at hget
  · simp only [run_bind, run_callGetGKEClient] at hout
    split at hout
    · subst hout
      simp [hnew] at hget
    · simp only [run_bind, run_callClustersGet] at hout
      split at hout
      · rename_i heq
        simp only [heq] at hout
        subst hout
        simp [hnew] at hget
      · rename_i cluster' heq
        simp only [heq] at hout
        split at hout
        · rename_i hst
          simp only [utils.ClusterStatusReconciling] at hst
          split at hout
          · rename_i hp
            simp only [gkeConfigUpdatingPhase] at hp
            simp only [run_bind, run_DeepCopy, run_setPhase_own, run_UpdateStatus, Ref.get_own,
              Ref.get_trace] at hout
            obtain ⟨o, hop, hout'⟩ := write_facts w hwrite _ _ _ _ hout
            simp only [List.append_assoc, List.singleton_append, List.cons_append,
              List.nil_append] at hout'
            subst hout'
            simp only [newEvents_mk] at hnew
            subst hnew
            simp at hget
            obtain ⟨_, hc⟩ := hget
            subst hc
            refine ⟨by simp, by simp [hp, withPhase, gkeConfigUpdatingPhase], _, rfl, ?_, ?_⟩
            · simpa [gkeConfigUpdatingPhase] using hop
            · simp [hst, hp]
          · rename_i hp
            simp only [gkeConfigUpdatingPhase, ne_eq, not_not] at hp
            simp only [run_bind, run_emit, run_pure, List.append_assoc, List.singleton_append,
              List.cons_append, List.nil_append] at hout
            subst hout
            simp only [newEvents_mk] at hnew
            subst hnew
            refine ⟨by simp, by simp [hp], config, rfl, ?_, ?_⟩
            · simpa using hp
            · simp [hp]
        · rename_i hst
          simp only [utils.ClusterStatusReconciling] at hst
          split at hout
          · split at hout
            · rename_i hp
              simp only [gkeConfigUpdatingPhase] at hp
              simp only [run_bind, run_DeepCopy, run_setPhase_own,
                Ref.get_own, Ref.get_trace] at hout
              split at hout
              · rename_i a s4 heq2
                obtain ⟨o, hop, ha, hs4⟩ := write_run_facts w hwrite _ _ _ _ heq2
                subst ha hs4
                simp only [run_bind, run_ofExcept, deref, run_load, run_emit, run_pure,
                  Ref.get_own, List.append_assoc, List.singleton_append, List.cons_append,
                  List.nil_append] at hout
                subst hout
                simp only [newEvents_mk] at hnew
                subst hnew
                simp at hget
                obtain ⟨_, hc⟩ := hget
                subst hc
                refine ⟨by simp, by simp [hp, withPhase, gkeConfigUpdatingPhase], _, rfl, ?_, ?_⟩
                · simpa [gkeConfigUpdatingPhase] using hop
                · simp [hst]
              · rename_i p s4 heq2
                simp at heq2
            · rename_i hp
              simp only [gkeConfigUpdatingPhase, ne_eq, not_not] at hp
              simp only [run_bind, run_emit, run_pure, List.append_assoc, List.singleton_append,
                List.cons_append, List.nil_append] at hout
              subst hout
              simp only [newEvents_mk] at hnew
              subst hnew
              simp at hget
              obtain ⟨_, hc⟩ := hget
              subst hc
              refine ⟨by simp, by simp [hp], config, rfl, ?_, ?_⟩
              · simpa using hp
              · simp [hp]
          · rename_i hfind
            exfalso
            have hc : cluster' = cluster := by
              simp only [run_bind, run_ofExcept] at hout
              split at hout
              · rename_i a s4 heq2
                simp only [Prod.mk.injEq] at heq2
                obtain ⟨_, hs4⟩ := heq2
                subst hs4
                split at hout
                · simp only [run_pure, List.append_assoc, List.singleton_append,
                    List.cons_append, List.nil_append] at hout
                  subst hout
                  simp only [newEvents_mk] at hnew
                  subst hnew
                  simp at hget
                  exact hget.2.symm
                · obtain ⟨_, d, hd, hno⟩ := tame_updateUpstreamClusterState w config a.1 _
                  change out = updateUpstreamClusterState w config a.1 _ at hout
                  rw [← hout] at hd
                  simp only [List.append_assoc, List.singleton_append, List.cons_append,
                    List.nil_append] at hd
                  rw [hnew, newEvents_append _ _ _ hd] at hget
                  simp at hget
                  rcases hget with hget | hget
                  · exact hget.2.symm
                  · exact absurd hget (hno _ _)
              · rename_i p s4 heq2
                simp only [Prod.mk.injEq] at heq2
                obtain ⟨_, hs4⟩ := heq2
                subst hs4
                simp only [List.append_assoc, List.singleton_append,
                  List.cons_append, List.nil_append] at hout
                subst hout
                simp only [newEvents_mk] at hnew
                subst hnew
                simp at hget
                exact hget.2.symm
            subst hc
            rcases hbusy with hb | hb
            · exact hst hb
            · obtain ⟨np, hnp⟩ := find_busy_of_exists _ hb
              rw [hnp] at hfind
              simp at hfind

@[simp] theorem outsideCalls_nil : outsideCalls [] = [] := rfl

@[simp] theorem outsideCalls_UpdateStatus (obj : gkev1.GKEClusterConfig)
    (res : Option gkev1.GKEClusterConfig × Option GoError) (l : List Event) :
    outsideCalls (.UpdateStatus obj res :: l) = outsideCalls l := rfl

/-- C7, import. For a live config with `spec.imported` set and an empty phase,
status writes succeeding, one reconcile returns an object in phase
`importing` and the reconcile of that object returns one in phase `active`;
over both reconciles no secret is read and no provider call of any kind is
made (no client, no get, list, create or delete, no probe), the only outside
effects being the two status writes. -/
theorem import_reconciles (w : World) (key : String) (config : Ref) (s : St)
    (himported : (config.get s).Spec.Imported = true)
    (hphase : (config.get s).Status.Phase = "")
    (hlive : (config.get s).DeletionTimestamp = none)
    (hwrite : ∀ tr obj, ∃ obj', w.UpdateStatus tr obj = (some obj', none) ∧
      obj'.Status.Phase = obj.Status.Phase ∧ obj'.DeletionTimestamp = obj.DeletionTimestamp) :
    ∃ r1 s1 r2 s2,
      OnGkeConfigChanged w key (some config) s = (.ok (some r1, none), s1) ∧
      (r1.get s1).Status.Phase = "importing" ∧
      OnGkeConfigChanged w key (some r1) s1 = (.ok (some r2, none), s2) ∧
      (r2.get s2).Status.Phase = "active" ∧
      outsideCalls (newEvents s s2) = [] ∧
      statusWrites (newEvents s s2) =
        [withPhase (config.get s) "importing", withPhase (r1.get s1) "active"] := by
  obtain ⟨o1, ho1, hp1, hd1⟩ := hwrite s.trace (withPhase (config.get s) "importing")
  obtain ⟨o2, ho2, hp2, hd2⟩ := hwrite
    (s.trace ++ [.UpdateStatus (withPhase (config.get s) "importing") (some o1, none)])
    (withPhase o1 "active")
  have h1 : OnGkeConfigChanged w key (some config) s =
      (.ok (some (.own o1), none),
        { s with trace := s.trace ++
          [.UpdateStatus (withPhase (config.get s) "importing") (some o1, none)] }) := by
    change (OnGkeConfigChanged w key (some config)).run s = _
    unfold OnGkeConfigChanged
    simp only [run_bind, run_load, hlive, hphase, ne_eq, not_true_eq_false, if_false,
      gkeConfigImportingPhase, gkeConfigNotCreatedPhase]
    simp only [show ("" : String) ≠ "importing" by decide, if_false, if_true]
    unfold create
    simp only [run_bind, run_load, himported, if_true, run_DeepCopy, run_setPhase_own,
      run_UpdateStatus, Ref.get_own, gkeConfigImportingPhase]
    simp only [withPhase] at ho1
    simp [ho1, withPhase]
  have hp1' : o1.Status.Phase = "importing" := by simpa [withPhase] using hp1
  have hd1' : o1.DeletionTimestamp = none := by simpa [withPhase, hlive] using hd1
  have h2 : OnGkeConfigChanged w key (some (.own o1))
      { s with trace := s.trace ++
          [.UpdateStatus (withPhase (config.get s) "importing") (some o1, none)] } =
      (.ok (some (.own o2), none),
        { s with trace := s.trace ++
          [.UpdateStatus (withPhase (config.get s) "importing") (some o1, none),
           .UpdateStatus (withPhase o1 "active") (some o2, none)] }) := by
    change (OnGkeConfigChanged w key (some (.own o1))).run _ = _
    unfold OnGkeConfigChanged
    simp only [run_bind, run_load, Ref.get_own, hd1', hp1', ne_eq, not_true_eq_false, if_false,
      gkeConfigImportingPhase, if_true]
    unfold importCluster
    simp only [run_bind, run_setPhase_own, run_UpdateStatus, Ref.get_own, gkeConfigActivePhase]
    simp only [withPhase] at ho2
    simp [ho2, withPhase]
  refine ⟨_, _, _, _, h1, by simpa using hp1', h2, ?_, ?_, ?_⟩
  · simpa [withPhase] using hp2
  · simp
  · simp

/-! ## The shared object -/

theorem cache_validateCreateRequest (w : World) (cred : String) (c : gkev1.GKEClusterConfig)
    (s : St) : ((gke.validateCreateRequest w cred c).run s).2.cache = s.cache := by
  unfold gke.validateCreateRequest
  split
  · rfl
  · split
    · rfl
    · split
      · rfl
      · split
        · rfl
        · split
          · rfl
          · simp only [run_bind, run_callGetGKEClient]
            split
            · rfl
            · simp only [run_bind, run_callClustersList, run_ofExcept]
              split
              · rename_i heq
                simp only [Prod.mk.injEq] at heq
                obtain ⟨_, h2⟩ := heq
                subst h2
                split
                · rfl
                · split <;> rfl
              · rename_i heq
                simp only [Prod.mk.injEq] at heq
                obtain ⟨_, h2⟩ := heq
                subst h2
                rfl

theorem cache_Create (w : World) (cred : String) (c : gkev1.GKEClusterConfig) (s : St) :
    ((gke.Create w cred c).run s).2.cache = s.cache := by
  have hv := cache_validateCreateRequest w cred c s
  unfold gke.Create
  simp only [run_bind]
  split
  · rename_i a s1 heq
    rw [heq] at hv
    simp only at hv
    split
    · exact hv
    · simp only [run_bind, run_callGetGKEClient]
      split
      · exact hv
      · simp only [run_bind, run_ofExcept]
        split
        · rename_i heq2
          simp only [Prod.mk.injEq] at heq2
          obtain ⟨_, h2⟩ := heq2
          subst h2
          simp only [run_bind, run_callClustersCreate, run_ofExcept]
          split
          · rename_i heq3
            simp only [Prod.mk.injEq] at heq3
            obtain ⟨_, h3⟩ := heq3
            subst h3
            exact hv
          · rename_i heq3
            simp only [Prod.mk.injEq] at heq3
            obtain ⟨_, h3⟩ := heq3
            subst h3
            exact hv
        · rename_i heq2
          simp only [Prod.mk.injEq] at heq2
          obtain ⟨_, h2⟩ := heq2
          subst h2
          exact hv
  · rename_i p s1 heq
    rw [heq] at hv
    exact hv

theorem cache_create (w : World) (config : Ref) (s : St) :
    (create w config s).2.cache = s.cache := by
  obtain ⟨cred, err, ns, id, hg, _⟩ := run_getSecret w config s
  change ((create w config).run s).2.cache = _
  unfold create
  simp only [run_bind, run_load]
  split
  · simp only [run_bind, run_DeepCopy, run_setPhase_own, run_UpdateStatus]
  · simp only [run_bind, hg]
    split
    · rfl
    · have hc := cache_Create w cred (config.get s)
        { s with trace := s.trace ++ [.secretsCacheGet ns id (w.secretsCacheGet s.trace ns id)] }
      simp only [run_bind]
      split
      · rename_i heq
        rw [heq] at hc
        simp only at hc
        split
        · exact hc
        · simp only [run_bind, run_DeepCopy, run_setPhase_own, run_UpdateStatus]
          exact hc
      · rename_i heq
        rw [heq] at hc
        exact hc

theorem cache_waitForCreationComplete (w : World) (config : Ref) (s : St) :
    (waitForCreationComplete w config s).2.cache = s.cache := by
  obtain ⟨cred, err, ns, id, hg, _⟩ := run_getSecret w config s
  change ((waitForCreationComplete w config).run s).2.cache = _
  unfold waitForCreationComplete
  simp only [run_bind, run_load, hg]
  split
  · rfl
  · simp only [run_bind, run_callGetGKEClient]
    split
    · rfl
    · simp only [run_bind, run_callClustersGet]
      split
      · rfl
      · split
        · rfl
        · split
          · simp only [run_bind, run_DeepCopy, run_setPhase_own, run_UpdateStatus]
          · rfl

theorem cache_checkAndUpdate (w : World) (config : Ref) (s : St) :
    (checkAndUpdate w config s).2.cache = s.cache := by
  obtain ⟨cred, err, ns, id, hg, _⟩ := run_getSecret w config s
  change ((checkAndUpdate w config).run s).2.cache = _
  unfold checkAndUpdate
  simp only [run_bind, run_load]
  split
  · simp only [run_bind, run_DeepCopy, run_setPhase_own, run_UpdateStatus]
    split <;> rfl
  · simp only [run_bind, hg]
    split
    · rfl
    · simp only [run_bind, run_callGetGKEClient]
      split
      · rfl
      · simp only [run_bind, run_callClustersGet]
        split
        · rfl
        · split
          · split
            · simp only [run_bind, run_DeepCopy, run_setPhase_own, run_UpdateStatus]
            · rfl
          · split
            · split
              · simp only [run_bind, run_DeepCopy, run_setPhase_own, run_UpdateStatus,
                  Ref.get_own]
                split
                · rfl
                · simp only [run_bind, run_ofExcept]
                  split
                  · rename_i heq
                    simp only [Prod.mk.injEq] at heq
                    obtain ⟨_, h2⟩ := heq
                    subst h2
                    rfl
                  · rename_i heq
                    simp only [Prod.mk.injEq] at heq
                    obtain ⟨_, h2⟩ := heq
                    subst h2
                    rfl
              · rfl
            · simp only [run_bind, run_ofExcept]
              split
              · rename_i heq
                simp only [Prod.mk.injEq] at heq
                obtain ⟨_, h2⟩ := heq
                subst h2
                split
                · rfl
                · exact (tame_updateUpstreamClusterState w config _ _).1
              · rename_i heq
                simp only [Prod.mk.injEq] at heq
                obtain ⟨_, h2⟩ := heq
                subst h2
                rfl

/-- C9. Deep clone before mutation: `importCluster` writes the phase into the
shared object; the other paths leave the shared object as it was. -/
theorem shared_object_after_reconcile (w : World) (config : Ref)
    (upstreamSpec : gkev1.GKEClusterConfigSpec) (s : St) :
    (importCluster w Ref.cache s).2.cache = withPhase s.cache "active" ∧
    (create w config s).2.cache = s.cache ∧
    (waitForCreationComplete w config s).2.cache = s.cache ∧
    (checkAndUpdate w config s).2.cache = s.cache ∧
    (enqueueUpdate w config s).2.cache = s.cache ∧
    (updateUpstreamClusterState w config upstreamSpec s).2.cache = s.cache :=
  ⟨rfl, cache_create w config s, cache_waitForCreationComplete w config s,
    cache_checkAndUpdate w config s, (tame_enqueueUpdate w config s).1,
    (tame_updateUpstreamClusterState w config upstreamSpec s).1⟩

/-- C8. `recordError` returns the object of `onChange` as it is when its
failure message is empty, whatever the error: the error is not recorded. -/
theorem recordError_keeps_empty_message (w : World) (key : String) (config : Option Ref)
    (obj : gkev1.GKEClusterConfig) (err : GoError) (s : St) :
    recordError w
        (fun _ _ => pure (some (.own { obj with Status := { obj.Status with FailureMessage := "" } }),
          some err))
        key config s =
      (.ok (some (.own { obj with Status := { obj.Status with FailureMessage := "" } }), some err),
        s) := by
  change (recordError w _ key config).run s = _
  unfold recordError
  simp

theorem echoesPhase_sample (cluster : gkeapi.Cluster)
    (probe : ProbeCall → Status × Option GoError) : EchoesPhase (Sample.world cluster probe) := by
  intro tr obj obj' h
  simp only [Sample.world, Prod.mk.injEq, Option.some.injEq, and_true] at h
  rw [h]

/-- C1, at a sample input: an active cluster whose upstream is reconciling
moves to `updating`. -/
theorem OnGkeConfigChanged_phase_edge_witness :
    EchoesPhase (Sample.world Sample.reconcilingCluster Sample.quietProbe) ∧
    OnGkeConfigChanged (Sample.world Sample.reconcilingCluster Sample.quietProbe) "fleet/cluster-1"
        (some Ref.cache) (Sample.start (Sample.config "active")) =
      (.ok (some (.own (Sample.config "updating")), none),
        { cache := Sample.config "active"
          trace :=
            [ .secretsCacheGet "cattle-global-data" "cc-1" (.ok Sample.secret),
              .GetGKEClient "credential" none,
              .ClustersGet "projects/project-1/locations/us-east1/clusters/c1"
                (.ok Sample.reconcilingCluster),
              .UpdateStatus (Sample.config "updating")
                (some (Sample.config "updating"), none) ] }) ∧
    phaseEdge "active" "updating" :=
  ⟨echoesPhase_sample _ _, rfl,
    OnGkeConfigChanged_phase_edge (Sample.world Sample.reconcilingCluster Sample.quietProbe)
      (echoesPhase_sample _ _) "fleet/cluster-1" Ref.cache (Sample.start (Sample.config "active"))
      (.own (Sample.config "updating")) _ rfl⟩

/-- A sample run: an updating cluster whose probes all answer `NotChanged`
is written back as `active`, and nothing is enqueued. -/
theorem updateUpstreamClusterState_quiet_outcome_sample :
    probeEvents (newEvents (Sample.start (Sample.config "updating"))
        (updateUpstreamClusterState (Sample.world Sample.runningCluster Sample.quietProbe)
          Ref.cache Sample.upstreamSpec (Sample.start (Sample.config "updating"))).2) =
      quietLog (probePlan "credential" (Sample.config "updating") Sample.upstreamSpec) ∧
    enqueues (newEvents (Sample.start (Sample.config "updating"))
        (updateUpstreamClusterState (Sample.world Sample.runningCluster Sample.quietProbe)
          Ref.cache Sample.upstreamSpec (Sample.start (Sample.config "updating"))).2) = [] :=
  ⟨rfl,
    (updateUpstreamClusterState_quiet_outcome (Sample.world Sample.runningCluster Sample.quietProbe)
      Ref.cache Sample.upstreamSpec (Sample.start (Sample.config "updating")) "credential"
      rfl).2.1⟩



/-- C4, at a sample input: the addons probe answers `Retry`. -/
theorem updateUpstreamClusterState_retry_witness :
    (ProbeCall.UpdateClusterAddons "credential" (Sample.config "active") Sample.upstreamSpec,
        (Status.Retry, (none : Option GoError))) ∈
      probeEvents (newEvents (Sample.start (Sample.config "active"))
        (updateUpstreamClusterState (Sample.world Sample.runningCluster Sample.retryProbe)
          Ref.cache Sample.upstreamSpec (Sample.start (Sample.config "active"))).2) ∧
    enqueues (newEvents (Sample.start (Sample.config "active"))
        (updateUpstreamClusterState (Sample.world Sample.runningCluster Sample.retryProbe)
          Ref.cache Sample.upstreamSpec (Sample.start (Sample.config "active"))).2) =
      [("fleet", "cluster-1", some (30 * Second))] :=
  ⟨by decide,
    (updateUpstreamClusterState_retry (Sample.world Sample.runningCluster Sample.retryProbe)
      Ref.cache Sample.upstreamSpec (Sample.start (Sample.config "active")) "credential"
      (Sample.config "active") Sample.upstreamSpec (by decide)).2.2.2.1⟩

/-- C5, as stated, fails: with an active config and an upstream cluster that is
`RECONCILING`, `checkAndUpdate` passes validation, reads the cluster, writes
phase `updating`, and makes no enqueue at all. -/
theorem checkAndUpdate_reconciling_active_not_enqueued :
    validateUpdate (Sample.config "active") = none ∧
    checkAndUpdate (Sample.world Sample.reconcilingCluster Sample.quietProbe) Ref.cache
        (Sample.start (Sample.config "active")) =
      (.ok (some (.own (Sample.config "updating")), none),
        { cache := Sample.config "active"
          trace :=
            [ .secretsCacheGet "cattle-global-data" "cc-1" (.ok Sample.secret),
              .GetGKEClient "credential" none,
              .ClustersGet "projects/project-1/locations/us-east1/clusters/c1"
                (.ok Sample.reconcilingCluster),
              .UpdateStatus (Sample.config "updating")
                (some (Sample.config "updating"), none) ] }) ∧
    Sample.reconcilingCluster.Status = "RECONCILING" ∧
    enqueues (newEvents (Sample.start (Sample.config "active"))
      (checkAndUpdate (Sample.world Sample.reconcilingCluster Sample.quietProbe) Ref.cache
        (Sample.start (Sample.config "active"))).2) = [] :=
  ⟨by decide, rfl, rfl, rfl⟩

theorem sample_write (cluster : gkeapi.Cluster) (probe : ProbeCall → Status × Option GoError)
    (tr : List Event) (obj : gkev1.GKEClusterConfig) :
    ∃ obj', (Sample.world cluster probe).UpdateStatus tr obj = (some obj', none) ∧
      obj'.Status.Phase = obj.Status.Phase ∧ obj'.DeletionTimestamp = obj.DeletionTimestamp :=
  ⟨obj, rfl, rfl, rfl⟩

/-- C5 (amended), at a sample input: an updating config whose upstream cluster
is `RECONCILING` is enqueued again after 30 seconds. -/
theorem checkAndUpdate_busy_upstream_witness :
    validateUpdate (Sample.config "updating") = none ∧
    Sample.reconcilingCluster.Status = "RECONCILING" ∧
    enqueues (newEvents (Sample.start (Sample.config "updating"))
      (checkAndUpdate (Sample.world Sample.reconcilingCluster Sample.quietProbe) Ref.cache
        (Sample.start (Sample.config "updating"))).2) =
      [("fleet", "cluster-1", some (30 * Second))] ∧
    probeEvents (newEvents (Sample.start (Sample.config "updating"))
      (checkAndUpdate (Sample.world Sample.reconcilingCluster Sample.quietProbe) Ref.cache
        (Sample.start (Sample.config "updating"))).2) = [] :=
  ⟨by decide, rfl, rfl,
    (checkAndUpdate_busy_upstream (Sample.world Sample.reconcilingCluster Sample.quietProbe)
      Ref.cache (Sample.start (Sample.config "updating"))
      "projects/project-1/locations/us-east1/clusters/c1" Sample.reconcilingCluster
      (by decide)
      (by
        rw [show newEvents (Sample.start (Sample.config "updating"))
            (checkAndUpdate (Sample.world Sample.reconcilingCluster Sample.quietProbe) Ref.cache
              (Sample.start (Sample.config "updating"))).2 =
          [ .secretsCacheGet "cattle-global-data" "cc-1" (.ok Sample.secret),
            .GetGKEClient "credential" none,
            .ClustersGet "projects/project-1/locations/us-east1/clusters/c1"
              (.ok Sample.reconcilingCluster),
            .gkeEnqueueAfter "fleet" "cluster-1" (30 * Second) ] from rfl]
        simp)
      (Or.inl rfl)
      (fun tr obj => ⟨obj, rfl, rfl⟩)).1⟩

/-- C6, at a sample input: creation failed upstream. -/
theorem waitForCreationComplete_outcomes_witness :
    Event.ClustersGet "projects/project-1/locations/us-east1/clusters/c1"
        (.ok Sample.failedCluster) ∈
      newEvents (Sample.start (Sample.config "creating"))
        (waitForCreationComplete (Sample.world Sample.failedCluster Sample.quietProbe) Ref.cache
          (Sample.start (Sample.config "creating"))).2 ∧
    (waitForCreationComplete (Sample.world Sample.failedCluster Sample.quietProbe) Ref.cache
        (Sample.start (Sample.config "creating"))).1 =
      .ok (some Ref.cache, some "creation failed for cluster c1") ∧
    (waitForCreationComplete (Sample.world Sample.failedCluster Sample.quietProbe) Ref.cache
        (Sample.start (Sample.config "creating"))).2.cache = Sample.config "creating" :=
  have hget : Event.ClustersGet "projects/project-1/locations/us-east1/clusters/c1"
        (.ok Sample.failedCluster) ∈
      newEvents (Sample.start (Sample.config "creating"))
        (waitForCreationComplete (Sample.world Sample.failedCluster Sample.quietProbe) Ref.cache
          (Sample.start (Sample.config "creating"))).2 := by
    rw [show newEvents (Sample.start (Sample.config "creating"))
        (waitForCreationComplete (Sample.world Sample.failedCluster Sample.quietProbe) Ref.cache
          (Sample.start (Sample.config "creating"))).2 =
      [ .secretsCacheGet "cattle-global-data" "cc-1" (.ok Sample.secret),
        .GetGKEClient "credential" none,
        .ClustersGet "projects/project-1/locations/us-east1/clusters/c1"
          (.ok Sample.failedCluster) ] from rfl]
    simp
  ⟨hget,
    ((waitForCreationComplete_outcomes (Sample.world Sample.failedCluster Sample.quietProbe)
      Ref.cache (Sample.start (Sample.config "creating")) _ Sample.failedCluster hget).2.1
        rfl).1,
    (waitForCreationComplete_outcomes (Sample.world Sample.failedCluster Sample.quietProbe)
      Ref.cache (Sample.start (Sample.config "creating")) _ Sample.failedCluster hget).1⟩

/-- C7, at a sample input: an imported config goes to `importing`, then to
`active`, with two status writes and no other call. -/
theorem import_reconciles_witness :
    Sample.importedConfig.Spec.Imported = true ∧ Sample.importedConfig.Status.Phase = "" ∧
    Sample.importedConfig.DeletionTimestamp = none ∧
    ∃ r1 s1 r2 s2,
      OnGkeConfigChanged (Sample.world Sample.runningCluster Sample.quietProbe) "fleet/cluster-2"
        (some Ref.cache) (Sample.start Sample.importedConfig) = (.ok (some r1, none), s1) ∧
      (r1.get s1).Status.Phase = "importing" ∧
      OnGkeConfigChanged (Sample.world Sample.runningCluster Sample.quietProbe) "fleet/cluster-2"
        (some r1) s1 = (.ok (some r2, none), s2) ∧
      (r2.get s2).Status.Phase = "active" ∧
      outsideCalls (newEvents (Sample.start Sample.importedConfig) s2) = [] ∧
      statusWrites (newEvents (Sample.start Sample.importedConfig) s2) =
        [withPhase Sample.importedConfig "importing", withPhase (r1.get s1) "active"] :=
  ⟨rfl, rfl, rfl,
    import_reconciles (Sample.world Sample.runningCluster Sample.quietProbe) "fleet/cluster-2"
      Ref.cache (Sample.start Sample.importedConfig) rfl rfl rfl
      (sample_write Sample.runningCluster Sample.quietProbe)⟩

/-- C10, at the failing input: cluster version `1.0`, node-pool version
`1.18446744073709551615`.  Both parse, they are not equal, the pool's minor is
not one less than the cluster's, and `validateUpdate` accepts the config. -/
theorem validateUpdate_accepts_wrapped_minor :
    semver.New "1.0.0" = some { Major := 1, Minor := 0, Patch := 0 } ∧
    semver.New "1.18446744073709551615.0" =
      some { Major := 1, Minor := 18446744073709551615, Patch := 0 } ∧
    semver.Version.EQ { Major := 1, Minor := 0, Patch := 0 }
      { Major := 1, Minor := 18446744073709551615, Patch := 0 } = false ∧
    (18446744073709551615 : Nat) + 1 ≠ 0 ∧
    validateUpdate Sample.wrappedConfig = none := by
  refine ⟨by decide, by decide, by decide, by decide, by decide⟩

/-! ## The validator of create requests -/

theorem firstFailing_nil : firstFailing [] = none := rfl

theorem firstFailing_cons (b : Bool) (err : GoError) (rest : List Check) :
    firstFailing ((b, err) :: rest) = if b = true then some err else firstFailing rest := by
  cases b <;> simp [firstFailing, List.find?_cons]

theorem firstFailing_append (l₁ l₂ : List Check) :
    firstFailing (l₁ ++ l₂) =
      match firstFailing l₁ with
      | some err => some err
      | none => firstFailing l₂ := by
  induction l₁ with
  | nil => simp [firstFailing_nil]
  | cons chk rest ih =>
    obtain ⟨b, err⟩ := chk
    rw [List.cons_append, firstFailing_cons, firstFailing_cons]
    cases b <;> simp [ih]

theorem firstFailing_eq_none (l : List Check) :
    firstFailing l = none ↔ ∀ chk ∈ l, chk.1 = false := by
  induction l with
  | nil => simp [firstFailing_nil]
  | cons chk rest ih =>
    obtain ⟨b, err⟩ := chk
    rw [firstFailing_cons]
    cases b <;> simp [ih]

theorem validateAutoscaling_eq (pools : List gkev1.NodePoolConfig) :
    validateAutoscaling pools =
      if pools.any badAutoscaling = true then
        some "minNodeCount in the NodePool must be >= 1 and <= maxNodeCount"
      else none := by
  induction pools with
  | nil => rfl
  | cons np rest ih =>
    unfold validateAutoscaling
    cases ha : np.Autoscaling with
    | none => simp [ih, badAutoscaling, ha]
    | some a =>
      simp only [List.any_cons, badAutoscaling, ha]
      by_cases hbad : a.Enabled = true ∧ (a.MinNodeCount < 1 ∨ a.MaxNodeCount < a.MinNodeCount)
      · rw [if_pos hbad]
        obtain ⟨he, hb⟩ := hbad
        have : (decide (1 ≤ a.MinNodeCount) && decide (a.MinNodeCount ≤ a.MaxNodeCount)) = false := by
          rcases hb with hb | hb
          · simp; intro h; omega
          · simp; intro _; omega
        simp [he, this]
      · have : (a.Enabled && !(decide (1 ≤ a.MinNodeCount) &&
            decide (a.MinNodeCount ≤ a.MaxNodeCount))) = false := by
          cases he : a.Enabled
          · simp
          · simp only [he, true_and, not_or, not_lt] at hbad
            simp [hbad.1, hbad.2]
        rw [if_neg hbad, ih, this, Bool.false_or]

theorem validateNameUnused_eq (clusterName : String) (clusters : List gkeapi.Cluster) :
    validateNameUnused clusterName clusters =
      if clusters.any (fun cluster => decide (cluster.Name = clusterName)) = true then
        some ("cannot create cluster [" ++ clusterName ++
          "] because a cluster in GKE exists with the same name")
      else none := by
  induction clusters with
  | nil => rfl
  | cons cl rest ih =>
    unfold validateNameUnused
    by_cases h : cl.Name = clusterName
    · simp [h]
    · simp [h, ih]

theorem firstFailing_poolChecks (configName : String) (pools : List gkev1.NodePoolConfig) :
    firstFailing (pools.flatMap (fun np => PoolField.all.map
      (fun f => (f.isNil np, poolFieldError configName np f)))) =
      validateNodePoolFields configName pools := by
  induction pools with
  | nil => rfl
  | cons np rest ih =>
    rw [List.flatMap_cons, firstFailing_append, ih]
    conv_rhs => rw [validateNodePoolFields]
    simp only [PoolField.all, List.map_cons, List.map_nil, firstFailing_cons, firstFailing_nil,
      PoolField.isNil, poolFieldError, PoolField.label]
    cases hn : np.Name with
    | none => simp
    | some name =>
      cases hv : np.Version <;> cases ha : np.Autoscaling <;> cases hi : np.InitialNodeCount <;>
        cases hm : np.MaxPodsConstraint <;> cases hc : np.Config <;> simp

theorem firstFailing_requiredChecks (config : gkev1.GKEClusterConfig) :
    firstFailing (ClusterField.all.map
        (fun f => (f.isNil config.Spec, cannotBeNilError f.label config.Name)) ++
      config.Spec.NodePools.flatMap (fun np => PoolField.all.map
        (fun f => (f.isNil np, poolFieldError config.Name np f)))) =
      validateRequiredFields config := by
  rw [firstFailing_append, firstFailing_poolChecks]
  unfold validateRequiredFields
  simp only [ClusterField.all, List.map_cons, List.map_nil, firstFailing_cons, firstFailing_nil,
    ClusterField.isNil, ClusterField.label]
  cases h1 : config.Spec.EnableAlphaFeature <;> simp
  cases h2 : config.Spec.KubernetesVersion <;> simp
  cases h3 : config.Spec.ClusterAddons <;> simp
  cases h4 : config.Spec.IPAllocationPolicy <;> simp
  cases h5 : config.Spec.LoggingService <;> simp
  cases h6 : config.Spec.NetworkConfig <;> simp
  cases h7 : config.Spec.NetworkPolicy <;> simp
  cases h8 : config.Spec.PrivateClusterConfig <;> simp
  cases h9 : config.Spec.MasterAuthorizedNetworksConfig <;> simp
  cases h10 : config.Spec.MonitoringService <;> simp

theorem firstFailing_all_false (l : List Check) (h : ∀ chk ∈ l, chk.1 = false) :
    firstFailing l = none := (firstFailing_eq_none l).2 h

/-- The checks of the spec, read off in order, give what the nested tests of
`validateCreateRequest` give. -/
theorem firstFailing_createChecks (config : gkev1.GKEClusterConfig)
    (clusters : List gkeapi.Cluster) :
    firstFailing (createChecks config clusters) =
      if config.Spec.ProjectID = "" then some "project ID is required"
      else if config.Spec.Zone = "" ∧ config.Spec.Region = "" then
        some "zone or region is required"
      else if config.Spec.Zone ≠ "" ∧ config.Spec.Region ≠ "" then
        some "only one of zone or region must be specified"
      else if config.Spec.ClusterName = "" then some "cluster name is required"
      else
        match validateAutoscaling config.Spec.NodePools with
        | some err => some err
        | none =>
          match validateNameUnused config.Spec.ClusterName clusters with
          | some err => some err
          | none => if config.Spec.Imported = true then none else validateRequiredFields config := by
  unfold createChecks
  rw [List.append_assoc]
  simp only [List.cons_append, List.nil_append, firstFailing_cons, decide_eq_true_eq]
  by_cases h1 : config.Spec.ProjectID = ""
  · simp [h1]
  rw [if_neg h1, if_neg h1]
  by_cases h2 : config.Spec.Zone = "" ∧ config.Spec.Region = ""
  · simp [h2]
  rw [if_neg h2, if_neg h2]
  by_cases h3 : config.Spec.Zone ≠ "" ∧ config.Spec.Region ≠ ""
  · simp [h3]
  rw [if_neg h3, if_neg h3]
  by_cases h4 : config.Spec.ClusterName = ""
  · simp [h4]
  rw [if_neg h4, if_neg h4, validateAutoscaling_eq, validateNameUnused_eq]
  by_cases h5 : config.Spec.NodePools.any badAutoscaling = true
  · simp [h5]
  rw [if_neg h5, if_neg h5]
  by_cases h6 : clusters.any (fun cluster => decide (cluster.Name = config.Spec.ClusterName)) = true
  · simp [h6]
  rw [if_neg h6, if_neg h6]
  cases himp : config.Spec.Imported
  · simp only [Bool.not_false, Bool.true_and, Bool.false_eq_true, if_false]
    exact firstFailing_requiredChecks config
  · simp only [Bool.not_true, Bool.false_and, if_true]
    apply firstFailing_all_false
    intro chk hchk
    simp only [List.mem_append, List.mem_map, List.mem_flatMap] at hchk
    rcases hchk with ⟨f, _, rfl⟩ | ⟨np, _, f, _, rfl⟩ <;> rfl

/-- The early checks of `validateCreateRequest`, made before any call. -/
theorem validateCreateRequest_early (w : World) (cred : String) (config : gkev1.GKEClusterConfig)
    (s : St) (err : GoError)
    (h : (if config.Spec.ProjectID = "" then some "project ID is required"
      else if config.Spec.Zone = "" ∧ config.Spec.Region = "" then
        some "zone or region is required"
      else if config.Spec.Zone ≠ "" ∧ config.Spec.Region ≠ "" then
        some "only one of zone or region must be specified"
      else if config.Spec.ClusterName = "" then some "cluster name is required"
      else validateAutoscaling config.Spec.NodePools) = some err) :
    validateCreateRequest w cred config s = (.ok (some err), s) := by
  change (validateCreateRequest w cred config).run s = _
  unfold validateCreateRequest
  by_cases h1 : config.Spec.ProjectID = ""
  · rw [if_pos h1] at h ⊢
    simp only [Option.some.injEq] at h
    simp [h]
  rw [if_neg h1] at h ⊢
  by_cases h2 : config.Spec.Zone = "" ∧ config.Spec.Region = ""
  · rw [if_pos h2] at h ⊢
    simp only [Option.some.injEq] at h
    simp [h]
  rw [if_neg h2] at h ⊢
  by_cases h3 : config.Spec.Zone ≠ "" ∧ config.Spec.Region ≠ ""
  · rw [if_pos h3] at h ⊢
    simp only [Option.some.injEq] at h
    simp [h]
  rw [if_neg h3] at h ⊢
  by_cases h4 : config.Spec.ClusterName = ""
  · rw [if_pos h4] at h ⊢
    simp only [Option.some.injEq] at h
    simp [h]
  rw [if_neg h4] at h ⊢
  rw [h]
  rfl

/-- The run of `validateCreateRequest` once the early checks pass, the client
is built and the clusters are listed. -/
theorem validateCreateRequest_late (w : World) (cred : String) (config : gkev1.GKEClusterConfig)
    (s : St) (op : gkeapi.ListClustersResponse) (e : Option GoError)
    (h1 : config.Spec.ProjectID ≠ "")
    (h2 : ¬(config.Spec.Zone = "" ∧ config.Spec.Region = ""))
    (h3 : ¬(config.Spec.Zone ≠ "" ∧ config.Spec.Region ≠ ""))
    (h4 : config.Spec.ClusterName ≠ "")
    (h5 : validateAutoscaling config.Spec.NodePools = none)
    (hclient : w.GetGKEClient s.trace cred = none)
    (hlist : w.ClustersList (s.trace ++ [.GetGKEClient cred none])
      (utils.LocationRRN config.Spec.ProjectID config.Spec.Region) = (some op, e)) :
    validateCreateRequest w cred config s =
      (.ok (match validateNameUnused config.Spec.ClusterName op.Clusters with
          | some err => some err
          | none => if config.Spec.Imported = true then none else validateRequiredFields config),
        { s with trace := s.trace ++
          [ .GetGKEClient cred none,
            .ClustersList (utils.LocationRRN config.Spec.ProjectID config.Spec.Region)
              (some op, e) ] }) := by
  change (validateCreateRequest w cred config).run s = _
  unfold validateCreateRequest
  rw [if_neg h1, if_neg h2, if_neg h3, if_neg h4, h5]
  simp only [run_bind, run_callGetGKEClient, hclient, run_callClustersList, hlist, run_ofExcept,
    deref, List.append_assoc, List.singleton_append]
  cases hn : validateNameUnused config.Spec.ClusterName op.Clusters with
  | some err => simp
  | none =>
    cases hi : config.Spec.Imported <;> simp

/-- With the client built and the clusters listed, `validateCreateRequest`
returns the error of the first check of the spec that fails. -/
theorem validateCreateRequest_value (w : World) (cred : String)
    (config : gkev1.GKEClusterConfig) (s : St) (op : gkeapi.ListClustersResponse)
    (e : Option GoError)
    (hclient : w.GetGKEClient s.trace cred = none)
    (hlist : w.ClustersList (s.trace ++ [.GetGKEClient cred none])
      (utils.LocationRRN config.Spec.ProjectID config.Spec.Region) = (some op, e)) :
    (validateCreateRequest w cred config s).1 =
      .ok (firstFailing (createChecks config op.Clusters)) := by
  rw [firstFailing_createChecks]
  by_cases h1 : config.Spec.ProjectID = ""
  · rw [validateCreateRequest_early w cred config s _ (by rw [if_pos h1]), if_pos h1]
  by_cases h2 : config.Spec.Zone = "" ∧ config.Spec.Region = ""
  · rw [validateCreateRequest_early w cred config s _ (by rw [if_neg h1, if_pos h2]),
      if_neg h1, if_pos h2]
  by_cases h3 : config.Spec.Zone ≠ "" ∧ config.Spec.Region ≠ ""
  · rw [validateCreateRequest_early w cred config s _ (by rw [if_neg h1, if_neg h2, if_pos h3]),
      if_neg h1, if_neg h2, if_pos h3]
  by_cases h4 : config.Spec.ClusterName = ""
  · rw [validateCreateRequest_early w cred config s _
      (by rw [if_neg h1, if_neg h2, if_neg h3, if_pos h4]),
      if_neg h1, if_neg h2, if_neg h3, if_pos h4]
  rw [if_neg h1, if_neg h2, if_neg h3, if_neg h4]
  cases h5 : validateAutoscaling config.Spec.NodePools with
  | some err =>
    rw [validateCreateRequest_early w cred config s err
      (by rw [if_neg h1, if_neg h2, if_neg h3, if_neg h4, h5])]
  | none =>
    exact congrArg Prod.fst
      (validateCreateRequest_late w cred config s op e h1 h2 h3 h4 h5 hclient hlist)

/-! ## What error messages mention -/

theorem mentions_intro (msg part pre post : String) (h : msg = pre ++ part ++ post) :
    Mentions msg part := by
  refine ⟨pre.toList, post.toList, ?_⟩
  rw [h]
  simp [String.toList]

theorem mentions_cannotBeNilError_field (field cluster : String) :
    Mentions (cannotBeNilError field cluster) field :=
  mentions_intro _ _ "field [" ("] cannot be nil for non-import cluster [" ++ cluster ++ "]")
    (by simp [cannotBeNilError, String.append_assoc])

theorem mentions_cannotBeNilError_cluster (field cluster : String) :
    Mentions (cannotBeNilError field cluster) cluster :=
  mentions_intro _ _ ("field [" ++ field ++ "] cannot be nil for non-import cluster [") "]"
    (by simp [cannotBeNilError, String.append_assoc])

theorem mentions_cannotBeNilForNodePoolError_field (field nodepool cluster : String) :
    Mentions (cannotBeNilForNodePoolError field nodepool cluster) field :=
  mentions_intro _ _ "field ["
    ("] cannot be nil for nodepool [" ++ nodepool ++ "] in non-nil cluster [" ++ cluster ++ "]")
    (by simp [cannotBeNilForNodePoolError, String.append_assoc])

theorem mentions_cannotBeNilForNodePoolError_nodepool (field nodepool cluster : String) :
    Mentions (cannotBeNilForNodePoolError field nodepool cluster) nodepool :=
  mentions_intro _ _ ("field [" ++ field ++ "] cannot be nil for nodepool [")
    ("] in non-nil cluster [" ++ cluster ++ "]")
    (by simp [cannotBeNilForNodePoolError, String.append_assoc])

theorem mentions_cannotBeNilForNodePoolError_cluster (field nodepool cluster : String) :
    Mentions (cannotBeNilForNodePoolError field nodepool cluster) cluster :=
  mentions_intro _ _
    ("field [" ++ field ++ "] cannot be nil for nodepool [" ++ nodepool ++ "] in non-nil cluster [")
    "]"
    (by simp [cannotBeNilForNodePoolError, String.append_assoc])

theorem mentions_poolFieldError_label (configName : String) (np : gkev1.NodePoolConfig)
    (f : PoolField) : Mentions (poolFieldError configName np f) f.label := by
  cases f
  · exact mentions_cannotBeNilError_field _ _
  all_goals exact mentions_cannotBeNilForNodePoolError_field _ _ _

theorem mentions_poolFieldError_config (configName : String) (np : gkev1.NodePoolConfig)
    (f : PoolField) : Mentions (poolFieldError configName np f) configName := by
  cases f
  · exact mentions_cannotBeNilError_cluster _ _
  all_goals exact mentions_cannotBeNilForNodePoolError_cluster _ _ _

theorem mentions_poolFieldError_pool (configName : String) (np : gkev1.NodePoolConfig)
    (f : PoolField) (hf : f ≠ .name) (name : String) (hname : np.Name = some name) :
    Mentions (poolFieldError configName np f) name := by
  cases f
  · exact absurd rfl hf
  all_goals
    simp only [poolFieldError, hname, Option.getD_some]
    exact mentions_cannotBeNilForNodePoolError_nodepool _ _ _

/-! ## Required fields -/

/-- A node pool with no nil required field passes the last loop of the
validator. -/
theorem validateNodePoolFields_cons_ok (configName : String) (np : gkev1.NodePoolConfig)
    (rest : List gkev1.NodePoolConfig) (h : ∀ f : PoolField, f.isNil np = false) :
    validateNodePoolFields configName (np :: rest) = validateNodePoolFields configName rest := by
  have h1 := h .name
  have h2 := h .version
  have h3 := h .autoscaling
  have h4 := h .initialNodeCount
  have h5 := h .maxPodsConstraint
  have h6 := h .config
  simp only [PoolField.isNil] at h1 h2 h3 h4 h5 h6
  rw [validateNodePoolFields]
  cases hn : np.Name with
  | none => simp [hn] at h1
  | some name =>
    cases hv : np.Version <;> cases ha : np.Autoscaling <;> cases hi : np.InitialNodeCount <;>
      cases hm : np.MaxPodsConstraint <;> cases hc : np.Config <;>
      simp_all

/-- The first node pool with a nil required field, whose only nil field is
`f`, is reported under `f`. -/
theorem validateNodePoolFields_cons_nil (configName : String) (np : gkev1.NodePoolConfig)
    (rest : List gkev1.NodePoolConfig) (f : PoolField) (hnil : f.isNil np = true)
    (honly : ∀ g : PoolField, g.isNil np = true → g = f) :
    validateNodePoolFields configName (np :: rest) = some (poolFieldError configName np f) := by
  have h1 := honly .name
  have h2 := honly .version
  have h3 := honly .autoscaling
  have h4 := honly .initialNodeCount
  have h5 := honly .maxPodsConstraint
  have h6 := honly .config
  rw [validateNodePoolFields]
  cases f <;> simp only [PoolField.isNil, Option.isNone_iff_eq_none, reduceCtorEq, imp_false,
      imp_self] at hnil h1 h2 h3 h4 h5 h6
  · simp [hnil, poolFieldError, PoolField.label]
  all_goals
    obtain ⟨name, hname⟩ := Option.ne_none_iff_exists'.1 h1
    simp [hname, hnil, poolFieldError, PoolField.label, *]

theorem validateNodePoolFields_only (configName : String) :
    ∀ (pools : List gkev1.NodePoolConfig) (i : Nat) (np : gkev1.NodePoolConfig) (f : PoolField),
      pools.get? i = some np → f.isNil np = true →
      (∀ j npj g, pools.get? j = some npj → PoolField.isNil npj g = true → j = i ∧ g = f) →
      validateNodePoolFields configName pools = some (poolFieldError configName np f)
  | [], i, np, f, hget, _, _ => by simp at hget
  | p :: rest, 0, np, f, hget, hnil, honly => by
    simp only [List.get?_cons_zero, Option.some.injEq] at hget
    subst hget
    exact validateNodePoolFields_cons_nil configName p rest f hnil
      (fun g hg => (honly 0 p g rfl hg).2)
  | p :: rest, i + 1, np, f, hget, hnil, honly => by
    have hp : ∀ g : PoolField, g.isNil p = false := by
      intro g
      cases hg : g.isNil p
      · rfl
      · have := (honly 0 p g rfl hg).1
        omega
    rw [validateNodePoolFields_cons_ok configName p rest hp]
    exact validateNodePoolFields_only configName rest i np f hget hnil
      (fun j npj g hj hg => by
        have := honly (j + 1) npj g hj hg
        exact ⟨by omega, this.2⟩)

/-- An error of the last loop of the validator is the error of a nil field of
some node pool; unless the field is the name, the node pool has a name. -/
theorem validateNodePoolFields_some (configName : String) :
    ∀ (pools : List gkev1.NodePoolConfig) (err : GoError),
      validateNodePoolFields configName pools = some err →
      ∃ i np f, pools.get? i = some np ∧ PoolField.isNil np f = true ∧
        err = poolFieldError configName np f ∧ (f ≠ .name → ∃ name, np.Name = some name)
  | [], err, h => by simp [validateNodePoolFields] at h
  | p :: rest, err, h => by
    by_cases hp : ∀ g : PoolField, g.isNil p = false
    · rw [validateNodePoolFields_cons_ok configName p rest hp] at h
      obtain ⟨i, np, f, h1, h2, h3, h4⟩ := validateNodePoolFields_some configName rest err h
      exact ⟨i + 1, np, f, h1, h2, h3, h4⟩
    · rw [validateNodePoolFields] at h
      cases hn : p.Name with
      | none =>
        simp only [hn, Option.some.injEq] at h
        exact ⟨0, p, .name, rfl, by simp [PoolField.isNil, hn], by simp [poolFieldError, ← h,
          PoolField.label], fun hf => absurd rfl hf⟩
      | some name =>
        simp only [hn] at h
        split at h
        · rename_i hv
          exact ⟨0, p, .version, rfl, by simp [PoolField.isNil, hv],
            by simp [poolFieldError, hn, PoolField.label, ← Option.some.inj h], fun _ => ⟨name, hn⟩⟩
        split at h
        · rename_i hv
          exact ⟨0, p, .autoscaling, rfl, by simp [PoolField.isNil, hv],
            by simp [poolFieldError, hn, PoolField.label, ← Option.some.inj h], fun _ => ⟨name, hn⟩⟩
        split at h
        · rename_i hv
          exact ⟨0, p, .initialNodeCount, rfl, by simp [PoolField.isNil, hv],
            by simp [poolFieldError, hn, PoolField.label, ← Option.some.inj h], fun _ => ⟨name, hn⟩⟩
        split at h
        · rename_i hv
          exact ⟨0, p, .maxPodsConstraint, rfl, by simp [PoolField.isNil, hv],
            by simp [poolFieldError, hn, PoolField.label, ← Option.some.inj h], fun _ => ⟨name, hn⟩⟩
        split at h
        · rename_i hv
          exact ⟨0, p, .config, rfl, by simp [PoolField.isNil, hv],
            by simp [poolFieldError, hn, PoolField.label, ← Option.some.inj h], fun _ => ⟨name, hn⟩⟩
        · rename_i h1 h2 h3 h4 h5
          exfalso
          apply hp
          intro g
          cases g <;>
            simp [PoolField.isNil, hn, Option.ne_none_iff_isSome.1 h1,
              Option.ne_none_iff_isSome.1 h2, Option.ne_none_iff_isSome.1 h3,
              Option.ne_none_iff_isSome.1 h4, Option.ne_none_iff_isSome.1 h5]

/-- With no cluster-level required field nil, what is left of the required
fields is the loop over the node pools. -/
theorem validateRequiredFields_pools (config : gkev1.GKEClusterConfig)
    (h : ∀ f : ClusterField, f.isNil config.Spec = false) :
    validateRequiredFields config =
      validateNodePoolFields config.Name config.Spec.NodePools := by
  have h1 := h .enableAlphaFeature
  have h2 := h .kubernetesVersion
  have h3 := h .clusterAddons
  have h4 := h .ipAllocationPolicy
  have h5 := h .loggingService
  have h6 := h .networkConfig
  have h7 := h .networkPolicy
  have h8 := h .privateClusterConfig
  have h9 := h .masterAuthorizedNetworksConfig
  have h10 := h .monitoringService
  simp only [ClusterField.isNil, Option.isNone_eq_false_iff, Option.isSome_iff_ne_none]
    at h1 h2 h3 h4 h5 h6 h7 h8 h9 h10
  unfold validateRequiredFields
  rw [if_neg h1, if_neg h2, if_neg h3, if_neg h4, if_neg h5, if_neg h6, if_neg h7, if_neg h8,
    if_neg h9, if_neg h10]

/-- A cluster-level required field that is the only nil one is reported. -/
theorem validateRequiredFields_cluster_only (config : gkev1.GKEClusterConfig) (f : ClusterField)
    (hnil : f.isNil config.Spec = true)
    (honly : ∀ g : ClusterField, g.isNil config.Spec = true → g = f) :
    validateRequiredFields config = some (cannotBeNilError f.label config.Name) := by
  have h1 := honly .enableAlphaFeature
  have h2 := honly .kubernetesVersion
  have h3 := honly .clusterAddons
  have h4 := honly .ipAllocationPolicy
  have h5 := honly .loggingService
  have h6 := honly .networkConfig
  have h7 := honly .networkPolicy
  have h8 := honly .privateClusterConfig
  have h9 := honly .masterAuthorizedNetworksConfig
  have h10 := honly .monitoringService
  unfold validateRequiredFields
  cases f <;>
    simp only [ClusterField.isNil, Option.isNone_iff_eq_none, reduceCtorEq, imp_false,
      imp_self] at hnil h1 h2 h3 h4 h5 h6 h7 h8 h9 h10 <;>
    simp [hnil, ClusterField.label, *]

/-- An error of the required-field checks is the error of a nil required
field. -/
theorem validateRequiredFields_some (config : gkev1.GKEClusterConfig) (err : GoError)
    (h : validateRequiredFields config = some err) :
    (∃ f : ClusterField, f.isNil config.Spec = true ∧
      err = cannotBeNilError f.label config.Name) ∨
    validateNodePoolFields config.Name config.Spec.NodePools = some err := by
  by_cases hall : ∀ f : ClusterField, f.isNil config.Spec = false
  · rw [validateRequiredFields_pools config hall] at h
    exact Or.inr h
  · left
    unfold validateRequiredFields at h
    split at h
    · rename_i hv
      exact ⟨.enableAlphaFeature, by simp [ClusterField.isNil, hv], (Option.some.inj h).symm⟩
    split at h
    · rename_i hv
      exact ⟨.kubernetesVersion, by simp [ClusterField.isNil, hv], (Option.some.inj h).symm⟩
    split at h
    · rename_i hv
      exact ⟨.clusterAddons, by simp [ClusterField.isNil, hv], (Option.some.inj h).symm⟩
    split at h
    · rename_i hv
      exact ⟨.ipAllocationPolicy, by simp [ClusterField.isNil, hv], (Option.some.inj h).symm⟩
    split at h
    · rename_i hv
      exact ⟨.loggingService, by simp [ClusterField.isNil, hv], (Option.some.inj h).symm⟩
    split at h
    · rename_i hv
      exact ⟨.networkConfig, by simp [ClusterField.isNil, hv], (Option.some.inj h).symm⟩
    split at h
    · rename_i hv
      exact ⟨.networkPolicy, by simp [ClusterField.isNil, hv], (Option.some.inj h).symm⟩
    split at h
    · rename_i hv
      exact ⟨.privateClusterConfig, by simp [ClusterField.isNil, hv], (Option.some.inj h).symm⟩
    split at h
    · rename_i hv
      exact ⟨.masterAuthorizedNetworksConfig, by simp [ClusterField.isNil, hv],
        (Option.some.inj h).symm⟩
    split at h
    · rename_i hv
      exact ⟨.monitoringService, by simp [ClusterField.isNil, hv], (Option.some.inj h).symm⟩
    · rename_i h1 h2 h3 h4 h5 h6 h7 h8 h9 h10
      exfalso
      apply hall
      intro g
      cases g <;>
        simp [ClusterField.isNil, Option.ne_none_iff_isSome.1 h1,
          Option.ne_none_iff_isSome.1 h2, Option.ne_none_iff_isSome.1 h3,
          Option.ne_none_iff_isSome.1 h4, Option.ne_none_iff_isSome.1 h5,
          Option.ne_none_iff_isSome.1 h6, Option.ne_none_iff_isSome.1 h7,
          Option.ne_none_iff_isSome.1 h8, Option.ne_none_iff_isSome.1 h9,
          Option.ne_none_iff_isSome.1 h10]

/-- The required field that is the only nil one is reported under its label. -/
theorem validateRequiredFields_only (config : gkev1.GKEClusterConfig) (f : RequiredField)
    (hnil : f.isNil config = true)
    (honly : ∀ g : RequiredField, g.isNil config = true → g = f) :
    ∃ err, validateRequiredFields config = some err ∧ Mentions err f.label := by
  cases f with
  | cluster cf =>
    refine ⟨_, validateRequiredFields_cluster_only config cf hnil ?_,
      mentions_cannotBeNilError_field _ _⟩
    intro g hg
    have := honly (.cluster g) hg
    exact RequiredField.cluster.inj this
  | pool i pf =>
    have hall : ∀ g : ClusterField, g.isNil config.Spec = false := by
      intro g
      cases hg : g.isNil config.Spec
      · rfl
      · exact absurd (honly (.cluster g) hg) (by simp)
    simp only [RequiredField.isNil] at hnil
    cases hget : config.Spec.NodePools.get? i with
    | none =>
      simp only [hget] at hnil
      exact absurd hnil (by simp)
    | some np =>
      simp only [hget] at hnil
      refine ⟨_, ?_, mentions_poolFieldError_label config.Name np pf⟩
      rw [validateRequiredFields_pools config hall]
      apply validateNodePoolFields_only config.Name _ i np pf hget hnil
      intro j npj g hj hg
      have := honly (.pool j g) (by
        simp only [RequiredField.isNil, hj]
        exact hg)
      exact RequiredField.pool.inj this

theorem validateAutoscaling_none_of_all (pools : List gkev1.NodePoolConfig)
    (h : ∀ np ∈ pools, badAutoscaling np = false) : validateAutoscaling pools = none := by
  rw [validateAutoscaling_eq, if_neg]
  simp only [List.any_eq_true, not_exists, not_and, Bool.not_eq_true]
  exact h

theorem validateNameUnused_none_of_all (clusterName : String) (clusters : List gkeapi.Cluster)
    (h : ∀ cluster ∈ clusters, cluster.Name ≠ clusterName) :
    validateNameUnused clusterName clusters = none := by
  rw [validateNameUnused_eq, if_neg]
  simp only [List.any_eq_true, decide_eq_true_eq, not_exists, not_and]
  exact h

/-- The run of `validateCreateRequest` on a config that passes the checks made
before the required fields are looked at. -/
theorem validateCreateRequest_required (w : World) (cred : String)
    (config : gkev1.GKEClusterConfig) (s : St) (op : gkeapi.ListClustersResponse)
    (e : Option GoError)
    (hclient : w.GetGKEClient s.trace cred = none)
    (hlist : w.ClustersList (s.trace ++ [.GetGKEClient cred none])
      (utils.LocationRRN config.Spec.ProjectID config.Spec.Region) = (some op, e))
    (h1 : config.Spec.ProjectID ≠ "")
    (h2 : (config.Spec.Zone = "" ∧ config.Spec.Region ≠ "") ∨
      (config.Spec.Zone ≠ "" ∧ config.Spec.Region = ""))
    (h3 : config.Spec.ClusterName ≠ "")
    (h4 : ∀ np ∈ config.Spec.NodePools, badAutoscaling np = false)
    (h5 : ∀ cluster ∈ op.Clusters, cluster.Name ≠ config.Spec.ClusterName) :
    (validateCreateRequest w cred config s).1 =
      .ok (if config.Spec.Imported = true then none else validateRequiredFields config) := by
  rw [validateCreateRequest_late w cred config s op e h1
    (by rcases h2 with h | h <;> simp [h.1, h.2])
    (by rcases h2 with h | h <;> simp [h.1, h.2]) h3
    (validateAutoscaling_none_of_all _ h4) hclient hlist,
    validateNameUnused_none_of_all _ _ h5]

/-- C13, validator order. Given that the client is built and the clusters that
exist upstream are listed, `validateCreateRequest` returns the error of the
first failing check in the order: project ID empty; zone and region both
empty, or both set; cluster name empty; a node pool with autoscaling enabled
and bounds that break `1 ≤ minNodeCount ≤ maxNodeCount`; a cluster of the
same name upstream; then, for a config that is not imported, the first nil
cluster-level required field (`enableAlphaFeature`, `kubernetesVersion`,
`clusterAddons`, `ipAllocationPolicy`, `loggingService`, `networkConfig`,
`networkPolicy`, `privateClusterConfig`, `masterAuthorizedNetworksConfig`,
`monitoringService`), then node pool by node pool `name`, `version`,
`autoscaling`, `initialNodeCount`, `maxPodsConstraint`, `config`; and it
returns nil exactly when no check fails. -/
theorem validateCreateRequest_first_failing_check (w : World) (cred : String)
    (config : gkev1.GKEClusterConfig) (s : St) (op : gkeapi.ListClustersResponse)
    (e : Option GoError)
    (hclient : w.GetGKEClient s.trace cred = none)
    (hlist : w.ClustersList (s.trace ++ [.GetGKEClient cred none])
      (utils.LocationRRN config.Spec.ProjectID config.Spec.Region) = (some op, e)) :
    (validateCreateRequest w cred config s).1 =
      .ok (firstFailing (createChecks config op.Clusters)) ∧
    ((validateCreateRequest w cred config s).1 = .ok none ↔
      ∀ check ∈ createChecks config op.Clusters, check.1 = false) := by
  have h := validateCreateRequest_value w cred config s op e hclient hlist
  refine ⟨h, ?_⟩
  rw [h, ← firstFailing_eq_none]
  constructor
  · intro h'
    exact Except.ok.inj h'
  · intro h'
    rw [h']

/-- C14, validator completeness. For a config that is not imported and passes
the checks on project, zone and region, cluster name, autoscaling bounds and
name in use, and in which exactly one required field is nil (one of the ten
cluster-level fields, or `name`, `version`, `autoscaling`,
`initialNodeCount`, `maxPodsConstraint`, `config` of some node pool),
`validateCreateRequest` returns an error whose message contains the name of
that field. -/
theorem validateCreateRequest_names_missing_field (w : World) (cred : String)
    (config : gkev1.GKEClusterConfig) (s : St) (op : gkeapi.ListClustersResponse)
    (e : Option GoError) (f : RequiredField)
    (hclient : w.GetGKEClient s.trace cred = none)
    (hlist : w.ClustersList (s.trace ++ [.GetGKEClient cred none])
      (utils.LocationRRN config.Spec.ProjectID config.Spec.Region) = (some op, e))
    (himported : config.Spec.Imported = false)
    (h1 : config.Spec.ProjectID ≠ "")
    (h2 : (config.Spec.Zone = "" ∧ config.Spec.Region ≠ "") ∨
      (config.Spec.Zone ≠ "" ∧ config.Spec.Region = ""))
    (h3 : config.Spec.ClusterName ≠ "")
    (h4 : ∀ np ∈ config.Spec.NodePools, badAutoscaling np = false)
    (h5 : ∀ cluster ∈ op.Clusters, cluster.Name ≠ config.Spec.ClusterName)
    (hnil : f.isNil config = true)
    (honly : ∀ g : RequiredField, g.isNil config = true → g = f) :
    ∃ err, (validateCreateRequest w cred config s).1 = .ok (some err) ∧
      Mentions err f.label := by
  obtain ⟨err, herr, hm⟩ := validateRequiredFields_only config f hnil honly
  refine ⟨err, ?_, hm⟩
  rw [validateCreateRequest_required w cred config s op e hclient hlist h1 h2 h3 h4 h5,
    himported, ← herr]
  rfl

/-- No early check fails on a config that `validateCreateRequest` accepts. -/
theorem validateCreateRequest_accepts (w : World) (cred : String)
    (config : gkev1.GKEClusterConfig) (s s' : St)
    (h : validateCreateRequest w cred config s = (.ok none, s')) :
    config.Spec.ProjectID ≠ "" ∧ ¬(config.Spec.Zone = "" ∧ config.Spec.Region = "") ∧
    ¬(config.Spec.Zone ≠ "" ∧ config.Spec.Region ≠ "") ∧ config.Spec.ClusterName ≠ "" ∧
    validateAutoscaling config.Spec.NodePools = none := by
  have key : ∀ err, (if config.Spec.ProjectID = "" then some "project ID is required"
      else if config.Spec.Zone = "" ∧ config.Spec.Region = "" then
        some "zone or region is required"
      else if config.Spec.Zone ≠ "" ∧ config.Spec.Region ≠ "" then
        some "only one of zone or region must be specified"
      else if config.Spec.ClusterName = "" then some "cluster name is required"
      else validateAutoscaling config.Spec.NodePools) ≠ some err := by
    intro err herr
    rw [validateCreateRequest_early w cred config s err herr] at h
    simp at h
  by_cases h1 : config.Spec.ProjectID = ""
  · exact absurd (by rw [if_pos h1]) (key _)
  by_cases h2 : config.Spec.Zone = "" ∧ config.Spec.Region = ""
  · exact absurd (by rw [if_neg h1, if_pos h2]) (key _)
  by_cases h3 : config.Spec.Zone ≠ "" ∧ config.Spec.Region ≠ ""
  · exact absurd (by rw [if_neg h1, if_neg h2, if_pos h3]) (key _)
  by_cases h4 : config.Spec.ClusterName = ""
  · exact absurd (by rw [if_neg h1, if_neg h2, if_neg h3, if_pos h4]) (key _)
  refine ⟨h1, h2, h3, h4, ?_⟩
  cases h5 : validateAutoscaling config.Spec.NodePools with
  | none => rfl
  | some err => exact absurd (by rw [if_neg h1, if_neg h2, if_neg h3, if_neg h4, h5]) (key err)

/-- C15, zone and region. For a config with a project ID,
`validateCreateRequest` fails with `zone or region is required` when zone and
region are both empty and with `only one of zone or region must be specified`
when both are set, in both cases before any call is made; hence a config it
accepts has exactly one of zone and region set. -/
theorem validateCreateRequest_zone_region (w : World) (cred : String)
    (config : gkev1.GKEClusterConfig) (s : St) :
    (config.Spec.ProjectID ≠ "" → config.Spec.Zone = "" → config.Spec.Region = "" →
      validateCreateRequest w cred config s = (.ok (some "zone or region is required"), s)) ∧
    (config.Spec.ProjectID ≠ "" → config.Spec.Zone ≠ "" → config.Spec.Region ≠ "" →
      validateCreateRequest w cred config s =
        (.ok (some "only one of zone or region must be specified"), s)) ∧
    (∀ s', validateCreateRequest w cred config s = (.ok none, s') →
      (config.Spec.Zone = "" ∧ config.Spec.Region ≠ "") ∨
      (config.Spec.Zone ≠ "" ∧ config.Spec.Region = "")) := by
  refine ⟨?_, ?_, ?_⟩
  · intro h1 hz hr
    exact validateCreateRequest_early w cred config s _ (by rw [if_neg h1, if_pos ⟨hz, hr⟩])
  · intro h1 hz hr
    exact validateCreateRequest_early w cred config s _
      (by rw [if_neg h1, if_neg (fun h => hz h.1), if_pos ⟨hz, hr⟩])
  · intro s' h
    obtain ⟨_, h2, h3, _, _⟩ := validateCreateRequest_accepts w cred config s s' h
    by_cases hz : config.Spec.Zone = ""
    · exact Or.inl ⟨hz, fun hr => h2 ⟨hz, hr⟩⟩
    · exact Or.inr ⟨hz, by_contra fun hr => h3 ⟨hz, hr⟩⟩

/-- C16, autoscaling bounds. In a config that `validateCreateRequest` accepts,
every node pool whose autoscaling is set and enabled has
`1 ≤ minNodeCount ≤ maxNodeCount`; and a node pool whose autoscaling is nil
or not enabled plays no part in the check of the bounds, whatever its bounds
are: the check gives the same with and without it. -/
theorem validateCreateRequest_autoscaling_bounds (w : World) (cred : String)
    (config : gkev1.GKEClusterConfig) (s : St) :
    (∀ s', validateCreateRequest w cred config s = (.ok none, s') →
      ∀ np ∈ config.Spec.NodePools, ∀ a, np.Autoscaling = some a → a.Enabled = true →
        1 ≤ a.MinNodeCount ∧ a.MinNodeCount ≤ a.MaxNodeCount) ∧
    (∀ (before after : List gkev1.NodePoolConfig) (np : gkev1.NodePoolConfig),
      (np.Autoscaling = none ∨ ∃ a, np.Autoscaling = some a ∧ a.Enabled = false) →
      validateAutoscaling (before ++ np :: after) = validateAutoscaling (before ++ after)) := by
  constructor
  · intro s' h np hnp a ha he
    obtain ⟨_, _, _, _, h5⟩ := validateCreateRequest_accepts w cred config s s' h
    rw [validateAutoscaling_eq] at h5
    split at h5
    · simp at h5
    · rename_i hany
      simp only [List.any_eq_true, not_exists, not_and, Bool.not_eq_true] at hany
      have := hany np hnp
      simp only [badAutoscaling, ha, he, Bool.true_and, Bool.not_eq_false', Bool.and_eq_true,
        decide_eq_true_eq] at this
      exact this
  · intro before after np hnp
    have hbad : badAutoscaling np = false := by
      rcases hnp with h | ⟨a, ha, he⟩
      · simp [badAutoscaling, h]
      · simp [badAutoscaling, ha, he]
    rw [validateAutoscaling_eq, validateAutoscaling_eq]
    simp [List.any_append, hbad]

/-- C17, as amended. Every error that `validateCreateRequest` returns once the
checks on project, zone and region, cluster name, autoscaling bounds and name
in use have passed is the error of a nil required field: its message
contains the name of that field and the name of the config, and, for a
node-pool field other than the name of the node pool, the name of the node
pool. -/
theorem validateCreateRequest_required_field_errors (w : World) (cred : String)
    (config : gkev1.GKEClusterConfig) (s : St) (op : gkeapi.ListClustersResponse)
    (e : Option GoError) (err : GoError)
    (hclient : w.GetGKEClient s.trace cred = none)
    (hlist : w.ClustersList (s.trace ++ [.GetGKEClient cred none])
      (utils.LocationRRN config.Spec.ProjectID config.Spec.Region) = (some op, e))
    (h1 : config.Spec.ProjectID ≠ "")
    (h2 : (config.Spec.Zone = "" ∧ config.Spec.Region ≠ "") ∨
      (config.Spec.Zone ≠ "" ∧ config.Spec.Region = ""))
    (h3 : config.Spec.ClusterName ≠ "")
    (h4 : ∀ np ∈ config.Spec.NodePools, badAutoscaling np = false)
    (h5 : ∀ cluster ∈ op.Clusters, cluster.Name ≠ config.Spec.ClusterName)
    (herr : (validateCreateRequest w cred config s).1 = .ok (some err)) :
    ∃ f : RequiredField, f.isNil config = true ∧ Mentions err f.label ∧
      Mentions err config.Name ∧
      ∀ i pf, f = .pool i pf → pf ≠ .name →
        ∃ np name, config.Spec.NodePools.get? i = some np ∧ np.Name = some name ∧
          Mentions err name := by
  rw [validateCreateRequest_required w cred config s op e hclient hlist h1 h2 h3 h4 h5] at herr
  have herr := Except.ok.inj herr
  split at herr
  · simp at herr
  rcases validateRequiredFields_some config err herr with ⟨cf, hnil, rfl⟩ | hpools
  · exact ⟨.cluster cf, hnil, mentions_cannotBeNilError_field _ _,
      mentions_cannotBeNilError_cluster _ _, fun i pf h => by simp at h⟩
  · obtain ⟨i, np, pf, hget, hnil, rfl, hname⟩ :=
      validateNodePoolFields_some config.Name _ err hpools
    refine ⟨.pool i pf, by simp only [RequiredField.isNil, hget]; exact hnil,
      mentions_poolFieldError_label _ _ _, mentions_poolFieldError_config _ _ _, ?_⟩
    intro j pg h hne
    obtain ⟨rfl, rfl⟩ := RequiredField.pool.inj h
    obtain ⟨name, hn⟩ := hname hne
    exact ⟨np, name, hget, hn, mentions_poolFieldError_pool _ _ _ hne name hn⟩

/-! ## Messages without verbs -/

theorem doPrintf_of_no_percent : ∀ (fuel : Nat) (l : List Char), l.length ≤ fuel → '%' ∉ l →
    fmt.doPrintf fuel l = l
  | 0, [], _, _ => rfl
  | 0, c :: cs, h, _ => by simp at h
  | fuel + 1, [], _, _ => rfl
  | fuel + 1, c :: cs, h, hp => by
    simp only [List.mem_cons, not_or] at hp
    simp only [List.length_cons, Nat.add_le_add_iff_right] at h
    rw [fmt.doPrintf, if_pos (fun hc => hp.1 hc.symm), doPrintf_of_no_percent fuel cs h hp.2]

/-- A format without `%` is printed as it is. -/
theorem Errorf_of_no_percent (format : String) (h : '%' ∉ format.toList) :
    fmt.Errorf format = format := by
  unfold fmt.Errorf
  have hd : fmt.doPrintf format.length format.toList = format.toList :=
    doPrintf_of_no_percent format.length format.toList (Nat.le_of_eq rfl) h
  rw [hd]
  cases format
  rfl

theorem mentions_refl (s : String) : Mentions s s := ⟨[], [], by simp⟩

theorem mentions_append_left (a b part : String) (h : Mentions a part) :
    Mentions (a ++ b) part := by
  obtain ⟨pre, post, hpp⟩ := h
  refine ⟨pre, post ++ b.toList, ?_⟩
  simp only [String.toList, String.data_append] at hpp ⊢
  rw [← hpp]
  simp

theorem mentions_append_right (a b part : String) (h : Mentions b part) :
    Mentions (a ++ b) part := by
  obtain ⟨pre, post, hpp⟩ := h
  refine ⟨a.toList ++ pre, post, ?_⟩
  simp only [String.toList, String.data_append] at hpp ⊢
  rw [← hpp]
  simp

theorem intercalate_go_no_percent (sep : String) (hsep : '%' ∉ sep.toList) :
    ∀ (l : List String) (acc : String), '%' ∉ acc.toList → (∀ x ∈ l, '%' ∉ x.toList) →
      '%' ∉ (String.intercalate.go acc sep l).toList
  | [], acc, hacc, _ => by simpa [String.intercalate.go] using hacc
  | a :: rest, acc, hacc, hl => by
    rw [String.intercalate.go]
    apply intercalate_go_no_percent sep hsep rest
    · simp only [String.toList, String.data_append, List.mem_append, not_or] at hacc hsep ⊢
      exact ⟨⟨hacc, hsep⟩, hl a (List.mem_cons_self _ _)⟩
    · intro x hx
      exact hl x (List.mem_cons_of_mem _ hx)

theorem Join_no_percent (elems : List String) (sep : String) (hsep : '%' ∉ sep.toList)
    (h : ∀ x ∈ elems, '%' ∉ x.toList) : '%' ∉ (strings.Join elems sep).toList := by
  unfold strings.Join
  cases elems with
  | nil => simp [String.intercalate]
  | cons a rest =>
    rw [String.intercalate]
    exact intercalate_go_no_percent sep hsep rest a (h a (List.mem_cons_self _ _))
      (fun x hx => h x (List.mem_cons_of_mem _ hx))

theorem intercalate_go_mentions (sep part : String) :
    ∀ (l : List String) (acc : String), (Mentions acc part ∨ ∃ x ∈ l, Mentions x part) →
      Mentions (String.intercalate.go acc sep l) part
  | [], acc, h => by
    rcases h with h | ⟨x, hx, _⟩
    · simpa [String.intercalate.go] using h
    · simp at hx
  | a :: rest, acc, h => by
    rw [String.intercalate.go]
    apply intercalate_go_mentions sep part rest
    rcases h with h | ⟨x, hx, hm⟩
    · exact Or.inl (mentions_append_left _ _ _ (mentions_append_left _ _ _ h))
    · rcases List.mem_cons.1 hx with rfl | hx
      · exact Or.inl (mentions_append_right _ _ _ hm)
      · exact Or.inr ⟨x, hx, hm⟩

/-- What one of the joined strings mentions, the joined string mentions. -/
theorem Join_mentions (elems : List String) (sep part x : String) (hx : x ∈ elems)
    (h : Mentions x part) : Mentions (strings.Join elems sep) part := by
  unfold strings.Join
  cases elems with
  | nil => simp at hx
  | cons a rest =>
    rw [String.intercalate]
    apply intercalate_go_mentions
    rcases List.mem_cons.1 hx with rfl | hx
    · exact Or.inl h
    · exact Or.inr ⟨x, hx, h⟩

/-! ## The validator of updates -/

theorem no_percent_append (a b : String) (ha : '%' ∉ a.toList) (hb : '%' ∉ b.toList) :
    '%' ∉ (a ++ b).toList := by
  simp only [String.toList, String.data_append, List.mem_append, not_or] at ha hb ⊢
  exact ⟨ha, hb⟩

/-- The error string of a node pool holds no `%` when the versions and the
name it quotes hold none. -/
theorem validateNodePoolVersion_no_percent (clusterVersion : Option semver.Version)
    (kubernetesVersion : Option String) (np : gkev1.NodePoolConfig) (msg : String)
    (hk : '%' ∉ (utils.StringValue kubernetesVersion).toList)
    (hn : '%' ∉ (utils.StringValue np.Name).toList)
    (hv : '%' ∉ (utils.StringValue np.Version).toList)
    (h : validateNodePoolVersion clusterVersion kubernetesVersion np = some msg) :
    '%' ∉ msg.toList := by
  unfold validateNodePoolVersion at h
  split at h
  · simp at h
  split at h
  · rw [← Option.some.inj h]
    exact no_percent_append _ _ (no_percent_append _ _ (no_percent_append _ _ (by decide) hn)
      (by decide)) hv
  split at h
  · simp at h
  split at h
  · simp at h
  split at h
  · simp at h
  rw [← Option.some.inj h]
  exact no_percent_append _ _ (no_percent_append _ _ (no_percent_append _ _
    (no_percent_append _ _ (no_percent_append _ _ (by decide) hk) (by decide)) hv) (by decide))
    (by decide)

/-- Without a `%` in the versions and names, the error of the loop over the
node pools is the error strings joined with `;`. -/
theorem validateNodePoolVersions_of_no_percent (clusterVersion : Option semver.Version)
    (config : gkev1.GKEClusterConfig)
    (hk : '%' ∉ (utils.StringValue config.Spec.KubernetesVersion).toList)
    (hp : ∀ np ∈ config.Spec.NodePools, '%' ∉ (utils.StringValue np.Name).toList ∧
      '%' ∉ (utils.StringValue np.Version).toList) :
    validateNodePoolVersions clusterVersion config =
      if (config.Spec.NodePools.filterMap
          (validateNodePoolVersion clusterVersion config.Spec.KubernetesVersion)) = [] then none
      else some (strings.Join (config.Spec.NodePools.filterMap
          (validateNodePoolVersion clusterVersion config.Spec.KubernetesVersion)) ";") := by
  unfold validateNodePoolVersions
  simp only []
  by_cases he : (config.Spec.NodePools.filterMap
      (validateNodePoolVersion clusterVersion config.Spec.KubernetesVersion)) = []
  · simp [he]
  · rw [if_neg he, if_pos (by simpa [List.length_eq_zero] using he),
      Errorf_of_no_percent]
    apply Join_no_percent _ _ (by decide)
    intro msg hmsg
    obtain ⟨np, hnp, hnpm⟩ := List.mem_filterMap.1 hmsg
    exact validateNodePoolVersion_no_percent _ _ np msg hk (hp np hnp).1 (hp np hnp).2 hnpm

/-- A node pool whose version the validator finds incompatible makes
`validateUpdate` fail with a message that quotes both versions. -/
theorem validateUpdate_incompatible (config : gkev1.GKEClusterConfig) (kv v : String)
    (cv pv : semver.Version) (np : gkev1.NodePoolConfig)
    (hkv : config.Spec.KubernetesVersion = some kv)
    (hcv : semver.New (kv ++ ".0") = some cv)
    (hnp : np ∈ config.Spec.NodePools)
    (hv : np.Version = some v)
    (hpv : semver.New (v ++ ".0") = some pv)
    (hne : cv.EQ pv = false)
    (hminor : (cv.Minor + 2 ^ 64 - pv.Minor) % 2 ^ 64 ≠ 1)
    (hk : '%' ∉ kv.toList)
    (hp : ∀ p ∈ config.Spec.NodePools, '%' ∉ (utils.StringValue p.Name).toList ∧
      '%' ∉ (utils.StringValue p.Version).toList) :
    ∃ err, validateUpdate config = some err ∧ Mentions err kv ∧ Mentions err v := by
  have hmsg : validateNodePoolVersion (some cv) config.Spec.KubernetesVersion np =
      some ("versions for cluster [" ++ kv ++ "] and nodegroup [" ++ v ++
        "] not compatible: all nodegroup kubernetes versions" ++
        "must be equal to or one minor version lower than the cluster kubernetes version") := by
    unfold validateNodePoolVersion
    simp only [hv, hkv, utils.StringValue, hpv, hne, Bool.false_eq_true, if_false, if_neg hminor]
  have hmem := List.mem_filterMap.2 ⟨np, hnp, hmsg⟩
  have hval : validateUpdate config = validateNodePoolVersions (some cv) config := by
    unfold validateUpdate
    simp only [hkv, utils.StringValue, hcv]
  rw [hval, validateNodePoolVersions_of_no_percent (some cv) config
    (by simpa [hkv, utils.StringValue] using hk) hp, if_neg (List.ne_nil_of_mem hmem)]
  refine ⟨_, rfl, Join_mentions _ _ _ _ hmem ?_, Join_mentions _ _ _ _ hmem ?_⟩
  · exact mentions_append_left _ _ _ (mentions_append_left _ _ _ (mentions_append_left _ _ _
      (mentions_append_left _ _ _ (mentions_append_right _ _ _ (mentions_refl _)))))
  · exact mentions_append_left _ _ _ (mentions_append_left _ _ _
      (mentions_append_right _ _ _ (mentions_refl _)))

/-- The run of `checkAndUpdate` on a config that `validateUpdate` rejects. -/
theorem checkAndUpdate_invalid (w : World) (config : Ref) (s : St) (err : GoError)
    (h : validateUpdate (config.get s) = some err) :
    checkAndUpdate w config s =
      (.ok ((w.UpdateStatus s.trace (withPhase (config.get s) gkeConfigUpdatingPhase)).1.map
          Ref.own,
        some (match (w.UpdateStatus s.trace
            (withPhase (config.get s) gkeConfigUpdatingPhase)).2 with
          | some updateErr => updateErr
          | none => err)),
        { s with trace := s.trace ++
          [.UpdateStatus (withPhase (config.get s) gkeConfigUpdatingPhase)
            (w.UpdateStatus s.trace (withPhase (config.get s) gkeConfigUpdatingPhase))] }) := by
  change (checkAndUpdate w config).run s = _
  unfold checkAndUpdate
  simp only [run_bind, run_load, h, run_DeepCopy, run_setPhase_own, run_UpdateStatus,
    Ref.get_own, withPhase]
  cases hu : (w.UpdateStatus s.trace
    { (config.get s) with Status := { (config.get s).Status with Phase := gkeConfigUpdatingPhase } }).2 <;>
    simp [hu]

/-- C11, as amended. For a config (in any phase) whose cluster version and the
version of some node pool both parse and are found incompatible by the
validator (not equal, and a difference of the minor numbers other than one),
and in which no version and no node-pool name holds a `%`: `checkAndUpdate`
makes one outside interaction, the status write of the config with phase
`updating`; it reads no secret and makes no provider call; and it returns an
error, which is the error of the status write when that write fails, and
otherwise a message that contains both version strings. -/
theorem checkAndUpdate_incompatible_version (w : World) (config : Ref) (s : St) (kv v : String)
    (cv pv : semver.Version) (np : gkev1.NodePoolConfig)
    (hkv : (config.get s).Spec.KubernetesVersion = some kv)
    (hcv : semver.New (kv ++ ".0") = some cv)
    (hnp : np ∈ (config.get s).Spec.NodePools)
    (hv : np.Version = some v)
    (hpv : semver.New (v ++ ".0") = some pv)
    (hne : cv.EQ pv = false)
    (hminor : (cv.Minor + 2 ^ 64 - pv.Minor) % 2 ^ 64 ≠ 1)
    (hk : '%' ∉ kv.toList)
    (hp : ∀ p ∈ (config.get s).Spec.NodePools, '%' ∉ (utils.StringValue p.Name).toList ∧
      '%' ∉ (utils.StringValue p.Version).toList) :
    let out := checkAndUpdate w config s
    let new := newEvents s out.2
    let write := w.UpdateStatus s.trace (withPhase (config.get s) "updating")
    new = [.UpdateStatus (withPhase (config.get s) "updating") write] ∧
    statusWrites new = [withPhase (config.get s) "updating"] ∧
    outsideCalls new = [] ∧
    out.2.cache = s.cache ∧
    ∃ err, out.1 = .ok (write.1.map Ref.own, some err) ∧
      (∀ updateErr, write.2 = some updateErr → err = updateErr) ∧
      (write.2 = none → Mentions err kv ∧ Mentions err v) := by
  intro out new write
  obtain ⟨err, herr, hm1, hm2⟩ :=
    validateUpdate_incompatible (config.get s) kv v cv pv np hkv hcv hnp hv hpv hne hminor hk hp
  have hout : out = _ := checkAndUpdate_invalid w config s err herr
  have hnew : new = [.UpdateStatus (withPhase (config.get s) "updating") write] := by
    simp only [new, hout, newEvents_mk]
    rfl
  refine ⟨hnew, by rw [hnew]; rfl, by rw [hnew]; rfl, by rw [hout], ?_⟩
  refine ⟨match write.2 with
    | some updateErr => updateErr
    | none => err, by rw [hout]; rfl, ?_, ?_⟩
  · intro updateErr hu
    rw [hu]
  · intro hu
    rw [hu]
    exact ⟨hm1, hm2⟩

/-- C12, at a failing input: with cluster version `1.25` and a node pool
`pool-a` of version `100%`, the one error string collected is
`improper version format for nodegroup [pool-a]: 100%`, and the message of the
error that `validateUpdate` returns is not that string (nor any joining of
it): the joined strings are used as a format, which turns the `%` into
`%!(NOVERB)`. -/
theorem validateUpdate_formats_joined_errors :
    semver.New "1.25.0" = some { Major := 1, Minor := 25, Patch := 0 } ∧
    semver.New "100%.0" = none ∧
    Sample.percentConfig.Spec.NodePools.filterMap
        (validateNodePoolVersion (semver.New "1.25.0") (some "1.25")) =
      ["improper version format for nodegroup [pool-a]: 100%"] ∧
    strings.Join ["improper version format for nodegroup [pool-a]: 100%"] ";" =
      "improper version format for nodegroup [pool-a]: 100%" ∧
    validateUpdate Sample.percentConfig =
      some "improper version format for nodegroup [pool-a]: 100%!(NOVERB)" := by
  refine ⟨by decide, by decide, by decide, by decide, by decide⟩

/-- C18, at a failing input: a config that is not imported, with every field
that the validator requires set, and a network config whose network and
subnetwork are nil. `validateCreateRequest` accepts it, and
`newClusterCreateRequest` dereferences the nil subnetwork: no request is
returned, and `Create` panics with it. -/
theorem newClusterCreateRequest_panics_on_accepted_config :
    Sample.bareNetworkConfig.Spec.Imported = false ∧
    (validateCreateRequest (Sample.world Sample.runningCluster Sample.quietProbe) "credential"
      Sample.bareNetworkConfig (Sample.start Sample.bareNetworkConfig)).1 = .ok none ∧
    newClusterCreateRequest Sample.bareNetworkConfig = .error Panic.nilDereference ∧
    (Create (Sample.world Sample.runningCluster Sample.quietProbe) "credential"
      Sample.bareNetworkConfig (Sample.start Sample.bareNetworkConfig)).1 =
      .error Panic.nilDereference := by
  refine ⟨rfl, rfl, rfl, rfl⟩

/-! ## The create builder -/

theorem buildCidrBlocks_map_some (blocks : List gkev1.CidrBlock) :
    buildCidrBlocks (blocks.map some) =
      .ok (blocks.map (fun b => some { CidrBlock := b.CidrBlock, DisplayName := b.DisplayName })) := by
  induction blocks with
  | nil => rfl
  | cons b rest ih =>
    simp only [List.map_cons, buildCidrBlocks, deref, ih]
    rfl

/-- The cidr blocks of the request built for a spec with master authorized
networks: as many nil entries as the spec has blocks, then the blocks. -/
theorem newClusterCreateRequest_cidrBlocks (config : gkev1.GKEClusterConfig)
    (req : gkeapi.CreateClusterRequest) (man : gkev1.MasterAuthorizedNetworksConfig)
    (hman : config.Spec.MasterAuthorizedNetworksConfig = some man)
    (h : newClusterCreateRequest config = .ok req) :
    ∃ cluster manc appended, req.Cluster = some cluster ∧
      cluster.MasterAuthorizedNetworksConfig = some manc ∧
      buildCidrBlocks man.CidrBlocks = .ok appended ∧
      manc.CidrBlocks = List.replicate man.CidrBlocks.length none ++ appended := by
  unfold newClusterCreateRequest at h
  simp only [hman] at h
  cases h1 : config.Spec.KubernetesVersion with
  | none => simp [h1, deref, bind, Except.bind] at h
  | some kv =>
  cases h2 : config.Spec.LoggingService with
  | none => simp [h1, h2, deref, bind, Except.bind, pure, Except.pure] at h
  | some ls =>
  cases h3 : config.Spec.MonitoringService with
  | none => simp [h1, h2, h3, deref, bind, Except.bind, pure, Except.pure] at h
  | some ms =>
  cases h4 : config.Spec.IPAllocationPolicy with
  | none => simp [h1, h2, h3, h4, deref, bind, Except.bind, pure, Except.pure] at h
  | some ip =>
  cases h5 : buildNodePools config.Spec.NodePools with
  | error p => simp [h1, h2, h3, h4, h5, deref, bind, Except.bind, pure, Except.pure] at h
  | ok pools =>
  cases h6 : buildCidrBlocks man.CidrBlocks with
  | error p => simp [h1, h2, h3, h4, h5, h6, deref, bind, Except.bind, pure, Except.pure] at h
  | ok appended =>
  simp only [h1, h2, h3, h4, h5, h6, deref, bind, Except.bind, pure, Except.pure] at h
  cases hnc : config.Spec.NetworkConfig <;> cases hpc : config.Spec.PrivateClusterConfig <;>
    cases hnp : config.Spec.NetworkPolicy <;> cases hca : config.Spec.ClusterAddons <;>
    simp only [hnc, hpc, hnp, hca] at h <;>
    (repeat' split at h) <;>
    first
    | (cases h; exact ⟨_, _, appended, rfl, rfl, rfl, rfl⟩)
    | cases h

/-- C19, at a failing input: a spec with one master authorized network,
`10.0.0.0/8` named `office`. The request that `newClusterCreateRequest`
builds holds two cidr blocks, not one, and the first is nil: the blocks are
appended to a slice made with the length of the spec's list. -/
theorem newClusterCreateRequest_cidrBlocks_padded :
    Sample.oneCidrBlockConfig.Spec.MasterAuthorizedNetworksConfig =
      some { Enabled := true
             CidrBlocks := [some { CidrBlock := "10.0.0.0/8", DisplayName := "office" }] } ∧
    ∃ req cluster manc,
      newClusterCreateRequest Sample.oneCidrBlockConfig = .ok req ∧
      req.Cluster = some cluster ∧
      cluster.MasterAuthorizedNetworksConfig = some manc ∧
      manc.CidrBlocks = [none, some { CidrBlock := "10.0.0.0/8", DisplayName := "office" }] ∧
      manc.CidrBlocks.length = 2 :=
  ⟨rfl, _, _, _, rfl, rfl, rfl, rfl, rfl⟩

/-- The node pool that the create builder makes of a node pool with name,
autoscaling, initial node count and config set. -/
theorem buildNodePool_of_fields (name : String) (version : Option String)
    (autoscaling : gkev1.NodePoolAutoscaling) (initialNodeCount : Int)
    (config : gkev1.NodeConfig) (maxPodsConstraint : Option Int) :
    buildNodePool
        { Name := some name
          Version := version
          Autoscaling := some autoscaling
          InitialNodeCount := some initialNodeCount
          Config := some config
          MaxPodsConstraint := maxPodsConstraint } =
      .ok
        { Name := name
          Autoscaling := some
            { Enabled := autoscaling.Enabled
              MaxNodeCount := autoscaling.MaxNodeCount
              MinNodeCount := autoscaling.MinNodeCount }
          InitialNodeCount := initialNodeCount
          MaxPodsConstraint := maxPodsConstraint.map (fun m => { MaxPodsPerNode := m })
          Config := some
            { DiskSizeGb := config.DiskSizeGb
              DiskType := config.DiskType
              ImageType := config.ImageType
              Labels := config.Labels
              LocalSsdCount := 0
              MachineType := config.MachineType
              OauthScopes := config.OauthScopes
              Preemptible := config.Preemptible
              Taints := config.Taints.map
                (fun t => { Effect := t.Effect, Key := t.Key, Value := t.Value }) } } := by
  cases maxPodsConstraint <;> rfl

/-- The node-pool loop of the create builder returns one node pool for each
node pool of the spec, in order, when name, autoscaling, initial node count
and config of every node pool are set. -/
theorem buildNodePools_of_fields (pools : List gkev1.NodePoolConfig)
    (h : ∀ np ∈ pools, np.Name ≠ none ∧ np.Autoscaling ≠ none ∧ np.InitialNodeCount ≠ none ∧
      np.Config ≠ none) :
    ∃ out, buildNodePools pools = .ok out ∧ out.length = pools.length ∧
      ∀ i np, pools.get? i = some np → (out.get? i).map Except.ok = some (buildNodePool np) := by
  induction pools with
  | nil => exact ⟨[], rfl, rfl, fun i np hi => by simp at hi⟩
  | cons p rest ih =>
    obtain ⟨out, hout, hlen, hget⟩ := ih (fun np hnp => h np (List.mem_cons_of_mem _ hnp))
    obtain ⟨h1, h2, h3, h4⟩ := h p (List.mem_cons_self _ _)
    obtain ⟨name, hname⟩ := Option.ne_none_iff_exists'.1 h1
    obtain ⟨a, ha⟩ := Option.ne_none_iff_exists'.1 h2
    obtain ⟨n, hn⟩ := Option.ne_none_iff_exists'.1 h3
    obtain ⟨c, hc⟩ := Option.ne_none_iff_exists'.1 h4
    obtain ⟨pa, pc, pi, pm, pn, pv⟩ := p
    simp only at hname ha hn hc
    subst hname ha hn hc
    have hb := buildNodePool_of_fields name pv a n c pm
    refine ⟨_ :: out, by rw [buildNodePools, hb, hout]; rfl, by simp [hlen], ?_⟩
    intro i np hi
    cases i with
    | zero =>
      simp only [List.get?_cons_zero, Option.some.injEq] at hi
      subst hi
      simp [hb]
    | succ i =>
      simp only [List.get?_cons_succ] at hi ⊢
      exact hget i np hi

/-- C20, what the create builder makes of a node pool, and a failing input.
Of a node pool with name, autoscaling, initial node count and config set, the
builder makes a node pool with the same name, autoscaling bounds and initial
node count, a max-pods constraint exactly when the spec has one, and a config
with the disk size, disk type, image type, labels, machine type, scopes,
preemptible flag and taints of the spec, whose `LocalSsdCount` is `0`
whatever the spec says. At the node pool `pool-ssd`, which asks for two local
SSDs, the request holds one node pool, with no local SSD. -/
theorem newClusterCreateRequest_drops_localSsdCount :
    (∀ (name : String) (version : Option String) (autoscaling : gkev1.NodePoolAutoscaling)
      (initialNodeCount : Int) (config : gkev1.NodeConfig) (maxPodsConstraint : Option Int),
      ∃ nodePool nodeConfig,
        buildNodePool
          { Name := some name
            Version := version
            Autoscaling := some autoscaling
            InitialNodeCount := some initialNodeCount
            Config := some config
            MaxPodsConstraint := maxPodsConstraint } = .ok nodePool ∧
        nodePool.Name = name ∧
        nodePool.Autoscaling = some
          { Enabled := autoscaling.Enabled
            MaxNodeCount := autoscaling.MaxNodeCount
            MinNodeCount := autoscaling.MinNodeCount } ∧
        nodePool.InitialNodeCount = initialNodeCount ∧
        nodePool.MaxPodsConstraint =
          maxPodsConstraint.map (fun m => { MaxPodsPerNode := m }) ∧
        nodePool.Config = some nodeConfig ∧
        nodeConfig.Taints = config.Taints.map
          (fun t => { Effect := t.Effect, Key := t.Key, Value := t.Value }) ∧
        nodeConfig = { DiskSizeGb := config.DiskSizeGb
                       DiskType := config.DiskType
                       ImageType := config.ImageType
                       Labels := config.Labels
                       LocalSsdCount := 0
                       MachineType := config.MachineType
                       OauthScopes := config.OauthScopes
                       Preemptible := config.Preemptible
                       Taints := nodeConfig.Taints }) ∧
    Sample.ssdNodePool.Config = some { MachineType := "n1-standard-2", LocalSsdCount := 2 } ∧
    ∃ req cluster,
      newClusterCreateRequest
        { Sample.fullConfig with Spec := Sample.fullSpec [Sample.ssdNodePool] } = .ok req ∧
      req.Cluster = some cluster ∧
      cluster.NodePools =
        [ { Name := "pool-ssd"
            InitialNodeCount := 1
            MaxPodsConstraint := some { MaxPodsPerNode := 110 }
            Autoscaling := some {}
            Config := some { MachineType := "n1-standard-2", LocalSsdCount := 0 } } ] := by
  refine ⟨?_, rfl, _, _, rfl, rfl, rfl⟩
  intro name version autoscaling initialNodeCount config maxPodsConstraint
  exact ⟨_, _, buildNodePool_of_fields name version autoscaling initialNodeCount config
    maxPodsConstraint, rfl, rfl, rfl, rfl, rfl, rfl, rfl⟩

/-! ## Sample runs -/

set_option maxRecDepth 100000

/-- C11, as stated, fails: with cluster version `1.25`, a node pool of version
`1.23` and a status write that fails, `validateUpdate` rejects the config,
`checkAndUpdate` makes the status write with phase `updating`, and the error
it returns is the error of that write, which contains neither version. -/
theorem checkAndUpdate_incompatible_write_fails :
    validateUpdate (Sample.driftConfig "active") =
      some ("versions for cluster [1.25] and nodegroup [1.23] not compatible: all nodegroup " ++
        "kubernetes versionsmust be equal to or one minor version lower than the cluster " ++
        "kubernetes version") ∧
    checkAndUpdate Sample.conflictWorld Ref.cache (Sample.start (Sample.driftConfig "active")) =
      (.ok (none, some "the object has been modified"),
        { cache := Sample.driftConfig "active"
          trace :=
            [ .UpdateStatus (Sample.driftConfig "updating")
                (none, some "the object has been modified") ] }) ∧
    ¬ Mentions "the object has been modified" "1.25" ∧
    ¬ Mentions "the object has been modified" "1.23" :=
  ⟨rfl, rfl, by decide, by decide⟩

/-- C11 (amended), at a sample input: cluster version `1.25`, a node pool of
version `1.23`, status writes that succeed. -/
theorem checkAndUpdate_incompatible_version_witness :
    semver.New ("1.25" ++ ".0") = some { Major := 1, Minor := 25, Patch := 0 } ∧
    semver.New ("1.23" ++ ".0") = some { Major := 1, Minor := 23, Patch := 0 } ∧
    statusWrites (newEvents (Sample.start (Sample.driftConfig "active"))
      (checkAndUpdate (Sample.world Sample.runningCluster Sample.quietProbe) Ref.cache
        (Sample.start (Sample.driftConfig "active"))).2) = [Sample.driftConfig "updating"] ∧
    outsideCalls (newEvents (Sample.start (Sample.driftConfig "active"))
      (checkAndUpdate (Sample.world Sample.runningCluster Sample.quietProbe) Ref.cache
        (Sample.start (Sample.driftConfig "active"))).2) = [] :=
  ⟨by decide, by decide,
    (checkAndUpdate_incompatible_version (Sample.world Sample.runningCluster Sample.quietProbe)
      Ref.cache (Sample.start (Sample.driftConfig "active")) "1.25" "1.23"
      { Major := 1, Minor := 25, Patch := 0 } { Major := 1, Minor := 23, Patch := 0 }
      { Name := some "pool-a", Version := some "1.23" }
      rfl (by decide) (by decide) rfl (by decide) (by decide) (by decide) (by decide)
      (by decide)).2.1,
    (checkAndUpdate_incompatible_version (Sample.world Sample.runningCluster Sample.quietProbe)
      Ref.cache (Sample.start (Sample.driftConfig "active")) "1.25" "1.23"
      { Major := 1, Minor := 25, Patch := 0 } { Major := 1, Minor := 23, Patch := 0 }
      { Name := some "pool-a", Version := some "1.23" }
      rfl (by decide) (by decide) rfl (by decide) (by decide) (by decide) (by decide)
      (by decide)).2.2.1⟩

/-- C13, at a sample input: a config whose node pool has no initial node count
passes every check before that one. -/
theorem validateCreateRequest_first_failing_check_witness :
    (validateCreateRequest (Sample.world Sample.runningCluster Sample.quietProbe) "credential"
      Sample.noCountConfig (Sample.start Sample.noCountConfig)).1 =
      .ok (firstFailing (createChecks Sample.noCountConfig [])) ∧
    firstFailing (createChecks Sample.noCountConfig []) =
      some ("field [initialNodeCount] cannot be nil for nodepool [pool-a] " ++
        "in non-nil cluster [cluster-1]") :=
  ⟨(validateCreateRequest_first_failing_check
      (Sample.world Sample.runningCluster Sample.quietProbe) "credential" Sample.noCountConfig
      (Sample.start Sample.noCountConfig) {} none rfl rfl).1, by decide⟩

/-- C14, at a sample input: a config in which only the logging service is
nil. -/
theorem validateCreateRequest_names_missing_field_witness :
    RequiredField.isNil Sample.noLoggingConfig (.cluster .loggingService) = true ∧
    ∃ err, (validateCreateRequest (Sample.world Sample.runningCluster Sample.quietProbe)
        "credential" Sample.noLoggingConfig (Sample.start Sample.noLoggingConfig)).1 =
        .ok (some err) ∧ Mentions err "loggingService" :=
  ⟨rfl,
    validateCreateRequest_names_missing_field
      (Sample.world Sample.runningCluster Sample.quietProbe) "credential" Sample.noLoggingConfig
      (Sample.start Sample.noLoggingConfig) {} none (.cluster .loggingService) rfl rfl rfl
      (by decide) (Or.inl ⟨by decide, by decide⟩) (by decide) (by decide)
      (by intro cluster h; cases h) rfl
      (by
        intro g hg
        cases g with
        | cluster cf => cases cf <;> first | rfl | exact absurd hg (by decide)
        | pool i pf =>
          cases i with
          | zero => cases pf <;> exact absurd hg (by decide)
          | succ j => exact absurd (show false = true from hg) (by decide))⟩

/-- C15, at sample inputs: a config with neither zone nor region, and one with
both. -/
theorem validateCreateRequest_zone_region_witness :
    validateCreateRequest (Sample.world Sample.runningCluster Sample.quietProbe) "credential"
        Sample.noLocationConfig (Sample.start Sample.noLocationConfig) =
      (.ok (some "zone or region is required"), Sample.start Sample.noLocationConfig) ∧
    validateCreateRequest (Sample.world Sample.runningCluster Sample.quietProbe) "credential"
        Sample.zoneAndRegionConfig (Sample.start Sample.zoneAndRegionConfig) =
      (.ok (some "only one of zone or region must be specified"),
        Sample.start Sample.zoneAndRegionConfig) :=
  ⟨(validateCreateRequest_zone_region (Sample.world Sample.runningCluster Sample.quietProbe)
      "credential" Sample.noLocationConfig (Sample.start Sample.noLocationConfig)).1
      (by decide) rfl rfl,
    (validateCreateRequest_zone_region (Sample.world Sample.runningCluster Sample.quietProbe)
      "credential" Sample.zoneAndRegionConfig (Sample.start Sample.zoneAndRegionConfig)).2.1
      (by decide) (by decide) (by decide)⟩

/-- C16, at a sample input: a config that is accepted, whose node pool has
autoscaling enabled with bounds 1 and 5. -/
theorem validateCreateRequest_autoscaling_bounds_witness :
    (validateCreateRequest (Sample.world Sample.runningCluster Sample.quietProbe) "credential"
      Sample.fullConfig (Sample.start Sample.fullConfig)).1 = .ok none ∧
    Sample.fullNodePool.Autoscaling =
      some { Enabled := true, MinNodeCount := 1, MaxNodeCount := 5 } ∧
    ((1 : Int) ≤ 1 ∧ (1 : Int) ≤ 5) :=
  ⟨rfl, rfl,
    (validateCreateRequest_autoscaling_bounds
      (Sample.world Sample.runningCluster Sample.quietProbe) "credential" Sample.fullConfig
      (Sample.start Sample.fullConfig)).1 _ rfl Sample.fullNodePool (by decide)
      { Enabled := true, MinNodeCount := 1, MaxNodeCount := 5 } rfl rfl⟩

/-- C17, as stated, fails: the error for a config without a project ID is
`project ID is required`, which does not contain the name of the config,
`cluster-1`. -/
theorem validateCreateRequest_error_without_config_name :
    validateCreateRequest (Sample.world Sample.runningCluster Sample.quietProbe) "credential"
        Sample.noProjectConfig (Sample.start Sample.noProjectConfig) =
      (.ok (some "project ID is required"), Sample.start Sample.noProjectConfig) ∧
    Sample.noProjectConfig.Name = "cluster-1" ∧
    ¬ Mentions "project ID is required" "cluster-1" :=
  ⟨rfl, rfl, by decide⟩

/-- C17 (amended), at a sample input: the error for a node pool without an
initial node count names the field, the config and the node pool. -/
theorem validateCreateRequest_required_field_errors_witness :
    ∃ f : RequiredField, f.isNil Sample.noCountConfig = true ∧
      Mentions ("field [initialNodeCount] cannot be nil for nodepool [pool-a] " ++
        "in non-nil cluster [cluster-1]") f.label ∧
      Mentions ("field [initialNodeCount] cannot be nil for nodepool [pool-a] " ++
        "in non-nil cluster [cluster-1]") Sample.noCountConfig.Name ∧
      ∀ i pf, f = .pool i pf → pf ≠ .name →
        ∃ np name, Sample.noCountConfig.Spec.NodePools.get? i = some np ∧
          np.Name = some name ∧
          Mentions ("field [initialNodeCount] cannot be nil for nodepool [pool-a] " ++
            "in non-nil cluster [cluster-1]") name :=
  validateCreateRequest_required_field_errors
    (Sample.world Sample.runningCluster Sample.quietProbe) "credential" Sample.noCountConfig
    (Sample.start Sample.noCountConfig) {} none _ rfl rfl (by decide)
    (Or.inl ⟨by decide, by decide⟩) (by decide) (by decide) (by intro cluster h; cases h) rfl

/-! ## The deletion helper -/

@[simp] theorem run_callClustersDelete (w : World) (name : String) (s : St) :
    (w.callClustersDelete name).run s =
      (.ok (w.ClustersDelete s.trace name),
        { s with trace := s.trace ++ [.ClustersDelete name (w.ClustersDelete s.trace name)] }) :=
  rfl

@[simp] theorem deletes_nil : deletes [] = [] := rfl

@[simp] theorem deletes_Sleep (d : Int) (l : List Event) :
    deletes (.Sleep d :: l) = deletes l := rfl

@[simp] theorem deletes_ClustersDelete (name : String)
    (res : Option gkeapi.Operation × Option GoError) (l : List Event) :
    deletes (.ClustersDelete name res :: l) = (name, res) :: deletes l := rfl

@[simp] theorem sleeps_nil : sleeps [] = [] := rfl

@[simp] theorem sleeps_Sleep (d : Int) (l : List Event) :
    sleeps (.Sleep d :: l) = d :: sleeps l := rfl

@[simp] theorem sleeps_ClustersDelete (name : String)
    (res : Option gkeapi.Operation × Option GoError) (l : List Event) :
    sleeps (.ClustersDelete name res :: l) = sleeps l := rfl

theorem attemptEvents_cons (name : String) (i : Int) (is : List Int)
    (r : Option gkeapi.Operation × Option GoError)
    (results : List (Option gkeapi.Operation × Option GoError)) :
    attemptEvents name (i :: is) (r :: results) =
      .Sleep (i * i * Second) :: .ClustersDelete name r :: attemptEvents name is results := rfl

/-- The attempts recorded for the answers `results`. -/
theorem deletes_attemptEvents (name : String) (is : List Int) :
    ∀ (results : List (Option gkeapi.Operation × Option GoError)),
      results.length ≤ is.length →
      deletes (attemptEvents name is results) = results.map (fun r => (name, r)) := by
  induction is with
  | nil =>
    intro results h
    cases results with
    | nil => rfl
    | cons r results => simp at h
  | cons i is ih =>
    intro results h
    cases results with
    | nil => rfl
    | cons r results =>
      rw [attemptEvents_cons, deletes_Sleep, deletes_ClustersDelete,
        ih results (by simpa using h)]
      rfl

/-- The sleeps recorded for the answers `results`. -/
theorem sleeps_attemptEvents (name : String) (is : List Int) :
    ∀ (results : List (Option gkeapi.Operation × Option GoError)),
      results.length ≤ is.length →
      sleeps (attemptEvents name is results) =
        (is.take results.length).map (fun i => i * i * Second) := by
  induction is with
  | nil =>
    intro results h
    cases results with
    | nil => rfl
    | cons r results => simp at h
  | cons i is ih =>
    intro results h
    cases results with
    | nil => rfl
    | cons r results =>
      rw [attemptEvents_cons, sleeps_Sleep, sleeps_ClustersDelete,
        ih results (by simpa using h)]
      rfl

theorem waitClusterRemoveLoop_nil (w : World) (name : String)
    (last : Option gkeapi.Operation × Option GoError) (s : St) :
    utils.waitClusterRemoveLoop w name [] last s = (.ok last, s) := rfl

/-- One turn of the loop of the deletion helper: sleep, attempt, and go on only
after a transient failure. -/
theorem waitClusterRemoveLoop_cons (w : World) (name : String) (i : Int) (rest : List Int)
    (last : Option gkeapi.Operation × Option GoError) (s : St) :
    utils.waitClusterRemoveLoop w name (i :: rest) last s =
      if transient (w.ClustersDelete (s.trace ++ [.Sleep (i * i * Second)]) name) = true then
        utils.waitClusterRemoveLoop w name rest
          (w.ClustersDelete (s.trace ++ [.Sleep (i * i * Second)]) name)
          { s with trace := s.trace ++ [.Sleep (i * i * Second), .ClustersDelete name
              (w.ClustersDelete (s.trace ++ [.Sleep (i * i * Second)]) name)] }
      else
        (.ok (w.ClustersDelete (s.trace ++ [.Sleep (i * i * Second)]) name),
          { s with trace := s.trace ++ [.Sleep (i * i * Second), .ClustersDelete name
              (w.ClustersDelete (s.trace ++ [.Sleep (i * i * Second)]) name)] }) := by
  change (utils.waitClusterRemoveLoop w name (i :: rest) last).run s = _
  rw [utils.waitClusterRemoveLoop]
  simp only [run_bind, run_emit, run_callClustersDelete, List.append_assoc,
    List.singleton_append]
  rcases hr : w.ClustersDelete (s.trace ++ [.Sleep (i * i * Second)]) name with ⟨operation, err⟩
  simp only [hr]
  cases err with
  | none => simp [transient]
  | some e =>
    by_cases hc : strings.Contains e "Please wait and try again once it is done" = true
    · simp only [transient, hc, Bool.not_true, Bool.false_eq_true, if_false, if_true]
      rfl
    · simp [transient, hc]

/-- A run of the loop of the deletion helper over the values `i :: rest`: the
attempts it makes are answered by `pre ++ [r]`, where every answer of `pre` is
a transient failure, `r` is returned, and `r` is not a transient failure
unless the values are used up. -/
theorem waitClusterRemoveLoop_spec (w : World) (name : String) :
    ∀ (rest : List Int) (i : Int) (last : Option gkeapi.Operation × Option GoError) (s : St),
      ∃ pre r, pre.length ≤ rest.length ∧ (∀ x ∈ pre, transient x = true) ∧
        (pre.length < rest.length → transient r = false) ∧
        utils.waitClusterRemoveLoop w name (i :: rest) last s =
          (.ok r, { s with trace := s.trace ++ attemptEvents name (i :: rest) (pre ++ [r]) }) := by
  intro rest
  induction rest with
  | nil =>
    intro i last s
    refine ⟨[], w.ClustersDelete (s.trace ++ [.Sleep (i * i * Second)]) name, le_refl _,
      fun x hx => by simp at hx, fun h => by simp at h, ?_⟩
    rw [waitClusterRemoveLoop_cons]
    split
    · rw [waitClusterRemoveLoop_nil]
      rfl
    · rfl
  | cons j rest ih =>
    intro i last s
    rw [waitClusterRemoveLoop_cons]
    split
    · rename_i ht
      obtain ⟨pre, r, hlen, hpre, hlast, hrun⟩ := ih j
        (w.ClustersDelete (s.trace ++ [.Sleep (i * i * Second)]) name)
        { s with trace := s.trace ++ [.Sleep (i * i * Second), .ClustersDelete name
            (w.ClustersDelete (s.trace ++ [.Sleep (i * i * Second)]) name)] }
      refine ⟨w.ClustersDelete (s.trace ++ [.Sleep (i * i * Second)]) name :: pre, r,
        by simpa using hlen, ?_, ?_, ?_⟩
      · intro x hx
        rcases List.mem_cons.1 hx with rfl | hx
        · exact ht
        · exact hpre x hx
      · intro h
        exact hlast (by simpa using h)
      · rw [hrun]
        simp [attemptEvents]
    · rename_i ht
      exact ⟨[], _, Nat.zero_le _, fun x hx => by simp at hx,
        fun _ => by simpa using ht, rfl⟩

/-- A run of the deletion helper: the attempts it makes are answered by
`pre ++ [r]`, with at most ten answers in `pre`, all of them transient
failures; `r` is returned, and `r` is not a transient failure unless it
answers the eleventh attempt. -/
theorem WaitClusterRemoveExp_spec (w : World) (config : gkev1.GKEClusterConfig) (s : St) :
    ∃ pre r, pre.length ≤ 10 ∧ (∀ x ∈ pre, transient x = true) ∧
      (pre.length < 10 → transient r = false) ∧
      utils.WaitClusterRemoveExp w config s =
        (.ok r, St.mk s.cache (s.trace ++ attemptEvents
          (utils.ClusterRRN config.Spec.ProjectID config.Spec.Region config.Spec.ClusterName)
          [1, 2, 3, 4, 5, 6, 7, 8, 9, 10, 11] (pre ++ [r]))) :=
  waitClusterRemoveLoop_spec w _ [2, 3, 4, 5, 6, 7, 8, 9, 10, 11] 1 (none, none) s

/-- C24, delete retry bound. Whatever the answers to `Clusters.Delete`,
`WaitClusterRemoveExp` makes at least one and at most 11 attempts, all for the
cluster of the config; every attempt before the last one failed with a message
that contains `Please wait and try again once it is done`; the answer of the
last attempt is what the helper returns; when fewer than 11 attempts are made
the last one succeeded or failed with another message; and when 11 are made
the first ten failed with that message. -/
theorem WaitClusterRemoveExp_attempts (w : World) (config : gkev1.GKEClusterConfig) (s : St) :
    let out := utils.WaitClusterRemoveExp w config s
    let attempts := deletes (newEvents s out.2)
    attempts.length ≤ 11 ∧
    (∀ a ∈ attempts, a.1 =
      utils.ClusterRRN config.Spec.ProjectID config.Spec.Region config.Spec.ClusterName) ∧
    (∃ pre last, attempts = pre ++ [last] ∧ (∀ a ∈ pre, transient a.2 = true) ∧
      out.1 = .ok last.2 ∧ (attempts.length < 11 → transient last.2 = false)) ∧
    (attempts.length = 11 → ∀ a ∈ attempts.take 10, transient a.2 = true) := by
  intro out attempts
  obtain ⟨pre, r, hlen, hpre, hlast, hrun⟩ := WaitClusterRemoveExp_spec w config s
  have hout : out = _ := hrun
  have hatt : attempts = (pre ++ [r]).map (fun x =>
      (utils.ClusterRRN config.Spec.ProjectID config.Spec.Region config.Spec.ClusterName, x)) := by
    simp only [attempts, hout, newEvents_mk]
    exact deletes_attemptEvents _ _ _ (by simp; omega)
  have hl : attempts.length = pre.length + 1 := by simp [hatt]
  refine ⟨by omega, ?_, ⟨pre.map (fun x =>
      (utils.ClusterRRN config.Spec.ProjectID config.Spec.Region config.Spec.ClusterName, x)),
    (utils.ClusterRRN config.Spec.ProjectID config.Spec.Region config.Spec.ClusterName, r),
    by simp [hatt], ?_, by rw [hout], fun h => hlast (by omega)⟩, ?_⟩
  · intro a ha
    rw [hatt] at ha
    obtain ⟨x, _, rfl⟩ := List.mem_map.1 ha
    rfl
  · intro a ha
    obtain ⟨x, hx, rfl⟩ := List.mem_map.1 ha
    exact hpre x hx
  · intro h a ha
    have h10 : pre.length = 10 := by omega
    rw [hatt, List.map_append, List.take_append_of_le_length (by simp [h10]),
      List.take_of_length_le (by simp [h10])] at ha
    obtain ⟨x, hx, rfl⟩ := List.mem_map.1 ha
    exact hpre x hx

/-- C25, as amended. When the first two attempts to delete fail with a message
that contains `Please wait and try again once it is done` and the third
succeeds, `WaitClusterRemoveExp` makes exactly three attempts and returns the
answer of the third, and it sleeps three times: 1 second before the first
attempt, 4 seconds before the second (so between the first and the second)
and 9 seconds before the third (so between the second and the third). -/
theorem WaitClusterRemoveExp_transient_then_success (w : World)
    (config : gkev1.GKEClusterConfig) (s : St)
    (a₁ a₂ a₃ : String × (Option gkeapi.Operation × Option GoError))
    (more : List (String × (Option gkeapi.Operation × Option GoError)))
    (hattempts : deletes (newEvents s (utils.WaitClusterRemoveExp w config s).2) =
      a₁ :: a₂ :: a₃ :: more)
    (h₁ : transient a₁.2 = true) (h₂ : transient a₂.2 = true) (h₃ : a₃.2.2 = none) :
    let out := utils.WaitClusterRemoveExp w config s
    let new := newEvents s out.2
    more = [] ∧
    new = [ .Sleep (1 * Second), .ClustersDelete a₁.1 a₁.2,
            .Sleep (4 * Second), .ClustersDelete a₂.1 a₂.2,
            .Sleep (9 * Second), .ClustersDelete a₃.1 a₃.2 ] ∧
    sleeps new = [1 * Second, 4 * Second, 9 * Second] ∧
    out.1 = .ok a₃.2 := by
  intro out new
  obtain ⟨pre, r, hlen, hpre, hlast, hrun⟩ := WaitClusterRemoveExp_spec w config s
  have hout : out = _ := hrun
  have hnew : new = attemptEvents
      (utils.ClusterRRN config.Spec.ProjectID config.Spec.Region config.Spec.ClusterName)
      [1, 2, 3, 4, 5, 6, 7, 8, 9, 10, 11] (pre ++ [r]) := by
    simp only [new, hout, newEvents_mk]
  have hatt : deletes new = (pre ++ [r]).map (fun x =>
      (utils.ClusterRRN config.Spec.ProjectID config.Spec.Region config.Spec.ClusterName, x)) := by
    rw [hnew]
    exact deletes_attemptEvents _ _ _ (by simp; omega)
  have hattempts' : deletes new = a₁ :: a₂ :: a₃ :: more := hattempts
  rw [hatt] at hattempts'
  have hnt : transient a₃.2 = false := by simp [transient, h₃]
  match pre, hpre, hattempts' with
  | [], _, h => simp at h
  | [x], _, h => simp at h
  | [x, y], _, h =>
    simp only [List.cons_append, List.nil_append, List.map_cons, List.map_nil, List.cons.injEq]
      at h
    obtain ⟨rfl, rfl, rfl, hmore⟩ := h
    refine ⟨hmore.symm, ?_, ?_, by rw [hout]⟩
    · rw [hnew]
      simp [attemptEvents]
    · rw [hnew]
      simp [attemptEvents]
  | x :: y :: z :: rest, hp, h =>
    simp only [List.cons_append, List.map_cons, List.cons.injEq] at h
    obtain ⟨_, _, rfl, _⟩ := h
    have := hp z (by simp)
    simp only at hnt
    rw [hnt] at this
    exact absurd this (by simp)

/-- C27, deletion sleep total. When every attempt to delete that
`WaitClusterRemoveExp` makes fails with a message that contains
`Please wait and try again once it is done`, it makes 11 attempts and the
sleeps it performs are 1, 4, 9, …, 121 seconds, in this order, 506 seconds in
all. -/
theorem WaitClusterRemoveExp_sleep_total (w : World) (config : gkev1.GKEClusterConfig) (s : St)
    (hall : ∀ a ∈ deletes (newEvents s (utils.WaitClusterRemoveExp w config s).2),
      transient a.2 = true) :
    let new := newEvents s (utils.WaitClusterRemoveExp w config s).2
    (deletes new).length = 11 ∧
    sleeps new =
      [1 * 1 * Second, 2 * 2 * Second, 3 * 3 * Second, 4 * 4 * Second, 5 * 5 * Second,
        6 * 6 * Second, 7 * 7 * Second, 8 * 8 * Second, 9 * 9 * Second, 10 * 10 * Second,
        11 * 11 * Second] ∧
    (sleeps new).sum = 506 * Second := by
  intro new
  obtain ⟨pre, r, hlen, hpre, hlast, hrun⟩ := WaitClusterRemoveExp_spec w config s
  have hnew : new = attemptEvents
      (utils.ClusterRRN config.Spec.ProjectID config.Spec.Region config.Spec.ClusterName)
      [1, 2, 3, 4, 5, 6, 7, 8, 9, 10, 11] (pre ++ [r]) := by
    simp only [new, hrun, newEvents_mk]
  have hatt : deletes new = (pre ++ [r]).map (fun x =>
      (utils.ClusterRRN config.Spec.ProjectID config.Spec.Region config.Spec.ClusterName, x)) := by
    rw [hnew]
    exact deletes_attemptEvents _ _ _ (by simp; omega)
  have hr : transient r = true := by
    have := hall (utils.ClusterRRN config.Spec.ProjectID config.Spec.Region
      config.Spec.ClusterName, r) (by
        change _ ∈ deletes new
        rw [hatt]
        simp)
    exact this
  have h10 : pre.length = 10 := by
    by_contra hne
    have := hlast (by omega)
    rw [hr] at this
    exact absurd this (by simp)
  have hs : sleeps new =
      [1 * 1 * Second, 2 * 2 * Second, 3 * 3 * Second, 4 * 4 * Second, 5 * 5 * Second,
        6 * 6 * Second, 7 * 7 * Second, 8 * 8 * Second, 9 * 9 * Second, 10 * 10 * Second,
        11 * 11 * Second] := by
    rw [hnew, sleeps_attemptEvents _ _ _ (by simp; omega)]
    simp [h10]
  refine ⟨by rw [hatt]; simp [h10], hs, ?_⟩
  rw [hs]
  simp only [List.sum_cons, List.sum_nil]
  ring

/-! ## The remove handler -/

/-- C23, remove handler skip. For a config that is imported or whose phase is
empty, `OnGkeConfigRemoved` returns the config it was given and a nil error
and leaves the state as it was: no secret is read, no client is built, and
no `Clusters.Delete` (nor any other call, nor a sleep) is made. -/
theorem OnGkeConfigRemoved_skips (w : World) (key : String) (config : Ref) (s : St)
    (h : (config.get s).Spec.Imported = true ∨ (config.get s).Status.Phase = "") :
    let out := OnGkeConfigRemoved w key (some config) s
    out = (.ok (some config, none), s) ∧
    outsideCalls (newEvents s out.2) = [] ∧
    deletes (newEvents s out.2) = [] ∧
    sleeps (newEvents s out.2) = [] := by
  intro out
  have hout : out = (.ok (some config, none), s) := by
    change (OnGkeConfigRemoved w key (some config)).run s = _
    unfold OnGkeConfigRemoved
    simp only [run_bind, run_ofExcept, deref, run_load]
    rcases h with h | h
    · simp [h]
    · by_cases hi : (config.get s).Spec.Imported = true
      · simp [hi]
      · simp [hi, h, gkeConfigNotCreatedPhase]
  refine ⟨hout, ?_, ?_, ?_⟩ <;> rw [hout] <;> simp [outsideCalls]

/-- C26, deletion outcome. When `OnGkeConfigRemoved` gets as far as the
deletion helper (the config is not imported, its phase is not empty, the
secret is read and the client is built) and the helper returns `operation` and
`err`: with no error (and the operation that comes with a success) the
handler returns the config and a nil error; with an error whose message
contains `notFound` it returns the config and a nil error; with any other
error it returns the config and that error. -/
theorem OnGkeConfigRemoved_outcome (w : World) (key : String) (config : Ref) (s s₁ s₃ : St)
    (cred : String) (operation : Option gkeapi.Operation) (err : Option GoError)
    (himported : (config.get s).Spec.Imported = false)
    (hphase : (config.get s).Status.Phase ≠ "")
    (hsecret : getSecret w config s = (.ok (cred, none), s₁))
    (hclient : w.GetGKEClient s₁.trace cred = none)
    (hhelper : utils.WaitClusterRemoveExp w (config.get s)
      (St.mk s₁.cache (s₁.trace ++ [.GetGKEClient cred none])) = (.ok (operation, err), s₃)) :
    (err = none → operation ≠ none →
      OnGkeConfigRemoved w key (some config) s = (.ok (some config, none), s₃)) ∧
    (∀ e, err = some e → strings.Contains e "notFound" = true →
      OnGkeConfigRemoved w key (some config) s = (.ok (some config, none), s₃)) ∧
    (∀ e, err = some e → strings.Contains e "notFound" = false →
      OnGkeConfigRemoved w key (some config) s = (.ok (some config, some e), s₃)) := by
  have hs : (getSecret w config).run s = (.ok (cred, none), s₁) := hsecret
  refine ⟨?_, ?_, ?_⟩
  · intro he hop
    subst he
    obtain ⟨op, rfl⟩ := Option.ne_none_iff_exists'.1 hop
    have hh : (utils.WaitClusterRemoveExp w (config.get s)).run
        (St.mk s₁.cache (s₁.trace ++ [.GetGKEClient cred none])) = (.ok (some op, none), s₃) :=
      hhelper
    change (OnGkeConfigRemoved w key (some config)).run s = _
    unfold OnGkeConfigRemoved
    simp only [run_bind, run_ofExcept, deref, run_load, himported, Bool.false_eq_true, if_false,
      gkeConfigNotCreatedPhase, if_neg hphase, hs, run_callGetGKEClient, hclient, hh, run_pure]
  · intro e he hc
    subst he
    have hh : (utils.WaitClusterRemoveExp w (config.get s)).run
        (St.mk s₁.cache (s₁.trace ++ [.GetGKEClient cred none])) =
        (.ok (operation, some e), s₃) := hhelper
    change (OnGkeConfigRemoved w key (some config)).run s = _
    unfold OnGkeConfigRemoved
    simp only [run_bind, run_ofExcept, deref, run_load, himported, Bool.false_eq_true, if_false,
      gkeConfigNotCreatedPhase, if_neg hphase, hs, run_callGetGKEClient, hclient, hh, run_pure,
      hc, Bool.not_true]
  · intro e he hc
    subst he
    have hh : (utils.WaitClusterRemoveExp w (config.get s)).run
        (St.mk s₁.cache (s₁.trace ++ [.GetGKEClient cred none])) =
        (.ok (operation, some e), s₃) := hhelper
    change (OnGkeConfigRemoved w key (some config)).run s = _
    unfold OnGkeConfigRemoved
    simp only [run_bind, run_ofExcept, deref, run_load, himported, Bool.false_eq_true, if_false,
      gkeConfigNotCreatedPhase, if_neg hphase, hs, run_callGetGKEClient, hclient, hh, run_pure,
      hc, Bool.not_false, if_true]

/-! ## The projector -/

/-- A node pool with a max-pods constraint is projected. -/
theorem projectNodePool_of_maxPods (np : gkeapi.NodePool) (m : gkeapi.MaxPodsConstraint)
    (h : np.MaxPodsConstraint = some m) :
    ∃ out, projectNodePool np = .ok out ∧ out.Name = some np.Name ∧
      out.Version = some np.Version ∧ out.InitialNodeCount = some np.InitialNodeCount ∧
      out.MaxPodsConstraint = some m.MaxPodsPerNode := by
  unfold projectNodePool
  simp only [h, deref]
  cases np.Config <;> cases np.Autoscaling <;> exact ⟨_, rfl, rfl, rfl, rfl, rfl⟩

/-- A node pool without a max-pods constraint makes the projector panic. -/
theorem projectNodePool_of_no_maxPods (np : gkeapi.NodePool) (h : np.MaxPodsConstraint = none) :
    projectNodePool np = .error Panic.nilDereference := by
  unfold projectNodePool
  simp only [h, deref]
  rfl

theorem projectNodePools_cons_stopping (np : gkeapi.NodePool) (rest : List gkeapi.NodePool)
    (h : np.Status = "STOPPING") : projectNodePools (np :: rest) = projectNodePools rest := by
  rw [projectNodePools, if_pos (by simpa [utils.NodePoolStatusStopping] using h)]

theorem projectNodePools_cons_ok (np : gkeapi.NodePool) (rest : List gkeapi.NodePool)
    (out : gkev1.NodePoolConfig) (others : List gkev1.NodePoolConfig)
    (h : np.Status ≠ "STOPPING") (hnp : projectNodePool np = .ok out)
    (hrest : projectNodePools rest = .ok others) :
    projectNodePools (np :: rest) = .ok (out :: others) := by
  rw [projectNodePools, if_neg (by simpa [utils.NodePoolStatusStopping] using h), hnp, hrest]
  rfl

/-- The node-pool loop of the projector: the node pools that are not stopping,
in order, each with its name, version and initial node count. -/
theorem projectNodePools_of_maxPods (pools : List gkeapi.NodePool)
    (hmax : ∀ np ∈ pools, np.Status ≠ "STOPPING" → np.MaxPodsConstraint ≠ none) :
    ∃ out, projectNodePools pools = .ok out ∧
      out.map (fun np => (np.Name, np.Version, np.InitialNodeCount)) =
        (pools.filter notStopping).map
          (fun np => (some np.Name, some np.Version, some np.InitialNodeCount)) := by
  induction pools with
  | nil => exact ⟨[], rfl, rfl⟩
  | cons np rest ih =>
    obtain ⟨others, hothers, hmap⟩ := ih (fun p hp => hmax p (List.mem_cons_of_mem _ hp))
    by_cases hs : np.Status = "STOPPING"
    · refine ⟨others, by rw [projectNodePools_cons_stopping np rest hs, hothers], ?_⟩
      rw [hmap, List.filter_cons_of_neg (by simp [notStopping, hs])]
    · obtain ⟨m, hm⟩ := Option.ne_none_iff_exists'.1 (hmax np (List.mem_cons_self _ _) hs)
      obtain ⟨out, hout, h1, h2, h3, _⟩ := projectNodePool_of_maxPods np m hm
      refine ⟨out :: others, projectNodePools_cons_ok np rest out others hs hout hothers, ?_⟩
      rw [List.filter_cons_of_pos (by simp [notStopping, hs]), List.map_cons, List.map_cons,
        hmap, h1, h2, h3]

theorem projectCidrBlocks_of_no_nil (blocks : List (Option gkeapi.CidrBlock))
    (h : ∀ b ∈ blocks, b ≠ none) : ∃ out, projectCidrBlocks blocks = .ok out := by
  induction blocks with
  | nil => exact ⟨[], rfl⟩
  | cons b rest ih =>
    obtain ⟨out, hout⟩ := ih (fun x hx => h x (List.mem_cons_of_mem _ hx))
    obtain ⟨v, rfl⟩ := Option.ne_none_iff_exists'.1 (h b (List.mem_cons_self _ _))
    exact ⟨_, by rw [projectCidrBlocks]; simp only [deref, hout]; rfl⟩

/-- What the projector returns, when it returns: no error, the node pools of
the node-pool loop, and the addons read off the addons config. -/
theorem buildUpstreamClusterState_ok (cluster : gkeapi.Cluster)
    (spec : gkev1.GKEClusterConfigSpec) (err : Option GoError)
    (h : buildUpstreamClusterState cluster = .ok (spec, err)) :
    err = none ∧ projectNodePools cluster.NodePools = .ok spec.NodePools ∧
    spec.ClusterAddons = some
      (match cluster.AddonsConfig with
        | some ac =>
          { HTTPLoadBalancing :=
              match ac.HttpLoadBalancing with
              | some x => !x.Disabled
              | none => true
            HorizontalPodAutoscaling :=
              match ac.HorizontalPodAutoscaling with
              | some x => !x.Disabled
              | none => true
            NetworkPolicyConfig :=
              match ac.NetworkPolicyConfig with
              | some x => !x.Disabled
              | none => true }
        | none => {}) := by
  unfold buildUpstreamClusterState at h
  cases hp : projectNodePools cluster.NodePools with
  | error p =>
    cases hm : cluster.MasterAuthorizedNetworksConfig with
    | none => simp [hp, hm, bind, Except.bind, pure, Except.pure] at h
    | some man =>
      cases he : man.Enabled <;> cases hb : projectCidrBlocks man.CidrBlocks <;>
        simp [hp, hm, he, hb, bind, Except.bind, pure, Except.pure] at h
  | ok pools =>
    cases hm : cluster.MasterAuthorizedNetworksConfig with
    | none =>
      simp only [hp, hm, bind, Except.bind, pure, Except.pure, Except.ok.injEq,
        Prod.mk.injEq] at h
      obtain ⟨rfl, rfl⟩ := h
      exact ⟨rfl, rfl, rfl⟩
    | some man =>
      cases he : man.Enabled <;> cases hb : projectCidrBlocks man.CidrBlocks <;>
        simp only [hp, hm, he, hb, bind, Except.bind, pure, Except.pure, Except.ok.injEq,
          Prod.mk.injEq, Bool.false_eq_true, if_false, if_true, reduceCtorEq] at h <;>
        (obtain ⟨rfl, rfl⟩ := h; exact ⟨rfl, rfl, rfl⟩)

/-- The projector returns when every node pool that is not stopping has a
max-pods constraint and no cidr block is nil. -/
theorem buildUpstreamClusterState_returns (cluster : gkeapi.Cluster)
    (hmax : ∀ np ∈ cluster.NodePools, np.Status ≠ "STOPPING" → np.MaxPodsConstraint ≠ none)
    (hcidr : ∀ man, cluster.MasterAuthorizedNetworksConfig = some man → man.Enabled = true →
      ∀ b ∈ man.CidrBlocks, b ≠ none) :
    ∃ spec, buildUpstreamClusterState cluster = .ok (spec, none) := by
  obtain ⟨pools, hpools, _⟩ := projectNodePools_of_maxPods cluster.NodePools hmax
  unfold buildUpstreamClusterState
  cases hm : cluster.MasterAuthorizedNetworksConfig with
  | none =>
    simp only [hpools, bind, Except.bind, pure, Except.pure]
    exact ⟨_, rfl⟩
  | some man =>
    cases he : man.Enabled with
    | false =>
      simp only [hpools, he, bind, Except.bind, pure, Except.pure, Bool.false_eq_true, if_false]
      exact ⟨_, rfl⟩
    | true =>
      obtain ⟨blocks, hblocks⟩ := projectCidrBlocks_of_no_nil man.CidrBlocks (hcidr man hm he)
      simp only [hpools, he, hblocks, bind, Except.bind, pure, Except.pure, if_true]
      exact ⟨_, rfl⟩

set_option maxRecDepth 100000

/-- C21, builder addon inversion. When `spec.clusterAddons` is set, a request
that `newClusterCreateRequest` returns has an addons config whose
`HttpLoadBalancing.Disabled`, `HorizontalPodAutoscaling.Disabled` and
`NetworkPolicyConfig.Disabled` are the negations of the three booleans of the
spec. -/
theorem newClusterCreateRequest_addons (config : gkev1.GKEClusterConfig)
    (req : gkeapi.CreateClusterRequest) (addons : gkev1.ClusterAddons)
    (haddons : config.Spec.ClusterAddons = some addons)
    (h : newClusterCreateRequest config = .ok req) :
    ∃ cluster, req.Cluster = some cluster ∧
      cluster.AddonsConfig = some
        { HttpLoadBalancing := some { Disabled := !addons.HTTPLoadBalancing }
          HorizontalPodAutoscaling := some { Disabled := !addons.HorizontalPodAutoscaling }
          NetworkPolicyConfig := some { Disabled := !addons.NetworkPolicyConfig } } := by
  unfold newClusterCreateRequest at h
  simp only [haddons] at h
  cases h1 : config.Spec.KubernetesVersion with
  | none => simp [h1, deref, bind, Except.bind] at h
  | some kv =>
  cases h2 : config.Spec.LoggingService with
  | none => simp [h1, h2, deref, bind, Except.bind, pure, Except.pure] at h
  | some ls =>
  cases h3 : config.Spec.MonitoringService with
  | none => simp [h1, h2, h3, deref, bind, Except.bind, pure, Except.pure] at h
  | some ms =>
  cases h4 : config.Spec.IPAllocationPolicy with
  | none => simp [h1, h2, h3, h4, deref, bind, Except.bind, pure, Except.pure] at h
  | some ip =>
  cases h5 : buildNodePools config.Spec.NodePools with
  | error p => simp [h1, h2, h3, h4, h5, deref, bind, Except.bind, pure, Except.pure] at h
  | ok pools =>
  simp only [h1, h2, h3, h4, h5, deref, bind, Except.bind, pure, Except.pure] at h
  cases hman : config.Spec.MasterAuthorizedNetworksConfig <;>
    cases hnc : config.Spec.NetworkConfig <;> cases hpc : config.Spec.PrivateClusterConfig <;>
    cases hnp : config.Spec.NetworkPolicy <;>
    simp only [hman, hnc, hpc, hnp] at h <;>
    (repeat' split at h) <;>
    first
    | (cases h; exact ⟨_, rfl, rfl⟩)
    | cases h

/-- C28, the projector filters stopping node pools. For a cluster read
upstream in which every node pool that is not `STOPPING` has a max-pods
constraint and no cidr block is nil, `buildUpstreamClusterState` returns a
spec and no error, and the node pools of the spec are the upstream node pools
whose status is not `STOPPING`, in the upstream order, each with the name,
version and initial node count of the upstream node pool. The projector is a
function of the cluster alone. -/
theorem buildUpstreamClusterState_nodePools (cluster : gkeapi.Cluster)
    (hmax : ∀ np ∈ cluster.NodePools, np.Status ≠ "STOPPING" → np.MaxPodsConstraint ≠ none)
    (hcidr : ∀ man, cluster.MasterAuthorizedNetworksConfig = some man → man.Enabled = true →
      ∀ b ∈ man.CidrBlocks, b ≠ none) :
    ∃ spec, buildUpstreamClusterState cluster = .ok (spec, none) ∧
      spec.NodePools.map (fun np => (np.Name, np.Version, np.InitialNodeCount)) =
        (cluster.NodePools.filter notStopping).map
          (fun np => (some np.Name, some np.Version, some np.InitialNodeCount)) := by
  obtain ⟨spec, hspec⟩ := buildUpstreamClusterState_returns cluster hmax hcidr
  obtain ⟨_, hpools, _⟩ := buildUpstreamClusterState_ok cluster spec none hspec
  obtain ⟨out, hout, hmap⟩ := projectNodePools_of_maxPods cluster.NodePools hmax
  rw [hout] at hpools
  have hsame : out = spec.NodePools := Except.ok.inj hpools
  exact ⟨spec, hspec, hsame ▸ hmap⟩

/-- C29, at a failing input: a cluster read upstream with one running node
pool that has a config and an autoscaling but no max-pods constraint.
`buildUpstreamClusterState` takes the address of `MaxPodsPerNode` through the
nil constraint: it returns no spec, and `checkAndUpdate` panics with it. The
same cluster with the constraint set is projected. -/
theorem buildUpstreamClusterState_panics_without_maxPods :
    (Sample.noMaxPodsCluster.NodePools.map (fun np => np.MaxPodsConstraint)) = [none] ∧
    buildUpstreamClusterState Sample.noMaxPodsCluster = .error Panic.nilDereference ∧
    (checkAndUpdate (Sample.world Sample.noMaxPodsCluster Sample.quietProbe) Ref.cache
      (Sample.start (Sample.config "active"))).1 = .error Panic.nilDereference ∧
    (∃ spec, buildUpstreamClusterState
      { Sample.noMaxPodsCluster with NodePools := [Sample.upstreamPool "pool-a" "RUNNING"] } =
        .ok (spec, none)) :=
  ⟨rfl, rfl, rfl, _, rfl⟩

/-- C30, as amended. For a cluster read upstream on which the projector
returns (every node pool that is not `STOPPING` has a max-pods constraint, no
cidr block is nil), the projected spec has a `ClusterAddons`; when the cluster
has an addons config, each of the three projected booleans is the negation of
the `Disabled` flag of the matching entry when that entry is present, and
true when it is absent; when the cluster has no addons config, the three
projected booleans are false. -/
theorem buildUpstreamClusterState_addons (cluster : gkeapi.Cluster)
    (hmax : ∀ np ∈ cluster.NodePools, np.Status ≠ "STOPPING" → np.MaxPodsConstraint ≠ none)
    (hcidr : ∀ man, cluster.MasterAuthorizedNetworksConfig = some man → man.Enabled = true →
      ∀ b ∈ man.CidrBlocks, b ≠ none) :
    ∃ spec addons, buildUpstreamClusterState cluster = .ok (spec, none) ∧
      spec.ClusterAddons = some addons ∧
      (∀ ac, cluster.AddonsConfig = some ac →
        addons.HTTPLoadBalancing =
          (match ac.HttpLoadBalancing with
            | some x => !x.Disabled
            | none => true) ∧
        addons.HorizontalPodAutoscaling =
          (match ac.HorizontalPodAutoscaling with
            | some x => !x.Disabled
            | none => true) ∧
        addons.NetworkPolicyConfig =
          (match ac.NetworkPolicyConfig with
            | some x => !x.Disabled
            | none => true)) ∧
      (cluster.AddonsConfig = none →
        addons.HTTPLoadBalancing = false ∧ addons.HorizontalPodAutoscaling = false ∧
        addons.NetworkPolicyConfig = false) := by
  obtain ⟨spec, hspec⟩ := buildUpstreamClusterState_returns cluster hmax hcidr
  obtain ⟨_, _, haddons⟩ := buildUpstreamClusterState_ok cluster spec none hspec
  cases hc : cluster.AddonsConfig with
  | none =>
    rw [hc] at haddons
    refine ⟨spec, _, hspec, haddons, ?_, ?_⟩
    · intro ac hac
      cases hac
    · intro _
      exact ⟨rfl, rfl, rfl⟩
  | some ac =>
    rw [hc] at haddons
    refine ⟨spec, _, hspec, haddons, ?_, ?_⟩
    · intro ac' hac
      cases hac
      exact ⟨rfl, rfl, rfl⟩
    · intro h
      cases h

set_option maxRecDepth 100000

/-- C22, at a failing input: a config with zone `us-east1-b` and no region,
which `validateCreateRequest` accepts. The resource names handed to
`Clusters.List` and `Clusters.Create` are `projects/project-1/locations/`, and
those handed to `Clusters.Get` and `Clusters.Delete` are
`projects/project-1/locations//clusters/c1`: the location is `spec.region`,
which is empty, and the zone is not used. -/
theorem resource_names_ignore_zone :
    Sample.zoneConfig.Spec.Zone = "us-east1-b" ∧ Sample.zoneConfig.Spec.Region = "" ∧
    (validateCreateRequest (Sample.world Sample.runningCluster Sample.quietProbe) "credential"
      Sample.zoneConfig (Sample.start Sample.zoneConfig)).1 = .ok none ∧
    resourceNames (Create (Sample.world Sample.runningCluster Sample.quietProbe) "credential"
        Sample.zoneConfig (Sample.start Sample.zoneConfig)).2.trace =
      ["projects/project-1/locations/", "projects/project-1/locations/"] ∧
    resourceNames (checkAndUpdate (Sample.world Sample.reconcilingCluster Sample.quietProbe)
        Ref.cache (Sample.start Sample.zoneConfig)).2.trace =
      ["projects/project-1/locations//clusters/c1"] ∧
    resourceNames (OnGkeConfigRemoved (Sample.scriptedWorld [Sample.deleted]) "fleet/cluster-1"
        (some Ref.cache) (Sample.start Sample.zoneConfig)).2.trace =
      ["projects/project-1/locations//clusters/c1"] :=
  ⟨rfl, rfl, rfl, rfl, rfl, rfl⟩

/-- C21, at a sample input: load balancing and pod autoscaling on, network
policy off. -/
theorem newClusterCreateRequest_addons_witness :
    Sample.fullConfig.Spec.ClusterAddons =
      some { HTTPLoadBalancing := true, HorizontalPodAutoscaling := true,
             NetworkPolicyConfig := false } ∧
    ∃ req cluster, newClusterCreateRequest Sample.fullConfig = .ok req ∧
      req.Cluster = some cluster ∧
      cluster.AddonsConfig = some
        { HttpLoadBalancing := some { Disabled := false }
          HorizontalPodAutoscaling := some { Disabled := false }
          NetworkPolicyConfig := some { Disabled := true } } := by
  refine ⟨rfl, ?_⟩
  obtain ⟨req, hreq⟩ : ∃ req, newClusterCreateRequest Sample.fullConfig = .ok req := ⟨_, rfl⟩
  obtain ⟨cluster, hc, ha⟩ := newClusterCreateRequest_addons Sample.fullConfig req
    { HTTPLoadBalancing := true, HorizontalPodAutoscaling := true, NetworkPolicyConfig := false }
    rfl hreq
  exact ⟨req, cluster, hreq, hc, ha⟩

/-- C23, at a sample input: an imported config. -/
theorem OnGkeConfigRemoved_skips_witness :
    Sample.importedConfig.Spec.Imported = true ∧
    OnGkeConfigRemoved (Sample.scriptedWorld [Sample.deleted]) "fleet/cluster-2"
        (some Ref.cache) (Sample.start Sample.importedConfig) =
      (.ok (some Ref.cache, none), Sample.start Sample.importedConfig) :=
  ⟨rfl,
    (OnGkeConfigRemoved_skips (Sample.scriptedWorld [Sample.deleted]) "fleet/cluster-2"
      Ref.cache (Sample.start Sample.importedConfig) (Or.inl rfl)).1⟩

/-- C25, as stated, fails: with two transient failures and then a success,
`WaitClusterRemoveExp` sleeps three times, not twice: 1 second before the
first attempt, 4 seconds between the first and the second, 9 seconds between
the second and the third. -/
theorem WaitClusterRemoveExp_sleeps_before_each_attempt :
    transient Sample.busy = true ∧ Sample.deleted.2 = none ∧
    (utils.WaitClusterRemoveExp (Sample.scriptedWorld [Sample.busy, Sample.busy, Sample.deleted])
      (Sample.config "active") (Sample.start (Sample.config "active"))).2.trace =
      [ .Sleep 1000000000,
        .ClustersDelete "projects/project-1/locations/us-east1/clusters/c1" Sample.busy,
        .Sleep 4000000000,
        .ClustersDelete "projects/project-1/locations/us-east1/clusters/c1" Sample.busy,
        .Sleep 9000000000,
        .ClustersDelete "projects/project-1/locations/us-east1/clusters/c1" Sample.deleted ] ∧
    sleeps (utils.WaitClusterRemoveExp
      (Sample.scriptedWorld [Sample.busy, Sample.busy, Sample.deleted])
      (Sample.config "active") (Sample.start (Sample.config "active"))).2.trace =
      [1000000000, 4000000000, 9000000000] :=
  ⟨by decide, rfl, rfl, rfl⟩

/-- C25 (amended), at a sample input: two transient failures, then a
success. -/
theorem WaitClusterRemoveExp_transient_then_success_witness :
    transient Sample.busy = true ∧ Sample.deleted.2 = none ∧
    sleeps (newEvents (Sample.start (Sample.config "active"))
      (utils.WaitClusterRemoveExp
        (Sample.scriptedWorld [Sample.busy, Sample.busy, Sample.deleted])
        (Sample.config "active") (Sample.start (Sample.config "active"))).2) =
      [1 * Second, 4 * Second, 9 * Second] :=
  ⟨by decide, rfl,
    (WaitClusterRemoveExp_transient_then_success
      (Sample.scriptedWorld [Sample.busy, Sample.busy, Sample.deleted])
      (Sample.config "active") (Sample.start (Sample.config "active"))
      ("projects/project-1/locations/us-east1/clusters/c1", Sample.busy)
      ("projects/project-1/locations/us-east1/clusters/c1", Sample.busy)
      ("projects/project-1/locations/us-east1/clusters/c1", Sample.deleted) []
      rfl (by decide) (by decide) rfl).2.2.1⟩

/-- C26, at a sample input: the cluster is busy at the first attempt to
delete and gone at the second. -/
theorem OnGkeConfigRemoved_outcome_witness :
    strings.Contains "googleapi: Error 404: Not found: projects/project-1/locations/us-east1/clusters/c1., notFound"
      "notFound" = true ∧
    (OnGkeConfigRemoved (Sample.scriptedWorld [Sample.busy, Sample.gone]) "fleet/cluster-1"
      (some Ref.cache) (Sample.start (Sample.config "active"))).1 =
      .ok (some Ref.cache, none) :=
  ⟨by decide,
    congrArg Prod.fst
      ((OnGkeConfigRemoved_outcome (Sample.scriptedWorld [Sample.busy, Sample.gone])
        "fleet/cluster-1" Ref.cache (Sample.start (Sample.config "active")) _ _ "credential"
        none
        (some "googleapi: Error 404: Not found: projects/project-1/locations/us-east1/clusters/c1., notFound")
        rfl (by decide) rfl rfl rfl).2.1 _ rfl (by decide))⟩

/-- With a provider that answers every attempt to delete with the same
transient failure, the loop runs through all its rounds. -/
theorem waitClusterRemoveLoop_const (w : World) (name : String)
    (r : Option gkeapi.Operation × Option GoError)
    (hconst : ∀ trace n, w.ClustersDelete trace n = r) (hr : transient r = true) :
    ∀ (is : List Int) (last : Option gkeapi.Operation × Option GoError) (s : St),
      utils.waitClusterRemoveLoop w name is last s =
        (.ok (if is = [] then last else r),
          St.mk s.cache (s.trace ++ attemptEvents name is (List.replicate is.length r))) := by
  intro is
  induction is with
  | nil =>
    intro last s
    rw [waitClusterRemoveLoop_nil]
    simp [attemptEvents]
  | cons i rest ih =>
    intro last s
    rw [waitClusterRemoveLoop_cons, hconst, hr, if_pos rfl, ih]
    simp [List.replicate_succ, attemptEvents_cons]

/-- C27, at a sample input: every attempt to delete finds the cluster
busy. -/
theorem WaitClusterRemoveExp_sleep_total_witness :
    (deletes (newEvents (Sample.start (Sample.config "active"))
      (utils.WaitClusterRemoveExp (Sample.scriptedWorld [])
        (Sample.config "active") (Sample.start (Sample.config "active"))).2)).length = 11 ∧
    (sleeps (newEvents (Sample.start (Sample.config "active"))
      (utils.WaitClusterRemoveExp (Sample.scriptedWorld [])
        (Sample.config "active") (Sample.start (Sample.config "active"))).2)).sum =
      506 * Second :=
  have h := WaitClusterRemoveExp_sleep_total (Sample.scriptedWorld [])
    (Sample.config "active") (Sample.start (Sample.config "active"))
    (fun a ha => by
      rw [utils.WaitClusterRemoveExp,
        waitClusterRemoveLoop_const (Sample.scriptedWorld []) _ Sample.busy
          (fun _ _ => rfl) (by decide),
        newEvents_mk, deletes_attemptEvents _ _ _ (by simp)] at ha
      obtain ⟨x, hx, rfl⟩ := List.mem_map.mp ha
      rw [List.eq_of_mem_replicate hx]
      decide)
  ⟨h.1, h.2.2⟩

/-- C28, at a sample input: three node pools upstream, the second one
stopping. -/
theorem buildUpstreamClusterState_nodePools_witness :
    Sample.upstreamCluster.NodePools.map (fun np => (np.Name, np.Status)) =
      [("pool-a", "RUNNING"), ("pool-b", "STOPPING"), ("pool-c", "RUNNING")] ∧
    (Sample.upstreamCluster.NodePools.filter notStopping).map
        (fun np => (some np.Name, some np.Version, some np.InitialNodeCount)) =
      [ (some "pool-a", some "1.25.3-gke.100", some 3),
        (some "pool-c", some "1.25.3-gke.100", some 3) ] ∧
    ∃ spec, buildUpstreamClusterState Sample.upstreamCluster = .ok (spec, none) ∧
      spec.NodePools.map (fun np => (np.Name, np.Version, np.InitialNodeCount)) =
        (Sample.upstreamCluster.NodePools.filter notStopping).map
          (fun np => (some np.Name, some np.Version, some np.InitialNodeCount)) :=
  ⟨by decide, by decide,
    buildUpstreamClusterState_nodePools Sample.upstreamCluster (by decide)
      (fun man h => absurd (show (none : Option gkeapi.MasterAuthorizedNetworksConfig) = some man
        from h) (by simp))⟩

/-- C30, as stated, fails: for a cluster read upstream without an addons
config, so without any of the three entries, the three projected booleans are
false, not true. -/
theorem buildUpstreamClusterState_addons_absent :
    Sample.upstreamCluster.AddonsConfig = none ∧
    ∃ spec, buildUpstreamClusterState Sample.upstreamCluster = .ok (spec, none) ∧
      spec.ClusterAddons = some
        { HTTPLoadBalancing := false, HorizontalPodAutoscaling := false,
          NetworkPolicyConfig := false } :=
  ⟨rfl, _, rfl, rfl⟩

/-- C30 (amended), at a sample input: load balancing disabled upstream, pod
autoscaling enabled, no entry for the network policy. -/
theorem buildUpstreamClusterState_addons_witness :
    Sample.addonsCluster.AddonsConfig =
      some { HttpLoadBalancing := some { Disabled := true }
             HorizontalPodAutoscaling := some { Disabled := false } } ∧
    ∃ spec, buildUpstreamClusterState Sample.addonsCluster = .ok (spec, none) ∧
      spec.ClusterAddons = some
        { HTTPLoadBalancing := false, HorizontalPodAutoscaling := true,
          NetworkPolicyConfig := true } := by
  refine ⟨rfl, ?_⟩
  obtain ⟨spec, addons, hspec, haddons, hsome, _⟩ :=
    buildUpstreamClusterState_addons Sample.addonsCluster (by decide)
      (fun man h => absurd (show (none : Option gkeapi.MasterAuthorizedNetworksConfig) = some man
        from h) (by simp))
  obtain ⟨h1, h2, h3⟩ := hsome _ rfl
  refine ⟨spec, hspec, ?_⟩
  rw [haddons]
  obtain ⟨a, b, c⟩ := addons
  simp only at h1 h2 h3
  rw [h1, h2, h3]
  rfl

set_option maxRecDepth 100000

/-! ## Resource names -/

/-- A character of the format that is not a percent sign is copied. -/
theorem doPrintfStrings_char (c v : Char) (rest : List Char) (a : List String) (hc : c ≠ '%') :
    fmt.doPrintfStrings (c :: v :: rest) a = c :: fmt.doPrintfStrings (v :: rest) a := by
  cases a with
  | nil => rw [fmt.doPrintfStrings.eq_3, if_pos hc]
  | cons x a => rw [fmt.doPrintfStrings.eq_4, if_pos hc]

/-- The verb `%s` writes the next operand as it is, whatever it holds. -/
theorem doPrintfStrings_s (rest : List Char) (x : String) (a : List String) :
    fmt.doPrintfStrings ('%' :: 's' :: rest) (x :: a) =
      x.toList ++ fmt.doPrintfStrings rest a := by
  rw [fmt.doPrintfStrings.eq_4]
  simp

/-- Text without a percent sign at the head of a format is copied. -/
theorem doPrintfStrings_text (pre : List Char) (hpre : '%' ∉ pre) (rest : List Char)
    (a : List String) (hrest : rest ≠ []) :
    fmt.doPrintfStrings (pre ++ rest) a = pre ++ fmt.doPrintfStrings rest a := by
  induction pre with
  | nil => rfl
  | cons c pre ih =>
    have hc : c ≠ '%' := fun h => hpre (by simp [h])
    have hp : '%' ∉ pre := fun h => hpre (List.mem_cons_of_mem _ h)
    cases hq : pre ++ rest with
    | nil => simp [hrest] at hq
    | cons v tail =>
      rw [List.cons_append, hq, doPrintfStrings_char _ _ _ _ hc, ← hq, ih hp]
      rfl

theorem LocationRRN_eq (p l : String) :
    utils.LocationRRN p l = "projects/" ++ p ++ "/locations/" ++ l := by
  have hf : "projects/%s/locations/%s".toList =
      "projects/".toList ++ ('%' :: 's' :: ("/locations/".toList ++ ['%', 's'])) := rfl
  unfold utils.LocationRRN fmt.Sprintf
  rw [hf, doPrintfStrings_text _ (by decide) _ _ (by simp), doPrintfStrings_s,
    doPrintfStrings_text _ (by decide) _ _ (by simp), doPrintfStrings_s]
  simp only [fmt.doPrintfStrings, fmt.extraOperands, List.append_nil]
  apply String.ext
  simp

theorem ClusterRRN_eq (p l c : String) :
    utils.ClusterRRN p l c = utils.LocationRRN p l ++ "/clusters/" ++ c := by
  have hf : "%s/clusters/%s".toList = '%' :: 's' :: ("/clusters/".toList ++ ['%', 's']) := rfl
  unfold utils.ClusterRRN fmt.Sprintf
  rw [hf, doPrintfStrings_s, doPrintfStrings_text _ (by decide) _ _ (by simp), doPrintfStrings_s]
  simp only [fmt.doPrintfStrings, fmt.extraOperands, List.append_nil]
  apply String.ext
  simp

theorem NodePoolRRN_eq (p l c n : String) :
    utils.NodePoolRRN p l c n = utils.ClusterRRN p l c ++ "/nodePools/" ++ n := by
  have hf : "%s/nodePools/%s".toList = '%' :: 's' :: ("/nodePools/".toList ++ ['%', 's']) := rfl
  unfold utils.NodePoolRRN fmt.Sprintf
  rw [hf, doPrintfStrings_s, doPrintfStrings_text _ (by decide) _ _ (by simp), doPrintfStrings_s]
  simp only [fmt.doPrintfStrings, fmt.extraOperands, List.append_nil]
  apply String.ext
  simp

/-- C36, resource name builders. For all strings `p`, `l`, `c`, `n`, whatever
characters they hold (a percent sign in an operand is not read as a verb):
`LocationRRN p l` is `projects/` followed by `p`, `/locations/` and `l`;
`ClusterRRN p l c` is `LocationRRN p l` followed by `/clusters/` and `c`;
`NodePoolRRN p l c n` is `ClusterRRN p l c` followed by `/nodePools/` and
`n`. -/
theorem rrn_builders (p l c n : String) :
    utils.LocationRRN p l = "projects/" ++ p ++ "/locations/" ++ l ∧
    utils.ClusterRRN p l c = utils.LocationRRN p l ++ "/clusters/" ++ c ∧
    utils.NodePoolRRN p l c n = utils.ClusterRRN p l c ++ "/nodePools/" ++ n :=
  ⟨LocationRRN_eq p l, ClusterRRN_eq p l c, NodePoolRRN_eq p l c n⟩

/-! ## The cidr-block comparison -/

theorem mem_lhElements (v : gkev1.CidrBlock) (l : List (Option gkev1.CidrBlock)) :
    v ∈ utils.lhElements l ↔ some v ∈ l := by
  induction l with
  | nil => simp [utils.lhElements]
  | cons b rest ih =>
    cases b with
    | none => simp [utils.lhElements, ih]
    | some x => simp [utils.lhElements, ih, eq_comm]

theorem rhLoop_eq_true (elements : List gkev1.CidrBlock) (r : List (Option gkev1.CidrBlock)) :
    utils.rhLoop elements r = true ↔ ∀ v, some v ∈ r → v ∈ elements := by
  induction r with
  | nil => simp [utils.rhLoop]
  | cons b rest ih =>
    cases b with
    | none => simp [utils.rhLoop, ih]
    | some x =>
      by_cases hx : x ∈ elements
      · simp [utils.rhLoop, hx, ih]
      · simp only [utils.rhLoop, hx, if_false, Bool.false_eq_true, false_iff]
        exact fun h => hx (h x (List.mem_cons_self _ _))

/-- What `CompareCidrBlockPointerSlices` tests: the two slices have the same
length and every block of `rh` that is not nil is equal to a block of `lh`. -/
theorem CompareCidrBlockPointerSlices_eq_true (lh rh : List (Option gkev1.CidrBlock)) :
    utils.CompareCidrBlockPointerSlices lh rh = true ↔
      lh.length = rh.length ∧ ∀ v, some v ∈ rh → some v ∈ lh := by
  unfold utils.CompareCidrBlockPointerSlices
  by_cases hlen : lh.length = rh.length
  · simp only [hlen, ne_eq, not_true_eq_false, if_false, true_and, rhLoop_eq_true,
      mem_lhElements]
  · simp [hlen]

/-- On slices without nil blocks and without repeated blocks the comparison
does not depend on the order of its two arguments. -/
theorem CompareCidrBlockPointerSlices_comm_of_nodup (a b : List (Option gkev1.CidrBlock))
    (ha : a.Nodup) (hb : b.Nodup) (hna : none ∉ a) (hnb : none ∉ b) :
    utils.CompareCidrBlockPointerSlices a b = utils.CompareCidrBlockPointerSlices b a := by
  have key : ∀ x y : List (Option gkev1.CidrBlock), y.Nodup → none ∉ x → none ∉ y →
      utils.CompareCidrBlockPointerSlices x y = true →
      utils.CompareCidrBlockPointerSlices y x = true := by
    intro x y hy hnx hny h
    obtain ⟨hlen, hsub⟩ := (CompareCidrBlockPointerSlices_eq_true x y).1 h
    have hsubset : y ⊆ x := by
      intro o ho
      cases o with
      | none => exact absurd ho hny
      | some v => exact hsub v ho
    have hperm : y.Perm x :=
      (List.subperm_of_subset hy hsubset).perm_of_length_le (le_of_eq hlen)
    refine (CompareCidrBlockPointerSlices_eq_true y x).2 ⟨hlen.symm, fun v hv => ?_⟩
    exact hperm.mem_iff.2 hv
  rw [Bool.eq_iff_iff]
  exact ⟨key a b hb hna hnb, key b a ha hnb hna⟩

/-- C34, at a failing input: `office` twice on one side, `office` and `lab` on
the other. With the repeated block on the left the comparison answers false,
with it on the right it answers true; the same happens with a nil block
against a block. -/
theorem CompareCidrBlockPointerSlices_not_symmetric :
    utils.CompareCidrBlockPointerSlices
      [some Sample.office, some Sample.office] [some Sample.office, some Sample.lab] = false ∧
    utils.CompareCidrBlockPointerSlices
      [some Sample.office, some Sample.lab] [some Sample.office, some Sample.office] = true ∧
    utils.CompareCidrBlockPointerSlices [none] [some Sample.office] = false ∧
    utils.CompareCidrBlockPointerSlices [some Sample.office] [none] = true :=
  ⟨rfl, rfl, rfl, rfl⟩

/-- C35, order-insensitivity of the cidr-block comparison. For all slices `a`
and `b`, a permutation `a'` of `a` and a permutation `b'` of `b`,
`CompareCidrBlockPointerSlices a' b'` is `CompareCidrBlockPointerSlices a b`;
and blocks are compared by content: two blocks are the same for the
comparison exactly when their `cidrBlock` and their `displayName` are
equal. -/
theorem CompareCidrBlockPointerSlices_perm (a b a' b' : List (Option gkev1.CidrBlock))
    (ha : a'.Perm a) (hb : b'.Perm b) :
    utils.CompareCidrBlockPointerSlices a' b' = utils.CompareCidrBlockPointerSlices a b ∧
    ∀ x y : gkev1.CidrBlock,
      utils.CompareCidrBlockPointerSlices [some x] [some y] =
        decide (x.CidrBlock = y.CidrBlock ∧ x.DisplayName = y.DisplayName) := by
  constructor
  · rw [Bool.eq_iff_iff, CompareCidrBlockPointerSlices_eq_true,
      CompareCidrBlockPointerSlices_eq_true, ha.length_eq, hb.length_eq]
    exact and_congr_right (fun _ => forall_congr' (fun v => by rw [ha.mem_iff, hb.mem_iff]))
  · intro x y
    rw [Bool.eq_iff_iff, CompareCidrBlockPointerSlices_eq_true, decide_eq_true_iff]
    obtain ⟨x1, x2⟩ := x
    obtain ⟨y1, y2⟩ := y
    simp only [List.length_singleton, List.mem_singleton, Option.some.injEq, true_and,
      forall_eq, gkev1.CidrBlock.mk.injEq]
    exact ⟨fun h => ⟨h.1.symm, h.2.symm⟩, fun h => ⟨h.1.symm, h.2.symm⟩⟩

/-- C35, at a sample input: `[office, nil, lab]` against `[lab, office, nil]`,
each in two orders. -/
theorem CompareCidrBlockPointerSlices_perm_witness :
    utils.CompareCidrBlockPointerSlices
        [some Sample.lab, some Sample.office, none] [none, some Sample.office, some Sample.lab] =
      utils.CompareCidrBlockPointerSlices
        [some Sample.office, none, some Sample.lab] [some Sample.lab, some Sample.office, none] ∧
    utils.CompareCidrBlockPointerSlices
        [some Sample.office, none, some Sample.lab] [some Sample.lab, some Sample.office, none] =
      true :=
  ⟨(CompareCidrBlockPointerSlices_perm
      [some Sample.office, none, some Sample.lab] [some Sample.lab, some Sample.office, none]
      [some Sample.lab, some Sample.office, none] [none, some Sample.office, some Sample.lab]
      (by decide) (by decide)).1, by decide⟩

set_option maxRecDepth 100000

/-! ## The projector: network, private cluster, authorized networks -/

/-- The cidr-block loop of the projector, when it returns: one block for every
upstream entry, in order, with the same content. -/
theorem projectCidrBlocks_ok (blocks : List (Option gkeapi.CidrBlock))
    (out : List (Option gkev1.CidrBlock)) (h : projectCidrBlocks blocks = .ok out) :
    (∀ b ∈ blocks, b ≠ none) ∧
    out = blocks.map (fun b =>
      b.map (fun x => ({ CidrBlock := x.CidrBlock, DisplayName := x.DisplayName } :
        gkev1.CidrBlock))) := by
  induction blocks generalizing out with
  | nil =>
    rw [projectCidrBlocks] at h
    cases h
    exact ⟨by simp, rfl⟩
  | cons b rest ih =>
    cases b with
    | none =>
      rw [projectCidrBlocks] at h
      simp [deref, bind, Except.bind] at h
    | some x =>
      rw [projectCidrBlocks] at h
      cases hr : projectCidrBlocks rest with
      | error p => simp [deref, hr, bind, Except.bind] at h
      | ok others =>
        simp only [deref, hr, bind, Except.bind, pure, Except.pure, Except.ok.injEq] at h
        obtain ⟨hnil, hothers⟩ := ih others hr
        subst h
        refine ⟨?_, by rw [hothers]; rfl⟩
        intro b hb
        rcases List.mem_cons.1 hb with rfl | hb
        · simp
        · exact hnil b hb

/-- What the projector returns, when it returns, for the network config, the
private cluster config and the master authorized networks. -/
theorem buildUpstreamClusterState_fields (cluster : gkeapi.Cluster)
    (spec : gkev1.GKEClusterConfigSpec) (err : Option GoError)
    (h : buildUpstreamClusterState cluster = .ok (spec, err)) :
    spec.NetworkConfig = some
      (match cluster.NetworkConfig with
        | some nc => { Network := some nc.Network, Subnetwork := some nc.Subnetwork }
        | none => { Network := some "default", Subnetwork := some "default" }) ∧
    spec.PrivateClusterConfig = some
      (match cluster.PrivateClusterConfig with
        | some pcc =>
          { EnablePrivateEndpoint := some pcc.EnablePrivateNodes
            EnablePrivateNodes := some pcc.EnablePrivateNodes
            MasterIpv4CidrBlock := pcc.MasterIpv4CidrBlock
            PrivateEndpoint := pcc.PrivateEndpoint
            PublicEndpoint := pcc.PublicEndpoint }
        | none => { EnablePrivateEndpoint := some false, EnablePrivateNodes := some false }) ∧
    (match cluster.MasterAuthorizedNetworksConfig with
      | some man =>
        if man.Enabled then
          ∃ blocks, projectCidrBlocks man.CidrBlocks = .ok blocks ∧
            spec.MasterAuthorizedNetworksConfig = some { Enabled := true, CidrBlocks := blocks }
        else spec.MasterAuthorizedNetworksConfig = some { Enabled := false, CidrBlocks := [] }
      | none => spec.MasterAuthorizedNetworksConfig = some { Enabled := false, CidrBlocks := [] }) := by
  unfold buildUpstreamClusterState at h
  cases hp : projectNodePools cluster.NodePools with
  | error p =>
    cases hm : cluster.MasterAuthorizedNetworksConfig with
    | none => simp [hp, hm, bind, Except.bind, pure, Except.pure] at h
    | some man =>
      cases he : man.Enabled <;> cases hb : projectCidrBlocks man.CidrBlocks <;>
        simp [hp, hm, he, hb, bind, Except.bind, pure, Except.pure] at h
  | ok pools =>
    cases hm : cluster.MasterAuthorizedNetworksConfig with
    | none =>
      simp only [hp, hm, bind, Except.bind, pure, Except.pure, Except.ok.injEq,
        Prod.mk.injEq] at h
      obtain ⟨rfl, rfl⟩ := h
      exact ⟨rfl, rfl, rfl⟩
    | some man =>
      cases he : man.Enabled with
      | false =>
        cases hb : projectCidrBlocks man.CidrBlocks <;>
          simp only [hp, hm, he, hb, bind, Except.bind, pure, Except.pure, Except.ok.injEq,
            Prod.mk.injEq, Bool.false_eq_true, if_false] at h <;>
          (obtain ⟨rfl, rfl⟩ := h; exact ⟨rfl, rfl, by simp [he]⟩)
      | true =>
        cases hb : projectCidrBlocks man.CidrBlocks with
        | error p =>
          simp [hp, hm, he, hb, bind, Except.bind, pure, Except.pure] at h
        | ok blocks =>
          simp only [hp, hm, he, hb, bind, Except.bind, pure, Except.pure, Except.ok.injEq,
            Prod.mk.injEq, if_true] at h
          obtain ⟨rfl, rfl⟩ := h
          exact ⟨rfl, rfl, by simp [he, hb]⟩

set_option maxRecDepth 100000

/-- C31, the private cluster config of the projection. For a cluster read
upstream on which the projector returns (every node pool that is not
`STOPPING` has a max-pods constraint, no cidr block is nil), the projected
spec has a private cluster config; when the cluster has none, its
`enablePrivateEndpoint` and `enablePrivateNodes` are both false; when the
cluster has one, both are the upstream `enablePrivateNodes`, and changing the
upstream `enablePrivateEndpoint` changes nothing in what the projector
gives. -/
theorem buildUpstreamClusterState_privateClusterConfig (cluster : gkeapi.Cluster)
    (hmax : ∀ np ∈ cluster.NodePools, np.Status ≠ "STOPPING" → np.MaxPodsConstraint ≠ none)
    (hcidr : ∀ man, cluster.MasterAuthorizedNetworksConfig = some man → man.Enabled = true →
      ∀ b ∈ man.CidrBlocks, b ≠ none) :
    ∃ spec pcc, buildUpstreamClusterState cluster = .ok (spec, none) ∧
      spec.PrivateClusterConfig = some pcc ∧
      (cluster.PrivateClusterConfig = none →
        pcc.EnablePrivateEndpoint = some false ∧ pcc.EnablePrivateNodes = some false) ∧
      (∀ up, cluster.PrivateClusterConfig = some up →
        pcc.EnablePrivateEndpoint = some up.EnablePrivateNodes ∧
        pcc.EnablePrivateNodes = some up.EnablePrivateNodes ∧
        ∀ b, buildUpstreamClusterState
            { cluster with
              PrivateClusterConfig := some { up with EnablePrivateEndpoint := b } } =
          buildUpstreamClusterState cluster) := by
  obtain ⟨spec, hspec⟩ := buildUpstreamClusterState_returns cluster hmax hcidr
  obtain ⟨_, hpcc, _⟩ := buildUpstreamClusterState_fields cluster spec none hspec
  refine ⟨spec, _, hspec, hpcc, ?_, ?_⟩
  · intro hnone
    rw [hnone]
    exact ⟨rfl, rfl⟩
  · intro up hup
    rw [hup]
    refine ⟨rfl, rfl, fun b => ?_⟩
    unfold buildUpstreamClusterState
    simp only [hup]

/-- C32, the master authorized networks of the projection. For a cluster read
upstream on which the projector returns, the projected spec has a master
authorized networks config; it is enabled exactly when the cluster has one
that is enabled; in that case its cidr blocks are the upstream ones, as many
and in the same order, none nil, each with the same `cidrBlock` and
`displayName`; otherwise it is not enabled and has no cidr block, whatever
the cluster lists. -/
theorem buildUpstreamClusterState_masterAuthorizedNetworks (cluster : gkeapi.Cluster)
    (hmax : ∀ np ∈ cluster.NodePools, np.Status ≠ "STOPPING" → np.MaxPodsConstraint ≠ none)
    (hcidr : ∀ man, cluster.MasterAuthorizedNetworksConfig = some man → man.Enabled = true →
      ∀ b ∈ man.CidrBlocks, b ≠ none) :
    ∃ spec networks, buildUpstreamClusterState cluster = .ok (spec, none) ∧
      spec.MasterAuthorizedNetworksConfig = some networks ∧
      (networks.Enabled = true ↔
        ∃ man, cluster.MasterAuthorizedNetworksConfig = some man ∧ man.Enabled = true) ∧
      (∀ man, cluster.MasterAuthorizedNetworksConfig = some man → man.Enabled = true →
        networks.CidrBlocks.length = man.CidrBlocks.length ∧
        (∀ b ∈ networks.CidrBlocks, b ≠ none) ∧
        networks.CidrBlocks.map (Option.map (fun b => (b.CidrBlock, b.DisplayName))) =
          man.CidrBlocks.map (Option.map (fun b => (b.CidrBlock, b.DisplayName)))) ∧
      ((¬ ∃ man, cluster.MasterAuthorizedNetworksConfig = some man ∧ man.Enabled = true) →
        networks.Enabled = false ∧ networks.CidrBlocks = []) := by
  obtain ⟨spec, hspec⟩ := buildUpstreamClusterState_returns cluster hmax hcidr
  obtain ⟨_, _, hman⟩ := buildUpstreamClusterState_fields cluster spec none hspec
  cases hm : cluster.MasterAuthorizedNetworksConfig with
  | none =>
    rw [hm] at hman
    exact ⟨spec, _, hspec, hman, by simp, by simp, fun _ => ⟨rfl, rfl⟩⟩
  | some man =>
    rw [hm] at hman
    cases he : man.Enabled with
    | false =>
      simp only [he, Bool.false_eq_true, if_false] at hman
      refine ⟨spec, _, hspec, hman, by simp [he], ?_, fun _ => ⟨rfl, rfl⟩⟩
      intro man' hman' he'
      cases hman'
      rw [he] at he'
      cases he'
    | true =>
      simp only [he, if_true] at hman
      obtain ⟨blocks, hblocks, hnetworks⟩ := hman
      obtain ⟨hnil, hmap⟩ := projectCidrBlocks_ok man.CidrBlocks blocks hblocks
      refine ⟨spec, _, hspec, hnetworks, by simp [he], ?_, ?_⟩
      · intro man' hman' _
        cases hman'
        refine ⟨by simp [hmap], ?_, ?_⟩
        · intro b hb
          simp only [hmap, List.mem_map] at hb
          obtain ⟨x, hx, rfl⟩ := hb
          cases x with
          | none => exact absurd rfl (hnil none hx)
          | some v => simp
        · simp only [hmap, List.map_map]
          apply List.map_congr_left
          intro x _
          cases x <;> rfl
      · intro hno
        exact absurd ⟨man, rfl, he⟩ hno

/-- C33, the network of the projection. For a cluster read upstream on which
the projector returns, the projected spec has a network config; when the
cluster has none, its network and its subnetwork are both `default`; when the
cluster has one, they are the upstream network and the upstream
subnetwork. -/
theorem buildUpstreamClusterState_networkConfig (cluster : gkeapi.Cluster)
    (hmax : ∀ np ∈ cluster.NodePools, np.Status ≠ "STOPPING" → np.MaxPodsConstraint ≠ none)
    (hcidr : ∀ man, cluster.MasterAuthorizedNetworksConfig = some man → man.Enabled = true →
      ∀ b ∈ man.CidrBlocks, b ≠ none) :
    ∃ spec nc, buildUpstreamClusterState cluster = .ok (spec, none) ∧
      spec.NetworkConfig = some nc ∧
      (cluster.NetworkConfig = none →
        nc.Network = some "default" ∧ nc.Subnetwork = some "default") ∧
      (∀ up, cluster.NetworkConfig = some up →
        nc.Network = some up.Network ∧ nc.Subnetwork = some up.Subnetwork) := by
  obtain ⟨spec, hspec⟩ := buildUpstreamClusterState_returns cluster hmax hcidr
  obtain ⟨hnc, _, _⟩ := buildUpstreamClusterState_fields cluster spec none hspec
  refine ⟨spec, _, hspec, hnc, ?_, ?_⟩
  · intro hnone
    rw [hnone]
    exact ⟨rfl, rfl⟩
  · intro up hup
    rw [hup]
    exact ⟨rfl, rfl⟩

/-- C37, the projection with no addons config. For a cluster read upstream on
which the projector returns, the projected spec has cluster addons; when the
cluster has no addons config at all, the three projected booleans are false;
when it has an addons config that holds none of the three entries, the three
projected booleans are true. -/
theorem buildUpstreamClusterState_addons_none_or_empty (cluster : gkeapi.Cluster)
    (hmax : ∀ np ∈ cluster.NodePools, np.Status ≠ "STOPPING" → np.MaxPodsConstraint ≠ none)
    (hcidr : ∀ man, cluster.MasterAuthorizedNetworksConfig = some man → man.Enabled = true →
      ∀ b ∈ man.CidrBlocks, b ≠ none) :
    ∃ spec, buildUpstreamClusterState cluster = .ok (spec, none) ∧
      (cluster.AddonsConfig = none →
        spec.ClusterAddons = some
          { HTTPLoadBalancing := false, HorizontalPodAutoscaling := false,
            NetworkPolicyConfig := false }) ∧
      (∀ ac, cluster.AddonsConfig = some ac → ac.HttpLoadBalancing = none →
        ac.HorizontalPodAutoscaling = none → ac.NetworkPolicyConfig = none →
        spec.ClusterAddons = some
          { HTTPLoadBalancing := true, HorizontalPodAutoscaling := true,
            NetworkPolicyConfig := true }) := by
  obtain ⟨spec, hspec⟩ := buildUpstreamClusterState_returns cluster hmax hcidr
  obtain ⟨_, _, haddons⟩ := buildUpstreamClusterState_ok cluster spec none hspec
  refine ⟨spec, hspec, ?_, ?_⟩
  · intro hnone
    rw [haddons, hnone]
  · intro ac hac h1 h2 h3
    rw [haddons, hac]
    simp only [h1, h2, h3]

set_option maxRecDepth 100000

/-! ## The error recorder -/

/-- What `recordError` does after `onChange` returned `obj` and `err` in the
state `s₁`. -/
theorem recordError_run (w : World) (onChange : String → Option Ref → M Result)
    (key : String) (config : Option Ref) (s s₁ : St) (obj : Option Ref) (err : Option GoError)
    (honChange : onChange key config s = (.ok (obj, err), s₁)) :
    recordError w onChange key config s =
      match obj with
      | none => (.ok (none, err), s₁)
      | some ref =>
        if (ref.get s₁).Status.FailureMessage = "" then (.ok (some ref, err), s₁)
        else
          let written : gkev1.GKEClusterConfig :=
            { ref.get s₁ with Status := { (ref.get s₁).Status with FailureMessage := "" } }
          let answer := w.UpdateStatus s₁.trace written
          let s₂ : St := St.mk s₁.cache (s₁.trace ++ [.UpdateStatus written answer])
          match answer with
          | (none, some _) => (.error Panic.nilDereference, s₂)
          | (result, _) => (.ok (result.map Ref.own, err), s₂) := by
  have hrun : (onChange key config).run s = (.ok (obj, err), s₁) := honChange
  change (recordError w onChange key config).run s = _
  unfold recordError
  simp only [run_bind, hrun]
  cases obj with
  | none => rfl
  | some ref =>
    simp only [run_bind, run_load]
    by_cases hm : (ref.get s₁).Status.FailureMessage = ""
    · simp only [hm, if_true, run_pure]
    · simp only [hm, if_false, run_bind, run_DeepCopy, ne_eq, not_true_eq_false, run_pure,
        run_setFailureMessage_own, run_UpdateStatus, Ref.get_own]
      rcases hw : w.UpdateStatus s₁.trace
        { ref.get s₁ with Status := { (ref.get s₁).Status with FailureMessage := "" } }
        with ⟨result, recordErr⟩
      cases recordErr <;> cases result <;> rfl

/-- C39, write gating in `recordError`. After `onChange` returned the object
`obj` and the error `err`, with a client whose failed status writes still give
back an object: when `obj` is nil or its failure message is already empty,
the wrapper returns what `onChange` returned and writes no status; otherwise
it writes the status once, and the object written is the one `onChange`
returned with the failure message emptied, so with the same phase; in every
case it returns the error of `onChange`. -/
theorem recordError_write_gating (w : World) (onChange : String → Option Ref → M Result)
    (key : String) (config : Option Ref) (s s₁ : St) (obj : Option Ref) (err : Option GoError)
    (honChange : onChange key config s = (.ok (obj, err), s₁))
    (hclient : ∀ trace o e, (w.UpdateStatus trace o).2 = some e →
      (w.UpdateStatus trace o).1 ≠ none) :
    let out := recordError w onChange key config s
    ((obj = none ∨ ∃ ref, obj = some ref ∧ (ref.get s₁).Status.FailureMessage = "") →
      out = (.ok (obj, err), s₁) ∧ statusWrites (newEvents s₁ out.2) = []) ∧
    (∀ ref, obj = some ref → (ref.get s₁).Status.FailureMessage ≠ "" →
      statusWrites (newEvents s₁ out.2) =
        [{ ref.get s₁ with Status := { (ref.get s₁).Status with FailureMessage := "" } }]) ∧
    (∀ written ∈ statusWrites (newEvents s₁ out.2),
      written.Status.FailureMessage = "" ∧
      ∃ ref, obj = some ref ∧ written.Status.Phase = (ref.get s₁).Status.Phase) ∧
    (∃ result, out.1 = .ok (result, err)) := by
  intro out
  have hrun := recordError_run w onChange key config s s₁ obj err honChange
  cases obj with
  | none =>
    have hout : out = (.ok (none, err), s₁) := hrun
    refine ⟨fun _ => ⟨hout, by rw [hout]; simp⟩, ?_, ?_, ⟨none, by rw [hout]⟩⟩
    · intro ref h
      cases h
    · intro written hw
      rw [hout] at hw
      simp at hw
  | some ref =>
    by_cases hm : (ref.get s₁).Status.FailureMessage = ""
    · have hout : out = (.ok (some ref, err), s₁) := by
        simp only [hm, if_true] at hrun
        exact hrun
      refine ⟨fun _ => ⟨hout, by rw [hout]; simp⟩, ?_, ?_, ⟨some ref, by rw [hout]⟩⟩
      · intro r hr hne
        cases hr
        exact absurd hm hne
      · intro written hw
        rw [hout] at hw
        simp at hw
    · simp only [hm, if_false] at hrun
      have hwrites : statusWrites (newEvents s₁ out.2) =
          [{ ref.get s₁ with Status := { (ref.get s₁).Status with FailureMessage := "" } }] := by
        change statusWrites (newEvents s₁ (recordError w onChange key config s).2) = _
        rw [hrun]
        rcases hw : w.UpdateStatus s₁.trace
          { ref.get s₁ with Status := { (ref.get s₁).Status with FailureMessage := "" } }
          with ⟨result, recordErr⟩
        cases recordErr <;> cases result <;> simp [newEvents_mk]
      refine ⟨?_, ?_, ?_, ?_⟩
      · rintro (h | ⟨r, hr, hr'⟩)
        · cases h
        · cases hr
          exact absurd hr' hm
      · intro r hr _
        cases hr
        exact hwrites
      · intro written hw
        rw [hwrites] at hw
        rw [List.mem_singleton.1 hw]
        exact ⟨rfl, ref, rfl, rfl⟩
      · change ∃ result, (recordError w onChange key config s).1 = .ok (result, err)
        rw [hrun]
        have hc := hclient s₁.trace
          { ref.get s₁ with Status := { (ref.get s₁).Status with FailureMessage := "" } }
        rcases hw : w.UpdateStatus s₁.trace
          { ref.get s₁ with Status := { (ref.get s₁).Status with FailureMessage := "" } }
          with ⟨result, recordErr⟩
        rw [hw] at hc
        cases recordErr with
        | none => cases result <;> exact ⟨_, rfl⟩
        | some e =>
          cases result with
          | none => exact absurd rfl (hc e rfl)
          | some v => exact ⟨_, rfl⟩

/-- C39, at a sample input: the object carries the failure message of an
earlier reconcile and `onChange` gives it back with the error `boom`. -/
theorem recordError_write_gating_witness :
    Sample.failedConfig.Status.FailureMessage = "googleapi: Error 403: forbidden" ∧
    statusWrites (newEvents (Sample.start Sample.failedConfig)
      (recordError (Sample.world Sample.runningCluster Sample.quietProbe) Sample.failingOnChange
        "fleet/cluster-1" (some Ref.cache) (Sample.start Sample.failedConfig)).2) =
      [Sample.config "active"] ∧
    (recordError (Sample.world Sample.runningCluster Sample.quietProbe) Sample.failingOnChange
        "fleet/cluster-1" (some Ref.cache) (Sample.start Sample.failedConfig)).1 =
      .ok (some (.own (Sample.config "active")), some "boom") :=
  ⟨rfl,
    (recordError_write_gating (Sample.world Sample.runningCluster Sample.quietProbe)
      Sample.failingOnChange "fleet/cluster-1" (some Ref.cache)
      (Sample.start Sample.failedConfig) (Sample.start Sample.failedConfig) (some Ref.cache)
      (some "boom") rfl (fun _ _ _ h => by cases h)).2.1 Ref.cache rfl (by decide),
    rfl⟩

/-! ## The two projectors -/

theorem buildNodePoolConfig_eq (np : gkeapi.NodePool) :
    utils.buildNodePoolConfig np = projectNodePool np := by
  unfold utils.buildNodePoolConfig projectNodePool
  cases np.MaxPodsConstraint <;> cases np.Config <;> cases np.Autoscaling <;> rfl

theorem buildNodePoolConfigs_eq (pools : List gkeapi.NodePool) :
    utils.buildNodePoolConfigs pools = projectNodePools pools := by
  induction pools with
  | nil => rfl
  | cons np rest ih =>
    rw [utils.buildNodePoolConfigs, projectNodePools, ih, buildNodePoolConfig_eq]

theorem buildCidrBlockConfigs_eq (blocks : List (Option gkeapi.CidrBlock)) :
    utils.buildCidrBlockConfigs blocks = projectCidrBlocks blocks := by
  induction blocks with
  | nil => rfl
  | cons b rest ih => rw [utils.buildCidrBlockConfigs, projectCidrBlocks, ih]

/-- The two projectors on a cluster given field by field. -/
theorem BuildUpstreamClusterState_eq (name description initialVersion masterVersion : String)
    (alpha : Bool) (cidr logging monitoring : String)
    (policy : Option gkeapi.IPAllocationPolicy) (addons : Option gkeapi.AddonsConfig)
    (pools : List gkeapi.NodePool) (networks : Option gkeapi.MasterAuthorizedNetworksConfig)
    (network : Option gkeapi.NetworkConfig) (networkPolicy : Option gkeapi.NetworkPolicy)
    (privateCluster : Option gkeapi.PrivateClusterConfig) (status : String) :
    utils.BuildUpstreamClusterState
      ⟨name, description, initialVersion, masterVersion, alpha, cidr, logging, monitoring,
        policy, addons, pools, networks, network, networkPolicy, privateCluster, status⟩ =
    buildUpstreamClusterState
      ⟨name, description, initialVersion, masterVersion, alpha, cidr, logging, monitoring,
        policy, addons, pools, networks, network, networkPolicy, privateCluster, status⟩ := by
  have hloop := buildNodePoolConfigs_eq pools
  cases network <;> cases privateCluster <;> cases addons <;> cases policy <;>
    rcases networkPolicy with _ | ⟨⟨_ | _⟩⟩ <;>
    rcases networks with _ | ⟨⟨_ | _, blocks⟩⟩ <;>
    simp only [utils.BuildUpstreamClusterState, buildUpstreamClusterState, hloop,
      buildCidrBlockConfigs_eq, Bool.false_eq_true, if_false, if_true, beq_self_eq_true,
      bind_pure_comp, pure_bind] <;>
    rfl

/-- C40, the two projectors agree. For every cluster read upstream,
`utils.BuildUpstreamClusterState` and the `buildUpstreamClusterState` of the
controller give the same result: the same spec and error when they return,
and a panic of the one is a panic of the other. -/
theorem BuildUpstreamClusterState_agrees (cluster : gkeapi.Cluster) :
    utils.BuildUpstreamClusterState cluster = buildUpstreamClusterState cluster ∧
    (∀ spec err, utils.BuildUpstreamClusterState cluster = .ok (spec, err) ↔
      buildUpstreamClusterState cluster = .ok (spec, err)) ∧
    (∀ p, utils.BuildUpstreamClusterState cluster = .error p ↔
      buildUpstreamClusterState cluster = .error p) := by
  have h : utils.BuildUpstreamClusterState cluster = buildUpstreamClusterState cluster := by
    obtain ⟨name, description, initialVersion, masterVersion, alpha, cidr, logging, monitoring,
      policy, addons, pools, networks, network, networkPolicy, privateCluster, status⟩ := cluster
    exact BuildUpstreamClusterState_eq name description initialVersion masterVersion alpha cidr
      logging monitoring policy addons pools networks network networkPolicy privateCluster status
  exact ⟨h, fun spec err => by rw [h], fun p => by rw [h]⟩

set_option maxRecDepth 100000

/-! ## Builder and projector together -/

/-- The addons config of a request built from a config with cluster addons. -/
theorem addonsConfig_of_request (config : gkev1.GKEClusterConfig)
    (req : gkeapi.CreateClusterRequest) (cluster : gkeapi.Cluster)
    (addons : gkev1.ClusterAddons)
    (haddons : config.Spec.ClusterAddons = some addons)
    (h : newClusterCreateRequest config = .ok req) (hc : req.Cluster = some cluster) :
    cluster.AddonsConfig = some
      { HttpLoadBalancing := some { Disabled := !addons.HTTPLoadBalancing }
        HorizontalPodAutoscaling := some { Disabled := !addons.HorizontalPodAutoscaling }
        NetworkPolicyConfig := some { Disabled := !addons.NetworkPolicyConfig } } := by
  unfold newClusterCreateRequest at h
  simp only [haddons] at h
  cases h1 : config.Spec.KubernetesVersion with
  | none => simp [h1, deref, bind, Except.bind] at h
  | some kv =>
  cases h2 : config.Spec.LoggingService with
  | none => simp [h1, h2, deref, bind, Except.bind, pure, Except.pure] at h
  | some ls =>
  cases h3 : config.Spec.MonitoringService with
  | none => simp [h1, h2, h3, deref, bind, Except.bind, pure, Except.pure] at h
  | some ms =>
  cases h4 : config.Spec.IPAllocationPolicy with
  | none => simp [h1, h2, h3, h4, deref, bind, Except.bind, pure, Except.pure] at h
  | some ip =>
  cases h5 : buildNodePools config.Spec.NodePools with
  | error p => simp [h1, h2, h3, h4, h5, deref, bind, Except.bind, pure, Except.pure] at h
  | ok pools =>
  simp only [h1, h2, h3, h4, h5, deref, bind, Except.bind, pure, Except.pure] at h
  cases hman : config.Spec.MasterAuthorizedNetworksConfig <;>
    cases hnc : config.Spec.NetworkConfig <;> cases hpc : config.Spec.PrivateClusterConfig <;>
    cases hnp : config.Spec.NetworkPolicy <;>
    simp only [hman, hnc, hpc, hnp] at h <;>
    (repeat' split at h) <;>
    first
    | (cases h; cases hc; rfl)
    | cases h

/-- Where the projector returns on the cluster of a request built from a
config with cluster addons, the projected cluster addons are those of the
config: the two negations cancel. -/
theorem addons_round_trip_of_returns (config : gkev1.GKEClusterConfig)
    (req : gkeapi.CreateClusterRequest) (cluster : gkeapi.Cluster)
    (spec : gkev1.GKEClusterConfigSpec) (err : Option GoError)
    (hsome : config.Spec.ClusterAddons ≠ none)
    (h : newClusterCreateRequest config = .ok req) (hc : req.Cluster = some cluster)
    (hspec : buildUpstreamClusterState cluster = .ok (spec, err)) :
    spec.ClusterAddons = config.Spec.ClusterAddons := by
  obtain ⟨addons, haddons⟩ := Option.ne_none_iff_exists'.1 hsome
  have hac := addonsConfig_of_request config req cluster addons haddons h hc
  obtain ⟨_, _, hproj⟩ := buildUpstreamClusterState_ok cluster spec err hspec
  rw [hproj, hac, haddons]
  obtain ⟨a, b, c⟩ := addons
  simp

/-- C38, as stated, fails: a complete config with cluster addons, with master
authorized networks enabled and one cidr block, is accepted by
`validateCreateRequest` and `newClusterCreateRequest` returns a request for
it, but the cluster of the request lists a nil cidr block before the block of
the config and `buildUpstreamClusterState` panics on it: no cluster addons are
projected. -/
theorem addons_round_trip_panics :
    (validateCreateRequest (Sample.world Sample.runningCluster Sample.quietProbe) "credential"
      Sample.oneCidrBlockConfig (Sample.start Sample.oneCidrBlockConfig)).1 = .ok none ∧
    Sample.oneCidrBlockConfig.Spec.ClusterAddons =
      some { HTTPLoadBalancing := true, HorizontalPodAutoscaling := true,
             NetworkPolicyConfig := false } ∧
    ∃ req cluster, newClusterCreateRequest Sample.oneCidrBlockConfig = .ok req ∧
      req.Cluster = some cluster ∧
      cluster.MasterAuthorizedNetworksConfig.map (fun m => m.CidrBlocks) =
        some [none, some { CidrBlock := "10.0.0.0/8", DisplayName := "office" }] ∧
      buildUpstreamClusterState cluster = .error Panic.nilDereference :=
  ⟨rfl, rfl, _, _, rfl, rfl, rfl, rfl⟩

/-- C31, at a sample input: a cluster with private nodes whose private
endpoint is not enabled. -/
theorem buildUpstreamClusterState_privateClusterConfig_witness :
    Sample.privateNodesCluster.PrivateClusterConfig =
      some { EnablePrivateEndpoint := false, EnablePrivateNodes := true,
             MasterIpv4CidrBlock := "172.16.0.0/28" } ∧
    ∃ spec pcc, buildUpstreamClusterState Sample.privateNodesCluster = .ok (spec, none) ∧
      spec.PrivateClusterConfig = some pcc ∧
      pcc.EnablePrivateEndpoint = some true ∧ pcc.EnablePrivateNodes = some true := by
  refine ⟨rfl, ?_⟩
  obtain ⟨spec, pcc, hspec, hpcc, _, hsome⟩ :=
    buildUpstreamClusterState_privateClusterConfig Sample.privateNodesCluster (by decide)
      (fun man h => absurd (show (none : Option gkeapi.MasterAuthorizedNetworksConfig) = some man
        from h) (by simp))
  obtain ⟨h1, h2, _⟩ := hsome _ rfl
  exact ⟨spec, pcc, hspec, hpcc, h1, h2⟩

/-- C32, at a sample input: master authorized networks enabled upstream, with
two cidr blocks. -/
theorem buildUpstreamClusterState_masterAuthorizedNetworks_witness :
    ∃ spec networks, buildUpstreamClusterState Sample.authorizedCluster = .ok (spec, none) ∧
      spec.MasterAuthorizedNetworksConfig = some networks ∧
      networks.Enabled = true ∧
      networks.CidrBlocks.map (Option.map (fun b => (b.CidrBlock, b.DisplayName))) =
        [some ("10.0.0.0/8", "office"), some ("192.168.0.0/16", "lab")] := by
  obtain ⟨spec, networks, hspec, hnetworks, henabled, hblocks, _⟩ :=
    buildUpstreamClusterState_masterAuthorizedNetworks Sample.authorizedCluster (by decide)
      (fun man h he b hb => by
        have hman : Sample.authorizedNetworks = man := Option.some.inj h
        subst hman
        revert b
        decide)
  obtain ⟨_, _, hmap⟩ := hblocks _ rfl rfl
  exact ⟨spec, networks, hspec, hnetworks, henabled.2 ⟨_, rfl, rfl⟩, hmap⟩

/-- C33, at a sample input: a cluster in the network `net-1`. -/
theorem buildUpstreamClusterState_networkConfig_witness :
    Sample.authorizedCluster.NetworkConfig =
      some { Network := "net-1", Subnetwork := "subnet-1" } ∧
    ∃ spec nc, buildUpstreamClusterState Sample.authorizedCluster = .ok (spec, none) ∧
      spec.NetworkConfig = some nc ∧
      nc.Network = some "net-1" ∧ nc.Subnetwork = some "subnet-1" := by
  refine ⟨rfl, ?_⟩
  obtain ⟨spec, nc, hspec, hnc, _, hsome⟩ :=
    buildUpstreamClusterState_networkConfig Sample.authorizedCluster (by decide)
      (fun man h he b hb => by
        have hman : Sample.authorizedNetworks = man := Option.some.inj h
        subst hman
        revert b
        decide)
  obtain ⟨h1, h2⟩ := hsome _ rfl
  exact ⟨spec, nc, hspec, hnc, h1, h2⟩

/-- C37, at a sample input: an addons config that holds none of the three
entries. -/
theorem buildUpstreamClusterState_addons_none_or_empty_witness :
    Sample.emptyAddonsCluster.AddonsConfig = some {} ∧
    ∃ spec, buildUpstreamClusterState Sample.emptyAddonsCluster = .ok (spec, none) ∧
      spec.ClusterAddons = some
        { HTTPLoadBalancing := true, HorizontalPodAutoscaling := true,
          NetworkPolicyConfig := true } := by
  refine ⟨rfl, ?_⟩
  obtain ⟨spec, hspec, _, hempty⟩ :=
    buildUpstreamClusterState_addons_none_or_empty Sample.emptyAddonsCluster (by decide)
      (fun man h => absurd (show (none : Option gkeapi.MasterAuthorizedNetworksConfig) = some man
        from h) (by simp))
  exact ⟨spec, hspec, hempty _ rfl rfl rfl rfl⟩

set_option maxRecDepth 100000

/-! ## The probe cascade goes on after an answer that does not halt -/

theorem RunLog_nil_iff (plan : List ProbeCall) : RunLog plan [] ↔ plan = [] := by
  cases plan <;> simp [RunLog]

theorem RunLog_cons (c : ProbeCall) (plan : List ProbeCall)
    (e : ProbeCall × (Status × Option GoError))
    (log : List (ProbeCall × (Status × Option GoError))) :
    RunLog (c :: plan) (e :: log) ↔
      e.1 = c ∧ if halts e = true then log = [] else RunLog plan log :=
  Iff.rfl

/-- The first probe of a plan is consulted. -/
theorem RunLog_head (c : ProbeCall) (plan : List ProbeCall)
    (log : List (ProbeCall × (Status × Option GoError))) (h : RunLog (c :: plan) log) :
    ∃ e rest, log = e :: rest ∧ e.1 = c := by
  cases log with
  | nil => simp [RunLog] at h
  | cons e rest => exact ⟨e, rest, rfl, ((RunLog_cons c plan e rest).1 h).1⟩

/-- A run log whose last answer does not halt is the whole plan. -/
theorem RunLog_complete (plan : List ProbeCall)
    (log : List (ProbeCall × (Status × Option GoError))) (h : RunLog plan log)
    (pre : List (ProbeCall × (Status × Option GoError)))
    (e : ProbeCall × (Status × Option GoError)) (hl : log = pre ++ [e])
    (he : halts e = false) : log.map Prod.fst = plan := by
  induction plan generalizing log pre with
  | nil =>
    simp only [RunLog] at h
    subst h
    simp at hl
  | cons c plan ih =>
    cases log with
    | nil => simp at hl
    | cons e0 rest =>
      obtain ⟨h1, h2⟩ := (RunLog_cons c plan e0 rest).1 h
      by_cases hh : halts e0 = true
      · rw [if_pos hh] at h2
        subst h2
        cases pre with
        | nil =>
          simp only [List.nil_append, List.cons.injEq, and_true] at hl
          subst hl
          rw [he] at hh
          cases hh
        | cons x pre => simp at hl
      · rw [if_neg hh] at h2
        cases pre with
        | nil =>
          simp only [List.nil_append, List.cons.injEq] at hl
          obtain ⟨_, hrest⟩ := hl
          subst hrest
          have hplan := (RunLog_nil_iff plan).1 h2
          subst hplan
          simp [h1]
        | cons x pre =>
          simp only [List.cons_append, List.cons.injEq] at hl
          obtain ⟨_, hrest⟩ := hl
          simp [h1, ih rest h2 pre hrest]

theorem runs_of_quiet (w : World) {m : M Result} (h : Quiet m) : Runs w m [] := by
  intro s
  obtain ⟨d, h1, h2⟩ := h s
  exact ⟨d, h1, by rw [h2]; rfl, by rw [h2]; simp⟩

theorem runs_probeThen (w : World) (config : Ref) (call : ProbeCall) (next : M Result)
    (plan : List ProbeCall) (hcall : isAddonsProbe call = false) (hn : Runs w next plan) :
    Runs w (probeThen w config call next) (call :: plan) := by
  intro s
  unfold probeThen
  rcases hr : w.probe s.trace call with ⟨changed, _ | err⟩
  · by_cases hc : changed = Status.Changed
    · obtain ⟨d, h1, h2⟩ := quiet_enqueueUpdate w config
        { s with trace := s.trace ++ [.probe call (w.probe s.trace call)] }
      refine ⟨.probe call (w.probe s.trace call) :: d, ?_, ?_, ?_⟩
      · simp [hr, hc] at h1 ⊢
        exact h1
      · rw [probeEvents_probe, h2, RunLog_cons]
        exact ⟨rfl, by simp [halts, hr, hc]⟩
      · intro e he
        rw [probeEvents_probe, h2, List.mem_singleton] at he
        exact ⟨s.trace, by rw [he]⟩
    · obtain ⟨d, h1, h2, h3⟩ :=
        hn { s with trace := s.trace ++ [.probe call (w.probe s.trace call)] }
      refine ⟨.probe call (w.probe s.trace call) :: d, ?_, ?_, ?_⟩
      · simp [hr, hc] at h1 ⊢
        exact h1
      · rw [probeEvents_probe, RunLog_cons]
        refine ⟨rfl, ?_⟩
        rw [if_neg (by simp [halts, hr, hc, hcall])]
        exact h2
      · intro e he
        rw [probeEvents_probe, List.mem_cons] at he
        rcases he with he | he
        · exact ⟨s.trace, by rw [he]⟩
        · exact h3 e he
  · refine ⟨[.probe call (w.probe s.trace call)], ?_, ?_, ?_⟩
    · simp [hr]
    · rw [probeEvents_probe, probeEvents_nil, RunLog_cons]
      exact ⟨rfl, by simp [halts, hr]⟩
    · intro e he
      rw [probeEvents_probe, probeEvents_nil, List.mem_singleton] at he
      exact ⟨s.trace, by rw [he]⟩

theorem runs_addonsProbeThen (w : World) (config : Ref) (c : gkev1.GKEClusterConfig)
    (call : ProbeCall) (next : M Result) (plan : List ProbeCall)
    (hcall : isAddonsProbe call = true) (hn : Runs w next plan) :
    Runs w (addonsProbeThen w config c call next) (call :: plan) := by
  intro s
  unfold addonsProbeThen
  rcases hr : w.probe s.trace call with ⟨changed, _ | err⟩
  · by_cases hc : changed = Status.Changed
    · obtain ⟨d, h1, h2⟩ := quiet_enqueueUpdate w config
        { s with trace := s.trace ++ [.probe call (w.probe s.trace call)] }
      refine ⟨.probe call (w.probe s.trace call) :: d, ?_, ?_, ?_⟩
      · simp [hr, hc] at h1 ⊢
        exact h1
      · rw [probeEvents_probe, h2, RunLog_cons]
        exact ⟨rfl, by simp [halts, hr, hc]⟩
      · intro e he
        rw [probeEvents_probe, h2, List.mem_singleton] at he
        exact ⟨s.trace, by rw [he]⟩
    · by_cases hrt : changed = Status.Retry
      · refine ⟨[.probe call (w.probe s.trace call),
          .gkeEnqueueAfter c.Namespace c.Name (wait * Second)], ?_, ?_, ?_⟩
        · simp [hr, hrt]
        · rw [probeEvents_probe, probeEvents_gkeEnqueueAfter, probeEvents_nil, RunLog_cons]
          exact ⟨rfl, by simp [halts, hr, hrt, hcall]⟩
        · intro e he
          rw [probeEvents_probe, probeEvents_gkeEnqueueAfter, probeEvents_nil,
            List.mem_singleton] at he
          exact ⟨s.trace, by rw [he]⟩
      · obtain ⟨d, h1, h2, h3⟩ :=
          hn { s with trace := s.trace ++ [.probe call (w.probe s.trace call)] }
        refine ⟨.probe call (w.probe s.trace call) :: d, ?_, ?_, ?_⟩
        · simp [hr, hc, hrt] at h1 ⊢
          exact h1
        · rw [probeEvents_probe, RunLog_cons]
          refine ⟨rfl, ?_⟩
          rw [if_neg (by simp [halts, hr, hc, hrt])]
          exact h2
        · intro e he
          rw [probeEvents_probe, List.mem_cons] at he
          rcases he with he | he
          · exact ⟨s.trace, by rw [he]⟩
          · exact h3 e he
  · refine ⟨[.probe call (w.probe s.trace call)], ?_, ?_, ?_⟩
    · simp [hr]
    · rw [probeEvents_probe, probeEvents_nil, RunLog_cons]
      exact ⟨rfl, by simp [halts, hr]⟩
    · intro e he
      rw [probeEvents_probe, probeEvents_nil, List.mem_singleton] at he
      exact ⟨s.trace, by rw [he]⟩

/-- The node-pool loop consults the three probes of every desired node pool
up to the first one without a name, where it panics. -/
theorem runs_updateNodePools (w : World) (cred : String) (config : Ref)
    (c : gkev1.GKEClusterConfig) (m : List (String × gkev1.NodePoolConfig))
    (next : M Result) (hn : Quiet next) (nps : List gkev1.NodePoolConfig) :
    Runs w (updateNodePools w cred config c m nps next)
      ((namedPools nps).flatMap (nodePoolProbes cred c m)) := by
  induction nps with
  | nil => simpa [updateNodePools, namedPools] using runs_of_quiet w hn
  | cons np rest ih =>
    intro s
    unfold updateNodePools
    cases hname : np.Name with
    | none =>
      refine ⟨[], by simp [deref], ?_, by simp⟩
      simp [namedPools, hname, RunLog]
    | some name =>
      have := runs_probeThen w config
        (.UpdateNodePoolKubernetesVersionOrImageType cred np c (m.lookup name)) _ _ rfl
        (runs_probeThen w config (.UpdateNodePoolSize cred np c (m.lookup name)) _ _ rfl
          (runs_probeThen w config (.UpdateNodePoolAutoscaling cred np c (m.lookup name)) _ _ rfl
            ih)) s
      simpa [deref, nodePoolProbes, namedPools, hname] using this

/-- The plan that a run follows: the five cluster probes, then the probes of
the desired node pools up to the first one without a name. -/
theorem runs_runProbes (w : World) (cred : String) (config : Ref) (c : gkev1.GKEClusterConfig)
    (upstreamSpec : gkev1.GKEClusterConfigSpec) :
    Runs w (runProbes w cred config c upstreamSpec)
      ([ .UpdateMasterKubernetesVersion cred c upstreamSpec,
         .UpdateClusterAddons cred c upstreamSpec,
         .UpdateMasterAuthorizedNetworks cred c upstreamSpec,
         .UpdateLoggingMonitoringService cred c upstreamSpec,
         .UpdateNetworkPolicy cred c upstreamSpec ] ++
        (namedPools c.Spec.NodePools).flatMap
          (nodePoolProbes cred c (buildNodePoolMap upstreamSpec.NodePools))) :=
  runs_probeThen w config _ _ _ rfl
    (runs_addonsProbeThen w config c _ _ _ rfl
      (runs_probeThen w config _ _ _ rfl
        (runs_probeThen w config _ _ _ rfl
          (runs_probeThen w config _ _ _ rfl
            (runs_updateNodePools w cred config c _ _ (quiet_setActive w config) _)))))

theorem namedPools_of_names (nps : List gkev1.NodePoolConfig)
    (h : ∀ np ∈ nps, np.Name ≠ none) : namedPools nps = nps := by
  unfold namedPools
  rw [List.takeWhile_eq_self_iff]
  intro np hnp
  cases hn : np.Name with
  | none => exact absurd hn (h np hnp)
  | some name => rfl

/-- After the credential is read, `updateUpstreamClusterState` is the probe
cascade run on the state the lookup left. -/
theorem updateUpstreamClusterState_of_secret (w : World) (config : Ref)
    (upstreamSpec : gkev1.GKEClusterConfigSpec) (s s₁ : St) (cred : String)
    (hsecret : getSecret w config s = (.ok (cred, none), s₁)) :
    updateUpstreamClusterState w config upstreamSpec s =
      runProbes w cred config (config.get s) upstreamSpec s₁ ∧
    ∃ d, s₁.trace = s.trace ++ d ∧ probeEvents d = [] := by
  obtain ⟨cred', err, ns, id, hg, _⟩ := getSecret_apply w config s
  rw [hsecret] at hg
  simp only [Prod.mk.injEq, Except.ok.injEq] at hg
  obtain ⟨⟨_, _⟩, hs⟩ := hg
  refine ⟨?_, [.secretsCacheGet ns id (w.secretsCacheGet s.trace ns id)], by rw [hs], rfl⟩
  unfold updateUpstreamClusterState
  simp only [M_bind_apply, hsecret, load_apply]
  rw [hs]
  simp

set_option maxRecDepth 100000

/-- A run log whose answers are all `NotChanged` without error is the quiet
log of the plan. -/
theorem RunLog_quiet (plan : List ProbeCall)
    (log : List (ProbeCall × (Status × Option GoError))) (h : RunLog plan log)
    (hq : ∀ e ∈ log, e.2 = quietAnswer) : log = quietLog plan := by
  induction plan generalizing log with
  | nil =>
    simp only [RunLog] at h
    subst h
    rfl
  | cons c plan ih =>
    cases log with
    | nil => simp [RunLog] at h
    | cons e rest =>
      obtain ⟨h1, h2⟩ := (RunLog_cons c plan e rest).1 h
      have he := hq e (List.mem_cons_self _ _)
      have hh : ¬ halts e = true := by simp [halts, he, quietAnswer]
      rw [if_neg hh] at h2
      have hrest := ih rest h2 (fun x hx => hq x (List.mem_cons_of_mem _ hx))
      obtain ⟨call, answer⟩ := e
      simp only at h1 he
      subst h1 he
      rw [hrest]
      rfl

/-- The probe log of a call that read the credential: the run log of the
plan for the node pools before the first one without a name, with the answers
of the world. -/
theorem updateUpstreamClusterState_runs (w : World) (config : Ref)
    (upstreamSpec : gkev1.GKEClusterConfigSpec) (s s₁ : St) (cred : String)
    (hsecret : getSecret w config s = (.ok (cred, none), s₁)) :
    RunLog
      ([ .UpdateMasterKubernetesVersion cred (config.get s) upstreamSpec,
         .UpdateClusterAddons cred (config.get s) upstreamSpec,
         .UpdateMasterAuthorizedNetworks cred (config.get s) upstreamSpec,
         .UpdateLoggingMonitoringService cred (config.get s) upstreamSpec,
         .UpdateNetworkPolicy cred (config.get s) upstreamSpec ] ++
        (namedPools (config.get s).Spec.NodePools).flatMap
          (nodePoolProbes cred (config.get s) (buildNodePoolMap upstreamSpec.NodePools)))
      (probeEvents (newEvents s (updateUpstreamClusterState w config upstreamSpec s).2)) ∧
    (∀ e ∈ probeEvents (newEvents s (updateUpstreamClusterState w config upstreamSpec s).2),
      ∃ trace, e.2 = w.probe trace e.1) ∧
    GoodLog (probePlan cred (config.get s) upstreamSpec)
      (probeEvents (newEvents s (updateUpstreamClusterState w config upstreamSpec s).2)) := by
  obtain ⟨hrun, d0, hd0, hp0⟩ :=
    updateUpstreamClusterState_of_secret w config upstreamSpec s s₁ cred hsecret
  obtain ⟨d, hd, hlog, hanswers⟩ := runs_runProbes w cred config (config.get s) upstreamSpec s₁
  obtain ⟨d', hd', hgood⟩ := logs_runProbes w cred config (config.get s) upstreamSpec s₁
  have hdd : d' = d := List.append_cancel_left (hd'.symm.trans hd)
  subst hdd
  have hnew : probeEvents (newEvents s (updateUpstreamClusterState w config upstreamSpec s).2) =
      probeEvents d' := by
    rw [hrun, newEvents_append s _ (d0 ++ d') (by rw [hd, hd0, List.append_assoc]),
      probeEvents_append, hp0, List.nil_append]
  rw [hnew]
  exact ⟨hlog, hanswers, hgood⟩

/-- C2, first change wins. Once the credential is read,
`updateUpstreamClusterState` consults the update probes in the order of the
plan (master version, cluster addons, master authorized networks, logging
and monitoring service, network policy, then version-or-imageType, size and
autoscaling for each desired node pool in order), starting with the
master-version probe and recording the answers the world gives; a probe that
answers `Changed` or an error is the last one consulted; when every desired
node pool has a name, the run goes on to the next probe of the plan after any
other answer (apart from `Retry` of the addons probe), so that a log whose last
answer does not halt covers the whole plan; and at most one probe answers
`Changed`. -/
theorem updateUpstreamClusterState_first_change_wins (w : World) (config : Ref)
    (upstreamSpec : gkev1.GKEClusterConfigSpec) (s s₁ : St) (cred : String)
    (hsecret : getSecret w config s = (.ok (cred, none), s₁)) :
    let log := probeEvents (newEvents s (updateUpstreamClusterState w config upstreamSpec s).2)
    let plan := probePlan cred (config.get s) upstreamSpec
    (∃ rest, log.map Prod.fst ++ rest = plan) ∧
    (∃ answer rest, log =
      (.UpdateMasterKubernetesVersion cred (config.get s) upstreamSpec, answer) :: rest) ∧
    (∀ e ∈ log, ∃ trace, e.2 = w.probe trace e.1) ∧
    (∀ pre e post, log = pre ++ e :: post → (e.2.1 = Status.Changed ∨ e.2.2 ≠ none) →
      post = []) ∧
    ((∀ np ∈ (config.get s).Spec.NodePools, np.Name ≠ none) →
      ∀ pre e, log = pre ++ [e] → halts e = false → log.map Prod.fst = plan) ∧
    (log.filter (fun e => decide (e.2.1 = Status.Changed))).length ≤ 1 := by
  intro log plan
  obtain ⟨hlog, hanswers, hgood⟩ :=
    updateUpstreamClusterState_runs w config upstreamSpec s s₁ cred hsecret
  refine ⟨GoodLog_map_fst _ _ hgood, ?_, hanswers, ?_, ?_, GoodLog_changed_le_one _ _ hgood⟩
  · obtain ⟨e, rest, he, hcall⟩ := RunLog_head _ _ _ hlog
    obtain ⟨call, answer⟩ := e
    simp only at hcall
    subst hcall
    exact ⟨answer, rest, he⟩
  · intro pre e post hl he
    exact GoodLog_stops _ _ hgood pre post e hl he
  · intro hnames pre e hl he
    have hplan := RunLog_complete _ _ hlog pre e hl he
    rw [namedPools_of_names _ hnames] at hplan
    exact hplan

/-- C2, at a sample input: the size probe of the node pool answers `Changed`.
The five cluster probes and the version probe of the node pool answer
`NotChanged` and the run goes on; the size probe is the last one consulted;
the autoscaling probe, the only one left of the plan, is not consulted. -/
theorem updateUpstreamClusterState_first_change_wins_witness :
    (probeEvents (newEvents (Sample.start (Sample.config "active"))
        (updateUpstreamClusterState (Sample.world Sample.runningCluster Sample.resizeProbe)
          Ref.cache Sample.upstreamSpec (Sample.start (Sample.config "active"))).2)).map
        (fun e => e.2) =
      [ (Status.NotChanged, none), (Status.NotChanged, none), (Status.NotChanged, none),
        (Status.NotChanged, none), (Status.NotChanged, none), (Status.NotChanged, none),
        (Status.Changed, none) ] ∧
    (probeEvents (newEvents (Sample.start (Sample.config "active"))
        (updateUpstreamClusterState (Sample.world Sample.runningCluster Sample.resizeProbe)
          Ref.cache Sample.upstreamSpec (Sample.start (Sample.config "active"))).2)).map
        Prod.fst ++
      [ .UpdateNodePoolAutoscaling "credential" Sample.nodePool (Sample.config "active")
          (some Sample.nodePool) ] =
      probePlan "credential" (Sample.config "active") Sample.upstreamSpec ∧
    ((probeEvents (newEvents (Sample.start (Sample.config "active"))
        (updateUpstreamClusterState (Sample.world Sample.runningCluster Sample.resizeProbe)
          Ref.cache Sample.upstreamSpec (Sample.start (Sample.config "active"))).2)).filter
        (fun e => decide (e.2.1 = Status.Changed))).length ≤ 1 :=
  ⟨rfl, rfl,
    (updateUpstreamClusterState_first_change_wins
      (Sample.world Sample.runningCluster Sample.resizeProbe) Ref.cache Sample.upstreamSpec
      (Sample.start (Sample.config "active")) _ "credential" rfl).2.2.2.2.2⟩

/-- Quiescence where the loop does not panic. In a world whose probes all
answer `NotChanged` without error, once the credential is read and when every
desired node pool has a name, `updateUpstreamClusterState` consults every
probe of the plan, leaves the shared object alone and enqueues nothing; in
phase `active` it returns the config without a status write; in any other
phase its one status write is the config with phase `active`, whose answer it
returns. -/
theorem updateUpstreamClusterState_quiescence_of_names (w : World) (config : Ref)
    (upstreamSpec : gkev1.GKEClusterConfigSpec) (s s₁ : St) (cred : String)
    (hsecret : getSecret w config s = (.ok (cred, none), s₁))
    (hnames : ∀ np ∈ (config.get s).Spec.NodePools, np.Name ≠ none)
    (hworld : ∀ trace call, w.probe trace call = (Status.NotChanged, none)) :
    let out := updateUpstreamClusterState w config upstreamSpec s
    let new := newEvents s out.2
    probeEvents new = quietLog (probePlan cred (config.get s) upstreamSpec) ∧
    out.2.cache = s.cache ∧ enqueues new = [] ∧
    ((config.get s).Status.Phase = gkeConfigActivePhase →
      out.1 = .ok (some config, none) ∧ statusWrites new = []) ∧
    ((config.get s).Status.Phase ≠ gkeConfigActivePhase →
      ∃ pre res, new = pre ++ [.UpdateStatus (withPhase (config.get s) gkeConfigActivePhase) res] ∧
        statusWrites pre = [] ∧ out.1 = .ok (res.1.map Ref.own, res.2)) := by
  intro out new
  obtain ⟨hlog, hanswers, _⟩ :=
    updateUpstreamClusterState_runs w config upstreamSpec s s₁ cred hsecret
  rw [namedPools_of_names _ hnames] at hlog
  have hquiet : probeEvents new = quietLog (probePlan cred (config.get s) upstreamSpec) :=
    RunLog_quiet _ _ hlog (fun e he => by
      obtain ⟨trace, ht⟩ := hanswers e he
      rw [ht, hworld]
      rfl)
  obtain ⟨h1, h2, h3, h4, _⟩ :=
    updateUpstreamClusterState_quiet_outcome w config upstreamSpec s cred hquiet
  exact ⟨hquiet, h1, h2, h3, h4⟩

/-- C3, at a failing input: a config in phase `updating` whose desired node
pool has no name, in a world whose probes all answer `NotChanged` without
error. `updateUpstreamClusterState` consults the five cluster probes and then
panics on the name of the node pool: no status is written and the phase stays
`updating`; `checkAndUpdate` and `OnGkeConfigChanged` panic with it. The
config whose node pool is named `pool-a` is written back as `active`. -/
theorem updateUpstreamClusterState_panics_without_pool_name :
    (∀ call, Sample.quietProbe call = (Status.NotChanged, none)) ∧
    Sample.namelessConfig.Status.Phase = "updating" ∧
    Sample.namelessConfig.Spec.NodePools.map (fun np => np.Name) = [none] ∧
    (updateUpstreamClusterState (Sample.world Sample.runningCluster Sample.quietProbe)
      Ref.cache Sample.upstreamSpec (Sample.start Sample.namelessConfig)).1 =
      .error Panic.nilDereference ∧
    probeEvents (updateUpstreamClusterState
      (Sample.world Sample.runningCluster Sample.quietProbe)
      Ref.cache Sample.upstreamSpec (Sample.start Sample.namelessConfig)).2.trace =
      quietLog
        [ .UpdateMasterKubernetesVersion "credential" Sample.namelessConfig Sample.upstreamSpec,
          .UpdateClusterAddons "credential" Sample.namelessConfig Sample.upstreamSpec,
          .UpdateMasterAuthorizedNetworks "credential" Sample.namelessConfig Sample.upstreamSpec,
          .UpdateLoggingMonitoringService "credential" Sample.namelessConfig Sample.upstreamSpec,
          .UpdateNetworkPolicy "credential" Sample.namelessConfig Sample.upstreamSpec ] ∧
    statusWrites (updateUpstreamClusterState
      (Sample.world Sample.runningCluster Sample.quietProbe)
      Ref.cache Sample.upstreamSpec (Sample.start Sample.namelessConfig)).2.trace = [] ∧
    (updateUpstreamClusterState (Sample.world Sample.runningCluster Sample.quietProbe)
      Ref.cache Sample.upstreamSpec (Sample.start Sample.namelessConfig)).2.cache.Status.Phase =
      "updating" ∧
    (checkAndUpdate (Sample.world Sample.runningCluster Sample.quietProbe) Ref.cache
      (Sample.start Sample.namelessConfig)).1 = .error Panic.nilDereference ∧
    (OnGkeConfigChanged (Sample.world Sample.runningCluster Sample.quietProbe) "fleet/cluster-1"
      (some Ref.cache) (Sample.start Sample.namelessConfig)).1 = .error Panic.nilDereference ∧
    statusWrites (updateUpstreamClusterState
      (Sample.world Sample.runningCluster Sample.quietProbe)
      Ref.cache Sample.upstreamSpec (Sample.start (Sample.config "updating"))).2.trace =
      [Sample.config "active"] :=
  ⟨fun _ => rfl, rfl, rfl, rfl, rfl, rfl, rfl, rfl, rfl, rfl⟩

set_option maxRecDepth 100000

/-! ## The projector on a built request -/

/-- The node pool built for a node pool of the spec has the status of a new
object and a max-pods constraint exactly when the spec has one. -/
theorem buildNodePool_ok (np : gkev1.NodePoolConfig) (out : gkeapi.NodePool)
    (h : buildNodePool np = .ok out) :
    out.Status = "" ∧
    out.MaxPodsConstraint = np.MaxPodsConstraint.map (fun m => { MaxPodsPerNode := m }) := by
  unfold buildNodePool at h
  cases hc : np.Config <;> cases hn : np.Name <;> cases ha : np.Autoscaling <;>
    cases hi : np.InitialNodeCount <;> cases hm : np.MaxPodsConstraint <;>
    simp only [hc, hn, ha, hi, hm, deref, bind, Except.bind, pure, Except.pure,
      Except.ok.injEq, reduceCtorEq] at h <;>
    (subst h; exact ⟨rfl, rfl⟩)

theorem buildNodePools_ok (pools : List gkev1.NodePoolConfig) (out : List gkeapi.NodePool)
    (h : buildNodePools pools = .ok out) :
    ∀ x ∈ out, ∃ np ∈ pools, buildNodePool np = .ok x := by
  induction pools generalizing out with
  | nil =>
    rw [buildNodePools] at h
    cases h
    simp
  | cons p rest ih =>
    rw [buildNodePools] at h
    cases hp : buildNodePool p with
    | error e => simp [hp, bind, Except.bind] at h
    | ok first =>
      cases hr : buildNodePools rest with
      | error e => simp [hp, hr, bind, Except.bind] at h
      | ok others =>
        simp only [hp, hr, bind, Except.bind, pure, Except.pure, Except.ok.injEq] at h
        subst h
        intro x hx
        rcases List.mem_cons.1 hx with rfl | hx
        · exact ⟨p, List.mem_cons_self _ _, hp⟩
        · obtain ⟨np, hnp, hb⟩ := ih others hr x hx
          exact ⟨np, List.mem_cons_of_mem _ hnp, hb⟩

/-- The node pools and the master authorized networks of a request that
`newClusterCreateRequest` returns. -/
theorem newClusterCreateRequest_shape (config : gkev1.GKEClusterConfig)
    (req : gkeapi.CreateClusterRequest) (h : newClusterCreateRequest config = .ok req) :
    ∃ cluster, req.Cluster = some cluster ∧
      buildNodePools config.Spec.NodePools = .ok cluster.NodePools ∧
      (config.Spec.MasterAuthorizedNetworksConfig = none →
        cluster.MasterAuthorizedNetworksConfig = none) ∧
      (∀ man, config.Spec.MasterAuthorizedNetworksConfig = some man →
        ∃ appended, buildCidrBlocks man.CidrBlocks = .ok appended ∧
          cluster.MasterAuthorizedNetworksConfig = some
            { Enabled := man.Enabled
              CidrBlocks := List.replicate man.CidrBlocks.length none ++ appended }) := by
  unfold newClusterCreateRequest at h
  cases h1 : config.Spec.KubernetesVersion with
  | none => simp [h1, deref, bind, Except.bind] at h
  | some kv =>
  cases h2 : config.Spec.LoggingService with
  | none => simp [h1, h2, deref, bind, Except.bind, pure, Except.pure] at h
  | some ls =>
  cases h3 : config.Spec.MonitoringService with
  | none => simp [h1, h2, h3, deref, bind, Except.bind, pure, Except.pure] at h
  | some ms =>
  cases h4 : config.Spec.IPAllocationPolicy with
  | none => simp [h1, h2, h3, h4, deref, bind, Except.bind, pure, Except.pure] at h
  | some ip =>
  cases h5 : buildNodePools config.Spec.NodePools with
  | error p => simp [h1, h2, h3, h4, h5, deref, bind, Except.bind, pure, Except.pure] at h
  | ok pools =>
  cases hman : config.Spec.MasterAuthorizedNetworksConfig with
  | none =>
    simp only [h1, h2, h3, h4, h5, hman, deref, bind, Except.bind, pure, Except.pure] at h
    cases hnc : config.Spec.NetworkConfig <;> cases hpc : config.Spec.PrivateClusterConfig <;>
      cases hnp : config.Spec.NetworkPolicy <;> cases hca : config.Spec.ClusterAddons <;>
      simp only [hnc, hpc, hnp, hca] at h <;>
      (repeat' split at h) <;>
      first
      | (cases h
         refine ⟨_, rfl, rfl, ?_, ?_⟩
         · intro _
           rfl
         · intro man hm
           cases hm)
      | cases h
  | some man =>
    cases h6 : buildCidrBlocks man.CidrBlocks with
    | error p =>
      simp [h1, h2, h3, h4, h5, h6, hman, deref, bind, Except.bind, pure, Except.pure] at h
    | ok appended =>
    simp only [h1, h2, h3, h4, h5, h6, hman, deref, bind, Except.bind, pure, Except.pure] at h
    cases hnc : config.Spec.NetworkConfig <;> cases hpc : config.Spec.PrivateClusterConfig <;>
      cases hnp : config.Spec.NetworkPolicy <;> cases hca : config.Spec.ClusterAddons <;>
      simp only [hnc, hpc, hnp, hca] at h <;>
      (repeat' split at h) <;>
      first
      | (cases h
         refine ⟨_, rfl, rfl, ?_, ?_⟩
         · intro hm
           cases hm
         · intro other hm
           cases hm
           exact ⟨appended, h6, rfl⟩)
      | cases h

/-- C38, as amended. For a config with cluster addons on which
`newClusterCreateRequest` returns a request: wherever
`buildUpstreamClusterState` returns on the cluster of the request, the
projected cluster addons are those of the config; and it does return, with no
error, when every node pool of the config has a max-pods constraint and the
config lists no cidr block for master authorized networks that are
enabled. -/
theorem addons_round_trip (config : gkev1.GKEClusterConfig)
    (req : gkeapi.CreateClusterRequest)
    (hsome : config.Spec.ClusterAddons ≠ none)
    (h : newClusterCreateRequest config = .ok req) :
    ∃ cluster, req.Cluster = some cluster ∧
      (∀ spec err, buildUpstreamClusterState cluster = .ok (spec, err) →
        spec.ClusterAddons = config.Spec.ClusterAddons) ∧
      ((∀ np ∈ config.Spec.NodePools, np.MaxPodsConstraint ≠ none) →
        (∀ man, config.Spec.MasterAuthorizedNetworksConfig = some man → man.Enabled = true →
          man.CidrBlocks = []) →
        ∃ spec, buildUpstreamClusterState cluster = .ok (spec, none) ∧
          spec.ClusterAddons = config.Spec.ClusterAddons) := by
  obtain ⟨cluster, hc, hpools, hnone, hman⟩ := newClusterCreateRequest_shape config req h
  have hround : ∀ spec err, buildUpstreamClusterState cluster = .ok (spec, err) →
      spec.ClusterAddons = config.Spec.ClusterAddons :=
    fun spec err hspec => addons_round_trip_of_returns config req cluster spec err hsome h hc hspec
  refine ⟨cluster, hc, hround, ?_⟩
  intro hpods hblocks
  have hmax : ∀ np ∈ cluster.NodePools, np.Status ≠ "STOPPING" →
      np.MaxPodsConstraint ≠ none := by
    intro x hx _
    obtain ⟨np, hnp, hb⟩ := buildNodePools_ok _ _ hpools x hx
    obtain ⟨_, hm⟩ := buildNodePool_ok np x hb
    obtain ⟨m, hm'⟩ := Option.ne_none_iff_exists'.1 (hpods np hnp)
    rw [hm, hm']
    simp
  have hcidr : ∀ man, cluster.MasterAuthorizedNetworksConfig = some man → man.Enabled = true →
      ∀ b ∈ man.CidrBlocks, b ≠ none := by
    intro manc hmanc henabled b hb
    cases hcm : config.Spec.MasterAuthorizedNetworksConfig with
    | none =>
      rw [hnone hcm] at hmanc
      cases hmanc
    | some man =>
      obtain ⟨appended, happ, hbuilt⟩ := hman man hcm
      rw [hbuilt] at hmanc
      cases hmanc
      have hempty := hblocks man hcm henabled
      rw [hempty, buildCidrBlocks] at happ
      cases happ
      simp [hempty] at hb
  obtain ⟨spec, hspec⟩ := buildUpstreamClusterState_returns cluster hmax hcidr
  exact ⟨spec, hspec, hround spec none hspec⟩

/-- C38 (amended), at a sample input: a complete config with load balancing
and pod autoscaling on and the network policy addon off, one node pool with a
max-pods constraint, and master authorized networks not enabled. -/
theorem addons_round_trip_witness :
    Sample.fullConfig.Spec.ClusterAddons =
      some { HTTPLoadBalancing := true, HorizontalPodAutoscaling := true,
             NetworkPolicyConfig := false } ∧
    ∃ req cluster spec, newClusterCreateRequest Sample.fullConfig = .ok req ∧
      req.Cluster = some cluster ∧
      buildUpstreamClusterState cluster = .ok (spec, none) ∧
      spec.ClusterAddons = some
        { HTTPLoadBalancing := true, HorizontalPodAutoscaling := true,
          NetworkPolicyConfig := false } := by
  refine ⟨rfl, ?_⟩
  obtain ⟨req, hreq⟩ : ∃ req, newClusterCreateRequest Sample.fullConfig = .ok req := ⟨_, rfl⟩
  obtain ⟨cluster, hc, _, hreturns⟩ := addons_round_trip Sample.fullConfig req (by decide) hreq
  obtain ⟨spec, hspec, haddons⟩ := hreturns (by decide) (by decide)
  exact ⟨req, cluster, spec, hreq, hc, hspec, haddons⟩

end GkeOperator
